import Mathlib

/-! Varnish cache core: gathered-write buffer, session pool, request state engine.

A shallow embedding of `bin/varnishd/cache/cache_wrw.c`, `cache_session.c` and
`cache_center.c`, followed by theorems about the embedded code.

Conventions of the embedding:

* a C function that can hit a failing assertion (`assert`, `AN`, `AZ`, `WRONG`,
  `INCOMPL`), dereference a null pointer, index outside an array or spin for ever
  returns `Option`; `none` means "no normal return";
* a `struct iovec` is represented by the bytes of the range it denotes, so
  `iov_len` is the length of that list and advancing `iov_base` drops a prefix;
* everything the code obtains from outside the three files (system calls, the
  clock, the policy, hash, fetch and storage layers) is an explicit argument.
-/

namespace Varnish

/-! ## Part 1: cache_wrw.c -/

/-- One `struct iovec`, given by the bytes of `[iov_base, iov_base + iov_len)`. -/
abbrev Iovec := List Char

/-- Number of bytes denoted by the entries of a vector (what `writev` is offered). -/
def iov_total : List Iovec → Nat
  | [] => 0
  | e :: es => e.length + iov_total es

/-- The bytes denoted by the entries of a vector, in order. -/
def iov_bytes : List Iovec → List Char
  | [] => []
  | e :: es => e ++ iov_bytes es

/-- Behaviour of one `writev` call on the descriptor: `ret` is the number of bytes the
descriptor is willing to take (`ret ≤ 0` is the error return), `expired` tells whether
`VTIM_real() - t_resp > send_timeout` holds when the clock is read after that call. -/
structure WStep where
  ret : Int
  expired : Bool
deriving DecidableEq, Repr

/-- The descriptor behind `*wfd`: the scripted behaviour of the next `writev` calls (after
the script every call takes all bytes offered), the bytes taken so far, and the number of
`writev` calls made. -/
structure Dev where
  script : List WStep
  out : List Char
  calls : Nat
deriving DecidableEq, Repr

/-- The system call `writev(fd, iov, niov)`: returns the value `i`, the clock flag of the
call, and the descriptor afterwards.  A successful call takes a prefix of the offered
bytes, never more than offered. -/
def writev (d : Dev) (v : List Iovec) : Int × Bool × Dev :=
  match d.script with
  | [] =>
    ((iov_total v : Int), false,
      { script := [], out := d.out ++ iov_bytes v, calls := d.calls + 1 })
  | s :: rest =>
    if s.ret ≤ 0 then
      (s.ret, s.expired, { script := rest, out := d.out, calls := d.calls + 1 })
    else
      let n := min s.ret.toNat (iov_total v)
      ((n : Int), s.expired,
        { script := rest, out := d.out ++ (iov_bytes v).take n, calls := d.calls + 1 })

/-- The `struct wrw` of a worker.  `wfd` is the borrowed descriptor pointer together with
the descriptor number it points to (`none` is the null pointer); `iov` is the array of
`siov` slots, stale slots included. -/
structure Wrw where
  wfd : Option Int
  werr : Nat
  iov : List Iovec
  niov : Nat
  liov : Int
  cliov : Int
  ciov : Nat
deriving DecidableEq, Repr

/-- Capacity of the vector (`wrw->siov`). -/
def Wrw.siov (w : Wrw) : Nat := w.iov.length

/-- The entries in use, `iov[0 .. niov)`. -/
def Wrw.used (w : Wrw) : List Iovec := w.iov.take w.niov

/-- One lowercase hexadecimal digit, as printed by `%x`. -/
def hexDigit (d : Nat) : Char :=
  "0123456789abcdef".toList.getD d '0'

/-- Digits of `n` in base 16, most significant first, in front of `acc`. -/
def hexAux : Nat → Nat → List Char → List Char
  | 0, n, acc => hexDigit (n % 16) :: acc
  | fuel + 1, n, acc =>
    if n < 16 then hexDigit n :: acc
    else hexAux fuel (n / 16) (hexDigit (n % 16) :: acc)

/-- The text `printf("%zx", n)` produces. -/
def hex (n : Nat) : List Char := hexAux n n []

/-- The chunk head `bprintf(cbuf, "00%zx\r\n", cliov)`. -/
def chunk_head (cliov : Int) : List Char :=
  '0' :: '0' :: (hex cliov.toNat ++ ['\r', '\n'])

/-- `WRW_Error`. -/
def WRW_Error (w : Wrw) : Nat := w.werr

/-- `WRW_Reserve`: fails its assertion when a descriptor is already bound. -/
def WRW_Reserve (w : Wrw) (fd : Int) : Option Wrw :=
  if w.wfd.isSome then none
  else some { w with werr := 0, liov := 0, niov := 0, ciov := w.siov, wfd := some fd }

/-- `WRW_Release`. -/
def WRW_Release (w : Wrw) : Option Wrw :=
  if w.wfd.isNone then none
  else some { w with werr := 0, liov := 0, niov := 0, ciov := w.siov, wfd := none }

/-- The `for` loop of `wrw_prune`: finds the first entry `j` with
`used + iov[j].iov_len > bytes` and the bytes `used` by the entries before it. -/
def wrw_prune_scan (bytes : Int) : List Iovec → Nat → Int → Option (Nat × Int)
  | [], _, _ => none
  | e :: es, j, used =>
    if used + (e.length : Int) > bytes then some (j, used)
    else wrw_prune_scan bytes es (j + 1) (used + (e.length : Int))

/-- `wrw_prune`: drop `bytes` sent bytes from the start of the vector.  The cut entry is
advanced in place and `memmove`d with its successors to the front; the slots behind the
moved block keep their old contents.  A negative `bytes` (which the caller never passes)
would move `iov_base` in front of its buffer and has no meaning here. -/
def wrw_prune (w : Wrw) (bytes : Int) : Option Wrw :=
  if w.siov < w.niov then none
  else if bytes < 0 then none
  else
    match wrw_prune_scan bytes w.used 0 0 with
    | some (j, used) =>
      match w.used.drop j with
      | [] => none
      | e :: es =>
        some { w with
          iov := (e.drop (bytes - used).toNat :: es) ++ w.iov.drop (w.niov - j)
          niov := w.niov - j
          liov := w.liov - bytes }
    | none => if w.liov = 0 then some w else none

/-- The retry loop of `WRW_Flush` (`while (i != wrw->liov && i > 0)`), entered with the
result `i` of the preceding `writev` and the clock flag of that call.  Returns the final
`i`.  `fuel` bounds the number of iterations; it runs out only if the loop would not
end. -/
def wrw_retry : Nat → Wrw → Dev → Int → Bool → Option (Wrw × Dev × Int)
  | 0, _, _, _, _ => none
  | fuel + 1, w, d, i, expired =>
    if i ≠ w.liov ∧ i > 0 then
      if expired then some (w, d, -1)
      else
        match wrw_prune w i with
        | none => none
        | some w1 =>
          match writev d w1.used with
          | (i1, e1, d1) => wrw_retry fuel w1 d1 i1 e1
    else some (w, d, i)

/-- The part of `WRW_Flush` that composes the chunk head and tail into the vector. -/
def wrw_frame (w : Wrw) : Option Wrw :=
  if w.ciov < w.siov ∧ w.cliov > 0 then
    let head := chunk_head w.cliov
    if w.siov ≤ w.niov then none
    else
      some { w with
        iov := ((w.iov.set w.ciov head).set w.niov ['\r', '\n'])
        liov := w.liov + head.length + 2
        niov := w.niov + 1 }
  else if w.ciov < w.siov then
    some { w with iov := w.iov.set w.ciov [] }
  else some w

/-- The final part of `WRW_Flush`: reset the counters, re-reserve the chunk slot. -/
def wrw_reset (w : Wrw) : Wrw :=
  if w.ciov < w.siov then { w with liov := 0, cliov := 0, niov := 1, ciov := 0 }
  else { w with liov := 0, cliov := 0, niov := 0 }

/-- `WRW_Flush`: returns the buffer, the descriptor and the value `wrw->werr`. -/
def WRW_Flush (w : Wrw) (d : Dev) : Option (Wrw × Dev × Nat) :=
  match w.wfd with
  | none => none
  | some fd =>
    if w.ciov < w.siov ∧ ¬ w.niov < w.siov then none
    else if fd ≥ 0 ∧ w.liov > 0 ∧ w.werr = 0 then
      match wrw_frame w with
      | none => none
      | some w1 =>
        match writev d w1.used with
        | (i0, e0, d1) =>
          match wrw_retry (d.script.length + 2) w1 d1 i0 e0 with
          | none => none
          | some (w2, d2, i) =>
            let w3 := if i ≤ 0 then { w2 with werr := w2.werr + 1 } else w2
            some (wrw_reset w3, d2, (wrw_reset w3).werr)
    else some (wrw_reset w, d, (wrw_reset w).werr)

/-- `strlen`: the bytes of a C string up to its terminating NUL. -/
def c_string (p : List Char) : List Char := p.takeWhile (fun c => c ≠ Char.ofNat 0)

/-- The bytes `WRW_Write` puts in the vector: `len == -1` means `strlen(ptr)`. -/
def wrw_data (ptr : List Char) (len : Int) : List Char :=
  if len = -1 then c_string ptr else ptr.take len.toNat

/-- `(void)WRW_Flush(wrk)` under a condition, as `WRW_Write` and `WRW_Chunked` do. -/
def wrw_flush_if (c : Bool) (w : Wrw) (d : Dev) : Option (Wrw × Dev) :=
  if c then
    match WRW_Flush w d with
    | none => none
    | some (w1, d1, _) => some (w1, d1)
  else some (w, d)

/-- The tail of `WRW_Write`: store the entry at `iov[niov]`, count it, and in chunked
mode check that a slot stays free and count the bytes of the chunk. -/
def wrw_append (w : Wrw) (d : Dev) (data : List Char) : Option (Wrw × Dev × Nat) :=
  if w.siov ≤ w.niov then none
  else if w.ciov < w.siov then
    if ¬ w.niov + 1 < w.siov then none
    else
      some ({ w with
        iov := w.iov.set w.niov data
        liov := w.liov + data.length
        niov := w.niov + 1
        cliov := w.cliov + data.length }, d, data.length)
  else
    some ({ w with
      iov := w.iov.set w.niov data
      liov := w.liov + data.length
      niov := w.niov + 1 }, d, data.length)

/-- `WRW_Write(wrk, ptr, len)`: `ptr` is given by the bytes stored at it.  Returns the
buffer, the descriptor and the length reported.  A `len` below `-1` or beyond the bytes
at `ptr` denotes memory the caller does not own and has no meaning here. -/
def WRW_Write (w : Wrw) (d : Dev) (ptr : List Char) (len : Int) :
    Option (Wrw × Dev × Nat) :=
  match w.wfd with
  | none => none
  | some fd =>
    if len = 0 ∨ fd < 0 then some (w, d, 0)
    else if len < -1 ∨ (ptr.length : Int) < len then none
    else
      match wrw_flush_if
          (decide (w.niov ≥ w.siov - (if w.ciov < w.siov then 1 else 0))) w d with
      | none => none
      | some (w1, d1) => wrw_append w1 d1 (wrw_data ptr len)

/-- `WRW_WriteH(wrk, hh, suf)`: `hh` is the header text `[hh->b, hh->e)`, `suf` the
optional NUL-terminated suffix. -/
def WRW_WriteH (w : Wrw) (d : Dev) (hh : List Char) (suf : Option (List Char)) :
    Option (Wrw × Dev × Nat) :=
  match WRW_Write w d hh hh.length with
  | none => none
  | some (w1, d1, u) =>
    match suf with
    | none => some (w1, d1, u)
    | some s =>
      match WRW_Write w1 d1 s (-1) with
      | none => none
      | some (w2, d2, u2) => some (w2, d2, u + u2)

/-- `WRW_Chunked`. -/
def WRW_Chunked (w : Wrw) (d : Dev) : Option (Wrw × Dev) :=
  if w.ciov ≠ w.siov then none
  else
    match wrw_flush_if (decide (w.niov + 3 ≥ w.siov)) w d with
    | none => none
    | some (w1, d1) =>
      if ¬ w1.niov < w1.siov then none
      else if ¬ w1.niov + 1 < w1.siov then none
      else some ({ w1 with ciov := w1.niov, niov := w1.niov + 1, cliov := 0 }, d1)

/-- `WRW_EndChunk`. -/
def WRW_EndChunk (w : Wrw) (d : Dev) : Option (Wrw × Dev) :=
  if ¬ w.ciov < w.siov then none
  else
    match WRW_Flush w d with
    | none => none
    | some (w1, d1, _) =>
      match WRW_Write { w1 with ciov := w1.siov, niov := 0, cliov := 0 } d1
          "0\r\n\r\n".toList (-1) with
      | none => none
      | some (w2, d2, _) => some (w2, d2)

/-- `WRW_FlushRelease`. -/
def WRW_FlushRelease (w : Wrw) (d : Dev) : Option (Wrw × Dev × Nat) :=
  match WRW_Flush w d with
  | none => none
  | some (w1, d1, u) => (WRW_Release w1).map (fun w2 => (w2, d1, u))

/-! ## Part 2: the data model shared by cache_session.c and cache_center.c

The header `cache.h` and the tables `tbl/steps.h`, `tbl/acct_fields.h` and
`vcl_returns.h` are not among the three files; the records below hold the fields the
three files read or write, with the names used there. -/

/-- The run-time parameters (`cache_param->...`) the three files read. -/
structure Params where
  sess_workspace : Nat
  http_max_hdr : Nat
  max_sess : Nat
  max_restarts : Nat
  http_gzip_support : Bool
  timeout_idle : ℚ
  timeout_linger : ℚ
  timeout_req : ℚ
  lru_timeout : ℚ
  shortlived : ℚ
  wthread_stats_rate : Nat
deriving DecidableEq, Repr

/-- Modelled from the spec: `tbl/steps.h` is missing; the states are those listed in the
spec, section 4.3. -/
inductive Step where
  | FIRST | WAIT | START | RECV | LOOKUP | HIT | MISS | PASS | PIPE | FETCH | FETCHBODY
  | STREAMBODY | PREPRESP | DELIVER | ERROR | DONE
deriving DecidableEq, Repr

/-- Modelled from the spec: `vcl_returns.h` is missing; the `VCL_RET_*` values are those
listed in the spec, section 6. -/
inductive Handling where
  | LOOKUP | PASS | PIPE | HIT_FOR_PASS | DELIVER | FETCH | RESTART | ERROR | HASH
deriving DecidableEq, Repr

/-- Modelled from the spec: `tbl/acct_fields.h` is missing; the accounting fields are
those the session statistics line prints. -/
structure Acct where
  sess : Nat
  req : Nat
  pipe : Nat
  pass : Nat
  fetch : Nat
  hdrbytes : Nat
  bodybytes : Nat
deriving DecidableEq, Repr

/-- The all-zero accounting record. -/
def Acct.zero : Acct :=
  { sess := 0, req := 0, pipe := 0, pass := 0, fetch := 0, hdrbytes := 0, bodybytes := 0 }

/-- Field-wise sum of two accounting records. -/
def Acct.add (a b : Acct) : Acct :=
  { sess := a.sess + b.sess, req := a.req + b.req, pipe := a.pipe + b.pipe,
    pass := a.pass + b.pass, fetch := a.fetch + b.fetch,
    hdrbytes := a.hdrbytes + b.hdrbytes, bodybytes := a.bodybytes + b.bodybytes }

/-- The fields of `struct req` the three files use.  A time stamp is `none` when it is
NaN; a pointer field is a `Bool` (non-null) when only its presence matters. -/
structure Req where
  xid : Nat
  restarts : Nat
  esi_level : Nat
  err_code : Nat
  err_reason : Option String
  handling : Handling
  doclose : Option String
  vcl : Bool
  director : Bool
  wantbody : Bool
  sendbody : Bool
  disable_esi : Bool
  hash_always_miss : Bool
  hash_ignore_busy : Bool
  hash_objhead : Bool
  t_resp : Option ℚ
  req_bodybytes : Nat
deriving DecidableEq, Repr

/-- Modelled from the spec: the request micro-pool (`MPL_Get`) is not among the three
files; by the spec a session without request record has all request-scoped state
cleared, so a record fresh from the pool is all zero (first enumeration values, null
pointers, zero time stamp). -/
def Req.zero : Req :=
  { xid := 0, restarts := 0, esi_level := 0, err_code := 0, err_reason := none,
    handling := Handling.LOOKUP, doclose := none, vcl := false, director := false,
    wantbody := false, sendbody := false, disable_esi := false,
    hash_always_miss := false, hash_ignore_busy := false, hash_objhead := false,
    t_resp := some 0, req_bodybytes := 0 }

/-- What the three files read of the parsed request in `sp->http`. -/
structure HttpReq where
  is_head : Bool
  protover : Nat
  conds : Bool
  expect : Option String
deriving DecidableEq, Repr

/-- A header structure that holds no request. -/
def HttpReq.zero : HttpReq :=
  { is_head := false, protover := 0, conds := false, expect := none }

/-- The header of a `struct sessmem`: the address of the block, the parameters it was
allocated with and the addresses of its parts. -/
structure SmHdr where
  addr : Nat
  workspace : Nat
  nhttp : Nat
  wsp : Nat
  http0 : Nat
  http1 : Nat
deriving DecidableEq, Repr

/-- A `struct sess` inside its `struct sessmem` (`mem` is the header of the block the
session lives in; `wrk` tells whether a worker is attached).  `close_reason` is the
text of the `SLT_SessionClose` record that `SES_Close` writes to the log under the
session's `vsl_id`, `none` as long as none has been written. -/
structure Sess where
  mem : SmHdr
  fd : Int
  step : Step
  req : Option Req
  wrk : Bool
  t_open : Option ℚ
  t_idle : Option ℚ
  t_req : Option ℚ
  addr : String
  port : String
  acct_ses : Acct
  ws_base : Nat
  ws_size : Nat
  http : Nat
  http0 : Nat
  http_req : HttpReq
  http0_req : HttpReq
  close_reason : Option String
deriving DecidableEq, Repr

/-- The worker statistics (`wrk->stats`) the three files update. -/
structure WrkStats where
  client_req : Nat
  sess_herd : Nat
  sess_closed : Nat
  sess_pipeline : Nat
  sess_readahead : Nat
  cache_miss : Nat
  cache_hit : Nat
  cache_hitpass : Nat
  sessmem_free : Nat
  sessmem_alloc : Nat
  sessmem_fail : Nat
  sessmem_limit : Nat
  s : Acct
deriving DecidableEq, Repr

/-- All-zero worker statistics. -/
def WrkStats.zero : WrkStats :=
  { client_req := 0, sess_herd := 0, sess_closed := 0, sess_pipeline := 0,
    sess_readahead := 0, cache_miss := 0, cache_hit := 0, cache_hitpass := 0,
    sessmem_free := 0, sessmem_alloc := 0, sessmem_fail := 0, sessmem_limit := 0,
    s := Acct.zero }

/-- The global counters (`VSC_C_main->...`) the three files update. -/
structure Vsc where
  client_drop_late : Nat
  backend_retry : Nat
  sessmem_size : Nat
deriving DecidableEq, Repr

/-- A `struct sesspool`: the free list (most recently freed first), the block count and
the deferred free count; `pool` tells whether the worker pool pointer is set. -/
structure Sesspool where
  pool : Bool
  freelist : List Sess
  nsess : Nat
  dly_free_cnt : Nat
deriving DecidableEq, Repr

/-! ## Part 3: cache_session.c -/

/-- An `unsigned` decrement: 0 wraps to 2^32 - 1. -/
def udec (n : Nat) : Nat := if n = 0 then 4294967295 else (n - 1) % 4294967296

/-- An `unsigned` increment. -/
def uinc (n : Nat) : Nat := (n + 1) % 4294967296

/-- `SES_Charge`: move the worker's temporary accounting to the statistics and the
session.  Reads the request record. -/
def SES_Charge (sp : Sess) (st : WrkStats) (a : Acct) : Option (Sess × WrkStats × Acct) :=
  match sp.req with
  | none => none
  | some r =>
    some ({ sp with
        req := some { r with req_bodybytes := r.req_bodybytes + a.bodybytes }
        acct_ses := sp.acct_ses.add a },
      { st with s := st.s.add a }, Acct.zero)

/-- `ses_setup`: a session as prepared from its block.  The session is zeroed first, so
its step is the first of the enumeration and its descriptor is 0. -/
def ses_setup (sm : SmHdr) : Sess :=
  { mem := sm, fd := 0, step := Step.FIRST, req := none, wrk := false,
    t_open := none, t_idle := none, t_req := none, addr := "", port := "",
    acct_ses := Acct.zero, ws_base := sm.wsp, ws_size := sm.workspace,
    http := sm.http0, http0 := sm.http1, http_req := HttpReq.zero,
    http0_req := HttpReq.zero, close_reason := none }

/-- `ses_sm_alloc`: `malloc` is the result of the allocation (`none` for NULL), `szsm`
is `sizeof(struct sessmem)` and `hest` is `HTTP_estimate`.  The size `l` is computed in
an `unsigned`.  Returns the size stored in `VSC_C_main->sessmem_size` and the header of
the new block; `none` when the function does not return: `memset(p, 0, l - nws)` is
told to clear more bytes than the block has, or `assert(p == q)` fails, the parts not
adding up to `l`. -/
def ses_sm_alloc (P : Params) (szsm : Nat) (hest : Nat → Nat) (malloc : Option Nat) :
    Option (Nat × Option SmHdr) :=
  let nws := P.sess_workspace
  let nhttp := P.http_max_hdr % 65536
  let hl := hest nhttp
  let l := (szsm + nws + 2 * hl) % 4294967296
  match malloc with
  | none => some (l, none)
  | some p =>
    if l < (l + 4294967296 - nws) % 4294967296 then none
    else if p + szsm + hl + hl + nws ≠ p + l then none
    else
      some (l, some { addr := p, workspace := nws, nhttp := nhttp,
                      http0 := p + szsm, http1 := p + szsm + hl, wsp := p + szsm + hl + hl })

/-- `SES_New`: returns the session (or `none` for NULL), the pool, the worker statistics
and the global counters; `none` when `ses_sm_alloc` does not return. -/
def SES_New (P : Params) (szsm : Nat) (hest : Nat → Nat) (malloc : Option Nat)
    (pp : Sesspool) (st : WrkStats) (vsc : Vsc) :
    Option (Option Sess × Sesspool × WrkStats × Vsc) :=
  let st1 := { st with sessmem_free := st.sessmem_free + pp.dly_free_cnt }
  match pp.freelist with
  | sm :: rest =>
    some (some sm, { pp with freelist := rest, dly_free_cnt := 0 }, st1, vsc)
  | [] =>
    if pp.nsess < P.max_sess then
      let pp1 := { pp with nsess := uinc pp.nsess, dly_free_cnt := 0 }
      match ses_sm_alloc P szsm hest malloc with
      | none => none
      | some (l, some hdr) =>
        some (some (ses_setup hdr), pp1,
          { st1 with sessmem_alloc := st1.sessmem_alloc + 1 }, { vsc with sessmem_size := l })
      | some (l, none) =>
        some (none, pp1, { st1 with sessmem_fail := st1.sessmem_fail + 1 },
          { vsc with sessmem_size := l })
    else
      some (none, { pp with dly_free_cnt := 0 },
        { st1 with sessmem_limit := st1.sessmem_limit + 1 }, vsc)

/-- `SES_Close`: asserts that the descriptor is open, logs the reason and closes the
descriptor. -/
def SES_Close (sp : Sess) (reason : String) : Option Sess :=
  if sp.fd < 0 then none else some { sp with fd := -1, close_reason := some reason }

/-- `SES_GetReq`. -/
def SES_GetReq (sp : Sess) : Option Sess :=
  if sp.req.isSome then none else some { sp with req := some Req.zero }

/-- `SES_ReleaseReq`. -/
def SES_ReleaseReq (sp : Sess) : Option Sess :=
  if sp.req.isNone then none else some { sp with req := none }

/-- What `SES_Delete` leaves: the pool, the worker statistics, the session as it was
when its block was given up (closed, without request record), and whether the block was
freed (`true`) or washed and put on the free list (`false`). -/
structure Deleted where
  pp : Sesspool
  stats : WrkStats
  sp : Sess
  freed : Bool
deriving DecidableEq, Repr

/-- The first part of `SES_Delete`: close the descriptor if a reason is given, then
assert that the open time stamp is defined and the descriptor closed. -/
def ses_delete_close (sp : Sess) (reason : Option String) : Option Sess :=
  match (match reason with
      | some why => SES_Close sp why
      | none => some sp) with
  | none => none
  | some sp1 =>
    if sp1.t_open.isNone then none
    else if ¬ sp1.fd < 0 then none
    else some sp1

/-- The second part of `SES_Delete`: release the request record if there is one (its
policy reference must have been given back), and put "-" for an empty address. -/
def ses_delete_release (sp : Sess) : Option Sess :=
  match sp.req with
  | none => some (if sp.addr = "" ∨ sp.port = "" then { sp with addr := "-" } else sp)
  | some r =>
    if r.vcl then none
    else
      some (if sp.addr = "" ∨ sp.port = "" then { sp with addr := "-", req := none }
        else { sp with req := none })

/-- The last part of `SES_Delete`: free the block, or wash it and put it on the free
list. -/
def ses_delete_block (P : Params) (pp : Sesspool) (st : WrkStats) (sp : Sess) : Deleted :=
  if sp.mem.workspace ≠ P.sess_workspace ∨ sp.mem.nhttp ≠ P.http_max_hdr % 65536 ∨
      pp.nsess > P.max_sess then
    { pp := { pp with
        nsess := udec pp.nsess
        dly_free_cnt := if sp.wrk then pp.dly_free_cnt else pp.dly_free_cnt + 1 }
      stats := if sp.wrk then { st with sessmem_free := st.sessmem_free + 1 } else st
      sp := sp, freed := true }
  else
    { pp := { pp with
        freelist := ses_setup sp.mem :: pp.freelist
        dly_free_cnt := if sp.wrk then 0 else pp.dly_free_cnt }
      stats := if sp.wrk then { st with sessmem_free := st.sessmem_free + pp.dly_free_cnt }
        else st
      sp := sp, freed := false }

/-- `SES_Delete(sp, reason, now)`.  `st` are the statistics of the worker `sp->wrk`,
used only if a worker is attached; the time stamp `now` enters the log line only. -/
def SES_Delete (P : Params) (pp : Sesspool) (st : WrkStats) (sp : Sess)
    (reason : Option String) : Option Deleted :=
  match ses_delete_close sp reason with
  | none => none
  | some sp1 =>
    match ses_delete_release sp1 with
    | none => none
    | some sp2 => some (ses_delete_block P pp st sp2)

/-- `SES_Schedule`: `reject` is the result of `Pool_Schedule` (non-zero when the worker
pool turns the session down) and `now` the clock read in that case.  Returns the value
returned, the counters, and what became of the session. -/
def SES_Schedule (P : Params) (pp : Sesspool) (vsc : Vsc) (sp : Sess) (reject : Bool)
    (now : ℚ) : Option (Nat × Vsc × Sess × Option Deleted) :=
  if sp.wrk then none
  else if ¬ pp.pool then none
  else if reject then
    let vsc1 := { vsc with client_drop_late := vsc.client_drop_late + 1 }
    let sp1 := { sp with t_idle := some now }
    match sp1.req with
    | none => none
    | some r =>
      let sp2 := if r.vcl then { sp1 with req := some { r with vcl := false } } else sp1
      match SES_Delete P pp WrkStats.zero sp2 (some "dropped") with
      | none => none
      | some del => some (1, vsc1, del.sp, some del)
  else some (0, vsc, sp, none)

/-- `SES_Handle`: a parked session has become readable. -/
def SES_Handle (P : Params) (pp : Sesspool) (vsc : Vsc) (sp : Sess) (reject : Bool)
    (now clock : ℚ) : Option (Nat × Vsc × Sess × Option Deleted) :=
  SES_Schedule P pp vsc { sp with step := Step.WAIT, t_req := some now } reject clock

/-- `SES_NewPool`. -/
def SES_NewPool (wp : Bool) : Sesspool :=
  { pool := wp, freelist := [], nsess := 0, dly_free_cnt := 0 }

/-- The `while` loop of `SES_DeletePool`: free every block on the free list. -/
def ses_drain : List Sess → Nat → Nat → Nat × Nat
  | [], nsess, freed => (nsess, freed)
  | _ :: rest, nsess, freed => ses_drain rest (udec nsess) (freed + 1)

/-- `SES_DeletePool`: returns the worker statistics; fails its assertion when blocks
are still counted after the free list is drained. -/
def SES_DeletePool (pp : Sesspool) (st : WrkStats) : Option WrkStats :=
  match ses_drain pp.freelist pp.nsess st.sessmem_free with
  | (nsess, freed) => if nsess ≠ 0 then none else some { st with sessmem_free := freed }

/-! ## Part 4: cache_center.c

Code outside the three files is represented by the results it hands back (`Env`) and by
its effect on the fields tracked here: `HSH_Deref(wrk, NULL, &wrk->obj)` and `HSH_Drop`
null `wrk->obj`, `VBO_DerefBusyObj` nulls `wrk->busyobj`, `STV_NewObject` moves
`wrk->objcore` into the new object, `HSH_Unbusy` clears `OC_F_BUSY`.  Assertions on
state owned by that code (magic numbers, workspace sanity, `WRW_IsReleased`) are taken
to hold. -/

/-- The flags of a `struct objcore` the engine reads. -/
structure ObjCore where
  busy : Bool
  pass : Bool
deriving DecidableEq, Repr

/-- The fields of a `struct object` the engine reads or writes.  `http_status` is the
status of `obj->http` when `cnt_error` has put it there with `http_PutStatus`; it is
`none` for headers filled in outside the three files (copied from the backend response,
or found in the cache). -/
structure Obj where
  objcore : Option ObjCore
  len : Nat
  gziped : Bool
  esidata : Bool
  has_vary : Bool
  xid : Nat
  response : Nat
  http_status : Option Nat
  last_lru : ℚ
  last_use : ℚ
deriving DecidableEq, Repr

/-- A new object from `STV_NewObject`, holding the worker's objcore. -/
def Obj.new (oc : Option ObjCore) : Obj :=
  { objcore := oc, len := 0, gziped := false, esidata := false, has_vary := false,
    xid := 0, response := 0, http_status := none, last_lru := 0, last_use := 0 }

/-- The fetch processors (`vfp_*`). -/
inductive Vfp where
  | esi | gunzip | gzip | testgzip
deriving DecidableEq, Repr

/-- The fields of a `struct busyobj` the engine reads or writes. -/
structure BusyObj where
  do_stream : Bool
  do_esi : Bool
  do_gzip : Bool
  do_gunzip : Bool
  is_gzip : Bool
  is_gunzip : Bool
  should_close : Bool
  vbc : Bool
  h_content_length : Bool
  ttl : ℚ
  grace : ℚ
  keep : ℚ
  entered : ℚ
  vfp : Option Vfp
deriving DecidableEq, Repr

/-- A busy object fresh from `VBO_GetBusyObj`. -/
def BusyObj.zero : BusyObj :=
  { do_stream := false, do_esi := false, do_gzip := false, do_gunzip := false,
    is_gzip := false, is_gunzip := false, should_close := false, vbc := false,
    h_content_length := false, ttl := 0, grace := 0, keep := 0, entered := 0,
    vfp := none }

/-- The response mode bits `RES_*` of `wrk->res_mode`. -/
structure ResMode where
  len : Bool
  eof : Bool
  chunked : Bool
  esi : Bool
  esi_child : Bool
  gunzip : Bool
deriving DecidableEq, Repr

/-- `res_mode = 0`. -/
def ResMode.zero : ResMode :=
  { len := false, eof := false, chunked := false, esi := false, esi_child := false,
    gunzip := false }

/-- The fields of a `struct worker` the engine reads or writes. -/
structure Worker where
  obj : Option Obj
  busyobj : Option BusyObj
  objcore : Option ObjCore
  vcl : Bool
  stats : WrkStats
  acct_tmp : Acct
  res_mode : ResMode
  storage_hint : Bool
  sctx : Bool
deriving DecidableEq, Repr

/-- The state the engine works on: the session, its worker, its session pool, the XID
counter `xids`, the global counters, and the number of `VBO_GetBusyObj`,
`VBO_DerefBusyObj` and `FetchHdr` calls made by the engine. -/
structure Eng where
  sp : Sess
  wrk : Worker
  pp : Sesspool
  xids : Nat
  vsc : Vsc
  vbo_gets : Nat
  vbo_derefs : Nat
  fetchhdr_calls : Nat
deriving DecidableEq, Repr

/-- What a state handler returns: `step` is return value 0 (go on with `sp->step`),
`yield` is return value 1 with the session still alive (parked, or an ESI child
handing back to its parent), `deleted` is return value 1 after `SES_Delete`. -/
inductive CntResult where
  | step (e : Eng)
  | yield (e : Eng)
  | deleted (e : Eng) (freed : Bool)
deriving DecidableEq, Repr

/-- What `HSH_Lookup` hands back: the session was put on a busy object's waiting list
(`NULL`), a new busy objcore was inserted (`vary` tells whether `vary_l` was set), or an
existing object was found. -/
inductive LookupRes where
  | park
  | busy (vary : Bool)
  | hit (o : Obj)
deriving DecidableEq, Repr

/-- One wake-up of the `poll` loop in `cnt_wait`: the value returned by `poll`
(negative for an error, 0 when the time is up), the clock, and the result of `HTC_Rx`
(called when `poll` returned non-zero) or `HTC_Complete` (called when it returned 0). -/
structure Wakeup where
  poll : Int
  now : ℚ
  htc : Int
deriving DecidableEq, Repr

/-- What the code outside the three files hands back during one state handler. -/
structure Env where
  now : ℚ := 0
  handling : Handling := Handling.DELIVER
  vcl_err_code : Option Nat := none
  hash_handling : Handling := Handling.HASH
  dissect : Nat := 0
  http : HttpReq := { is_head := false, protover := 11, conds := false, expect := none }
  doconn : Option String := none
  req_gzip : Bool := false
  lookup : LookupRes := LookupRes.park
  fetchhdr1 : Int := 0
  fetchhdr2 : Int := 0
  beresp_status : Nat := 200
  rfc_ttl : ℚ := 0
  vcl_do_stream : Bool := false
  vcl_do_esi : Bool := false
  vcl_do_gzip : Bool := false
  vcl_do_gunzip : Bool := false
  vcl_ttl : Option ℚ := none
  content_encoding : Option String := none
  h_content_length : Bool := false
  stv1 : Bool := true
  stv2 : Bool := true
  vary : Bool := false
  do_cond : Bool := false
  fetchbody : Int := 0
  body_len : Nat := 0
  esidata : Bool := false
  exp_touch : Bool := false
  htc_reinit : Int := 0
  rxbuf_len : Nat := 0
  wakeups : List Wakeup := []
  pipe_closes : Bool := true
  pipe_reason : String := "pipe"
  hdrbytes : Nat := 0
  bodybytes : Nat := 0

/-- Modelled from the spec: the macro `AssertObjCorePassOrBusy` of `cache.h` is missing;
a fetch is for a pass (no objcore) or for an objcore still marked busy. -/
def AssertObjCorePassOrBusy (oc : Option ObjCore) : Bool :=
  match oc with
  | none => true
  | some c => c.busy

/-- The number of binary digits of `n` less one (0 for `n = 0`), with fuel `f`. -/
def log2_aux : Nat → Nat → Nat
  | 0, _ => 0
  | f + 1, n => if n < 2 then 0 else log2_aux f (n / 2) + 1

/-- The number of binary digits of `n` less one: the largest `k` with `2 ^ k ≤ n`. -/
def ilog2 (n : Nat) : Nat := log2_aux n n

/-- The quotient `a / b` rounded to the nearest natural number, a tie going to the
even one. -/
def fl_round (a b : Nat) : Nat :=
  if 2 * (a % b) < b then a / b
  else if b < 2 * (a % b) then a / b + 1
  else if (a / b) % 2 = 0 then a / b
  else a / b + 1

/-- The binary exponent of the positive fraction `n / d`: the integer `x` with
`2 ^ x ≤ n / d < 2 ^ (x + 1)`. -/
def fl_exp (n d : Nat) : Int :=
  if ilog2 d ≤ ilog2 n then
    (if d * 2 ^ (ilog2 n - ilog2 d) ≤ n then ((ilog2 n - ilog2 d : Nat) : Int)
     else ((ilog2 n - ilog2 d : Nat) : Int) - 1)
  else
    (if d ≤ n * 2 ^ (ilog2 d - ilog2 n) then - ((ilog2 d - ilog2 n : Nat) : Int)
     else - ((ilog2 d - ilog2 n : Nat) : Int) - 1)

/-- The exponent of the unit in the last place of a `double` near `n / d`: 52 below
the binary exponent, and not below -1074 (the subnormal numbers). -/
def fl_ulp (n d : Nat) : Int := max (fl_exp n d - 52) (-1074)

/-- The positive fraction `n / d` rounded to a multiple of its unit in the last
place. -/
def fl_abs (n d : Nat) : ℚ :=
  if 0 ≤ fl_ulp n d then
    ((fl_round n (d * 2 ^ (fl_ulp n d).toNat) * 2 ^ (fl_ulp n d).toNat : Nat) : ℚ)
  else
    (fl_round (n * 2 ^ (- fl_ulp n d).toNat) d : ℚ) / ((2 ^ (- fl_ulp n d).toNat : Nat) : ℚ)

/-- The value a real number takes in a C `double`: the nearest number with 53 binary
digits, a tie going to the even one (the rounding of IEEE 754 arithmetic).  The
exponent is not bounded above: a result that overflows to infinity is not
represented. -/
def fl (q : ℚ) : ℚ :=
  if q.num = 0 then 0
  else if q.num < 0 then - fl_abs q.num.natAbs q.den
  else fl_abs q.num.natAbs q.den

/-- The sum `a + b` of two `double` values, as a `double`. -/
def dadd (a b : ℚ) : ℚ := fl (a + b)

/-- The difference `a - b` of two `double` values, as a `double`. -/
def dsub (a b : ℚ) : ℚ := fl (a - b)

/-- `(int)(1e3 * x)` for a `double` `x`: the product as a `double`, truncated towards
zero. -/
def tmo_ms (x : ℚ) : Int :=
  if 0 ≤ fl (1000 * x) then Int.floor (fl (1000 * x)) else - Int.floor (- fl (1000 * x))

/-- Hand the session to `SES_Delete` from a state handler. -/
def Eng.delete (P : Params) (e : Eng) (reason : Option String) : Option CntResult :=
  match SES_Delete P e.pp e.wrk.stats e.sp reason with
  | none => none
  | some del =>
    some (CntResult.deleted
      { e with pp := del.pp, sp := del.sp, wrk := { e.wrk with stats := del.stats } }
      del.freed)

/-- `cnt_first`. -/
def cnt_first (e : Eng) : Option CntResult :=
  if e.sp.req.isSome then none
  else
    some (CntResult.step
      { e with
        wrk := { e.wrk with acct_tmp := { e.wrk.acct_tmp with sess := e.wrk.acct_tmp.sess + 1 } }
        sp := { e.sp with step := Step.WAIT } })

/-- The branch of `cnt_wait` that hands the session to the waiter: `SES_Charge`,
`SES_ReleaseReq`, `WAIT_Enter`. -/
def cnt_wait_park (e : Eng) : Option CntResult :=
  match SES_Charge { e.sp with t_req := none } e.wrk.stats e.wrk.acct_tmp with
  | none => none
  | some (sp2, st2, a2) =>
    match SES_ReleaseReq sp2 with
    | none => none
    | some sp3 =>
      some (CntResult.yield
        { e with
          sp := sp3
          wrk := { e.wrk with
            stats := { st2 with sess_herd := st2.sess_herd + 1 }
            acct_tmp := a2 } })

/-- The `poll` loop of `cnt_wait`, one wake-up per iteration.  The deadlines `when`
are sums of `double` values and are compared with the clock as such. -/
def cnt_wait_loop (P : Params) : List Wakeup → Eng → Option CntResult
  | [], _ => none
  | w :: ws, e =>
    if w.poll < 0 then none
    else if w.htc = 1 then
      some (CntResult.step { e with sp := { e.sp with t_req := some w.now, step := Step.START } })
    else if w.htc = -1 then e.delete P (some "EOF")
    else if w.htc = -2 then e.delete P (some "overflow")
    else if w.htc = -3 then
      match e.sp.t_idle with
      | none => cnt_wait_loop P ws e
      | some t_idle =>
        if dadd t_idle P.timeout_idle < w.now then e.delete P (some "timeout")
        else if dadd t_idle P.timeout_linger < w.now ∨
            tmo_ms (dsub (dadd t_idle P.timeout_linger) w.now) = 0 then
          cnt_wait_park e
        else cnt_wait_loop P ws e
    else
      match e.sp.t_req with
      | none => cnt_wait_loop P ws e
      | some t_req =>
        if dadd t_req P.timeout_req < w.now ∨
            tmo_ms (dsub (dadd t_req P.timeout_req) w.now) = 0 then
          e.delete P (some "req timeout")
        else cnt_wait_loop P ws e

/-- `cnt_wait`. -/
def cnt_wait (P : Params) (env : Env) (e : Eng) : Option CntResult :=
  match (if e.sp.req.isNone then SES_GetReq e.sp else some e.sp) with
  | none => none
  | some sp1 =>
    match sp1.req with
    | none => none
    | some r =>
      if r.vcl then none
      else if e.wrk.obj.isSome then none
      else if r.esi_level ≠ 0 then none
      else if r.xid ≠ 0 then none
      else if sp1.t_req.isNone then none
      else
        cnt_wait_loop P env.wakeups
          { e with sp := { sp1 with req := some { r with t_resp := none } } }

/-- `wrk->busyobj == NULL || !wrk->busyobj->do_stream`. -/
def bo_not_streaming (bo : Option BusyObj) : Bool :=
  match bo with
  | none => true
  | some b => !b.do_stream

/-- The part of the response mode that `cnt_prepresp` derives from the object, the
busy object and the request before it looks at the body length. -/
def prepresp_mode_base (P : Params) (req_gzip : Bool) (r : Req) (o : Obj)
    (bo : Option BusyObj) : ResMode :=
  { len :=
      (bo.isNone ||
        (match bo with
          | some b => (b.h_content_length || !b.do_stream) && !b.do_gzip && !b.do_gunzip
          | none => false)) &&
      !(!r.disable_esi && o.esidata) && !decide (r.esi_level > 0) &&
      !(P.http_gzip_support && o.gziped && !req_gzip)
    eof := false
    chunked := false
    esi := !r.disable_esi && o.esidata
    esi_child := decide (r.esi_level > 0)
    gunzip := P.http_gzip_support && o.gziped && !req_gzip }

/-- The response mode computed by `cnt_prepresp` before the policy is asked, and
whether `doclose` is set to "EOF mode". -/
def prepresp_mode (P : Params) (req_gzip : Bool) (r : Req) (h : HttpReq) (o : Obj)
    (bo : Option BusyObj) : ResMode × Bool :=
  let m := prepresp_mode_base P req_gzip r o bo
  if ¬ (m.len ∨ m.chunked ∨ m.eof) then
    if o.len = 0 ∧ bo_not_streaming bo then ({ m with len := true }, false)
    else if ¬ r.wantbody then (m, false)
    else if h.protover ≥ 11 then ({ m with chunked := true }, false)
    else ({ m with eof := true }, true)
  else (m, false)

/-- The object as `cnt_prepresp` leaves it: the LRU time stamps are touched. -/
def prepresp_touch (P : Params) (env : Env) (o : Obj) : Obj :=
  match o.objcore with
  | some _ =>
    { o with
      last_lru := if dsub env.now o.last_lru > P.lru_timeout ∧ env.exp_touch then env.now
                  else o.last_lru
      last_use := env.now }
  | none => o

/-- The request as `cnt_prepresp` leaves it before it acts on the policy's answer. -/
def prepresp_req (P : Params) (env : Env) (e : Eng) (r : Req) (o : Obj) : Req :=
  { r with
    doclose := if (prepresp_mode P env.req_gzip r e.sp.http_req o e.wrk.busyobj).2 then
        some "EOF mode"
      else r.doclose
    t_resp := some env.now
    handling := env.handling }

/-- The end of `cnt_prepresp` for a delivery: STREAMBODY when a fetch is still to be
streamed, else DELIVER. -/
def prepresp_deliver (P : Params) (env : Env) (e : Eng) (r : Req) (o : Obj) :
    Option CntResult :=
  if bo_not_streaming e.wrk.busyobj then
    some (CntResult.step
      { e with
        wrk := { e.wrk with
          res_mode := (prepresp_mode P env.req_gzip r e.sp.http_req o e.wrk.busyobj).1
          obj := some (prepresp_touch P env o) }
        sp := { e.sp with req := some (prepresp_req P env e r o), step := Step.DELIVER } })
  else if AssertObjCorePassOrBusy o.objcore then
    some (CntResult.step
      { e with
        wrk := { e.wrk with
          res_mode := (prepresp_mode P env.req_gzip r e.sp.http_req o e.wrk.busyobj).1
          obj := some (prepresp_touch P env o) }
        sp := { e.sp with req := some (prepresp_req P env e r o), step := Step.STREAMBODY } })
  else none

/-- `cnt_prepresp`. -/
def cnt_prepresp (P : Params) (env : Env) (e : Eng) : Option CntResult :=
  match e.wrk.obj, e.sp.req with
  | some o, some r =>
    if ¬ r.vcl then none
    else if (match e.wrk.busyobj with
        | some b => !b.do_stream || !AssertObjCorePassOrBusy o.objcore
        | none => false) then none
    else
      match env.handling with
      | Handling.DELIVER => prepresp_deliver P env e r o
      | Handling.RESTART =>
        if r.restarts ≥ P.max_restarts then prepresp_deliver P env e r o
        else
          some (CntResult.step
            { e with
              vbo_derefs := if e.wrk.busyobj.isSome then e.vbo_derefs + 1 else e.vbo_derefs
              wrk := { e.wrk with
                res_mode := (prepresp_mode P env.req_gzip r e.sp.http_req o e.wrk.busyobj).1
                obj := none, busyobj := none }
              sp := { e.sp with
                req := some { prepresp_req P env e r o with
                  restarts := r.restarts + 1, director := false }
                step := Step.RECV } })
      | _ => none
  | _, _ => none

/-- `cnt_deliver`. -/
def cnt_deliver (env : Env) (e : Eng) : Option CntResult :=
  match e.sp.req with
  | none => none
  | some r =>
    if e.wrk.busyobj.isSome then none
    else if e.wrk.obj.isNone then none
    else
      some (CntResult.step
        { e with
          wrk := { e.wrk with
            obj := none
            acct_tmp := { e.wrk.acct_tmp with
              hdrbytes := e.wrk.acct_tmp.hdrbytes + env.hdrbytes
              bodybytes := e.wrk.acct_tmp.bodybytes + env.bodybytes } }
          sp := { e.sp with
            req := some { r with director := false, restarts := 0 }
            step := Step.DONE } })

/-- Modelled from the spec: `WRK_SumStat` is not among the three files; when
`client_req >= wthread_stats_rate` the worker's counters are rolled up into the global
ones, which leaves them zero. -/
def WRK_SumStat (P : Params) (st : WrkStats) : WrkStats :=
  if st.client_req ≥ P.wthread_stats_rate then WrkStats.zero else st

/-- The request record as `cnt_done` leaves it for the next request. -/
def done_req (r : Req) : Req :=
  { r with
    director := false, restarts := 0, vcl := false, xid := 0, t_resp := none
    req_bodybytes := 0, hash_always_miss := false, hash_ignore_busy := false }

/-- `cnt_done`. -/
def cnt_done (P : Params) (env : Env) (e : Eng) : Option CntResult :=
  match e.sp.req with
  | none => none
  | some r =>
    if e.wrk.obj.isSome then none
    else if e.wrk.busyobj.isSome then none
    else
      match SES_Charge { e.sp with req := some { r with director := false, restarts := 0 } }
          e.wrk.stats e.wrk.acct_tmp with
      | none => none
      | some (sp1, st1, a1) =>
        if r.esi_level > 0 then
          some (CntResult.yield
            { e with sp := sp1, wrk := { e.wrk with stats := st1, acct_tmp := a1 } })
        else if sp1.fd ≥ 0 ∧ r.doclose.isNone then
          if env.htc_reinit = 1 then
            some (CntResult.step
              { e with
                sp := { sp1 with
                  t_idle := some env.now, t_req := some env.now, req := some (done_req r)
                  step := Step.START }
                wrk := { e.wrk with
                  vcl := r.vcl || e.wrk.vcl, acct_tmp := a1
                  stats := { WRK_SumStat P st1 with
                    sess_pipeline := (WRK_SumStat P st1).sess_pipeline + 1 } } })
          else
            some (CntResult.step
              { e with
                sp := { sp1 with
                  t_idle := some env.now, t_req := some env.now, req := some (done_req r)
                  step := Step.WAIT }
                wrk := { e.wrk with
                  vcl := r.vcl || e.wrk.vcl, acct_tmp := a1
                  stats := { WRK_SumStat P st1 with
                    sess_readahead := if env.rxbuf_len ≠ 0 then
                        (WRK_SumStat P st1).sess_readahead + 1
                      else (WRK_SumStat P st1).sess_readahead } } })
        else
          Eng.delete P
            { e with
              sp := { sp1 with
                fd := if sp1.fd ≥ 0 then -1 else sp1.fd
                close_reason := if sp1.fd ≥ 0 then r.doclose else sp1.close_reason
                t_idle := some env.now, t_req := none, req := some (done_req r) }
              wrk := { e.wrk with
                vcl := r.vcl || e.wrk.vcl, acct_tmp := a1
                stats := { st1 with sess_closed := st1.sess_closed + 1 } } }
            none

/-- The status `cnt_error` puts into the synthetic response: the pending error code, or
501 when that is not a three-digit code. -/
def error_status (r : Req) : Nat :=
  if r.err_code < 100 ∨ r.err_code > 999 then 501 else r.err_code

/-- `cnt_error`. -/
def cnt_error (P : Params) (env : Env) (e : Eng) : Option CntResult :=
  match e.sp.req with
  | none => none
  | some r =>
    if e.wrk.obj.isNone ∧ e.wrk.busyobj.isSome then none
    else if e.wrk.obj.isSome ∧ e.wrk.busyobj.isNone then none
    else if e.wrk.obj.isNone ∧ ¬ env.stv1 ∧ ¬ env.stv2 then
      some (CntResult.step
        { e with
          vbo_gets := e.vbo_gets + 1
          wrk := { e.wrk with busyobj := some BusyObj.zero }
          sp := { e.sp with
            req := some { r with doclose := some "Out of objects", director := false }
            step := Step.DONE } })
    else if env.handling = Handling.RESTART ∧ r.restarts < P.max_restarts then
      some (CntResult.step
        { e with
          vbo_gets := if e.wrk.obj.isNone then e.vbo_gets + 1 else e.vbo_gets
          vbo_derefs := e.vbo_derefs + 1
          wrk := { e.wrk with
            obj := none, busyobj := none
            objcore := if e.wrk.obj.isNone then none else e.wrk.objcore }
          sp := { e.sp with
            req := some { r with
              err_code := if r.err_code < 100 ∨ r.err_code > 999 then 501 else r.err_code
              handling := env.handling, director := false, restarts := r.restarts + 1 }
            step := Step.RECV } })
    else if env.handling ≠ Handling.RESTART ∧ env.handling ≠ Handling.DELIVER then none
    else
      some (CntResult.step
        { e with
          vbo_gets := if e.wrk.obj.isNone then e.vbo_gets + 1 else e.vbo_gets
          vbo_derefs := e.vbo_derefs + 1
          wrk := { e.wrk with
            obj := (match e.wrk.obj with
              | none =>
                some { Obj.new e.wrk.objcore with
                  xid := r.xid, http_status := some (error_status r) }
              | some o => some { o with http_status := some (error_status r) })
            busyobj := none
            objcore := if e.wrk.obj.isNone then none else e.wrk.objcore }
          sp := { e.sp with
            req := some { r with
              err_code := 0, err_reason := none, handling := Handling.DELIVER
              doclose := some "error", wantbody := true }
            step := Step.PREPRESP } })

/-- The busy object after `cnt_fetch` has received the backend's headers and asked the
policy. -/
def fetch_busyobj (env : Env) (pass : Bool) (bo : BusyObj) : BusyObj :=
  { bo with
    h_content_length := env.h_content_length
    entered := env.now, grace := -1, keep := -1
    ttl := (match env.vcl_ttl with
      | some t => t
      | none => if pass then -1 else env.rfc_ttl)
    do_stream := env.vcl_do_stream, do_esi := env.vcl_do_esi
    do_gzip := env.vcl_do_gzip, do_gunzip := env.vcl_do_gunzip
    vbc := true }

/-- The `FetchHdr` calls of `cnt_fetch`: the value of `i` the handler goes on with and
the number of calls made.  The call is repeated, once, when it returns 1. -/
def fetch_hdr (env : Env) : Int × Nat :=
  if env.fetchhdr1 = 1 then (env.fetchhdr2, 2) else (env.fetchhdr1, 1)

/-- `VSC_C_main->backend_retry++` when the first `FetchHdr` asked for a retry. -/
def fetch_vsc (env : Env) (v : Vsc) : Vsc :=
  { v with backend_retry := if env.fetchhdr1 = 1 then v.backend_retry + 1 else v.backend_retry }

/-- The tail of `cnt_fetch` when the body is not going to be fetched ("Clean up partial
fetch"): the objcore reference and the busy object are given up, then the request is
restarted or sent to ERROR. -/
def fetch_unwind (env : Env) (e : Eng) (r : Req) (s : Step) : Eng :=
  { e with
    vsc := fetch_vsc env e.vsc
    fetchhdr_calls := e.fetchhdr_calls + (fetch_hdr env).2
    vbo_derefs := e.vbo_derefs + 1
    wrk := { e.wrk with objcore := none, busyobj := none, storage_hint := false }
    sp := { e.sp with req := some { r with director := false }, step := s } }

/-- The end of `cnt_fetch` when the body is going to be fetched. -/
def fetch_go (env : Env) (e : Eng) (r : Req) (bo : BusyObj) (oc : Option ObjCore) : Eng :=
  { e with
    vsc := fetch_vsc env e.vsc
    fetchhdr_calls := e.fetchhdr_calls + (fetch_hdr env).2
    wrk := { e.wrk with
      busyobj := some (fetch_busyobj env e.wrk.objcore.isNone bo), objcore := oc }
    sp := { e.sp with
      req := some { r with err_code := env.beresp_status, handling := env.handling }
      step := Step.FETCHBODY } }

/-- `cnt_fetch`. -/
def cnt_fetch (env : Env) (e : Eng) : Option CntResult :=
  match e.sp.req, e.wrk.busyobj with
  | some r, some bo =>
    if ¬ r.vcl then none
    else if ¬ r.director then none
    else if bo.vbc then none
    else if bo.should_close then none
    else if e.wrk.storage_hint then none
    else if (fetch_hdr env).1 ≠ 0 then
      some (CntResult.step
        (fetch_unwind env e { r with handling := Handling.ERROR, err_code := 503 } Step.ERROR))
    else if bo.do_esi then none
    else
      match env.handling with
      | Handling.HIT_FOR_PASS =>
        some (CntResult.step
          (fetch_go env e r bo (e.wrk.objcore.map (fun c => { c with pass := true }))))
      | Handling.DELIVER =>
        if AssertObjCorePassOrBusy e.wrk.objcore then
          some (CntResult.step (fetch_go env e r bo e.wrk.objcore))
        else none
      | Handling.RESTART =>
        some (CntResult.step
          (fetch_unwind env e
            { r with
              err_code := env.beresp_status, handling := env.handling
              restarts := r.restarts + 1 }
            Step.RECV))
      | Handling.ERROR =>
        some (CntResult.step
          (fetch_unwind env e
            { r with err_code := env.beresp_status, handling := env.handling } Step.ERROR))
      | _ => none
  | _, _ => none

/-- The gzip decisions of `cnt_fetchbody`: the busy object after the normalisation of
`do_gzip` and `do_gunzip`, the classification of the backend's `Content-Encoding` and
the choice of the fetch processor; `none` when one of the two assertions fails. -/
def fetchbody_gzip (P : Params) (ce : Option String) (bo : BusyObj) : Option BusyObj :=
  let b1 := if ¬ P.http_gzip_support then { bo with do_gzip := false, do_gunzip := false }
    else bo
  let b2 := { b1 with is_gzip := decide (ce = some "gzip"), is_gunzip := ce.isNone }
  if b2.is_gzip ∧ b2.is_gunzip then none
  else
    let b3 := if b2.do_gunzip ∧ ¬ b2.is_gzip then { b2 with do_gunzip := false } else b2
    let b4 := if b3.do_gzip ∧ ¬ b3.is_gunzip then { b3 with do_gzip := false } else b3
    if b4.do_gzip ∧ b4.do_gunzip then none
    else
      some { b4 with
        vfp := if b4.do_esi then some Vfp.esi
          else if b4.do_gunzip then some Vfp.gunzip
          else if b4.do_gzip then some Vfp.gzip
          else if b4.is_gzip then some Vfp.testgzip
          else b4.vfp }

/-- The streaming decisions of `cnt_fetchbody` made before the object is allocated, and
the salvage of the expiry when the first allocation failed (`stv1` false). -/
def fetchbody_stream (P : Params) (r : Req) (stv1 : Bool) (b : BusyObj) : BusyObj :=
  { b with
    do_stream := b.do_stream && !(b.do_esi || decide (r.esi_level > 0)) && r.wantbody
    ttl := if ¬ stv1 ∧ b.ttl > P.shortlived then P.shortlived else b.ttl
    grace := if stv1 then b.grace else 0
    keep := if stv1 then b.keep else 0 }

/-- The object `cnt_fetchbody` sets up after a successful allocation. -/
def fetchbody_obj (env : Env) (r : Req) (oc : Option ObjCore) (b : BusyObj) : Obj :=
  { Obj.new oc with
    gziped := b.do_gzip || (b.is_gzip && !b.do_gunzip)
    has_vary := oc.isSome && env.vary
    xid := r.xid, response := r.err_code }

/-- `cnt_fetchbody`. -/
def cnt_fetchbody (P : Params) (env : Env) (e : Eng) : Option CntResult :=
  match e.sp.req, e.wrk.busyobj with
  | some r, some bo =>
    if r.handling ≠ Handling.HIT_FOR_PASS ∧ r.handling ≠ Handling.DELIVER then none
    else
      match fetchbody_gzip P env.content_encoding
          (if e.wrk.objcore.isNone then { bo with ttl := -1 } else bo) with
      | none => none
      | some b1 =>
        if ¬ env.stv1 ∧ ¬ env.stv2 then
          some (CntResult.step
            { e with
              vbo_derefs := e.vbo_derefs + 1
              wrk := { e.wrk with
                obj := none, busyobj := none
                storage_hint := e.wrk.storage_hint || decide (b1.ttl < P.shortlived) ||
                  e.wrk.objcore.isNone }
              sp := { e.sp with req := some { r with err_code := 503 }, step := Step.ERROR } })
        else if ¬ AssertObjCorePassOrBusy e.wrk.objcore then none
        else if (fetchbody_stream P r env.stv1 b1).do_stream ∧
            ¬ (r.err_code = 200 ∧ e.sp.http_req.conds ∧ env.do_cond) then
          some (CntResult.step
            { e with
              wrk := { e.wrk with
                obj := some (fetchbody_obj env r e.wrk.objcore b1)
                objcore := none, storage_hint := false
                busyobj := some (fetchbody_stream P r env.stv1 b1) }
              sp := { e.sp with step := Step.PREPRESP } })
        else if ¬ r.director then none
        else if env.fetchbody ≠ 0 then
          some (CntResult.step
            { e with
              vbo_derefs := e.vbo_derefs + 1
              wrk := { e.wrk with
                obj := none, objcore := none, storage_hint := false, busyobj := none }
              sp := { e.sp with req := some { r with err_code := 503 }, step := Step.ERROR } })
        else
          some (CntResult.step
            { e with
              vbo_derefs := e.vbo_derefs + 1
              wrk := { e.wrk with
                obj := some { fetchbody_obj env r e.wrk.objcore b1 with
                  len := env.body_len, esidata := env.esidata
                  objcore := e.wrk.objcore.map (fun c => { c with busy := false }) }
                objcore := none, storage_hint := false, busyobj := none
                acct_tmp := { e.wrk.acct_tmp with fetch := e.wrk.acct_tmp.fetch + 1 } }
              sp := { e.sp with step := Step.PREPRESP } })
  | _, _ => none

/-- `cnt_streambody`. -/
def cnt_streambody (env : Env) (e : Eng) : Option CntResult :=
  match e.sp.req, e.wrk.busyobj, e.wrk.obj with
  | some r, some _, some o =>
    if e.wrk.sctx then none
    else if ¬ AssertObjCorePassOrBusy o.objcore then none
    else if ¬ r.director then none
    else
      some (CntResult.step
        { e with
          vbo_derefs := e.vbo_derefs + 1
          wrk := { e.wrk with
            obj := none, busyobj := none
            acct_tmp := { e.wrk.acct_tmp with
              fetch := e.wrk.acct_tmp.fetch + 1
              hdrbytes := e.wrk.acct_tmp.hdrbytes + env.hdrbytes
              bodybytes := e.wrk.acct_tmp.bodybytes + env.bodybytes } }
          sp := { e.sp with
            req := some { r with
              doclose := if env.fetchbody = 0 ∧ o.objcore.isSome then r.doclose
                else some "Stream error"
              director := false, restarts := 0 }
            step := Step.DONE } })
  | _, _, _ => none

/-- `cnt_hit`. -/
def cnt_hit (env : Env) (e : Eng) : Option CntResult :=
  match e.sp.req, e.wrk.obj with
  | some r, some o =>
    if ¬ r.vcl then none
    else if e.wrk.busyobj.isSome then none
    else
      match o.objcore with
      | none => none
      | some oc =>
        if oc.pass then none
        else
          match env.handling with
          | Handling.DELIVER =>
            some (CntResult.step
              { e with sp := { e.sp with
                req := some { r with handling := env.handling }, step := Step.PREPRESP } })
          | Handling.PASS =>
            some (CntResult.step
              { e with
                wrk := { e.wrk with obj := none, objcore := none }
                sp := { e.sp with
                  req := some { r with handling := env.handling }, step := Step.PASS } })
          | Handling.ERROR =>
            some (CntResult.step
              { e with
                wrk := { e.wrk with obj := none, objcore := none }
                sp := { e.sp with
                  req := some { r with handling := env.handling }, step := Step.ERROR } })
          | Handling.RESTART =>
            some (CntResult.step
              { e with
                wrk := { e.wrk with obj := none, objcore := none }
                sp := { e.sp with
                  req := some { r with
                    handling := env.handling, director := false, restarts := r.restarts + 1 }
                  step := Step.RECV } })
          | _ => none
  | _, _ => none

/-- `cnt_lookup`. -/
def cnt_lookup (env : Env) (e : Eng) : Option CntResult :=
  match e.sp.req with
  | none => none
  | some r =>
    if ¬ r.vcl then none
    else if e.wrk.busyobj.isSome then none
    else
      match env.lookup with
      | LookupRes.park =>
        some (CntResult.yield
          { e with sp := { e.sp with req := some { r with hash_objhead := true } } })
      | LookupRes.busy _ =>
        some (CntResult.step
          { e with
            wrk := { e.wrk with
              stats := { e.wrk.stats with cache_miss := e.wrk.stats.cache_miss + 1 }
              objcore := some { busy := true, pass := false }
              busyobj := some BusyObj.zero }
            sp := { e.sp with
              req := some { r with hash_objhead := false }, step := Step.MISS } })
      | LookupRes.hit o =>
        match o.objcore with
        | none => none
        | some oc =>
          if oc.busy then none
          else if oc.pass then
            some (CntResult.step
              { e with
                wrk := { e.wrk with
                  stats := { e.wrk.stats with
                    cache_hitpass := e.wrk.stats.cache_hitpass + 1 }
                  obj := none, objcore := none }
                sp := { e.sp with
                  req := some { r with hash_objhead := false }, step := Step.PASS } })
          else
            some (CntResult.step
              { e with
                wrk := { e.wrk with
                  stats := { e.wrk.stats with cache_hit := e.wrk.stats.cache_hit + 1 }
                  obj := some o }
                sp := { e.sp with
                  req := some { r with hash_objhead := false }, step := Step.HIT } })

/-- `cnt_miss`. -/
def cnt_miss (env : Env) (e : Eng) : Option CntResult :=
  match e.sp.req with
  | none => none
  | some r =>
    if ¬ r.vcl then none
    else if e.wrk.obj.isSome then none
    else if e.wrk.objcore.isNone then none
    else if e.wrk.busyobj.isNone then none
    else
      match env.handling with
      | Handling.ERROR =>
        some (CntResult.step
          { e with
            vbo_gets := e.vbo_gets + 1, vbo_derefs := e.vbo_derefs + 1
            wrk := { e.wrk with objcore := none, busyobj := none }
            sp := { e.sp with
              req := some { r with handling := env.handling }, step := Step.ERROR } })
      | Handling.PASS =>
        some (CntResult.step
          { e with
            vbo_gets := e.vbo_gets + 1, vbo_derefs := e.vbo_derefs + 1
            wrk := { e.wrk with objcore := none, busyobj := none }
            sp := { e.sp with
              req := some { r with handling := env.handling }, step := Step.PASS } })
      | Handling.FETCH =>
        some (CntResult.step
          { e with
            vbo_gets := e.vbo_gets + 1
            wrk := { e.wrk with busyobj := some BusyObj.zero }
            sp := { e.sp with
              req := some { r with handling := env.handling }, step := Step.FETCH } })
      | _ => none

/-- `cnt_pass`. -/
def cnt_pass (env : Env) (e : Eng) : Option CntResult :=
  match e.sp.req with
  | none => none
  | some r =>
    if ¬ r.vcl then none
    else if e.wrk.obj.isSome then none
    else if e.wrk.busyobj.isSome then none
    else
      match env.handling with
      | Handling.ERROR =>
        some (CntResult.step
          { e with
            vbo_gets := e.vbo_gets + 2, vbo_derefs := e.vbo_derefs + 1
            wrk := { e.wrk with busyobj := none }
            sp := { e.sp with
              req := some { r with handling := env.handling }, step := Step.ERROR } })
      | Handling.PASS =>
        some (CntResult.step
          { e with
            vbo_gets := e.vbo_gets + 2
            wrk := { e.wrk with
              busyobj := some BusyObj.zero
              acct_tmp := { e.wrk.acct_tmp with pass := e.wrk.acct_tmp.pass + 1 } }
            sp := { e.sp with
              req := some { r with handling := env.handling, sendbody := true }
              step := Step.FETCH } })
      | _ => none

/-- `cnt_pipe`.  `PipeSession` copies bytes in both directions until one end closes;
`env.pipe_closes` tells whether it leaves the client descriptor closed, and
`env.pipe_reason` is the reason it gives to `SES_Close` when it does. -/
def cnt_pipe (env : Env) (e : Eng) : Option CntResult :=
  match e.sp.req with
  | none => none
  | some r =>
    if ¬ r.vcl then none
    else if e.wrk.busyobj.isSome then none
    else if env.handling ≠ Handling.PIPE then none
    else
      some (CntResult.step
        { e with
          vbo_gets := e.vbo_gets + 2, vbo_derefs := e.vbo_derefs + 1
          wrk := { e.wrk with
            busyobj := none
            acct_tmp := { e.wrk.acct_tmp with pipe := e.wrk.acct_tmp.pipe + 1 } }
          sp := { e.sp with
            req := some { r with handling := env.handling }
            fd := if env.pipe_closes then -1 else e.sp.fd
            close_reason := if env.pipe_closes then some env.pipe_reason
              else e.sp.close_reason
            step := Step.DONE } })

/-- The request as `cnt_recv` leaves it after `VCL_recv_method`: the default director
is chosen, the per-request flags are cleared, and the policy has stored its answer and
possibly an error code. -/
def recv_req (env : Env) (r : Req) : Req :=
  { r with
    director := true, disable_esi := false, hash_always_miss := false
    hash_ignore_busy := false, handling := env.handling
    err_code := (match env.vcl_err_code with
      | some c => c
      | none => r.err_code) }

/-- `cnt_recv`. -/
def cnt_recv (P : Params) (env : Env) (e : Eng) : Option CntResult :=
  match e.sp.req with
  | none => none
  | some r =>
    if ¬ r.vcl then none
    else if e.wrk.obj.isSome then none
    else if e.wrk.busyobj.isSome then none
    else if r.director then none
    else if r.restarts ≥ P.max_restarts then
      some (CntResult.step
        { e with sp := { e.sp with
          req := some { recv_req env r with
            err_code := if (recv_req env r).err_code = 0 then 503
              else (recv_req env r).err_code }
          step := Step.ERROR } })
    else if env.hash_handling ≠ Handling.HASH then none
    else
      match env.handling with
      | Handling.LOOKUP =>
        some (CntResult.step
          { e with sp := { e.sp with
            req := some { recv_req env r with
              handling := env.hash_handling, wantbody := !e.sp.http_req.is_head
              sendbody := false }
            step := Step.LOOKUP } })
      | Handling.PIPE =>
        if r.esi_level > 0 then none
        else
          some (CntResult.step
            { e with sp := { e.sp with
              req := some { recv_req env r with
                handling := env.hash_handling, wantbody := !e.sp.http_req.is_head
                sendbody := false }
              step := Step.PIPE } })
      | Handling.PASS =>
        some (CntResult.step
          { e with sp := { e.sp with
            req := some { recv_req env r with
              handling := env.hash_handling, wantbody := !e.sp.http_req.is_head
              sendbody := false }
            step := Step.PASS } })
      | Handling.ERROR =>
        some (CntResult.step
          { e with sp := { e.sp with
            req := some { recv_req env r with
              handling := env.hash_handling, wantbody := !e.sp.http_req.is_head
              sendbody := false }
            step := Step.ERROR } })
      | _ => none

/-- The worker as `cnt_start` leaves it: the request is counted and the policy
reference is lent to the request. -/
def start_wrk (w : Worker) : Worker :=
  { w with
    vcl := false
    stats := { w.stats with client_req := w.stats.client_req + 1 }
    acct_tmp := { w.acct_tmp with req := w.acct_tmp.req + 1 } }

/-- The request as `cnt_start` leaves it: the XID `++xids` is assigned and the policy
reference is borrowed from the worker. -/
def start_req (e : Eng) (r : Req) : Req :=
  { r with xid := uinc e.xids, vcl := true }

/-- The engine as `cnt_start` leaves it, around the session `sp`. -/
def start_eng (e : Eng) (sp : Sess) : Eng :=
  { e with xids := uinc e.xids, wrk := start_wrk e.wrk, sp := sp }

/-- `cnt_start`. -/
def cnt_start (env : Env) (e : Eng) : Option CntResult :=
  match e.sp.req with
  | none => none
  | some r =>
    if r.restarts ≠ 0 then none
    else if e.wrk.obj.isSome then none
    else if r.vcl then none
    else if r.esi_level ≠ 0 then none
    else if e.sp.t_req.isNone then none
    else if env.dissect = 400 then
      if e.sp.fd < 0 then none
      else
        some (CntResult.step (start_eng e
          { e.sp with
            fd := -1, close_reason := some "junk", http_req := env.http
            req := some (start_req e r), step := Step.DONE }))
    else if env.dissect ≠ 0 then
      some (CntResult.step (start_eng e
        { e.sp with
          http_req := env.http, http0_req := env.http
          req := some { start_req e r with err_code := env.dissect }, step := Step.ERROR }))
    else
      match env.http.expect with
      | some p =>
        if p.toLower ≠ "100-continue" then
          some (CntResult.step (start_eng e
            { e.sp with
              http_req := env.http, http0_req := env.http
              req := some { start_req e r with doclose := env.doconn, err_code := 417 }
              step := Step.ERROR }))
        else
          some (CntResult.step (start_eng e
            { e.sp with
              http_req := { env.http with expect := none }, http0_req := env.http
              req := some { start_req e r with doclose := env.doconn }
              step := Step.RECV }))
      | none =>
        some (CntResult.step (start_eng e
          { e.sp with
            http_req := env.http, http0_req := env.http
            req := some { start_req e r with doclose := env.doconn }
            step := Step.RECV }))

/-- The `switch (sp->step)` of `CNT_Session`: run the handler of the current state. -/
def cnt_dispatch (P : Params) (env : Env) (e : Eng) : Option CntResult :=
  match e.sp.step with
  | Step.FIRST => cnt_first e
  | Step.WAIT => cnt_wait P env e
  | Step.START => cnt_start env e
  | Step.RECV => cnt_recv P env e
  | Step.LOOKUP => cnt_lookup env e
  | Step.HIT => cnt_hit env e
  | Step.MISS => cnt_miss env e
  | Step.PASS => cnt_pass env e
  | Step.PIPE => cnt_pipe env e
  | Step.FETCH => cnt_fetch env e
  | Step.FETCHBODY => cnt_fetchbody P env e
  | Step.STREAMBODY => cnt_streambody env e
  | Step.PREPRESP => cnt_prepresp P env e
  | Step.DELIVER => cnt_deliver env e
  | Step.ERROR => cnt_error P env e
  | Step.DONE => cnt_done P env e

/-- The `for (done = 0; !done; )` loop of `CNT_Session`, one `Env` per handler run; when
the environments are used up the loop is left where it stands (`step`). -/
def cnt_loop (P : Params) : List Env → Eng → Option CntResult
  | [], e => some (CntResult.step e)
  | env :: envs, e =>
    match cnt_dispatch P env e with
    | none => none
    | some (CntResult.step e1) => cnt_loop P envs e1
    | some r => some r

/-- `CNT_Session`: `blocking` is `none` when `VTCP_blocking` succeeds and `some reset`
when it reports an error, `reset` telling whether `errno` is `ECONNRESET`; the
environments must carry the loop to a yield. -/
def CNT_Session (P : Params) (blocking : Option Bool) (envs : List Env) (e : Eng) :
    Option CntResult :=
  if ¬ (e.sp.step = Step.FIRST ∨ e.sp.step = Step.WAIT ∨ e.sp.step = Step.LOOKUP ∨
      e.sp.step = Step.RECV) then none
  else if e.wrk.obj.isSome then none
  else if e.wrk.objcore.isSome then none
  else
    let entered : Option Eng :=
      match blocking with
      | some reset =>
        if e.sp.step = Step.FIRST ∨ e.sp.step = Step.START then
          match SES_Close e.sp (if reset then "remote closed" else "error") with
          | none => none
          | some sp1 => some { e with sp := { sp1 with step := Step.DONE } }
        else some e
      | none => some e
    match entered with
    | none => none
    | some e1 =>
      match cnt_loop P envs e1 with
      | none => none
      | some (CntResult.step _) => none
      | some (CntResult.yield e2) =>
        if e2.wrk.obj.isSome ∨ e2.wrk.objcore.isSome ∨ e2.wrk.acct_tmp ≠ Acct.zero then none
        else some (CntResult.yield e2)
      | some (CntResult.deleted e2 f) =>
        if e2.wrk.obj.isSome ∨ e2.wrk.objcore.isSome ∨ e2.wrk.acct_tmp ≠ Acct.zero then none
        else some (CntResult.deleted e2 f)

/-! ## Reference notions used to state the properties -/

/-- The engine state carried by a handler result. -/
def CntResult.eng : CntResult → Eng
  | CntResult.step e => e
  | CntResult.yield e => e
  | CntResult.deleted e _ => e

/-- The restart count of the request in progress (0 when the session holds no request
record). -/
def Eng.restarts (e : Eng) : Nat :=
  match e.sp.req with
  | none => 0
  | some r => r.restarts

/-- The states between the restart check of RECV and the handlers HIT and FETCH, which
count a restart without a check of their own. -/
def Step.before_unchecked_restart : Step → Bool
  | Step.LOOKUP => true
  | Step.HIT => true
  | Step.MISS => true
  | Step.PASS => true
  | Step.FETCH => true
  | _ => false

/-- The restart budget: the count is within `max_restarts`, and strictly below it in
the states from which HIT or FETCH can count one more restart. -/
def RestartInv (P : Params) (e : Eng) : Prop :=
  e.restarts ≤ P.max_restarts ∧
    (e.sp.step.before_unchecked_restart = true → e.restarts < P.max_restarts)

/-- Number of leading entries of a vector that a write of `k` bytes consumes in full. -/
def fullyConsumed : Nat → List Iovec → Nat
  | _, [] => 0
  | k, e :: es => if e.length ≤ k then fullyConsumed (k - e.length) es + 1 else 0

/-- Sum of the lengths of the entries in use, the reserved chunk-head slot `ciov` left
out (outside chunked mode `ciov` is `siov` and nothing is left out). -/
def Wrw.pending_len (w : Wrw) : Nat :=
  iov_total (w.used.take w.ciov) + iov_total (w.used.drop (w.ciov + 1))

/-- The buffer states reachable from `WRW_Reserve` through `WRW_Write`, `WRW_WriteH`,
`WRW_Chunked`, `WRW_Flush` and `WRW_EndChunk`, whatever the descriptor does. -/
inductive WrwReach : Wrw → Prop
  | reserve (w0 w : Wrw) (fd : Int) : WRW_Reserve w0 fd = some w → WrwReach w
  | write (w w1 : Wrw) (d d1 : Dev) (ptr : List Char) (len : Int) (u : Nat) :
      WrwReach w → WRW_Write w d ptr len = some (w1, d1, u) → WrwReach w1
  | write_header (w w1 : Wrw) (d d1 : Dev) (hh : List Char) (suf : Option (List Char))
      (u : Nat) : WrwReach w → WRW_WriteH w d hh suf = some (w1, d1, u) → WrwReach w1
  | chunked (w w1 : Wrw) (d d1 : Dev) :
      WrwReach w → WRW_Chunked w d = some (w1, d1) → WrwReach w1
  | flush (w w1 : Wrw) (d d1 : Dev) (u : Nat) :
      WrwReach w → WRW_Flush w d = some (w1, d1, u) → WrwReach w1
  | end_chunk (w w1 : Wrw) (d d1 : Dev) :
      WrwReach w → WRW_EndChunk w d = some (w1, d1) → WrwReach w1

/-- The bookkeeping invariant of the buffer between operations. -/
def WrwInv (w : Wrw) : Prop :=
  w.niov ≤ w.siov ∧ (w.ciov < w.siov → w.ciov < w.niov) ∧
    w.liov = (w.pending_len : Int)

/-- An unbound buffer with `n` unused slots. -/
def wrw_idle (n : Nat) : Wrw :=
  { wfd := none, werr := 0, iov := List.replicate n [], niov := 0, liov := 0, cliov := 0,
    ciov := n }

/-- A descriptor that takes every byte offered. -/
def dev_ready : Dev := { script := [], out := [], calls := 0 }

/-- Example state: the buffer after `reserve`, a three-byte `write`, `flush` and
`chunked` on four slots. -/
def wrw_ex_chunked : Wrw :=
  { wfd := some 3, werr := 0, iov := ["abc".toList, [], [], []], niov := 1, liov := 0,
    cliov := 0, ciov := 0 }

/-- Example state: the buffer after `reserve` and `write_header` of `Host: x` with the
suffix CR LF on four slots. -/
def wrw_ex_header : Wrw :=
  { wfd := some 3, werr := 0, iov := ["Host: x".toList, "\r\n".toList, [], []], niov := 2,
    liov := 9, cliov := 0, ciov := 4 }

/-- Value of one hexadecimal digit, either case. -/
def hexVal (c : Char) : Option Nat :=
  if 48 ≤ c.toNat ∧ c.toNat ≤ 57 then some (c.toNat - 48)
  else if 97 ≤ c.toNat ∧ c.toNat ≤ 102 then some (c.toNat - 87)
  else if 65 ≤ c.toNat ∧ c.toNat ≤ 70 then some (c.toNat - 55)
  else none

/-- Read hexadecimal digits from the front of a text: the value read (on top of `acc`)
and the text that follows the digits. -/
def readHex : List Char → Nat → Nat × List Char
  | [], acc => (acc, [])
  | c :: cs, acc =>
    match hexVal c with
    | some v => readHex cs (16 * acc + v)
    | none => (acc, c :: cs)

/-- Read one chunk-size line `1*HEXDIG CR LF`: the size and the text after the line. -/
def readSizeLine (s : List Char) : Option (Nat × List Char) :=
  match s with
  | [] => none
  | c :: _ =>
    if (hexVal c).isNone then none
    else
      match readHex s 0 with
      | (n, '\r' :: '\n' :: rest) => some (n, rest)
      | _ => none

/-- Decoder of the chunked transfer coding without extensions and trailers,
`*(size CR LF data CR LF) "0" CR LF CR LF`: the payload, or `none` if the text is not
such a stream.  At most `fuel` chunks are read. -/
def dechunkAux : Nat → List Char → Option (List Char)
  | 0, _ => none
  | fuel + 1, s =>
    match readSizeLine s with
    | none => none
    | some (n, rest) =>
      if n = 0 then
        if rest = ['\r', '\n'] then some [] else none
      else if rest.length < n + 2 then none
      else if (rest.drop n).take 2 ≠ ['\r', '\n'] then none
      else
        match dechunkAux fuel (rest.drop (n + 2)) with
        | none => none
        | some p => some (rest.take n ++ p)

/-- Strip the chunked framing from a complete stream. -/
def dechunk (s : List Char) : Option (List Char) := dechunkAux s.length s

/-- One chunk as `WRW_Flush` frames it: head, payload, CR LF. -/
def encChunk (c : List Char) : List Char :=
  chunk_head (c.length : Int) ++ (c ++ ['\r', '\n'])

/-- The framed chunks of a list of payload pieces. -/
def encChunks : List (List Char) → List Char
  | [] => []
  | c :: cs => encChunk c ++ encChunks cs

/-- A descriptor whose scripted writes all make progress (each takes at least one byte)
and during whose writes the send timeout never expires. -/
def GoodScript (script : List WStep) : Prop :=
  ∀ s ∈ script, 0 < s.ret ∧ s.expired = false

/-- A buffer outside chunked mode on an open descriptor that takes all bytes, with no
error latched and room for chunked framing; `target` is what the descriptor will have
received once the pending bytes are flushed. -/
def PlainSt (w : Wrw) (d : Dev) (target : List Char) : Prop :=
  (∃ fd, w.wfd = some fd ∧ 0 ≤ fd) ∧ w.werr = 0 ∧ 3 ≤ w.siov ∧ GoodScript d.script ∧
    w.niov ≤ w.siov ∧ w.ciov = w.siov ∧ w.liov = (iov_total w.used : Int) ∧
    d.out ++ iov_bytes w.used = target

/-- A buffer in chunked mode on such a descriptor: the vector is `pre` (bytes written
before `chunked`), the reserved slot, the pieces `cur` of the current chunk and unused
slots; what was sent and `pre` make up `base` followed by complete chunks, and the
chunks sent and `cur` make up the payload `pay` written so far. -/
def ChunkSt (w : Wrw) (d : Dev) (base pay : List Char) : Prop :=
  (∃ fd, w.wfd = some fd ∧ 0 ≤ fd) ∧ w.werr = 0 ∧ 3 ≤ w.siov ∧ GoodScript d.script ∧
    ∃ (pre : List Iovec) (s0 : Iovec) (cur stale : List Iovec) (chunks : List (List Char)),
      w.iov = pre ++ s0 :: (cur ++ stale) ∧ w.ciov = pre.length ∧
      w.niov = pre.length + 1 + cur.length ∧ stale ≠ [] ∧
      w.cliov = (iov_total cur : Int) ∧
      w.liov = (iov_total pre : Int) + (iov_total cur : Int) ∧
      (∀ c ∈ chunks, c ≠ []) ∧
      d.out ++ iov_bytes pre = base ++ encChunks chunks ∧
      chunks.flatten ++ iov_bytes cur = pay

/-- What a caller does between `WRW_Chunked` and `WRW_EndChunk`: write a piece of the
body, or flush explicitly. -/
inductive ChunkOp where
  | write (b : List Char)
  | flush
deriving DecidableEq, Repr

/-- Run one such operation: `WRW_Write(wrk, b, len(b))` or `WRW_Flush(wrk)`. -/
def ChunkOp.run : ChunkOp → Wrw → Dev → Option (Wrw × Dev)
  | .write b, w, d =>
    match WRW_Write w d b b.length with
    | none => none
    | some (w1, d1, _) => some (w1, d1)
  | .flush, w, d =>
    match WRW_Flush w d with
    | none => none
    | some (w1, d1, _) => some (w1, d1)

/-- Run a sequence of such operations. -/
def run_ops : List ChunkOp → Wrw → Dev → Option (Wrw × Dev)
  | [], w, d => some (w, d)
  | op :: ops, w, d =>
    match op.run w d with
    | none => none
    | some (w1, d1) => run_ops ops w1 d1

/-- The body bytes written by a sequence of operations, `b1 ++ ... ++ bn`. -/
def payload : List ChunkOp → List Char
  | [] => []
  | .write b :: ops => b ++ payload ops
  | .flush :: ops => payload ops

/-- A chunked response body: `WRW_Chunked`, the operations, `WRW_EndChunk` and a final
`WRW_Flush`. -/
def chunked_body (w : Wrw) (d : Dev) (ops : List ChunkOp) : Option (Wrw × Dev) :=
  match WRW_Chunked w d with
  | none => none
  | some (w1, d1) =>
    match run_ops ops w1 d1 with
    | none => none
    | some (w2, d2) =>
      match WRW_EndChunk w2 d2 with
      | none => none
      | some (w3, d3) =>
        match WRW_Flush w3 d3 with
        | none => none
        | some (w4, d4, _) => some (w4, d4)

/-- Example state: a four-slot buffer just bound to descriptor 3. -/
def wrw_ex_reserved : Wrw :=
  { wfd := some 3, werr := 0, iov := [[], [], [], []], niov := 0, liov := 0, cliov := 0,
    ciov := 4 }

/-- Example state: a two-slot buffer just bound to descriptor 3. -/
def wrw_ex_two_slots : Wrw :=
  { wfd := some 3, werr := 0, iov := [[], []], niov := 0, liov := 0, cliov := 0, ciov := 2 }

/-- Example descriptor: the first `writev` takes one byte and the send timeout has
expired when the clock is read after it; every later `writev` takes all bytes. -/
def dev_slow : Dev := { script := [{ ret := 1, expired := true }], out := [], calls := 0 }

/-- Example descriptor: the first two `writev` calls take four bytes and one byte. -/
def dev_short : Dev :=
  { script := [{ ret := 4, expired := false }, { ret := 1, expired := false }], out := [],
    calls := 0 }

/-- The engine states reachable from `e0` by running state handlers, whatever the code
outside the three files hands back. -/
inductive EngReach (P : Params) (e0 : Eng) : Eng → Prop
  | start : EngReach P e0 e0
  | handler (e : Eng) (env : Env) (res : CntResult) :
      EngReach P e0 e → cnt_dispatch P env e = some res → EngReach P e0 res.eng

/-- The engine state in which `cnt_loop` leaves a run (the state it started from when
the run fails an assertion). -/
def eng_after (P : Params) (envs : List Env) (e : Eng) : Eng :=
  match cnt_loop P envs e with
  | some res => res.eng
  | none => e

/-- Example parameters: one restart allowed. -/
def params_ex : Params :=
  { sess_workspace := 65536, http_max_hdr := 64, max_sess := 100000, max_restarts := 1,
    http_gzip_support := true, timeout_idle := 5, timeout_linger := 1, timeout_req := 2,
    lru_timeout := 2, shortlived := 10, wthread_stats_rate := 10 }

/-- Example session: open on descriptor 7, holding a zeroed request record, about to
enter START. -/
def sess_ex : Sess :=
  { ses_setup { addr := 4096, workspace := 65536, nhttp := 64, wsp := 8192, http0 := 4608,
                http1 := 6400 } with
    fd := 7, step := Step.START, req := some Req.zero, wrk := true
    t_open := some 0, t_idle := some 0, t_req := some 0
    addr := "192.0.2.1", port := "4711" }

/-- Example worker: idle, holding a policy reference. -/
def worker_ex : Worker :=
  { obj := none, busyobj := none, objcore := none, vcl := true, stats := WrkStats.zero,
    acct_tmp := Acct.zero, res_mode := ResMode.zero, storage_hint := false, sctx := false }

/-- Example engine state: `sess_ex` on `worker_ex`, the XID counter at 1000. -/
def eng_ex_start : Eng :=
  { sp := sess_ex, wrk := worker_ex
    pp := { pool := true, freelist := [], nsess := 1, dly_free_cnt := 0 }
    xids := 1000
    vsc := { client_drop_late := 0, backend_retry := 0, sessmem_size := 0 }
    vbo_gets := 0, vbo_derefs := 0, fetchhdr_calls := 0 }

/-- An object found in the cache. -/
def obj_ex : Obj := { Obj.new (some { busy := false, pass := false }) with len := 5, xid := 17 }

/-- A request that is parsed, looked up, found in the cache and restarted by the policy
in HIT. -/
def envs_hit_restart : List Env :=
  [{ }, { handling := Handling.LOOKUP }, { lookup := LookupRes.hit obj_ex },
   { handling := Handling.RESTART }]

/-- A request that misses the cache and is restarted by the policy in FETCH after the
backend has answered with status 200. -/
def envs_fetch_restart : List Env :=
  [{ }, { handling := Handling.LOOKUP }, { lookup := LookupRes.busy false },
   { handling := Handling.FETCH }, { handling := Handling.RESTART, beresp_status := 200 }]

/-- A request that cannot be parsed (`http_DissectRequest` answers 413), for whose
error response no object can be allocated. -/
def envs_error_no_storage : List Env :=
  [{ dissect := 413 }, { stv1 := false, stv2 := false }]

/-- The environment of a handler that gets the default answers. -/
def env_default : Env := { }

/-- The rule for a handler result that gives up the worker with the session alive: the
session is parked in WAIT or in LOOKUP, or it is an ESI child (`esi_level > 0`) at DONE. -/
def YieldRule (res : CntResult) : Prop :=
  ∀ e1, res = CntResult.yield e1 →
    e1.sp.step = Step.WAIT ∨ e1.sp.step = Step.LOOKUP ∨
      (e1.sp.step = Step.DONE ∧ ∃ r, e1.sp.req = some r ∧ 0 < r.esi_level)

/-- A process run as the XID counter sees it: state handlers run one after the other,
each on the session and worker it is called for, all on the one counter `xids` (the
`xids` field of the listed states is not used).  Returns the counter at the end and the
XIDs assigned by the START handlers, in the order of assignment. -/
def xid_run (P : Params) : List (Env × Eng) → Nat → Option (Nat × List Nat)
  | [], x => some (x, [])
  | (env, e) :: rest, x =>
    match cnt_dispatch P env { e with xids := x } with
    | none => none
    | some res =>
      match xid_run P rest res.eng.xids with
      | none => none
      | some (x1, l) =>
        some (x1,
          if e.sp.step = Step.START then
            (match res.eng.sp.req with
              | some r => r.xid
              | none => 0) :: l
          else l)

/-- Example: a session waiting in WAIT. -/
def eng_ex_wait : Eng :=
  { eng_ex_start with sp := { sess_ex with step := Step.WAIT } }

/-- The request of `eng_ex_start` after the run `envs_hit_restart`. -/
def req_ex_restarted : Req :=
  { Req.zero with
    xid := 1001, restarts := 1, handling := Handling.RESTART, vcl := true, wantbody := true }

/-- Example: an ESI child request (`esi_level = 1`) entering the engine at RECV. -/
def eng_ex_esi_child : Eng :=
  { eng_ex_start with
    sp := { sess_ex with
      step := Step.RECV
      req := some { Req.zero with xid := 1001, vcl := true, esi_level := 1 } }
    wrk := { worker_ex with vcl := false } }

/-- A request that is looked up, found in the cache and delivered. -/
def envs_hit_deliver : List Env :=
  [{ handling := Handling.LOOKUP }, { lookup := LookupRes.hit obj_ex }, { }, { }, { }, { }]

/-- The free-or-recycle test of `SES_Delete`: the block was allocated with another
workspace size or header count than the parameters now ask for, or the pool is over
`max_sess`. -/
def ses_must_free (P : Params) (pp : Sesspool) (sm : SmHdr) : Prop :=
  sm.workspace ≠ P.sess_workspace ∨ sm.nhttp ≠ P.http_max_hdr % 65536 ∨
    pp.nsess > P.max_sess

/-- The block a session lives in and the pointers `ses_setup` derives from it: workspace
base and size, `sp->http`, `sp->http0`. -/
def Sess.block_ptrs (sp : Sess) : SmHdr × Nat × Nat × Nat × Nat :=
  (sp.mem, sp.ws_base, sp.ws_size, sp.http, sp.http0)

/-- The pointers of a session are those `ses_setup` derived from its block. -/
def SessOfBlock (sp : Sess) : Prop :=
  sp.ws_base = sp.mem.wsp ∧ sp.ws_size = sp.mem.workspace ∧ sp.http = sp.mem.http0 ∧
    sp.http0 = sp.mem.http1

/-- The states a request passes between RECV and PREPRESP when it does not go through
ERROR. -/
def Step.recv_to_prepresp : Step → Bool
  | Step.LOOKUP => true
  | Step.HIT => true
  | Step.MISS => true
  | Step.PASS => true
  | Step.FETCH => true
  | Step.FETCHBODY => true
  | Step.PREPRESP => true
  | _ => false

/-- In the states between RECV and PREPRESP, `wantbody` is what RECV derived from the
request method: false exactly for HEAD. -/
def WantBodyInv (e : Eng) : Prop :=
  e.sp.step.recv_to_prepresp = true →
    e.sp.req.map Req.wantbody = some (!e.sp.http_req.is_head)

/-- The engine states reachable from `e0` by running state handlers other than the one
of state `s`. -/
inductive EngReachAvoiding (P : Params) (s : Step) (e0 : Eng) : Eng → Prop
  | start : EngReachAvoiding P s e0 e0
  | handler (e : Eng) (env : Env) (res : CntResult) :
      EngReachAvoiding P s e0 e → e.sp.step ≠ s → cnt_dispatch P env e = some res →
      EngReachAvoiding P s e0 res.eng

/-- A HEAD request as `http_DissectRequest` leaves it in `sp->http`. -/
def env_head : Env :=
  { http := { is_head := true, protover := 11, conds := false, expect := none } }

/-- A HEAD request that is looked up and found in the cache; the run ends in front of
PREPRESP. -/
def envs_head_hit : List Env :=
  [env_head, { handling := Handling.LOOKUP }, { lookup := LookupRes.hit obj_ex }, { }]

/-- A HEAD request for which the policy answers `error` in RECV and `deliver` in ERROR;
the run ends in front of PREPRESP. -/
def envs_head_error : List Env :=
  [env_head, { handling := Handling.ERROR, vcl_err_code := some 403 }, { }]

/-- An empty object in the cache, stored gzip'ed and with ESI instructions. -/
def obj_ex_empty : Obj :=
  { Obj.new (some { busy := false, pass := false }) with gziped := true, esidata := true }

/-- A request that finds `obj_ex_empty` in the cache; the run ends in front of
PREPRESP. -/
def envs_hit_empty : List Env :=
  [{ }, { handling := Handling.LOOKUP }, { lookup := LookupRes.hit obj_ex_empty }, { }]

/-- A request that misses the cache and whose fetch the policy wants streamed; the run
ends in front of PREPRESP, the body not yet fetched. -/
def envs_miss_stream : List Env :=
  [{ }, { handling := Handling.LOOKUP }, { lookup := LookupRes.busy false },
   { handling := Handling.FETCH }, { handling := Handling.DELIVER, vcl_do_stream := true },
   { }]

/-- A gzip'ed object of five bytes in the cache. -/
def obj_ex_gzip : Obj :=
  { Obj.new (some { busy := false, pass := false }) with len := 5, gziped := true }

/-- An HTTP/1.0 request that finds `obj_ex_gzip` in the cache and does not accept gzip;
the run ends in front of PREPRESP. -/
def envs_http10_gunzip : List Env :=
  [{ http := { is_head := false, protover := 10, conds := false, expect := none } },
   { handling := Handling.LOOKUP }, { lookup := LookupRes.hit obj_ex_gzip }, { }]

/-- A request with an `Expect` header that is not `100-continue`. -/
def env_expect_other : Env :=
  { http := { is_head := false, protover := 11, conds := false, expect := some "200-ok" } }

/-- A request that misses the cache; the backend answers and the policy asks for
delivery; the run ends in front of FETCHBODY. -/
def envs_miss_fetch : List Env :=
  [{ }, { handling := Handling.LOOKUP }, { lookup := LookupRes.busy false },
   { handling := Handling.FETCH }, { }]

/-- The run `envs_miss_fetch`, followed by a FETCHBODY and an ERROR that both find no
storage for an object. -/
def envs_miss_no_storage : List Env :=
  envs_miss_fetch ++ [{ stv1 := false, stv2 := false }, { stv1 := false, stv2 := false }]

/-- A request that is served from the cache; the run ends in front of DONE. -/
def envs_hit_done : List Env :=
  [{ }, { handling := Handling.LOOKUP }, { lookup := LookupRes.hit obj_ex }, { }, { }, { }]

/-- Modelled from the spec: whether a flush with `p` bytes pending latches an error on a
descriptor with the given script.  It does when a write returns `<= 0`, or when a short
write is followed by the send timeout having expired; it does not when a write takes all
the bytes still pending. -/
def flush_fails : List WStep → Nat → Bool
  | [], _ => false
  | s :: rest, p =>
    if s.ret ≤ 0 then true
    else if p ≤ s.ret.toNat then false
    else if s.expired then true
    else flush_fails rest (p - s.ret.toNat)

/-- The slot discipline of chunked mode: the reserved head slot is among the slots in
use and one slot stays free for the chunk tail. -/
def ChunkSlotInv (w : Wrw) : Prop :=
  w.ciov < w.siov → w.ciov < w.niov ∧ w.niov < w.siov

/-- One call on a bound buffer. -/
inductive WrwOp where
  | write (ptr : List Char) (len : Int)
  | write_header (hh : List Char) (suf : Option (List Char))
  | chunked
  | flush
  | end_chunk
deriving DecidableEq, Repr

/-- Run one call; the values returned by `WRW_Write`, `WRW_WriteH` and `WRW_Flush` are
dropped. -/
def WrwOp.run : WrwOp → Wrw → Dev → Option (Wrw × Dev)
  | .write ptr len, w, d => (WRW_Write w d ptr len).map (fun r => (r.1, r.2.1))
  | .write_header hh suf, w, d => (WRW_WriteH w d hh suf).map (fun r => (r.1, r.2.1))
  | .chunked, w, d => WRW_Chunked w d
  | .flush, w, d => (WRW_Flush w d).map (fun r => (r.1, r.2.1))
  | .end_chunk, w, d => WRW_EndChunk w d

/-- Run a sequence of calls, stopping at the first that does not return. -/
def wrw_run : List WrwOp → Wrw → Dev → Option (Wrw × Dev)
  | [], w, d => some (w, d)
  | op :: ops, w, d =>
    match op.run w d with
    | none => none
    | some (w1, d1) => wrw_run ops w1 d1

/-- The calling protocol of the buffer, `active` telling whether a chunk is open:
`WRW_Chunked` is called with no chunk open, `WRW_EndChunk` with one open, and a write
passes `len = -1` or a length within the bytes at `ptr`. -/
def ops_ok : Bool → List WrwOp → Bool
  | _, [] => true
  | a, .write ptr len :: ops => decide (-1 ≤ len ∧ len ≤ (ptr.length : Int)) && ops_ok a ops
  | a, .write_header _ _ :: ops => ops_ok a ops
  | a, .chunked :: ops => !a && ops_ok true ops
  | a, .flush :: ops => ops_ok a ops
  | a, .end_chunk :: ops => a && ops_ok false ops

/-- Example state: a five-slot buffer just bound to descriptor 3. -/
def wrw_ex_five_slots : Wrw :=
  { wfd := some 3, werr := 0, iov := [[], [], [], [], []], niov := 0, liov := 0, cliov := 0,
    ciov := 5 }

/-- Example state: a one-slot buffer just bound to descriptor 3. -/
def wrw_ex_one_slot : Wrw :=
  { wfd := some 3, werr := 0, iov := [[]], niov := 0, liov := 0, cliov := 0, ciov := 1 }

/-- Example descriptor: the first `writev` takes two bytes, the second fails. -/
def dev_failing : Dev :=
  { script := [{ ret := 2, expired := false }, { ret := -1, expired := false }], out := [],
    calls := 0 }

/-- A request that misses the cache; the run ends in front of MISS. -/
def envs_to_miss : List Env :=
  [{ }, { handling := Handling.LOOKUP }, { lookup := LookupRes.busy false }]

/-- A request that misses the cache and is to be fetched; the run ends in front of
FETCH. -/
def envs_to_fetch : List Env :=
  [{ }, { handling := Handling.LOOKUP }, { lookup := LookupRes.busy false },
   { handling := Handling.FETCH }]

/-- A request that the policy hands to PIPE; the run ends in front of DONE. -/
def envs_pipe : List Env :=
  [{ }, { handling := Handling.PIPE }, { handling := Handling.PIPE }]

/-- A request that the policy hands to PASS, fetched from the backend and delivered; the
run ends in front of DONE. -/
def envs_pass : List Env :=
  [{ }, { handling := Handling.PASS }, { handling := Handling.PASS }, { }, { }, { }, { }]

/-- A request that `http_DissectRequest` answers with 413; the run ends in front of
ERROR. -/
def envs_to_error : List Env := [{ dissect := 413 }]

/-- Example state: `wrw_ex_header` after a flush whose only `writev` failed: the error
is latched, the vector is empty. -/
def wrw_ex_latched : Wrw :=
  { wfd := some 3, werr := 1, iov := ["Host: x".toList, "\r\n".toList, [], []], niov := 0,
    liov := 0, cliov := 0, ciov := 4 }

/-- Example state: `wrw_ex_latched` after a write, a chunk with a write and a flush, and
the end of the chunk. -/
def wrw_ex_latched_end : Wrw :=
  { wfd := some 3, werr := 1, iov := ["0\r\n\r\n".toList, "de".toList, [], []], niov := 1,
    liov := 5, cliov := 0, ciov := 4 }

/-- A bound buffer with room for chunked framing, between two calls; `active` tells
whether a chunk is open. -/
def WrwOk (w : Wrw) (active : Bool) : Prop :=
  w.wfd.isSome = true ∧ 3 ≤ w.siov ∧ WrwInv w ∧ ChunkSlotInv w ∧
    (active = true → w.ciov < w.siov) ∧ (active = false → w.ciov = w.siov)

/-- Entry condition of `cnt_error`: no object and no busy object, with storage for an
object at hand, or an object together with a busy object. -/
def error_entry (env : Env) (e : Eng) : Prop :=
  (e.wrk.obj = none ∧ e.wrk.busyobj = none ∧ (env.stv1 = true ∨ env.stv2 = true)) ∨
    (e.wrk.obj.isSome = true ∧ e.wrk.busyobj.isSome = true)

/-- The chunk length of chunked mode: `cliov` is the number of bytes in the slots behind
the reserved head slot. -/
def ChunkLenInv (w : Wrw) : Prop :=
  w.ciov < w.siov → w.cliov = (iov_total (w.used.drop (w.ciov + 1)) : Int)

/-- Example state: `wrw_ex_chunked` after a write of five bytes. -/
def wrw_ex_chunk_hello : Wrw :=
  { wfd := some 3, werr := 0, iov := ["abc".toList, "hello".toList, [], []], niov := 2,
    liov := 5, cliov := 5, ciov := 0 }

/-- Example state: `wrw_ex_five_slots` after a write of two bytes and `chunked`, which
with four free slots does not flush. -/
def wrw_ex_plain_then_chunk : Wrw :=
  { wfd := some 3, werr := 0, iov := ["ab".toList, [], [], [], []], niov := 2, liov := 2,
    cliov := 0, ciov := 1 }

/-- Example engine state: a session fresh from the acceptor, without request record,
about to enter FIRST. -/
def eng_ex_first : Eng :=
  { eng_ex_start with sp := { sess_ex with step := Step.FIRST, req := none } }

/-- A fresh session whose client closes the connection before sending a request: FIRST,
then WAIT with `HTC_Rx` reporting EOF. -/
def envs_first_eof : List Env :=
  [{ }, { wakeups := [{ poll := 1, now := 1, htc := -1 }] }]

/-- The wake-ups on which the `poll` loop of `cnt_wait` calls `SES_Delete`: EOF, overflow,
idle timeout, request timeout. -/
def wait_deletes (P : Params) (w : Wakeup) (e : Eng) : Prop :=
  0 ≤ w.poll ∧
    (w.htc = -1 ∨ w.htc = -2 ∨
      (w.htc = -3 ∧ ∃ t, e.sp.t_idle = some t ∧ dadd t P.timeout_idle < w.now) ∨
      (w.htc ≠ 1 ∧ w.htc ≠ -1 ∧ w.htc ≠ -2 ∧ w.htc ≠ -3 ∧
        ∃ t, e.sp.t_req = some t ∧ dadd t P.timeout_req < w.now))

/-- The value of `busyobj->do_stream` when `cnt_fetchbody` tests it, after the decisions
about ESI, the body and a conditional request have been made. -/
def fetchbody_streams (P : Params) (env : Env) (e : Eng) (r : Req) (b : BusyObj) : Bool :=
  (fetchbody_stream P r env.stv1 b).do_stream &&
    !(decide (r.err_code = 200) && e.sp.http_req.conds && env.do_cond)

/-- A request that the policy hands to PASS and whose fetch it wants streamed; the run
ends in front of STREAMBODY. -/
def envs_pass_streambody : List Env :=
  [{ }, { handling := Handling.PASS }, { handling := Handling.PASS },
   { vcl_do_stream := true }, { }, { }]

/-- A request that misses the cache and whose fetch the policy wants streamed; the run
ends in front of STREAMBODY. -/
def envs_miss_streambody : List Env := envs_miss_stream ++ [env_default]

/-- A request with the header `Expect: 100-Continue`. -/
def env_expect_continue : Env :=
  { http := { is_head := false, protover := 11, conds := false,
              expect := some "100-Continue" } }

/-- Example: a session waiting in WAIT whose idle time stamp is `2 ^ 53 + 2`, where
consecutive `double` values are 2 apart. -/
def eng_ex_wait_late : Eng :=
  { eng_ex_start with
    sp := { sess_ex with step := Step.WAIT, t_idle := some 9007199254740994 } }

/-- A wake-up at time `2 ^ 53 + 8` on which `poll` reports that the time is up and
`HTC_Complete` that nothing but white space has arrived. -/
def wakeup_late : Wakeup := { poll := 0, now := 9007199254741000, htc := -3 }

/-! ## Theorems -/

theorem iov_total_append (a b : List Iovec) :
    iov_total (a ++ b) = iov_total a + iov_total b := by
  induction a with
  | nil => simp [iov_total]
  | cons e es ih => simp [iov_total, ih, Nat.add_assoc]

theorem iov_bytes_append (a b : List Iovec) :
    iov_bytes (a ++ b) = iov_bytes a ++ iov_bytes b := by
  induction a with
  | nil => simp [iov_bytes]
  | cons e es ih => simp [iov_bytes, ih]

theorem iov_bytes_length (a : List Iovec) : (iov_bytes a).length = iov_total a := by
  induction a with
  | nil => simp [iov_bytes, iov_total]
  | cons e es ih => simp [iov_bytes, iov_total, ih]

/-- What the scan of `wrw_prune` finds when the cut lies inside the vector. -/
theorem wrw_prune_scan_eq (bytes : Int) :
    ∀ (es : List Iovec) (j : Nat) (used : Int), used ≤ bytes →
      bytes - used < (iov_total es : Int) →
      wrw_prune_scan bytes es j used =
        some (j + fullyConsumed (bytes - used).toNat es,
          used + (iov_total (es.take (fullyConsumed (bytes - used).toNat es)) : Int)) := by
  intro es
  induction es with
  | nil => intro j used h1 h2; simp [iov_total] at h2; omega
  | cons e es ih =>
    intro j used h1 h2
    unfold wrw_prune_scan
    by_cases hc : used + (e.length : Int) > bytes
    · have hle : ¬ e.length ≤ (bytes - used).toNat := by omega
      simp [hc, fullyConsumed, hle, iov_total]
    · have hle : e.length ≤ (bytes - used).toNat := by omega
      simp only [hc, if_false, fullyConsumed, hle, if_true]
      have h3 : bytes - (used + (e.length : Int)) < (iov_total es : Int) := by
        simp [iov_total] at h2; omega
      rw [ih (j + 1) (used + e.length) (by omega) h3]
      have h4 : (bytes - (used + (e.length : Int))).toNat = (bytes - used).toNat - e.length := by
        omega
      rw [h4]
      simp [iov_total]
      constructor <;> omega

/-- The entry in which a cut after `k` bytes falls, when `k` is less than the total. -/
theorem fullyConsumed_cut :
    ∀ (es : List Iovec) (k : Nat), k < iov_total es →
      ∃ e rest, es.drop (fullyConsumed k es) = e :: rest ∧
        iov_total (es.take (fullyConsumed k es)) ≤ k ∧
        k - iov_total (es.take (fullyConsumed k es)) < e.length ∧
        (iov_bytes es).drop k =
          e.drop (k - iov_total (es.take (fullyConsumed k es))) ++ iov_bytes rest := by
  intro es
  induction es with
  | nil => intro k h; simp [iov_total] at h
  | cons e es ih =>
    intro k h
    by_cases hle : e.length ≤ k
    · have h2 : k - e.length < iov_total es := by simp [iov_total] at h; omega
      obtain ⟨e1, rest, h3, h4, h5, h6⟩ := ih (k - e.length) h2
      refine ⟨e1, rest, ?_, ?_, ?_, ?_⟩
      · simp [fullyConsumed, hle, h3]
      · simp [fullyConsumed, hle, iov_total]; omega
      · simp [fullyConsumed, hle, iov_total]; omega
      · simp only [fullyConsumed, hle, if_true, iov_bytes, List.take_succ_cons, iov_total]
        rw [List.drop_append_eq_append_drop, List.drop_of_length_le hle, List.nil_append, h6]
        congr 2
        omega
    · refine ⟨e, es, ?_, ?_, ?_, ?_⟩
      · simp [fullyConsumed, hle]
      · simp [fullyConsumed, hle, iov_total]
      · simp [fullyConsumed, hle, iov_total]; omega
      · simp only [fullyConsumed, hle, if_false, iov_bytes, List.take_zero, iov_total,
          Nat.sub_zero]
        rw [List.drop_append_eq_append_drop]
        have : k - e.length = 0 := by omega
        simp [this]

theorem fullyConsumed_le_length : ∀ (es : List Iovec) (k : Nat), fullyConsumed k es ≤ es.length := by
  intro es
  induction es with
  | nil => intro k; simp [fullyConsumed]
  | cons e es ih =>
    intro k
    by_cases hle : e.length ≤ k
    · simp [fullyConsumed, hle]; exact ih _
    · simp [fullyConsumed, hle]

theorem used_length (w : Wrw) (hn : w.niov ≤ w.siov) : w.used.length = w.niov := by
  simp [Wrw.used, Wrw.siov] at *; exact hn

/-- The effect of `wrw_prune` on a consistent vector, for a cut strictly inside it. -/
theorem wrw_prune_eq (w : Wrw) (k : Nat) (hn : w.niov ≤ w.siov)
    (hl : w.liov = (iov_total w.used : Int)) (hk : (k : Int) < w.liov) :
    ∃ w1 e rest, wrw_prune w k = some w1 ∧
      w.used.drop (fullyConsumed k w.used) = e :: rest ∧
      w1.used = e.drop (k - iov_total (w.used.take (fullyConsumed k w.used))) :: rest ∧
      w1.niov = w.niov - fullyConsumed k w.used ∧
      w1.liov = w.liov - k ∧
      w1.siov = w.siov ∧ w1.wfd = w.wfd ∧ w1.werr = w.werr ∧ w1.ciov = w.ciov ∧
      w1.cliov = w.cliov := by
  have hk2 : k < iov_total w.used := by omega
  obtain ⟨e, rest, h1, h2, h3, _⟩ := fullyConsumed_cut w.used k hk2
  have hscan := wrw_prune_scan_eq (k : Int) w.used 0 0 (by omega) (by omega)
  simp only [Int.sub_zero, Int.toNat_ofNat, Nat.zero_add, Int.zero_add] at hscan
  have hlen := used_length w hn
  have hj := fullyConsumed_le_length w.used k
  have hrest : (e :: rest).length = w.niov - fullyConsumed k w.used := by
    rw [← h1, List.length_drop, hlen]
  have hd : (((k : Int) - (iov_total (List.take (fullyConsumed k w.used) w.used) : Int)).toNat)
      = k - iov_total (w.used.take (fullyConsumed k w.used)) := by omega
  refine ⟨{ w with
      iov := (e.drop (k - iov_total (w.used.take (fullyConsumed k w.used))) :: rest)
        ++ w.iov.drop (w.niov - fullyConsumed k w.used)
      niov := w.niov - fullyConsumed k w.used
      liov := w.liov - k }, e, rest, ?_, h1, ?_, rfl, rfl, ?_, rfl, rfl, rfl, rfl⟩
  · unfold wrw_prune
    have h4 : ¬ w.siov < w.niov := by omega
    simp only [h4, if_false, hscan, h1, hd]
    simp
  · show List.take _ _ = _
    rw [List.take_append_of_le_length (by simp at hrest ⊢; omega)]
    apply List.take_of_length_le
    simp at hrest ⊢; omega
  · show List.length _ = w.iov.length
    simp only [List.length_append, List.length_cons, List.length_drop]
    simp only [List.length_cons] at hrest
    have : w.niov ≤ w.iov.length := hn
    omega

/-- Fields that `wrw_prune` leaves alone. -/
theorem wrw_prune_pres (w w1 : Wrw) (b : Int) (h : wrw_prune w b = some w1) :
    w1.siov = w.siov ∧ w1.ciov = w.ciov ∧ w1.wfd = w.wfd ∧ w1.werr = w.werr ∧
      w1.cliov = w.cliov := by
  unfold wrw_prune at h
  split at h
  · cases h
  · rename_i hn
    split at h
    · cases h
    · split at h
      · rename_i j used hs
        split at h
        · cases h
        · rename_i e es hd
          cases h
          refine ⟨?_, rfl, rfl, rfl, rfl⟩
          have hlen := used_length w (by omega)
          have h2 : (e :: es).length = w.niov - j := by
            rw [← hd, List.length_drop, hlen]
          show List.length _ = w.iov.length
          simp only [List.length_append, List.length_cons, List.length_drop]
          simp only [List.length_cons] at h2
          have : w.niov ≤ w.iov.length := by simp [Wrw.siov] at hn; exact hn
          omega
      · split at h
        · cases h; exact ⟨rfl, rfl, rfl, rfl, rfl⟩
        · cases h

/-- Fields that the retry loop leaves alone. -/
theorem wrw_retry_pres : ∀ (fuel : Nat) (w : Wrw) (d : Dev) (i : Int) (e : Bool)
    (w1 : Wrw) (d1 : Dev) (i1 : Int), wrw_retry fuel w d i e = some (w1, d1, i1) →
    w1.siov = w.siov ∧ w1.ciov = w.ciov ∧ w1.wfd = w.wfd ∧ w1.werr = w.werr := by
  intro fuel
  induction fuel with
  | zero => intro w d i e w1 d1 i1 h; simp [wrw_retry] at h
  | succ n ih =>
    intro w d i e w1 d1 i1 h
    unfold wrw_retry at h
    split at h
    · split at h
      · cases h; exact ⟨rfl, rfl, rfl, rfl⟩
      · split at h
        · cases h
        · rename_i w2 hp
          obtain ⟨p1, p2, p3, p4, _⟩ := wrw_prune_pres w w2 i hp
          obtain ⟨q1, q2, q3, q4⟩ := ih _ _ _ _ _ _ _ h
          exact ⟨q1.trans p1, q2.trans p2, q3.trans p3, q4.trans p4⟩
    · cases h; exact ⟨rfl, rfl, rfl, rfl⟩

/-- Fields that composing the chunk frame leaves alone. -/
theorem wrw_frame_pres (w w1 : Wrw) (h : wrw_frame w = some w1) :
    w1.siov = w.siov ∧ w1.ciov = w.ciov ∧ w1.wfd = w.wfd ∧ w1.werr = w.werr := by
  unfold wrw_frame at h
  split at h
  · split at h
    · cases h
    · cases h; exact ⟨by simp [Wrw.siov], rfl, rfl, rfl⟩
  · split at h
    · cases h; exact ⟨by simp [Wrw.siov], rfl, rfl, rfl⟩
    · cases h; exact ⟨rfl, rfl, rfl, rfl⟩

/-- Every normal return of `WRW_Flush` ends in the reset of a buffer with the same
capacity, chunk slot and descriptor. -/
theorem WRW_Flush_shape (w w1 : Wrw) (d d1 : Dev) (u : Nat)
    (h : WRW_Flush w d = some (w1, d1, u)) :
    ∃ x, w1 = wrw_reset x ∧ x.siov = w.siov ∧ x.ciov = w.ciov ∧ x.wfd = w.wfd := by
  unfold WRW_Flush at h
  split at h
  · cases h
  · split at h
    · cases h
    · split at h
      · split at h
        · cases h
        · rename_i w2 hf
          obtain ⟨f1, f2, f3, _⟩ := wrw_frame_pres w w2 hf
          split at h
          rename_i i0 e0 d2 hw
          split at h
          · cases h
          · rename_i w3 d3 i hr
            obtain ⟨r1, r2, r3, _⟩ := wrw_retry_pres _ _ _ _ _ _ _ _ hr
            cases h
            by_cases hi : i ≤ 0
            · exact ⟨{ w3 with werr := w3.werr + 1 }, by simp [hi],
                r1.trans f1, r2.trans f2, r3.trans f3⟩
            · exact ⟨w3, by simp [hi], r1.trans f1, r2.trans f2, r3.trans f3⟩
      · cases h
        exact ⟨w, rfl, rfl, rfl, rfl⟩

theorem wrw_reset_siov (x : Wrw) : (wrw_reset x).siov = x.siov := by
  unfold wrw_reset; split <;> rfl

theorem wrw_reset_inv (x : Wrw) : WrwInv (wrw_reset x) := by
  unfold wrw_reset
  split
  · rename_i h
    refine ⟨?_, ?_, ?_⟩
    · show 1 ≤ x.iov.length
      simp [Wrw.siov] at h; omega
    · intro _; show 0 < 1; omega
    · show (0 : Int) = ((iov_total (List.take 0 (List.take 1 x.iov))
        + iov_total (List.drop 1 (List.take 1 x.iov)) : Nat) : Int)
      cases x.iov <;> simp [iov_total]
  · rename_i h
    refine ⟨?_, ?_, ?_⟩
    · show 0 ≤ x.iov.length; omega
    · intro h2; exact absurd h2 h
    · simp [Wrw.pending_len, Wrw.used, iov_total]

theorem WRW_Flush_inv (w w1 : Wrw) (d d1 : Dev) (u : Nat)
    (h : WRW_Flush w d = some (w1, d1, u)) : WrwInv w1 := by
  obtain ⟨x, hx, _⟩ := WRW_Flush_shape w w1 d d1 u h
  rw [hx]; exact wrw_reset_inv x

theorem take_set_succ {α : Type} : ∀ (l : List α) (n : Nat) (a : α), n < l.length →
    (l.set n a).take (n + 1) = l.take n ++ [a] := by
  intro l
  induction l with
  | nil => intro n a h; simp at h
  | cons x xs ih =>
    intro n a h
    cases n with
    | zero => simp
    | succ m =>
      simp only [List.set_cons_succ, List.take_succ_cons, List.cons_append]
      rw [ih m a (by simpa using h)]

theorem take_set_of_le {α : Type} : ∀ (l : List α) (n m : Nat) (a : α), m ≤ n →
    (l.set n a).take m = l.take m := by
  intro l
  induction l with
  | nil => intro n m a _; simp
  | cons x xs ih =>
    intro n m a h
    cases m with
    | zero => simp
    | succ k =>
      cases n with
      | zero => omega
      | succ j =>
        simp only [List.set_cons_succ, List.take_succ_cons]
        rw [ih j k a (by omega)]

/-- Sum of the entry lengths, chunk slot left out, after one entry is appended. -/
theorem pending_len_push (w w2 : Wrw) (data : List Char) (hn : w.niov < w.siov)
    (hc : w.ciov < w.siov → w.ciov < w.niov)
    (h1 : w2.iov = w.iov.set w.niov data) (h2 : w2.niov = w.niov + 1)
    (h3 : w2.ciov = w.ciov) :
    w2.pending_len = w.pending_len + data.length := by
  have hu : w2.used = w.used ++ [data] := by
    simp only [Wrw.used, h1, h2]
    exact take_set_succ _ _ _ hn
  have hlen : w.used.length = w.niov := used_length w (by omega)
  simp only [Wrw.pending_len, hu, h3]
  by_cases hcs : w.ciov < w.siov
  · have hlt := hc hcs
    rw [List.take_append_of_le_length (by omega), List.drop_append_of_le_length (by omega),
      iov_total_append]
    simp [iov_total]; omega
  · have hge : w.siov ≤ w.ciov := by omega
    rw [List.take_of_length_le (by simp; omega), List.drop_of_length_le (by simp; omega),
      List.take_of_length_le (by omega), List.drop_of_length_le (by omega), iov_total_append]
    simp [iov_total]

theorem wrw_flush_if_inv (c : Bool) (w w1 : Wrw) (d d1 : Dev) (hI : WrwInv w)
    (h : wrw_flush_if c w d = some (w1, d1)) : WrwInv w1 := by
  unfold wrw_flush_if at h
  split at h
  · split at h
    · cases h
    · rename_i wf df uf hf
      cases h
      exact WRW_Flush_inv _ _ _ _ _ hf
  · cases h; exact hI

theorem wrw_append_inv (w w1 : Wrw) (d d1 : Dev) (data : List Char) (u : Nat)
    (hI : WrwInv w) (h : wrw_append w d data = some (w1, d1, u)) : WrwInv w1 := by
  obtain ⟨_, a2, a3⟩ := hI
  unfold wrw_append at h
  split at h
  · cases h
  · rename_i hlt
    have hlt2 : w.niov < w.siov := by omega
    split at h
    · rename_i hc
      split at h
      · cases h
      · cases h
        refine ⟨?_, ?_, ?_⟩
        · simp [Wrw.siov]; simp [Wrw.siov] at hlt2; omega
        · intro _
          show w.ciov < w.niov + 1
          have := a2 hc
          omega
        · have hp := pending_len_push w { w with
              iov := w.iov.set w.niov data
              liov := w.liov + data.length
              niov := w.niov + 1
              cliov := w.cliov + data.length } data hlt2 a2 rfl rfl rfl
          rw [hp]
          show w.liov + _ = _
          rw [a3]; push_cast; rfl
    · rename_i hc
      cases h
      refine ⟨?_, ?_, ?_⟩
      · simp [Wrw.siov]; simp [Wrw.siov] at hlt2; omega
      · intro hc2
        have : w.ciov < w.siov := by simpa [Wrw.siov] using hc2
        exact absurd this hc
      · have hp := pending_len_push w { w with
            iov := w.iov.set w.niov data
            liov := w.liov + data.length
            niov := w.niov + 1 } data hlt2 a2 rfl rfl rfl
        rw [hp]
        show w.liov + _ = _
        rw [a3]; push_cast; rfl

theorem WRW_Write_inv (w w1 : Wrw) (d d1 : Dev) (ptr : List Char) (len : Int) (u : Nat)
    (hI : WrwInv w) (h : WRW_Write w d ptr len = some (w1, d1, u)) : WrwInv w1 := by
  unfold WRW_Write at h
  split at h
  · cases h
  · split at h
    · cases h; exact hI
    · split at h
      · cases h
      · split at h
        · cases h
        · rename_i wf df hfl
          exact wrw_append_inv _ _ _ _ _ _ (wrw_flush_if_inv _ _ _ _ _ hI hfl) h

theorem WRW_WriteH_inv (w w1 : Wrw) (d d1 : Dev) (hh : List Char)
    (suf : Option (List Char)) (u : Nat)
    (hI : WrwInv w) (h : WRW_WriteH w d hh suf = some (w1, d1, u)) : WrwInv w1 := by
  unfold WRW_WriteH at h
  split at h
  · cases h
  · rename_i wa da ua ha
    have hIa := WRW_Write_inv _ _ _ _ _ _ _ hI ha
    split at h
    · cases h; exact hIa
    · split at h
      · cases h
      · rename_i wb db ub hb
        cases h
        exact WRW_Write_inv _ _ _ _ _ _ _ hIa hb

theorem wrw_reset_liov (x : Wrw) : (wrw_reset x).liov = 0 := by
  unfold wrw_reset; split <;> rfl

theorem wrw_reset_plain (x : Wrw) (h : x.siov ≤ x.ciov) :
    (wrw_reset x).ciov = x.ciov ∧ (wrw_reset x).niov = 0 := by
  unfold wrw_reset
  have : ¬ x.ciov < x.siov := by omega
  simp [this]

/-- Outside chunked mode a conditional flush leaves the buffer outside chunked mode. -/
theorem wrw_flush_if_plain (c : Bool) (w w1 : Wrw) (d d1 : Dev) (hc : w.siov ≤ w.ciov)
    (h : wrw_flush_if c w d = some (w1, d1)) :
    w1.siov = w.siov ∧ w1.ciov = w.ciov := by
  unfold wrw_flush_if at h
  split at h
  · split at h
    · cases h
    · rename_i wf df uf hf
      cases h
      obtain ⟨x, hx, x1, x2, _⟩ := WRW_Flush_shape _ _ _ _ _ hf
      rw [hx, wrw_reset_siov, (wrw_reset_plain x (by omega)).1]
      exact ⟨x1, x2⟩
  · cases h; exact ⟨rfl, rfl⟩

theorem WRW_Chunked_inv (w w1 : Wrw) (d d1 : Dev)
    (hI : WrwInv w) (h : WRW_Chunked w d = some (w1, d1)) : WrwInv w1 := by
  unfold WRW_Chunked at h
  split at h
  · cases h
  · rename_i hc
    have hc2 : w.ciov = w.siov := by simpa using hc
    split at h
    · cases h
    · rename_i wf df hfl
      obtain ⟨p1, p2⟩ := wrw_flush_if_plain _ _ _ _ _ (by omega) hfl
      obtain ⟨a1, _, a3⟩ := wrw_flush_if_inv _ _ _ _ _ hI hfl
      split at h
      · cases h
      · split at h
        · cases h
        · rename_i h1 h2
          cases h
          have hlen : wf.niov + 1 ≤ wf.iov.length := by simp [Wrw.siov] at h2; omega
          refine ⟨?_, ?_, ?_⟩
          · show wf.niov + 1 ≤ wf.iov.length; exact hlen
          · intro _; show wf.niov < wf.niov + 1; omega
          · show wf.liov = _
            rw [a3]
            simp only [Wrw.pending_len, Wrw.used]
            have e1 : List.take wf.ciov (List.take wf.niov wf.iov) = List.take wf.niov wf.iov := by
              apply List.take_of_length_le
              simp [Wrw.siov] at *; omega
            have e2 : List.drop (wf.ciov + 1) (List.take wf.niov wf.iov) = [] := by
              apply List.drop_of_length_le
              simp [Wrw.siov] at *; omega
            have e3 : List.take wf.niov (List.take (wf.niov + 1) wf.iov)
                = List.take wf.niov wf.iov := by
              rw [List.take_take]; congr 1; omega
            have e4 : List.drop (wf.niov + 1) (List.take (wf.niov + 1) wf.iov) = [] := by
              apply List.drop_of_length_le
              simp
            rw [e1, e2, e3, e4]

theorem WRW_EndChunk_inv (w w1 : Wrw) (d d1 : Dev)
    (h : WRW_EndChunk w d = some (w1, d1)) : WrwInv w1 := by
  unfold WRW_EndChunk at h
  split at h
  · cases h
  · split at h
    · cases h
    · rename_i wf df uf hf
      obtain ⟨x, hx, _⟩ := WRW_Flush_shape _ _ _ _ _ hf
      split at h
      · cases h
      · rename_i w2 d2 u2 hw
        cases h
        refine WRW_Write_inv _ _ _ _ _ _ _ ?_ hw
        refine ⟨?_, ?_, ?_⟩
        · show 0 ≤ wf.iov.length; omega
        · intro hc
          have : wf.siov < wf.siov := hc
          omega
        · show wf.liov = _
          rw [hx, wrw_reset_liov]
          simp [Wrw.pending_len, Wrw.used, iov_total]

theorem WRW_Reserve_inv (w0 w : Wrw) (fd : Int) (h : WRW_Reserve w0 fd = some w) :
    WrwInv w := by
  unfold WRW_Reserve at h
  split at h
  · cases h
  · cases h
    refine ⟨?_, ?_, ?_⟩
    · show 0 ≤ w0.iov.length; omega
    · intro hc
      have : w0.siov < w0.siov := hc
      omega
    · simp [Wrw.pending_len, Wrw.used, iov_total]

/-- The bookkeeping invariant holds in every reachable buffer state. -/
theorem WrwReach_inv (w : Wrw) (h : WrwReach w) : WrwInv w := by
  induction h with
  | reserve w0 w fd h => exact WRW_Reserve_inv w0 w fd h
  | write w w1 d d1 ptr len u _ h ih => exact WRW_Write_inv _ _ _ _ _ _ _ ih h
  | write_header w w1 d d1 hh suf u _ h ih => exact WRW_WriteH_inv _ _ _ _ _ _ _ ih h
  | chunked w w1 d d1 _ h ih => exact WRW_Chunked_inv _ _ _ _ ih h
  | flush w w1 d d1 u _ h _ => exact WRW_Flush_inv _ _ _ _ _ h
  | end_chunk w w1 d d1 _ h _ => exact WRW_EndChunk_inv _ _ _ _ h

/-- Outside chunked mode nothing is left out of the sum of the entry lengths. -/
theorem pending_len_plain (w : Wrw) (hn : w.niov ≤ w.siov) (hc : w.siov ≤ w.ciov) :
    w.pending_len = iov_total w.used := by
  have hlen := used_length w hn
  simp only [Wrw.pending_len]
  rw [List.take_of_length_le (by omega), List.drop_of_length_le (by omega)]
  simp [iov_total]

/-! ### The chunk decoder inverts the framing of `WRW_Flush` -/

theorem hexVal_hexDigit (d : Nat) (h : d < 16) : hexVal (hexDigit d) = some d := by
  interval_cases d <;> decide

theorem readHex_hexAux : ∀ (fuel n : Nat) (acc : List Char), n ≤ fuel →
    readHex (hexAux fuel n acc) 0 = readHex acc n := by
  intro fuel
  induction fuel with
  | zero =>
    intro n acc h
    have : n = 0 := by omega
    subst this
    simp [hexAux, readHex, hexVal_hexDigit 0 (by omega)]
  | succ f ih =>
    intro n acc h
    unfold hexAux
    by_cases hn : n < 16
    · simp [hn, readHex, hexVal_hexDigit n hn]
    · simp only [hn, if_false]
      rw [ih (n / 16) _ (by omega)]
      simp only [readHex, hexVal_hexDigit (n % 16) (Nat.mod_lt _ (by omega))]
      congr 1
      omega

theorem hexAux_ne_nil : ∀ (fuel n : Nat) (acc : List Char), hexAux fuel n acc ≠ [] := by
  intro fuel
  induction fuel with
  | zero => intro n acc; simp [hexAux]
  | succ f ih =>
    intro n acc
    unfold hexAux
    split
    · simp
    · exact ih _ _

theorem hexAux_append : ∀ (fuel m : Nat) (a b : List Char),
    hexAux fuel m a ++ b = hexAux fuel m (a ++ b) := by
  intro fuel
  induction fuel with
  | zero => intro m a b; simp [hexAux]
  | succ f ih =>
    intro m a b
    unfold hexAux
    split
    · simp
    · rw [ih]; simp

/-- Reading back the chunk head gives the chunk length. -/
theorem readSizeLine_chunk_head (n : Nat) (rest : List Char) :
    readSizeLine (chunk_head (n : Int) ++ rest) = some (n, rest) := by
  have h0 : hexVal '0' = some 0 := by decide
  have hr : hexVal '\r' = none := by decide
  have e1 : chunk_head (n : Int) ++ rest = '0' :: '0' :: hexAux n n ('\r' :: '\n' :: rest) := by
    simp [chunk_head, hex, hexAux_append]
  have e : readHex ('0' :: '0' :: hexAux n n ('\r' :: '\n' :: rest)) 0
      = (n, '\r' :: '\n' :: rest) := by
    simp only [readHex, h0, Nat.mul_zero, Nat.add_zero]
    rw [readHex_hexAux n n _ (Nat.le_refl n)]
    simp [readHex, hr]
  rw [e1]
  unfold readSizeLine
  simp only [h0, Option.isNone_some, Bool.false_eq_true, if_false]
  rw [e]
  rfl

theorem dechunkAux_encChunk (fuel : Nat) (c rest : List Char) (hc : c ≠ []) :
    dechunkAux (fuel + 1) (encChunk c ++ rest) =
      match dechunkAux fuel rest with
      | none => none
      | some p => some (c ++ p) := by
  have hlen : c.length ≠ 0 := by
    intro h; exact hc (List.length_eq_zero.mp h)
  rw [dechunkAux]
  simp only [encChunk, List.append_assoc]
  rw [readSizeLine_chunk_head]
  simp only [hlen, if_false]
  have h1 : ¬ (c ++ (['\r', '\n'] ++ rest)).length < c.length + 2 := by
    simp
  have h2 : List.take 2 (List.drop c.length (c ++ (['\r', '\n'] ++ rest))) = ['\r', '\n'] := by
    simp
  have h3 : List.drop (c.length + 2) (c ++ (['\r', '\n'] ++ rest)) = rest := by
    rw [List.drop_append]; simp
  have h4 : List.take c.length (c ++ (['\r', '\n'] ++ rest)) = c := by
    simp
  simp only [h1, if_false, h2, ne_eq, not_true_eq_false, h3, h4]

theorem dechunkAux_terminator (fuel : Nat) :
    dechunkAux (fuel + 1) "0\r\n\r\n".toList = some [] := by
  rw [dechunkAux]
  have : readSizeLine "0\r\n\r\n".toList = some (0, ['\r', '\n']) := by decide
  rw [this]
  simp

/-- Concatenation of payload pieces. -/
theorem dechunkAux_encChunks : ∀ (chunks : List (List Char)) (fuel : Nat),
    (∀ c ∈ chunks, c ≠ []) → chunks.length < fuel →
    dechunkAux fuel (encChunks chunks ++ "0\r\n\r\n".toList) = some chunks.flatten := by
  intro chunks
  induction chunks with
  | nil =>
    intro fuel _ hf
    obtain ⟨f, rfl⟩ : ∃ f, fuel = f + 1 := ⟨fuel - 1, by simp at hf; omega⟩
    simpa [encChunks] using dechunkAux_terminator f
  | cons c cs ih =>
    intro fuel hne hf
    obtain ⟨f, rfl⟩ : ∃ f, fuel = f + 1 := ⟨fuel - 1, by simp at hf; omega⟩
    have hc : c ≠ [] := hne c (by simp)
    simp only [encChunks, List.append_assoc]
    rw [dechunkAux_encChunk f c _ hc, ih f (fun x hx => hne x (by simp [hx]))
      (by simp at hf; omega)]
    simp

theorem encChunk_length_pos (c : List Char) : 0 < (encChunk c).length := by
  simp [encChunk, chunk_head]

theorem encChunks_length : ∀ (chunks : List (List Char)),
    chunks.length ≤ (encChunks chunks).length := by
  intro chunks
  induction chunks with
  | nil => simp
  | cons c cs ih =>
    have := encChunk_length_pos c
    simp [encChunks] at *
    omega

/-- The decoder strips the framing produced for any list of non-empty pieces. -/
theorem dechunk_encChunks (chunks : List (List Char)) (hne : ∀ c ∈ chunks, c ≠ []) :
    dechunk (encChunks chunks ++ "0\r\n\r\n".toList) = some chunks.flatten := by
  unfold dechunk
  apply dechunkAux_encChunks chunks _ hne
  have := encChunks_length chunks
  simp
  omega

theorem encChunks_append (a b : List (List Char)) :
    encChunks (a ++ b) = encChunks a ++ encChunks b := by
  induction a with
  | nil => simp [encChunks]
  | cons c cs ih => simp [encChunks, ih]

/-! ### Flushing to a descriptor that takes all bytes -/

/-- `wrw_prune` on a consistent vector, in terms of the bytes left. -/
theorem wrw_prune_bytes (w : Wrw) (k : Nat) (hn : w.niov ≤ w.siov)
    (hl : w.liov = (iov_total w.used : Int)) (hk : (k : Int) < w.liov) :
    ∃ w1, wrw_prune w k = some w1 ∧
      iov_bytes w1.used = (iov_bytes w.used).drop k ∧
      w1.liov = w.liov - k ∧ w1.niov ≤ w1.siov ∧
      w1.liov = (iov_total w1.used : Int) := by
  obtain ⟨w1, e, rest, h1, h2, h3, h4, h5, h6, _⟩ := wrw_prune_eq w k hn hl hk
  have hk2 : k < iov_total w.used := by omega
  obtain ⟨e2, rest2, g1, _, _, g4⟩ := fullyConsumed_cut w.used k hk2
  rw [h2] at g1
  cases g1
  have hb : iov_bytes w1.used = (iov_bytes w.used).drop k := by rw [h3, g4]; rfl
  refine ⟨w1, h1, hb, h5, by omega, ?_⟩
  rw [← iov_bytes_length w1.used, hb, List.length_drop, iov_bytes_length, h5, hl]
  omega

/-- A `writev` followed by the retry loop of `WRW_Flush` hands every pending byte to a
descriptor whose writes make progress, and ends with a positive result. -/
theorem wrw_send_all : ∀ (script : List WStep) (w : Wrw) (d : Dev) (fuel : Nat)
    (i0 : Int) (e0 : Bool) (d1 : Dev),
    d.script = script → GoodScript script → w.niov ≤ w.siov →
    w.liov = (iov_total w.used : Int) → 0 < w.liov → script.length < fuel →
    writev d w.used = (i0, e0, d1) →
    ∃ w2 d2 i, wrw_retry fuel w d1 i0 e0 = some (w2, d2, i) ∧ 0 < i ∧
      d2.out = d.out ++ iov_bytes w.used ∧ GoodScript d2.script := by
  intro script
  induction script with
  | nil =>
    intro w d fuel i0 e0 d1 hs _ _ hl hpos hf hw
    obtain ⟨f, rfl⟩ : ∃ f, fuel = f + 1 := ⟨fuel - 1, by simp at hf; omega⟩
    simp only [writev, hs] at hw
    cases hw
    refine ⟨w, { script := [], out := d.out ++ iov_bytes w.used, calls := d.calls + 1 },
      (iov_total w.used : Int), ?_, by omega, rfl, ?_⟩
    · unfold wrw_retry
      simp [hl]
    · intro s hs; simp at hs
  | cons s rest ih =>
    intro w d fuel i0 e0 d1 hs hg hn hl hpos hf hw
    obtain ⟨f, rfl⟩ : ∃ f, fuel = f + 1 := ⟨fuel - 1, by simp at hf; omega⟩
    obtain ⟨hret, hexp⟩ := hg s (by simp)
    have hg2 : GoodScript rest := fun x hx => hg x (by simp [hx])
    have hnr : ¬ s.ret ≤ 0 := by omega
    simp only [writev, hs, hnr, if_false] at hw
    cases hw
    by_cases hall : iov_total w.used ≤ s.ret.toNat
    · have hmin : min s.ret.toNat (iov_total w.used) = iov_total w.used := by omega
      refine ⟨w,
        { script := rest
          out := d.out ++ (iov_bytes w.used).take (min s.ret.toNat (iov_total w.used))
          calls := d.calls + 1 }, (iov_total w.used : Int), ?_, by omega, ?_, hg2⟩
      · unfold wrw_retry
        simp [hl, hmin]
      · simp only [hmin]
        rw [List.take_of_length_le (by rw [iov_bytes_length])]
    · have hmin : min s.ret.toNat (iov_total w.used) = s.ret.toNat := by omega
      have hk : ((s.ret.toNat : Nat) : Int) < w.liov := by omega
      obtain ⟨w1, p1, p2, p3, p4, p5⟩ := wrw_prune_bytes w s.ret.toNat hn hl hk
      have hd : ∃ dd : Dev, dd =
          { script := rest
            out := d.out ++ (iov_bytes w.used).take s.ret.toNat
            calls := d.calls + 1 } :=
        ⟨_, rfl⟩
      obtain ⟨dd, hdd⟩ := hd
      rcases hw2 : writev dd w1.used with ⟨i1, e1, d1x⟩
      obtain ⟨w2, d2, i, q1, q2, q3, q4⟩ :=
        ih w1 dd f i1 e1 d1x (by rw [hdd]) hg2 p4 p5 (by omega) (by simp at hf; omega) hw2
      refine ⟨w2, d2, i, ?_, q2, ?_, q4⟩
      · unfold wrw_retry
        have hc : ((s.ret.toNat : Nat) : Int) ≠ w.liov ∧ ((s.ret.toNat : Nat) : Int) > 0 := by
          constructor <;> omega
        simp only [hexp, Bool.false_eq_true, if_false, hmin, p1, ← hdd, hw2]
        rw [if_pos hc]
        exact q1
      · rw [q3, p2, hdd]
        simp only [List.append_assoc, List.take_append_drop]

theorem set_mid {α : Type} (pre : List α) (s0 a : α) (rest : List α) :
    (pre ++ s0 :: rest).set pre.length a = pre ++ a :: rest := by
  induction pre with
  | nil => simp
  | cons x xs ih => simp [ih]

theorem set_mid2 {α : Type} (pre : List α) (s0 : α) (cur : List α) (t a : α)
    (st : List α) :
    (pre ++ s0 :: (cur ++ t :: st)).set (pre.length + 1 + cur.length) a
      = pre ++ s0 :: (cur ++ a :: st) := by
  have h := set_mid (pre ++ s0 :: cur) t a st
  simp only [List.append_assoc, List.cons_append, List.length_append, List.length_cons] at h
  have e : pre.length + 1 + cur.length = pre.length + (cur.length + 1) := by omega
  rw [e]; exact h

theorem take_mid {α : Type} (pre : List α) (s0 : α) (cur rest : List α) :
    (pre ++ s0 :: (cur ++ rest)).take (pre.length + 1 + cur.length) = pre ++ s0 :: cur := by
  have h := List.take_left (pre ++ s0 :: cur) rest
  simp only [List.append_assoc, List.cons_append, List.length_append, List.length_cons] at h
  have e : pre.length + 1 + cur.length = pre.length + (cur.length + 1) := by omega
  rw [e]; exact h

theorem iov_bytes_of_total_zero : ∀ (v : List Iovec), iov_total v = 0 → iov_bytes v = [] := by
  intro v
  induction v with
  | nil => intro _; rfl
  | cons e es ih =>
    intro h
    simp only [iov_total] at h
    have h1 : e.length = 0 := by omega
    have h2 : iov_total es = 0 := by omega
    simp [iov_bytes, ih h2, List.length_eq_zero.mp h1]

theorem wrw_reset_facts (x : Wrw) :
    (wrw_reset x).wfd = x.wfd ∧ (wrw_reset x).werr = x.werr ∧ (wrw_reset x).iov = x.iov ∧
      (wrw_reset x).liov = 0 ∧ (wrw_reset x).cliov = 0 ∧
      (x.ciov < x.siov → (wrw_reset x).niov = 1 ∧ (wrw_reset x).ciov = 0) ∧
      (¬ x.ciov < x.siov → (wrw_reset x).niov = 0 ∧ (wrw_reset x).ciov = x.ciov) := by
  unfold wrw_reset
  split
  · rename_i h; exact ⟨rfl, rfl, rfl, rfl, rfl, fun _ => ⟨rfl, rfl⟩, fun h2 => absurd h h2⟩
  · rename_i h; exact ⟨rfl, rfl, rfl, rfl, rfl, fun h2 => absurd h2 h, fun _ => ⟨rfl, rfl⟩⟩

/-- `WRW_Flush` with nothing pending only resets the counters. -/
theorem WRW_Flush_idle (w : Wrw) (d : Dev) (fd : Int) (hfd : w.wfd = some fd)
    (hassert : w.ciov < w.siov → w.niov < w.siov) (hl : w.liov ≤ 0) :
    WRW_Flush w d = some (wrw_reset w, d, (wrw_reset w).werr) := by
  unfold WRW_Flush
  simp only [hfd]
  have h1 : ¬ (w.ciov < w.siov ∧ ¬ w.niov < w.siov) := by
    intro ⟨a, b⟩; exact b (hassert a)
  have h2 : ¬ (fd ≥ 0 ∧ w.liov > 0 ∧ w.werr = 0) := by
    intro ⟨_, b, _⟩; omega
  simp only [h1, h2, if_false]

/-- `WRW_Flush` with bytes pending, on an open descriptor that takes all bytes and with
no error latched: the framed vector is handed over in full and no error is latched. -/
theorem WRW_Flush_good (w w1 : Wrw) (d : Dev) (fd : Int) (hfd : w.wfd = some fd)
    (hopen : 0 ≤ fd) (herr : w.werr = 0) (hg : GoodScript d.script)
    (hassert : w.ciov < w.siov → w.niov < w.siov) (hpos : 0 < w.liov)
    (hframe : wrw_frame w = some w1) (hn1 : w1.niov ≤ w1.siov)
    (hl1 : w1.liov = (iov_total w1.used : Int)) (hpos1 : 0 < w1.liov) :
    ∃ x d2, WRW_Flush w d = some (wrw_reset x, d2, 0) ∧
      d2.out = d.out ++ iov_bytes w1.used ∧ GoodScript d2.script ∧
      x.siov = w.siov ∧ x.ciov = w.ciov ∧ x.wfd = w.wfd ∧ x.werr = 0 := by
  rcases hw : writev d w1.used with ⟨i0, e0, d1⟩
  obtain ⟨w2, d2, i, q1, q2, q3, q4⟩ :=
    wrw_send_all d.script w1 d (d.script.length + 2) i0 e0 d1 rfl hg hn1 hl1 hpos1
      (by omega) hw
  obtain ⟨f1, f2, f3, f4⟩ := wrw_frame_pres w w1 hframe
  obtain ⟨r1, r2, r3, r4⟩ := wrw_retry_pres _ _ _ _ _ _ _ _ q1
  have hwerr : w2.werr = 0 := by rw [r4, f4, herr]
  refine ⟨w2, d2, ?_, q3, q4, r1.trans f1, r2.trans f2, r3.trans f3, hwerr⟩
  unfold WRW_Flush
  simp only [hfd]
  have h1 : ¬ (w.ciov < w.siov ∧ ¬ w.niov < w.siov) := by
    intro ⟨a, b⟩; exact b (hassert a)
  have h2 : fd ≥ 0 ∧ w.liov > 0 ∧ w.werr = 0 := ⟨hopen, hpos, herr⟩
  have h3 : ¬ i ≤ 0 := by omega
  simp only [h1, h2, and_self, if_true, if_false, hframe, hw, q1, h3]
  rw [(wrw_reset_facts w2).2.1, hwerr]

theorem PlainSt_flush (w : Wrw) (d : Dev) (target : List Char)
    (h : PlainSt w d target) :
    ∃ w1 d1, WRW_Flush w d = some (w1, d1, 0) ∧ PlainSt w1 d1 target ∧ w1.niov = 0 ∧
      w1.siov = w.siov ∧ d1.out = target := by
  obtain ⟨⟨fd, hfd, hopen⟩, herr, h3, hg, hn, hc, hl, ht⟩ := h
  have hnc : ¬ w.ciov < w.siov := by omega
  have hassert : w.ciov < w.siov → w.niov < w.siov := fun a => absurd a hnc
  by_cases hpos : 0 < w.liov
  · have hframe : wrw_frame w = some w := by
      unfold wrw_frame
      have : ¬ (w.ciov < w.siov ∧ w.cliov > 0) := fun a => hnc a.1
      simp [this, hnc]
    obtain ⟨x, d2, e1, e2, e3, e4, e5, e6, e7⟩ :=
      WRW_Flush_good w w d fd hfd hopen herr hg hassert hpos hframe hn hl hpos
    obtain ⟨r1, r2, r3, r4, _, _, r7⟩ := wrw_reset_facts x
    have hxc : ¬ x.ciov < x.siov := by omega
    obtain ⟨r8, r9⟩ := r7 hxc
    have hs : (wrw_reset x).siov = w.siov := by rw [wrw_reset_siov, e4]
    have hu : (wrw_reset x).used = [] := by simp [Wrw.used, r8]
    refine ⟨wrw_reset x, d2, e1, ⟨⟨fd, by rw [r1, e6, hfd], hopen⟩, by rw [r2, e7],
      by omega, e3, by omega, by omega, ?_, ?_⟩, r8, hs, by rw [e2, ht]⟩
    · rw [r4, hu]; simp [iov_total]
    · rw [hu, e2, ht]; simp [iov_bytes]
  · have hz : iov_total w.used = 0 := by omega
    have hb := iov_bytes_of_total_zero _ hz
    have e1 := WRW_Flush_idle w d fd hfd hassert (by omega)
    obtain ⟨r1, r2, r3, r4, _, _, r7⟩ := wrw_reset_facts w
    obtain ⟨r8, r9⟩ := r7 hnc
    have hs : (wrw_reset w).siov = w.siov := wrw_reset_siov w
    rw [r2, herr] at e1
    have hu : (wrw_reset w).used = [] := by simp [Wrw.used, r8]
    refine ⟨wrw_reset w, d, e1, ⟨⟨fd, by rw [r1, hfd], hopen⟩, by rw [r2, herr],
      by omega, hg, by omega, by omega, ?_, ?_⟩, r8, hs, by rw [← ht, hb]; simp⟩
    · rw [r4, hu]; simp [iov_total]
    · rw [hu, ← ht, hb]; simp [iov_bytes]

/-- After the reset at the end of a flush in chunked mode the buffer holds only the
re-reserved slot. -/
theorem ChunkSt_reset (x : Wrw) (d : Dev) (base pay : List Char) (fd : Int)
    (chunks : List (List Char)) (hfd : x.wfd = some fd) (hopen : 0 ≤ fd)
    (herr : x.werr = 0) (h3 : 3 ≤ x.siov) (hc : x.ciov < x.siov)
    (hg : GoodScript d.script) (hne : ∀ c ∈ chunks, c ≠ [])
    (hout : d.out = base ++ encChunks chunks) (hpay : chunks.flatten = pay) :
    ChunkSt (wrw_reset x) d base pay ∧ (wrw_reset x).siov = x.siov := by
  obtain ⟨r1, r2, r3, r4, r5, r6, _⟩ := wrw_reset_facts x
  obtain ⟨r8, r9⟩ := r6 hc
  have hs : (wrw_reset x).siov = x.siov := wrw_reset_siov x
  refine ⟨⟨⟨fd, by rw [r1, hfd], hopen⟩, by rw [r2, herr], by omega, hg, ?_⟩, hs⟩
  have hlen : 3 ≤ x.iov.length := h3
  match hx : x.iov with
  | [] => rw [hx] at hlen; simp at hlen
  | a :: tl =>
    refine ⟨[], a, [], tl, chunks, by rw [r3, hx]; rfl, by rw [r9]; rfl, by rw [r8]; rfl,
      ?_, by rw [r5]; rfl, by rw [r4]; rfl, hne, by simp [iov_bytes, hout],
      by simp [iov_bytes, hpay]⟩
    intro ht
    rw [hx, ht] at hlen
    simp at hlen

theorem ChunkSt_flush (w : Wrw) (d : Dev) (base pay : List Char)
    (h : ChunkSt w d base pay) :
    ∃ w1 d1 chunks, WRW_Flush w d = some (w1, d1, 0) ∧ ChunkSt w1 d1 base pay ∧
      w1.ciov = 0 ∧ w1.niov = 1 ∧ w1.liov = 0 ∧ w1.siov = w.siov ∧
      (∀ c ∈ chunks, c ≠ []) ∧ d1.out = base ++ encChunks chunks ∧
      chunks.flatten = pay := by
  obtain ⟨⟨fd, hfd, hopen⟩, herr, h3, hg, pre, s0, cur, stale, chunks, hiov, hci, hni,
    hst, hcl, hl, hne, hout, hpay⟩ := h
  have hsiov : w.siov = pre.length + 1 + cur.length + stale.length := by
    simp [Wrw.siov, hiov]; omega
  have hstl : 0 < stale.length := List.length_pos.mpr hst
  have hc : w.ciov < w.siov := by omega
  have hassert : w.ciov < w.siov → w.niov < w.siov := fun _ => by omega
  have fin : ∀ (x : Wrw) (d2 : Dev) (ch : List (List Char)),
      x.siov = w.siov → x.ciov = w.ciov → x.wfd = w.wfd → x.werr = 0 →
      GoodScript d2.script → (∀ c ∈ ch, c ≠ []) → d2.out = base ++ encChunks ch →
      ch.flatten = pay →
      ChunkSt (wrw_reset x) d2 base pay ∧
      (wrw_reset x).ciov = 0 ∧ (wrw_reset x).niov = 1 ∧ (wrw_reset x).liov = 0 ∧
      (wrw_reset x).siov = w.siov := by
    intro x d2 ch e4 e5 e6 e7 e3 hne2 ho hp
    obtain ⟨r1, r2, r3, r4, r5, r6, _⟩ := wrw_reset_facts x
    obtain ⟨r8, r9⟩ := r6 (by omega)
    obtain ⟨c1, c2⟩ := ChunkSt_reset x d2 base pay fd ch (by rw [e6, hfd]) hopen e7
      (by omega) (by omega) e3 hne2 ho hp
    exact ⟨c1, r9, r8, r4, by rw [c2, e4]⟩
  by_cases hpos : 0 < w.liov
  · by_cases hcur : 0 < w.cliov
    · -- a chunk is pending: head and tail are composed around it
      obtain ⟨t, st, hstale⟩ : ∃ t st, stale = t :: st := by
        cases stale with
        | nil => exact absurd rfl hst
        | cons t st => exact ⟨t, st, rfl⟩
      have hframe : wrw_frame w = some { w with
          iov := pre ++ chunk_head w.cliov :: (cur ++ ['\r', '\n'] :: st)
          liov := w.liov + (chunk_head w.cliov).length + 2
          niov := w.niov + 1 } := by
        unfold wrw_frame
        have c1 : w.ciov < w.siov ∧ w.cliov > 0 := ⟨hc, hcur⟩
        have c2 : ¬ w.siov ≤ w.niov := by omega
        simp only [c1, and_self, if_true, c2, if_false]
        congr 2
        rw [hiov, hci, hni, hstale, set_mid, set_mid2]
      have hused : Wrw.used { w with
          iov := pre ++ chunk_head w.cliov :: (cur ++ ['\r', '\n'] :: st)
          liov := w.liov + (chunk_head w.cliov).length + 2
          niov := w.niov + 1 } = pre ++ chunk_head w.cliov :: (cur ++ [['\r', '\n']]) := by
        show List.take (w.niov + 1) _ = _
        have := take_mid pre (chunk_head w.cliov) (cur ++ [['\r', '\n']]) st
        simp only [List.append_assoc, List.singleton_append, List.length_append,
          List.length_singleton] at this
        rw [hni]
        have e : pre.length + 1 + cur.length + 1 = pre.length + 1 + (cur.length + 1) := by
          omega
        rw [e]; exact this
      obtain ⟨x, d2, e1, e2, e3, e4, e5, e6, e7⟩ :=
        WRW_Flush_good w _ d fd hfd hopen herr hg hassert hpos hframe
          (by show w.niov + 1 ≤ List.length _; simp; omega)
          (by rw [hused]
              show w.liov + _ + 2 = _
              rw [hl]
              simp [iov_total_append, iov_total]
              omega)
          (by show 0 < w.liov + _ + 2; omega)
      have hcb : (iov_bytes cur).length = iov_total cur := iov_bytes_length cur
      have hcne : iov_bytes cur ≠ [] := by
        intro hh; rw [hh] at hcb; simp at hcb; omega
      have hhead : chunk_head w.cliov = chunk_head ((iov_bytes cur).length : Int) := by
        rw [hcl, hcb]
      have hne2 : ∀ c ∈ chunks ++ [iov_bytes cur], c ≠ [] := by
        intro c hcm
        rcases List.mem_append.mp hcm with hm | hm
        · exact hne c hm
        · simp at hm; rw [hm]; exact hcne
      have ho : d2.out = base ++ encChunks (chunks ++ [iov_bytes cur]) := by
        rw [e2, hused, encChunks_append, ← List.append_assoc, ← hout]
        simp [iov_bytes_append, iov_bytes, encChunks, encChunk, hhead]
      have hp : (chunks ++ [iov_bytes cur]).flatten = pay := by rw [← hpay]; simp
      obtain ⟨f1, f2, f3, f4, f5⟩ :=
        fin x d2 (chunks ++ [iov_bytes cur]) e4 e5 e6 e7 e3 hne2 ho hp
      exact ⟨_, d2, chunks ++ [iov_bytes cur], e1, f1, f2, f3, f4, f5, hne2, ho, hp⟩
    · -- only bytes written before `chunked` are pending
      have hz : iov_total cur = 0 := by omega
      have hb := iov_bytes_of_total_zero _ hz
      have hframe : wrw_frame w = some { w with iov := pre ++ [] :: (cur ++ stale) } := by
        unfold wrw_frame
        have c1 : ¬ (w.ciov < w.siov ∧ w.cliov > 0) := fun a => hcur a.2
        rw [if_neg c1, if_pos hc]
        congr 2
        rw [hiov, hci, set_mid]
      have hused : Wrw.used { w with iov := pre ++ [] :: (cur ++ stale) }
          = pre ++ [] :: cur := by
        show List.take w.niov _ = _
        rw [hni]; exact take_mid pre [] cur stale
      obtain ⟨x, d2, e1, e2, e3, e4, e5, e6, e7⟩ :=
        WRW_Flush_good w _ d fd hfd hopen herr hg hassert hpos hframe
          (by show w.niov ≤ List.length _; simp; omega)
          (by rw [hused]
              show w.liov = _
              rw [hl]
              simp [iov_total_append, iov_total])
          (by show 0 < w.liov; omega)
      have ho : d2.out = base ++ encChunks chunks := by
        rw [e2, hused, ← hout]
        simp [iov_bytes_append, iov_bytes, hb]
      have hp : chunks.flatten = pay := by rw [← hpay, hb]; simp
      obtain ⟨f1, f2, f3, f4, f5⟩ := fin x d2 chunks e4 e5 e6 e7 e3 hne ho hp
      exact ⟨_, d2, chunks, e1, f1, f2, f3, f4, f5, hne, ho, hp⟩
  · have hz1 : iov_total pre = 0 := by omega
    have hz2 : iov_total cur = 0 := by omega
    have hb1 := iov_bytes_of_total_zero _ hz1
    have hb2 := iov_bytes_of_total_zero _ hz2
    have e1 := WRW_Flush_idle w d fd hfd hassert (by omega)
    rw [(wrw_reset_facts w).2.1, herr] at e1
    have ho : d.out = base ++ encChunks chunks := by rw [← hout, hb1]; simp
    have hp : chunks.flatten = pay := by rw [← hpay, hb2]; simp
    obtain ⟨f1, f2, f3, f4, f5⟩ := fin w d chunks rfl rfl rfl herr hg hne ho hp
    exact ⟨_, d, chunks, e1, f1, f2, f3, f4, f5, hne, ho, hp⟩

theorem ChunkSt_append (w : Wrw) (d : Dev) (base pay b : List Char)
    (h : ChunkSt w d base pay) (hroom : w.niov + 1 < w.siov) :
    ∃ w1, wrw_append w d b = some (w1, d, b.length) ∧ ChunkSt w1 d base (pay ++ b) := by
  obtain ⟨hfd, herr, h3, hg, pre, s0, cur, stale, chunks, hiov, hci, hni,
    hst, hcl, hl, hne, hout, hpay⟩ := h
  have hsiov : w.siov = pre.length + 1 + cur.length + stale.length := by
    simp [Wrw.siov, hiov]; omega
  obtain ⟨t, st, hstale⟩ : ∃ t st, stale = t :: st := by
    cases stale with
    | nil => exact absurd rfl hst
    | cons t st => exact ⟨t, st, rfl⟩
  have hst2 : st ≠ [] := by
    intro hh
    rw [hstale, hh] at hsiov
    simp at hsiov
    omega
  have hc : w.ciov < w.siov := by omega
  have hset : w.iov.set w.niov b = pre ++ s0 :: ((cur ++ [b]) ++ st) := by
    rw [hiov, hni, hstale, set_mid2]; simp
  have c1 : ¬ w.siov ≤ w.niov := by omega
  have c2 : ¬ ¬ w.niov + 1 < w.siov := by omega
  refine ⟨{ w with
      iov := w.iov.set w.niov b
      liov := w.liov + b.length
      niov := w.niov + 1
      cliov := w.cliov + b.length }, ?_, ?_⟩
  · unfold wrw_append
    rw [if_neg c1, if_pos hc, if_neg c2]
  · refine ⟨hfd, herr, ?_, hg, pre, s0, cur ++ [b], st, chunks, hset, hci, ?_, hst2, ?_, ?_,
      hne, hout, ?_⟩
    · show (w.iov.set w.niov b).length ≥ 3
      rw [List.length_set]; exact h3
    · show w.niov + 1 = _
      rw [hni]; simp; omega
    · show w.cliov + _ = _
      rw [hcl, iov_total_append]; simp [iov_total]
    · show w.liov + _ = _
      rw [hl, iov_total_append]; simp [iov_total]; omega
    · rw [iov_bytes_append, ← hpay]; simp [iov_bytes]

theorem ChunkSt_write (w : Wrw) (d : Dev) (base pay b : List Char)
    (h : ChunkSt w d base pay) :
    ∃ w1 d1, WRW_Write w d b b.length = some (w1, d1, b.length) ∧
      ChunkSt w1 d1 base (pay ++ b) := by
  have h0 := h
  obtain ⟨⟨fd, hfd, hopen⟩, herr, h3, hg, pre, s0, cur, stale, chunks, hiov, hci, hni,
    hst, hcl, hl, hne, hout, hpay⟩ := h
  have hsiov : w.siov = pre.length + 1 + cur.length + stale.length := by
    simp [Wrw.siov, hiov]; omega
  have hstl : 0 < stale.length := List.length_pos.mpr hst
  by_cases hb : b = []
  · subst hb
    refine ⟨w, d, ?_, by simpa using h0⟩
    unfold WRW_Write
    simp [hfd]
  · have hlen : 0 < b.length := List.length_pos.mpr hb
    have c1 : ¬ ((b.length : Int) = 0 ∨ fd < 0) := by omega
    have c2 : ¬ ((b.length : Int) < -1 ∨ (b.length : Int) < (b.length : Int)) := by omega
    have hdata : wrw_data b (b.length : Int) = b := by
      unfold wrw_data
      have : ¬ (b.length : Int) = -1 := by omega
      simp [this]
    have hc : w.ciov < w.siov := by omega
    by_cases hfull : w.niov ≥ w.siov - 1
    · obtain ⟨w1, d1, chs, e1, e2, e3, e4, e5, e6, _⟩ := ChunkSt_flush w d base pay h0
      obtain ⟨w2, a1, a2⟩ := ChunkSt_append w1 d1 base pay b e2 (by omega)
      refine ⟨w2, d1, ?_, a2⟩
      unfold WRW_Write
      simp only [hfd]
      rw [if_neg c1, if_neg c2, hdata]
      have : decide (w.niov ≥ w.siov - (if w.ciov < w.siov then 1 else 0)) = true := by
        simp [hc]; omega
      rw [this]
      simp only [wrw_flush_if, if_true, e1, a1]
    · obtain ⟨w2, a1, a2⟩ := ChunkSt_append w d base pay b h0 (by omega)
      refine ⟨w2, d, ?_, a2⟩
      unfold WRW_Write
      simp only [hfd]
      rw [if_neg c1, if_neg c2, hdata]
      have : decide (w.niov ≥ w.siov - (if w.ciov < w.siov then 1 else 0)) = false := by
        simp [hc]; omega
      rw [this]
      simp only [wrw_flush_if, Bool.false_eq_true, if_false, a1]

theorem ChunkSt_run_ops : ∀ (ops : List ChunkOp) (w : Wrw) (d : Dev) (base pay : List Char),
    ChunkSt w d base pay →
    ∃ w1 d1, run_ops ops w d = some (w1, d1) ∧ ChunkSt w1 d1 base (pay ++ payload ops) := by
  intro ops
  induction ops with
  | nil => intro w d base pay h; exact ⟨w, d, rfl, by simpa [payload] using h⟩
  | cons op ops ih =>
    intro w d base pay h
    cases op with
    | write b =>
      obtain ⟨w1, d1, e1, e2⟩ := ChunkSt_write w d base pay b h
      obtain ⟨w2, d2, f1, f2⟩ := ih w1 d1 base (pay ++ b) e2
      refine ⟨w2, d2, ?_, by simpa [payload] using f2⟩
      simp only [run_ops, ChunkOp.run, e1, f1]
    | flush =>
      obtain ⟨w1, d1, _, e1, e2, _⟩ := ChunkSt_flush w d base pay h
      obtain ⟨w2, d2, f1, f2⟩ := ih w1 d1 base pay e2
      refine ⟨w2, d2, ?_, by simpa [payload] using f2⟩
      simp only [run_ops, ChunkOp.run, e1, f1]

theorem PlainSt_chunked (w : Wrw) (d : Dev) (target : List Char)
    (h : PlainSt w d target) :
    ∃ w1 d1, WRW_Chunked w d = some (w1, d1) ∧ ChunkSt w1 d1 target [] := by
  have h0 := h
  obtain ⟨⟨fd, hfd, hopen⟩, herr, h3, hg, hn, hc, hl, ht⟩ := h
  have c0 : ¬ w.ciov ≠ w.siov := by simp [hc]
  by_cases hfull : w.niov + 3 ≥ w.siov
  · obtain ⟨w1, d1, e1, e2, e3, e4, e5⟩ := PlainSt_flush w d target h0
    obtain ⟨⟨fd1, hfd1, hopen1⟩, herr1, h31, hg1, hn1, hc1, hl1, ht1⟩ := e2
    have hlen : 3 ≤ w1.iov.length := h31
    have hl0 : w1.liov = 0 := by
      rw [hl1]; simp [Wrw.used, e3, iov_total]
    match hx : w1.iov with
    | [] => rw [hx] at hlen; simp at hlen
    | a :: tl =>
      have htl : tl ≠ [] := by
        intro hh; rw [hx, hh] at hlen; simp at hlen
      refine ⟨{ w1 with ciov := w1.niov, niov := w1.niov + 1, cliov := 0 }, d1, ?_, ?_⟩
      · unfold WRW_Chunked
        rw [if_neg c0]
        have : decide (w.niov + 3 ≥ w.siov) = true := by simp; omega
        rw [this]
        simp only [wrw_flush_if, if_true, e1]
        have a1 : ¬ ¬ w1.niov < w1.siov := by omega
        have a2 : ¬ ¬ w1.niov + 1 < w1.siov := by omega
        rw [if_neg a1, if_neg a2]
      · refine ⟨⟨fd1, hfd1, hopen1⟩, herr1, h31, hg1, [], a, [], tl, [], by simp [hx],
          by simp [e3], by simp [e3], htl, by simp [iov_total], by simp [iov_total, hl0],
          by simp, by simp [iov_bytes, encChunks, e5], by simp [iov_bytes]⟩
  · have hlen : w.niov + 3 < w.iov.length := by simp [Wrw.siov] at hfull; omega
    have hsplit : w.iov = w.iov.take w.niov ++ w.iov.drop w.niov :=
      (List.take_append_drop _ _).symm
    match hx : w.iov.drop w.niov with
    | [] =>
      have := congrArg List.length hx
      simp at this; omega
    | a :: tl =>
      have htl : tl ≠ [] := by
        intro hh
        have := congrArg List.length hx
        rw [hh] at this
        simp at this; omega
      refine ⟨{ w with ciov := w.niov, niov := w.niov + 1, cliov := 0 }, d, ?_, ?_⟩
      · unfold WRW_Chunked
        rw [if_neg c0]
        have : decide (w.niov + 3 ≥ w.siov) = false := by simp; omega
        rw [this]
        simp only [wrw_flush_if, Bool.false_eq_true, if_false]
        have a1 : ¬ ¬ w.niov < w.siov := by omega
        have a2 : ¬ ¬ w.niov + 1 < w.siov := by omega
        rw [if_neg a1, if_neg a2]
      · have hpl : (w.iov.take w.niov).length = w.niov := by simp; omega
        refine ⟨⟨fd, hfd, hopen⟩, herr, h3, hg, w.iov.take w.niov, a, [], tl, [], ?_,
          by simp [hpl], by simp [hpl], htl, by simp [iov_total], ?_,
          by simp, by simpa [encChunks, Wrw.used] using ht, by simp [iov_bytes]⟩
        · show w.iov = _
          rw [List.nil_append, ← hx]; exact hsplit
        · show w.liov = _
          rw [hl]; simp [Wrw.used, iov_total]

/-- `WRW_Write` outside chunked mode with a free slot only appends the entry. -/
theorem WRW_Write_plain (w : Wrw) (d : Dev) (fd : Int) (ptr : List Char) (len : Int)
    (hfd : w.wfd = some fd) (hopen : 0 ≤ fd) (hl0 : len ≠ 0) (hl1 : -1 ≤ len)
    (hl2 : len ≤ (ptr.length : Int)) (hc : ¬ w.ciov < w.siov) (hroom : w.niov < w.siov) :
    WRW_Write w d ptr len =
      some ({ w with
        iov := w.iov.set w.niov (wrw_data ptr len)
        liov := w.liov + (wrw_data ptr len).length
        niov := w.niov + 1 }, d, (wrw_data ptr len).length) := by
  unfold WRW_Write
  simp only [hfd]
  have c1 : ¬ (len = 0 ∨ fd < 0) := by omega
  have c2 : ¬ (len < -1 ∨ (ptr.length : Int) < len) := by omega
  rw [if_neg c1, if_neg c2]
  have c3 : decide (w.niov ≥ w.siov - (if w.ciov < w.siov then 1 else 0)) = false := by
    simp [hc]; omega
  rw [c3]
  simp only [wrw_flush_if, Bool.false_eq_true, if_false]
  unfold wrw_append
  have c4 : ¬ w.siov ≤ w.niov := by omega
  rw [if_neg c4, if_neg hc, hfd]

theorem ChunkSt_end_chunk (w : Wrw) (d : Dev) (base pay : List Char)
    (h : ChunkSt w d base pay) :
    ∃ w1 d1 chunks, WRW_EndChunk w d = some (w1, d1) ∧ (∀ c ∈ chunks, c ≠ []) ∧
      chunks.flatten = pay ∧
      PlainSt w1 d1 (base ++ encChunks chunks ++ "0\r\n\r\n".toList) := by
  obtain ⟨w1, d1, chunks, e1, e2, e3, e4, e5, e6, e7, e8, e9⟩ := ChunkSt_flush w d base pay h
  obtain ⟨⟨fd, hfd, hopen⟩, herr, h3, hg, pre, s0, cur, stale, _, hiov, hci, hni,
    hst, _⟩ := h
  have hc : w.ciov < w.siov := by
    have : w.siov = pre.length + 1 + cur.length + stale.length := by
      simp [Wrw.siov, hiov]; omega
    omega
  obtain ⟨⟨fd1, hfd1, hopen1⟩, herr1, h31, hg1, _⟩ := e2
  have hdata : wrw_data "0\r\n\r\n".toList (-1) = "0\r\n\r\n".toList := by decide
  have hlen : 3 ≤ w1.iov.length := h31
  obtain ⟨wm, hwm⟩ : ∃ wm : Wrw, wm = { w1 with ciov := w1.siov, niov := 0, cliov := 0 } :=
    ⟨_, rfl⟩
  have m1 : wm.wfd = some fd1 := by rw [hwm]; exact hfd1
  have m2 : wm.siov = w1.siov := by rw [hwm]; rfl
  have m3 : wm.ciov = w1.siov := by rw [hwm]
  have m4 : wm.niov = 0 := by rw [hwm]
  have m5 : wm.liov = 0 := by rw [hwm]; exact e5
  have m6 : wm.werr = 0 := by rw [hwm]; exact herr1
  have m7 : wm.iov = w1.iov := by rw [hwm]
  have hw := WRW_Write_plain wm d1 fd1 "0\r\n\r\n".toList (-1) m1 hopen1 (by omega)
    (by omega) (by simp) (by omega) (by omega)
  rw [hdata] at hw
  refine ⟨{ wm with
      iov := wm.iov.set wm.niov "0\r\n\r\n".toList
      liov := wm.liov + ("0\r\n\r\n".toList.length : Nat)
      niov := wm.niov + 1 }, d1, chunks, ?_, e7, e9, ?_⟩
  · unfold WRW_EndChunk
    have c0 : ¬ ¬ w.ciov < w.siov := by omega
    rw [if_neg c0]
    simp only [e1, ← hwm, hw]
  · have hu : Wrw.used { wm with
        iov := wm.iov.set wm.niov "0\r\n\r\n".toList
        liov := wm.liov + ("0\r\n\r\n".toList.length : Nat)
        niov := wm.niov + 1 } = ["0\r\n\r\n".toList] := by
      show List.take (wm.niov + 1) (wm.iov.set wm.niov _) = _
      rw [take_set_succ _ _ _ (by rw [m4, m7]; omega), m4]; simp
    refine ⟨⟨fd1, m1, hopen1⟩, m6, ?_, hg1, ?_, ?_, ?_, ?_⟩
    · show 3 ≤ (wm.iov.set wm.niov _).length
      rw [List.length_set, m7]; exact hlen
    · show wm.niov + 1 ≤ (wm.iov.set wm.niov _).length
      rw [List.length_set, m4, m7]; omega
    · show wm.ciov = (wm.iov.set wm.niov _).length
      rw [List.length_set, m3, m7]; rfl
    · rw [hu]
      show wm.liov + _ = _
      rw [m5]; simp [iov_total]
    · rw [hu, e8]; simp [iov_bytes]

/-- The chunked body sent through a buffer in `PlainSt`. -/
theorem PlainSt_chunked_body (w : Wrw) (d : Dev) (target : List Char) (ops : List ChunkOp)
    (h : PlainSt w d target) :
    ∃ w1 d1 chunks, chunked_body w d ops = some (w1, d1) ∧
      (∀ c ∈ chunks, c ≠ []) ∧ chunks.flatten = payload ops ∧
      d1.out = target ++ (encChunks chunks ++ "0\r\n\r\n".toList) := by
  obtain ⟨w1, d1, e1, e2⟩ := PlainSt_chunked w d target h
  obtain ⟨w2, d2, f1, f2⟩ := ChunkSt_run_ops ops w1 d1 target [] e2
  obtain ⟨w3, d3, chunks, g1, g2, g3, g4⟩ := ChunkSt_end_chunk w2 d2 target _ f2
  obtain ⟨w4, d4, k1, _, _, _, k5⟩ := PlainSt_flush w3 d3 _ g4
  refine ⟨w4, d4, chunks, ?_, g2, by simpa using g3, by rw [k5]; simp⟩
  simp only [chunked_body, e1, f1, g1, k1]

theorem wrw_ex_reserved_reach : WrwReach wrw_ex_reserved :=
  WrwReach.reserve (wrw_idle 4) _ 3 (by decide)

theorem wrw_ex_header_reach : WrwReach wrw_ex_header :=
  WrwReach.write_header _ _ dev_ready dev_ready "Host: x".toList (some "\r\n".toList) 9
    wrw_ex_reserved_reach (by decide)

/-! ### Claims about the gathered-write buffer -/

/-- C1, as stated, fails.  (a) A descriptor that takes one byte and would take the rest
on the next call, with the send timeout expired in between: the flush of `end_chunk`
gives up, latches the error, and the only byte handed over is `0`, which is no chunked
stream.  (b) A buffer with two slots: the first payload write after `chunked` fails the
assertion `niov < siov`, so nothing is returned. -/
theorem chunked_round_trip_fails :
    (WrwReach wrw_ex_reserved ∧
      (chunked_body wrw_ex_reserved dev_slow [ChunkOp.write "hello".toList]).map
          (fun r => r.2.out) = some ['0'] ∧
      dechunk ['0'] = none) ∧
    (WrwReach wrw_ex_two_slots ∧
      chunked_body wrw_ex_two_slots dev_ready [ChunkOp.write "hello".toList] = none) :=
  ⟨⟨wrw_ex_reserved_reach, by decide, by decide⟩,
    ⟨WrwReach.reserve (wrw_idle 2) _ 3 (by decide), by decide⟩⟩

/-- C1 (amended): chunked round trip.  For every reachable buffer with at least three
slots, outside chunked mode, bound to an open descriptor, with no error latched, whose
writes all make progress without the send timeout expiring, and for every sequence of
payload writes and explicit flushes issued between `chunked` and `end_chunk` and
followed by a final flush: the calls return normally, and what the descriptor receives
after the bytes that were pending when `chunked` was called is a well-formed chunked
stream ending in the terminating chunk, whose payload is exactly `b1 ++ ... ++ bn`. -/
theorem chunked_round_trip (w : Wrw) (d : Dev) (fd : Int) (ops : List ChunkOp)
    (hr : WrwReach w) (hfd : w.wfd = some fd) (hopen : 0 ≤ fd) (herr : w.werr = 0)
    (hplain : w.ciov = w.siov) (hcap : 3 ≤ w.siov) (hg : GoodScript d.script) :
    ∃ w1 d1 stream, chunked_body w d ops = some (w1, d1) ∧
      d1.out = d.out ++ iov_bytes w.used ++ stream ∧
      (∃ body, stream = body ++ "0\r\n\r\n".toList) ∧
      dechunk stream = some (payload ops) := by
  obtain ⟨a1, _, a3⟩ := WrwReach_inv w hr
  have hp : PlainSt w d (d.out ++ iov_bytes w.used) :=
    ⟨⟨fd, hfd, hopen⟩, herr, hcap, hg, a1, hplain,
      by rw [a3, pending_len_plain w a1 (by omega)], rfl⟩
  obtain ⟨w1, d1, chunks, e1, e2, e3, e4⟩ := PlainSt_chunked_body w d _ ops hp
  refine ⟨w1, d1, encChunks chunks ++ "0\r\n\r\n".toList, e1, e4, ⟨_, rfl⟩, ?_⟩
  rw [dechunk_encChunks chunks e2, e3]

/-- C1 (amended) at a concrete buffer: a header is pending, the descriptor takes four
bytes, then one byte, then everything; two pieces are written with a flush between. -/
theorem chunked_round_trip_witness :
    ∃ w1 d1 stream,
      chunked_body wrw_ex_header dev_short
        [ChunkOp.write "hello".toList, ChunkOp.flush, ChunkOp.write " world".toList]
        = some (w1, d1) ∧
      d1.out = dev_short.out ++ iov_bytes wrw_ex_header.used ++ stream ∧
      (∃ body, stream = body ++ "0\r\n\r\n".toList) ∧
      dechunk stream = some (payload
        [ChunkOp.write "hello".toList, ChunkOp.flush, ChunkOp.write " world".toList]) :=
  chunked_round_trip wrw_ex_header dev_short 3 _ wrw_ex_header_reach (by decide)
    (by decide) (by decide) (by decide) (by decide) (by unfold GoodScript; decide)

/-- C3: partial-write recovery.  For a pending vector whose entry lengths sum to `liov`
and a short-write count `0 < k < liov`, `wrw_prune` returns normally and leaves a vector
whose bytes are the old bytes without their first `k`, with `liov` reduced by `k`, `niov`
reduced by the number of fully consumed entries, and the partially consumed entry
advanced in place at the front. -/
theorem wrw_prune_partial_write (w : Wrw) (k : Nat) (hn : w.niov ≤ w.siov)
    (hl : w.liov = (iov_total w.used : Int)) (_hk0 : 0 < k) (hk : (k : Int) < w.liov) :
    ∃ w1, wrw_prune w k = some w1 ∧
      iov_bytes w1.used = (iov_bytes w.used).drop k ∧
      w1.liov = w.liov - k ∧
      w1.niov = w.niov - fullyConsumed k w.used ∧
      ∃ e rest, w.used.drop (fullyConsumed k w.used) = e :: rest ∧
        w1.used = e.drop (k - iov_total (w.used.take (fullyConsumed k w.used))) :: rest := by
  obtain ⟨w1, e, rest, h1, h2, h3, h4, h5, _⟩ := wrw_prune_eq w k hn hl hk
  have hk2 : k < iov_total w.used := by omega
  obtain ⟨e2, rest2, g1, _, _, g4⟩ := fullyConsumed_cut w.used k hk2
  rw [h2] at g1
  cases g1
  exact ⟨w1, h1, by rw [h3, g4]; rfl, h5, h4, e, rest, h2, h3⟩

/-- C3 at a concrete vector: three entries of 2, 3 and 1 bytes, 3 bytes written. -/
theorem wrw_prune_partial_write_witness :
    ∃ w1, wrw_prune
        { wfd := some 7, werr := 0, iov := ["ab".toList, "cde".toList, "f".toList, []],
          niov := 3, liov := 6, cliov := 0, ciov := 4 } (3 : Nat) = some w1 ∧
      iov_bytes w1.used = (iov_bytes (Wrw.used
        { wfd := some 7, werr := 0, iov := ["ab".toList, "cde".toList, "f".toList, []],
          niov := 3, liov := 6, cliov := 0, ciov := 4 })).drop 3 ∧
      w1.liov = (6 : Int) - (3 : Nat) ∧
      w1.niov = 3 - fullyConsumed 3 (Wrw.used
        { wfd := some 7, werr := 0, iov := ["ab".toList, "cde".toList, "f".toList, []],
          niov := 3, liov := 6, cliov := 0, ciov := 4 }) ∧
      ∃ e rest, (Wrw.used
        { wfd := some 7, werr := 0, iov := ["ab".toList, "cde".toList, "f".toList, []],
          niov := 3, liov := 6, cliov := 0, ciov := 4 }).drop (fullyConsumed 3 (Wrw.used
        { wfd := some 7, werr := 0, iov := ["ab".toList, "cde".toList, "f".toList, []],
          niov := 3, liov := 6, cliov := 0, ciov := 4 })) = e :: rest ∧
        w1.used = e.drop (3 - iov_total ((Wrw.used
        { wfd := some 7, werr := 0, iov := ["ab".toList, "cde".toList, "f".toList, []],
          niov := 3, liov := 6, cliov := 0, ciov := 4 }).take (fullyConsumed 3 (Wrw.used
        { wfd := some 7, werr := 0, iov := ["ab".toList, "cde".toList, "f".toList, []],
          niov := 3, liov := 6, cliov := 0, ciov := 4 })))) :: rest :=
  wrw_prune_partial_write
    { wfd := some 7, werr := 0, iov := ["ab".toList, "cde".toList, "f".toList, []],
      niov := 3, liov := 6, cliov := 0, ciov := 4 } 3 (by decide) (by decide) (by decide)
    (by decide)

/-- C2, as stated, fails: after `reserve`, `write` of three bytes, `flush` and `chunked`
on a four-slot buffer, one entry is in use (the reserved chunk-head slot, still holding
the stale three-byte entry) while `liov` is 0. -/
theorem l_iov_ignores_reserved_chunk_slot :
    WrwReach wrw_ex_chunked ∧
      wrw_ex_chunked.liov ≠ (iov_total wrw_ex_chunked.used : Int) := by
  refine ⟨?_, by decide⟩
  have h1 : WrwReach
      { wfd := some 3, werr := 0, iov := [[], [], [], []], niov := 0, liov := 0,
        cliov := 0, ciov := 4 } :=
    WrwReach.reserve (wrw_idle 4) _ 3 (by decide)
  have h2 : WrwReach
      { wfd := some 3, werr := 0, iov := ["abc".toList, [], [], []], niov := 1, liov := 3,
        cliov := 0, ciov := 4 } :=
    WrwReach.write _ _ dev_ready dev_ready "abc".toList 3 3 h1 (by decide)
  have h3 : WrwReach
      { wfd := some 3, werr := 0, iov := ["abc".toList, [], [], []], niov := 0, liov := 0,
        cliov := 0, ciov := 4 } :=
    WrwReach.flush _ _ dev_ready { script := [], out := "abc".toList, calls := 1 } 0 h2
      (by decide)
  exact WrwReach.chunked _ _ dev_ready dev_ready h3 (by decide)

/-- C2 (amended): in every buffer state reachable from `reserve` through `write`,
`write_header`, `chunked`, `flush` and `end_chunk`, `liov` equals the sum of the lengths
of the `niov` entries in use other than the reserved chunk-head slot; outside chunked
mode, where no slot is reserved, it equals the sum over all `niov` entries. -/
theorem l_iov_sum_of_entries (w : Wrw) (h : WrwReach w) :
    w.liov = (w.pending_len : Int) ∧
      (w.siov ≤ w.ciov → w.liov = (iov_total w.used : Int)) := by
  obtain ⟨a1, _, a3⟩ := WrwReach_inv w h
  exact ⟨a3, fun hc => by rw [a3, pending_len_plain w a1 hc]⟩

/-- C2 (amended) after `write_header` appended a header and its suffix. -/
theorem l_iov_sum_of_entries_witness :
    WrwReach wrw_ex_header ∧
      (wrw_ex_header.liov = (wrw_ex_header.pending_len : Int) ∧
        (wrw_ex_header.siov ≤ wrw_ex_header.ciov →
          wrw_ex_header.liov = (iov_total wrw_ex_header.used : Int))) :=
  have h1 : WrwReach
      { wfd := some 3, werr := 0, iov := [[], [], [], []], niov := 0, liov := 0,
        cliov := 0, ciov := 4 } :=
    WrwReach.reserve (wrw_idle 4) _ 3 (by decide)
  have hr : WrwReach wrw_ex_header :=
    WrwReach.write_header _ _ dev_ready dev_ready "Host: x".toList (some "\r\n".toList) 9
      h1 (by decide)
  ⟨hr, l_iov_sum_of_entries _ hr⟩

/-! ### The restart budget of the request state engine -/

theorem SES_Delete_req (P : Params) (pp : Sesspool) (st : WrkStats) (sp : Sess)
    (reason : Option String) (del : Deleted) (h : SES_Delete P pp st sp reason = some del) :
    del.sp.req = none ∧ del.sp.fd < 0 ∧ del.sp.step = sp.step := by
  unfold SES_Delete at h
  split at h
  · cases h
  · rename_i sp1 h1
    split at h
    · cases h
    · rename_i sp2 h2
      have hb : (ses_delete_block P pp st sp2).sp = sp2 := by
        unfold ses_delete_block; split <;> rfl
      cases h
      rw [hb]
      have k1 : sp1.fd < 0 ∧ sp1.step = sp.step := by
        unfold ses_delete_close at h1
        split at h1
        · cases h1
        · rename_i spc hc
          split at h1
          · cases h1
          · split at h1
            · cases h1
            · rename_i hfd
              cases h1
              refine ⟨by omega, ?_⟩
              split at hc
              · unfold SES_Close at hc
                split at hc
                · cases hc
                · cases hc; rfl
              · cases hc; rfl
      have k2 : sp2.req = none ∧ sp2.fd = sp1.fd ∧ sp2.step = sp1.step := by
        unfold ses_delete_release at h2
        repeat' split at h2
        all_goals first
          | (cases h2; done)
          | (cases h2; simp_all)
      exact ⟨k2.1, by rw [k2.2.1]; exact k1.1, by rw [k2.2.2, k1.2]⟩

theorem cnt_hit_restarts (P : Params) (env : Env) (e : Eng) (res : CntResult)
    (h : cnt_hit env e = some res) (hI : RestartInv P e) (hs : e.sp.step = Step.HIT) :
    RestartInv P res.eng := by
  unfold cnt_hit at h
  obtain ⟨h1, h2⟩ := hI
  simp only [hs, Step.before_unchecked_restart, forall_true_left] at h2
  repeat' split at h
  all_goals first
    | (cases h; done)
    | (simp only [Option.some.injEq] at h
       subst h
       simp_all [RestartInv, Eng.restarts, CntResult.eng, Step.before_unchecked_restart,
         recv_req, done_req, prepresp_req, start_req, start_eng, fetch_unwind, fetch_go]
       try omega)

theorem cnt_lookup_restarts (P : Params) (env : Env) (e : Eng) (res : CntResult)
    (h : cnt_lookup env e = some res) (hI : RestartInv P e) (hs : e.sp.step = Step.LOOKUP) :
    RestartInv P res.eng ∧ res.eng.restarts ≤ e.restarts := by
  unfold cnt_lookup at h
  obtain ⟨h1, h2⟩ := hI
  simp only [hs, Step.before_unchecked_restart, forall_true_left] at h2
  repeat' split at h
  all_goals first
    | (cases h; done)
    | (simp only [Option.some.injEq] at h
       subst h
       simp_all [RestartInv, Eng.restarts, CntResult.eng, Step.before_unchecked_restart,
         recv_req, done_req, prepresp_req, start_req, start_eng, fetch_unwind, fetch_go]
       try omega)

theorem cnt_miss_restarts (P : Params) (env : Env) (e : Eng) (res : CntResult)
    (h : cnt_miss env e = some res) (hI : RestartInv P e) (hs : e.sp.step = Step.MISS) :
    RestartInv P res.eng ∧ res.eng.restarts ≤ e.restarts := by
  unfold cnt_miss at h
  obtain ⟨h1, h2⟩ := hI
  simp only [hs, Step.before_unchecked_restart, forall_true_left] at h2
  repeat' split at h
  all_goals first
    | (cases h; done)
    | (simp only [Option.some.injEq] at h
       subst h
       simp_all [RestartInv, Eng.restarts, CntResult.eng, Step.before_unchecked_restart,
         recv_req, done_req, prepresp_req, start_req, start_eng, fetch_unwind, fetch_go]
       try omega)

theorem cnt_pass_restarts (P : Params) (env : Env) (e : Eng) (res : CntResult)
    (h : cnt_pass env e = some res) (hI : RestartInv P e) (hs : e.sp.step = Step.PASS) :
    RestartInv P res.eng ∧ res.eng.restarts ≤ e.restarts := by
  unfold cnt_pass at h
  obtain ⟨h1, h2⟩ := hI
  simp only [hs, Step.before_unchecked_restart, forall_true_left] at h2
  repeat' split at h
  all_goals first
    | (cases h; done)
    | (simp only [Option.some.injEq] at h
       subst h
       simp_all [RestartInv, Eng.restarts, CntResult.eng, Step.before_unchecked_restart,
         recv_req, done_req, prepresp_req, start_req, start_eng, fetch_unwind, fetch_go]
       try omega)

theorem cnt_pipe_restarts (P : Params) (env : Env) (e : Eng) (res : CntResult)
    (h : cnt_pipe env e = some res) (hI : RestartInv P e) :
    RestartInv P res.eng ∧ res.eng.restarts ≤ e.restarts := by
  unfold cnt_pipe at h
  obtain ⟨h1, h2⟩ := hI
  clear h2
  repeat' split at h
  all_goals first
    | (cases h; done)
    | (simp only [Option.some.injEq] at h
       subst h
       simp_all [RestartInv, Eng.restarts, CntResult.eng, Step.before_unchecked_restart,
         recv_req, done_req, prepresp_req, start_req, start_eng, fetch_unwind, fetch_go]
       try omega)

theorem cnt_recv_restarts (P : Params) (env : Env) (e : Eng) (res : CntResult)
    (h : cnt_recv P env e = some res) (hI : RestartInv P e) :
    RestartInv P res.eng ∧ res.eng.restarts ≤ e.restarts := by
  unfold cnt_recv at h
  obtain ⟨h1, h2⟩ := hI
  clear h2
  repeat' split at h
  all_goals first
    | (cases h; done)
    | (simp only [Option.some.injEq] at h
       subst h
       simp_all [RestartInv, Eng.restarts, CntResult.eng, Step.before_unchecked_restart,
         recv_req, done_req, prepresp_req, start_req, start_eng, fetch_unwind, fetch_go]
       try omega)

theorem cnt_deliver_restarts (P : Params) (env : Env) (e : Eng) (res : CntResult)
    (h : cnt_deliver env e = some res) (hI : RestartInv P e) :
    RestartInv P res.eng ∧ res.eng.restarts ≤ e.restarts := by
  unfold cnt_deliver at h
  obtain ⟨h1, h2⟩ := hI
  clear h2
  repeat' split at h
  all_goals first
    | (cases h; done)
    | (simp only [Option.some.injEq] at h
       subst h
       simp_all [RestartInv, Eng.restarts, CntResult.eng, Step.before_unchecked_restart,
         recv_req, done_req, prepresp_req, start_req, start_eng, fetch_unwind, fetch_go]
       try omega)

theorem cnt_streambody_restarts (P : Params) (env : Env) (e : Eng) (res : CntResult)
    (h : cnt_streambody env e = some res) (hI : RestartInv P e) :
    RestartInv P res.eng ∧ res.eng.restarts ≤ e.restarts := by
  unfold cnt_streambody at h
  obtain ⟨h1, h2⟩ := hI
  clear h2
  repeat' split at h
  all_goals first
    | (cases h; done)
    | (simp only [Option.some.injEq] at h
       subst h
       simp_all [RestartInv, Eng.restarts, CntResult.eng, Step.before_unchecked_restart,
         recv_req, done_req, prepresp_req, start_req, start_eng, fetch_unwind, fetch_go]
       try omega)

theorem cnt_fetch_restarts (P : Params) (env : Env) (e : Eng) (res : CntResult)
    (h : cnt_fetch env e = some res) (hI : RestartInv P e) (hs : e.sp.step = Step.FETCH) :
    RestartInv P res.eng := by
  unfold cnt_fetch at h
  obtain ⟨h1, h2⟩ := hI
  simp only [hs, Step.before_unchecked_restart, forall_true_left] at h2
  repeat' split at h
  all_goals first
    | (cases h; done)
    | (simp only [Option.some.injEq] at h
       subst h
       simp_all [RestartInv, Eng.restarts, CntResult.eng, Step.before_unchecked_restart,
         recv_req, done_req, prepresp_req, start_req, start_eng, fetch_unwind, fetch_go]
       try omega)

theorem cnt_fetchbody_restarts (P : Params) (env : Env) (e : Eng) (res : CntResult)
    (h : cnt_fetchbody P env e = some res) (hI : RestartInv P e) :
    RestartInv P res.eng ∧ res.eng.restarts ≤ e.restarts := by
  unfold cnt_fetchbody at h
  obtain ⟨h1, h2⟩ := hI
  clear h2
  repeat' split at h
  all_goals first
    | (cases h; done)
    | (simp only [Option.some.injEq] at h
       subst h
       simp_all [RestartInv, Eng.restarts, CntResult.eng, Step.before_unchecked_restart,
         recv_req, done_req, prepresp_req, start_req, start_eng, fetch_unwind, fetch_go]
       try omega)

theorem cnt_error_restarts (P : Params) (env : Env) (e : Eng) (res : CntResult)
    (h : cnt_error P env e = some res) (hI : RestartInv P e) :
    RestartInv P res.eng := by
  unfold cnt_error at h
  obtain ⟨h1, h2⟩ := hI
  clear h2
  repeat' split at h
  all_goals first
    | (cases h; done)
    | (simp only [Option.some.injEq] at h
       subst h
       simp_all [RestartInv, Eng.restarts, CntResult.eng, Step.before_unchecked_restart,
         recv_req, done_req, prepresp_req, start_req, start_eng, fetch_unwind, fetch_go]
       try omega)

theorem cnt_start_restarts (P : Params) (env : Env) (e : Eng) (res : CntResult)
    (h : cnt_start env e = some res) (hI : RestartInv P e) :
    RestartInv P res.eng ∧ res.eng.restarts ≤ e.restarts := by
  unfold cnt_start at h
  obtain ⟨h1, h2⟩ := hI
  split at h
  · cases h
  · rename_i r hr
    by_cases c1 : r.restarts ≠ 0
    · rw [if_pos c1] at h; cases h
    rw [if_neg c1] at h
    by_cases c2 : e.wrk.obj.isSome = true
    · rw [if_pos c2] at h; cases h
    rw [if_neg c2] at h
    repeat' split at h
    all_goals first
      | (cases h; done)
      | (simp only [Option.some.injEq] at h
         subst h
         simp_all [RestartInv, Eng.restarts, CntResult.eng, Step.before_unchecked_restart,
           start_req, start_eng])

theorem cnt_first_restarts (P : Params) (e : Eng) (res : CntResult)
    (h : cnt_first e = some res) (hI : RestartInv P e) :
    RestartInv P res.eng ∧ res.eng.restarts ≤ e.restarts := by
  unfold cnt_first at h
  obtain ⟨h1, h2⟩ := hI
  split at h
  · cases h
  · simp only [Option.some.injEq] at h
    subst h
    simp_all [RestartInv, Eng.restarts, CntResult.eng, Step.before_unchecked_restart]

theorem prepresp_deliver_restarts (P : Params) (env : Env) (e : Eng) (r : Req) (o : Obj)
    (res : CntResult) (h : prepresp_deliver P env e r o = some res) :
    res.eng.restarts = r.restarts ∧ res.eng.sp.step.before_unchecked_restart = false := by
  unfold prepresp_deliver at h
  repeat' split at h
  all_goals first
    | (cases h; done)
    | (simp only [Option.some.injEq] at h
       subst h
       simp [Eng.restarts, CntResult.eng, Step.before_unchecked_restart, prepresp_req])

theorem cnt_prepresp_restarts (P : Params) (env : Env) (e : Eng) (res : CntResult)
    (h : cnt_prepresp P env e = some res) (hI : RestartInv P e) : RestartInv P res.eng := by
  unfold cnt_prepresp at h
  obtain ⟨h1, h2⟩ := hI
  split at h
  · rename_i o r ho hr
    have hr0 : e.restarts = r.restarts := by simp [Eng.restarts, hr]
    split at h
    · cases h
    split at h
    · cases h
    split at h
    · have k := prepresp_deliver_restarts P env e r o res h
      simp only [RestartInv, k.1, k.2]
      exact ⟨by omega, by simp⟩
    · split at h
      · have k := prepresp_deliver_restarts P env e r o res h
        simp only [RestartInv, k.1, k.2]
        exact ⟨by omega, by simp⟩
      · simp only [Option.some.injEq] at h
        subst h
        simp_all [RestartInv, Eng.restarts, CntResult.eng, Step.before_unchecked_restart,
          prepresp_req]
        omega
    · cases h
  · cases h

theorem Eng_delete_req (P : Params) (e : Eng) (reason : Option String) (res : CntResult)
    (h : e.delete P reason = some res) :
    res.eng.sp.req = none ∧ res.eng.sp.step = e.sp.step ∧
      ∃ f, res = CntResult.deleted res.eng f := by
  unfold Eng.delete at h
  split at h
  · cases h
  · rename_i del hd
    have k := SES_Delete_req P _ _ _ _ del hd
    simp only [Option.some.injEq] at h
    subst h
    exact ⟨k.1, k.2.2, _, rfl⟩

theorem RestartInv_of_no_req (P : Params) (e : Eng) (hr : e.sp.req = none)
    (hs : e.sp.step.before_unchecked_restart = false) : RestartInv P e ∧ e.restarts = 0 := by
  simp [RestartInv, Eng.restarts, hr, hs]

theorem SES_Charge_keeps (sp : Sess) (st : WrkStats) (a : Acct) (sp2 : Sess)
    (st2 : WrkStats) (a2 : Acct) (h : SES_Charge sp st a = some (sp2, st2, a2)) :
    sp2.step = sp.step ∧ sp2.fd = sp.fd ∧ a2 = Acct.zero ∧
      ∃ r, sp.req = some r ∧
        sp2.req = some { r with req_bodybytes := r.req_bodybytes + a.bodybytes } := by
  unfold SES_Charge at h
  split at h
  · cases h
  · rename_i r hr
    simp only [Option.some.injEq, Prod.mk.injEq] at h
    obtain ⟨h1, -, h3⟩ := h
    subst h1
    exact ⟨rfl, rfl, h3.symm, r, hr, rfl⟩

theorem SES_ReleaseReq_keeps (sp sp2 : Sess) (h : SES_ReleaseReq sp = some sp2) :
    sp2.req = none ∧ sp2.step = sp.step ∧ sp2.fd = sp.fd := by
  unfold SES_ReleaseReq at h
  split at h
  · cases h
  · simp only [Option.some.injEq] at h
    subst h
    exact ⟨rfl, rfl, rfl⟩

theorem cnt_wait_park_req (e : Eng) (res : CntResult) (h : cnt_wait_park e = some res) :
    res.eng.sp.req = none ∧ res.eng.sp.step = e.sp.step ∧ res = CntResult.yield res.eng := by
  unfold cnt_wait_park at h
  split at h
  · cases h
  · rename_i sp2 st2 a2 hc
    have k1 := SES_Charge_keeps _ _ _ _ _ _ hc
    split at h
    · cases h
    · rename_i sp3 hr
      have k2 := SES_ReleaseReq_keeps _ _ hr
      simp only [Option.some.injEq] at h
      subst h
      exact ⟨k2.1, by simp only [CntResult.eng]; rw [k2.2.1, k1.1], rfl⟩

theorem cnt_wait_loop_restarts (P : Params) (ws : List Wakeup) (e : Eng) (res : CntResult)
    (h : cnt_wait_loop P ws e = some res) (hI : e.restarts ≤ P.max_restarts)
    (hs : e.sp.step = Step.WAIT) :
    RestartInv P res.eng ∧ res.eng.restarts ≤ e.restarts := by
  have hdel : ∀ reason, e.delete P reason = some res →
      RestartInv P res.eng ∧ res.eng.restarts ≤ e.restarts := by
    intro reason hd
    have k := Eng_delete_req P e reason res hd
    have k2 := RestartInv_of_no_req P res.eng k.1 (by rw [k.2.1, hs]; rfl)
    exact ⟨k2.1, by rw [k2.2]; exact Nat.zero_le _⟩
  have hpark : cnt_wait_park e = some res →
      RestartInv P res.eng ∧ res.eng.restarts ≤ e.restarts := by
    intro hd
    have k := cnt_wait_park_req e res hd
    have k2 := RestartInv_of_no_req P res.eng k.1 (by rw [k.2.1, hs]; rfl)
    exact ⟨k2.1, by rw [k2.2]; exact Nat.zero_le _⟩
  induction ws with
  | nil => cases h
  | cons w ws ih =>
    unfold cnt_wait_loop at h
    repeat' split at h
    all_goals first
      | (cases h; done)
      | exact ih h
      | exact hdel _ h
      | exact hpark h
      | (simp only [Option.some.injEq] at h
         subst h
         simp_all [RestartInv, Eng.restarts, CntResult.eng, Step.before_unchecked_restart])

theorem cnt_wait_restarts (P : Params) (env : Env) (e : Eng) (res : CntResult)
    (h : cnt_wait P env e = some res) (hI : RestartInv P e) (hs : e.sp.step = Step.WAIT) :
    RestartInv P res.eng ∧ res.eng.restarts ≤ e.restarts := by
  unfold cnt_wait at h
  obtain ⟨h1, h2⟩ := hI
  split at h
  · cases h
  · rename_i sp1 hg
    have hsp : sp1.step = Step.WAIT ∧ ∀ r, sp1.req = some r → r.restarts = e.restarts := by
      split at hg
      · rename_i hn
        unfold SES_GetReq at hg
        split at hg
        · cases hg
        · simp only [Option.some.injEq] at hg
          subst hg
          refine ⟨hs, ?_⟩
          intro r hr
          simp only [Option.some.injEq] at hr
          subst hr
          simp only [Option.isNone_iff_eq_none] at hn
          simp [Eng.restarts, hn, Req.zero]
      · simp only [Option.some.injEq] at hg
        subst hg
        refine ⟨hs, ?_⟩
        intro r hr
        simp [Eng.restarts, hr]
    split at h
    · cases h
    · rename_i r hr
      have hrr := hsp.2 r hr
      repeat' split at h
      all_goals first
        | cases h
        | (have k := cnt_wait_loop_restarts P _ _ res h
             (by simp only [Eng.restarts]; omega) hsp.1
           simp only [Eng.restarts] at k
           rw [hrr] at k
           exact k)

theorem cnt_done_restarts (P : Params) (env : Env) (e : Eng) (res : CntResult)
    (h : cnt_done P env e = some res) (hI : RestartInv P e) (hs : e.sp.step = Step.DONE) :
    RestartInv P res.eng ∧ res.eng.restarts ≤ e.restarts := by
  unfold cnt_done at h
  obtain ⟨h1, h2⟩ := hI
  split at h
  · cases h
  · rename_i r hr
    split at h
    · cases h
    split at h
    · cases h
    split at h
    · cases h
    · rename_i sp1 st1 a1 hc
      obtain ⟨k1, k2, k3, r1, k4, k5⟩ := SES_Charge_keeps _ _ _ _ _ _ hc
      simp only [Option.some.injEq] at k4
      subst k4
      simp only [] at k1 k5
      split at h
      · simp only [Option.some.injEq] at h
        subst h
        simp [RestartInv, Eng.restarts, CntResult.eng, k5, k1, hs,
          Step.before_unchecked_restart]
      split at h
      · split at h
        all_goals
          simp only [Option.some.injEq] at h
          subst h
          simp [RestartInv, Eng.restarts, CntResult.eng, done_req,
            Step.before_unchecked_restart]
      · have k := Eng_delete_req P _ _ res h
        simp only [] at k
        have k2 := RestartInv_of_no_req P res.eng k.1 (by rw [k.2.1, k1, hs]; rfl)
        exact ⟨k2.1, by rw [k2.2]; exact Nat.zero_le _⟩

theorem cnt_dispatch_restarts (P : Params) (env : Env) (e : Eng) (res : CntResult)
    (h : cnt_dispatch P env e = some res) (hI : RestartInv P e) :
    RestartInv P res.eng ∧
      (e.restarts < res.eng.restarts →
        e.sp.step = Step.HIT ∨ e.sp.step = Step.FETCH ∨ e.sp.step = Step.PREPRESP ∨
          e.sp.step = Step.ERROR) := by
  unfold cnt_dispatch at h
  split at h
  · rename_i hs
    have k := cnt_first_restarts P e res h hI
    exact ⟨k.1, fun hlt => absurd hlt (by omega)⟩
  · rename_i hs
    have k := cnt_wait_restarts P env e res h hI hs
    exact ⟨k.1, fun hlt => absurd hlt (by omega)⟩
  · rename_i hs
    have k := cnt_start_restarts P env e res h hI
    exact ⟨k.1, fun hlt => absurd hlt (by omega)⟩
  · rename_i hs
    have k := cnt_recv_restarts P env e res h hI
    exact ⟨k.1, fun hlt => absurd hlt (by omega)⟩
  · rename_i hs
    have k := cnt_lookup_restarts P env e res h hI hs
    exact ⟨k.1, fun hlt => absurd hlt (by omega)⟩
  · rename_i hs
    exact ⟨cnt_hit_restarts P env e res h hI hs, fun _ => by simp [hs]⟩
  · rename_i hs
    have k := cnt_miss_restarts P env e res h hI hs
    exact ⟨k.1, fun hlt => absurd hlt (by omega)⟩
  · rename_i hs
    have k := cnt_pass_restarts P env e res h hI hs
    exact ⟨k.1, fun hlt => absurd hlt (by omega)⟩
  · rename_i hs
    have k := cnt_pipe_restarts P env e res h hI
    exact ⟨k.1, fun hlt => absurd hlt (by omega)⟩
  · rename_i hs
    exact ⟨cnt_fetch_restarts P env e res h hI hs, fun _ => by simp [hs]⟩
  · rename_i hs
    have k := cnt_fetchbody_restarts P env e res h hI
    exact ⟨k.1, fun hlt => absurd hlt (by omega)⟩
  · rename_i hs
    have k := cnt_streambody_restarts P env e res h hI
    exact ⟨k.1, fun hlt => absurd hlt (by omega)⟩
  · rename_i hs
    exact ⟨cnt_prepresp_restarts P env e res h hI, fun _ => by simp [hs]⟩
  · rename_i hs
    have k := cnt_deliver_restarts P env e res h hI
    exact ⟨k.1, fun hlt => absurd hlt (by omega)⟩
  · rename_i hs
    exact ⟨cnt_error_restarts P env e res h hI, fun _ => by simp [hs]⟩
  · rename_i hs
    have k := cnt_done_restarts P env e res h hI hs
    exact ⟨k.1, fun hlt => absurd hlt (by omega)⟩

theorem cnt_loop_reach (P : Params) (envs : List Env) (e0 e : Eng) (res : CntResult)
    (hr : EngReach P e0 e) (h : cnt_loop P envs e = some res) : EngReach P e0 res.eng := by
  induction envs generalizing e with
  | nil =>
    simp only [cnt_loop, Option.some.injEq] at h
    subst h
    exact hr
  | cons env envs ih =>
    unfold cnt_loop at h
    split at h
    · cases h
    · rename_i e1 hd
      exact ih e1 (EngReach.handler e env _ hr hd) h
    · rename_i r _ hd
      simp only [Option.some.injEq] at h
      subst h
      exact EngReach.handler e env _ hr hd

theorem eng_after_reach (P : Params) (envs : List Env) (e : Eng) :
    EngReach P e (eng_after P envs e) := by
  unfold eng_after
  split
  · rename_i res h
    exact cnt_loop_reach P envs e e res EngReach.start h
  · exact EngReach.start

/-- C5: in every engine state reached by running state handlers from a state within the
restart budget (any state with `restarts = 0` that is not between the check of RECV and
HIT or FETCH, such as a session entering FIRST, WAIT or START), whatever the policy and
the other outside code answer, `restarts <= max_restarts`; it still holds after any
further handler, and a handler that raises the count is HIT, FETCH, PREPRESP or ERROR. -/
theorem restarts_le_max_restarts (P : Params) (e0 e : Eng) (h0 : RestartInv P e0)
    (hr : EngReach P e0 e) :
    e.restarts ≤ P.max_restarts ∧
      ∀ env res, cnt_dispatch P env e = some res →
        res.eng.restarts ≤ P.max_restarts ∧
          (e.restarts < res.eng.restarts →
            e.sp.step = Step.HIT ∨ e.sp.step = Step.FETCH ∨ e.sp.step = Step.PREPRESP ∨
              e.sp.step = Step.ERROR) := by
  have hI : RestartInv P e := by
    induction hr with
    | start => exact h0
    | handler e1 env res _ hd ih => exact (cnt_dispatch_restarts P env e1 res hd ih).1
  refine ⟨hI.1, ?_⟩
  intro env res hd
  have k := cnt_dispatch_restarts P env e res hd hI
  exact ⟨k.1.1, k.2⟩

/-- C5 at a concrete run: a request is parsed, looked up, found in the cache and
restarted by the policy in HIT, with one restart allowed; the count stands at 1. -/
theorem restarts_le_max_restarts_witness :
    RestartInv params_ex eng_ex_start ∧
      (eng_after params_ex envs_hit_restart eng_ex_start).restarts = 1 ∧
      ((eng_after params_ex envs_hit_restart eng_ex_start).restarts ≤ params_ex.max_restarts ∧
        ∀ env res,
          cnt_dispatch params_ex env (eng_after params_ex envs_hit_restart eng_ex_start) =
            some res →
          res.eng.restarts ≤ params_ex.max_restarts ∧
            ((eng_after params_ex envs_hit_restart eng_ex_start).restarts <
                res.eng.restarts →
              (eng_after params_ex envs_hit_restart eng_ex_start).sp.step = Step.HIT ∨
              (eng_after params_ex envs_hit_restart eng_ex_start).sp.step = Step.FETCH ∨
              (eng_after params_ex envs_hit_restart eng_ex_start).sp.step = Step.PREPRESP ∨
              (eng_after params_ex envs_hit_restart eng_ex_start).sp.step = Step.ERROR)) :=
  ⟨⟨by decide, by decide⟩, by decide,
    restarts_le_max_restarts params_ex eng_ex_start _ ⟨by decide, by decide⟩
      (eng_after_reach params_ex envs_hit_restart eng_ex_start)⟩

/-! ### What the handlers leave of the XID counter, and where they yield -/

theorem cnt_hit_frame (env : Env) (e : Eng) (res : CntResult)
    (h : cnt_hit env e = some res) : res.eng.xids = e.xids ∧ YieldRule res := by
  unfold cnt_hit at h
  repeat' split at h
  all_goals first
    | (cases h; done)
    | (simp only [Option.some.injEq] at h
       subst h
       simp [CntResult.eng, YieldRule, fetch_unwind, fetch_go, start_eng])

theorem cnt_miss_frame (env : Env) (e : Eng) (res : CntResult)
    (h : cnt_miss env e = some res) : res.eng.xids = e.xids ∧ YieldRule res := by
  unfold cnt_miss at h
  repeat' split at h
  all_goals first
    | (cases h; done)
    | (simp only [Option.some.injEq] at h
       subst h
       simp [CntResult.eng, YieldRule, fetch_unwind, fetch_go, start_eng])

theorem cnt_pass_frame (env : Env) (e : Eng) (res : CntResult)
    (h : cnt_pass env e = some res) : res.eng.xids = e.xids ∧ YieldRule res := by
  unfold cnt_pass at h
  repeat' split at h
  all_goals first
    | (cases h; done)
    | (simp only [Option.some.injEq] at h
       subst h
       simp [CntResult.eng, YieldRule, fetch_unwind, fetch_go, start_eng])

theorem cnt_pipe_frame (env : Env) (e : Eng) (res : CntResult)
    (h : cnt_pipe env e = some res) : res.eng.xids = e.xids ∧ YieldRule res := by
  unfold cnt_pipe at h
  repeat' split at h
  all_goals first
    | (cases h; done)
    | (simp only [Option.some.injEq] at h
       subst h
       simp [CntResult.eng, YieldRule, fetch_unwind, fetch_go, start_eng])

theorem cnt_recv_frame (P : Params) (env : Env) (e : Eng) (res : CntResult)
    (h : cnt_recv P env e = some res) : res.eng.xids = e.xids ∧ YieldRule res := by
  unfold cnt_recv at h
  repeat' split at h
  all_goals first
    | (cases h; done)
    | (simp only [Option.some.injEq] at h
       subst h
       simp [CntResult.eng, YieldRule, fetch_unwind, fetch_go, start_eng])

theorem cnt_deliver_frame (env : Env) (e : Eng) (res : CntResult)
    (h : cnt_deliver env e = some res) : res.eng.xids = e.xids ∧ YieldRule res := by
  unfold cnt_deliver at h
  repeat' split at h
  all_goals first
    | (cases h; done)
    | (simp only [Option.some.injEq] at h
       subst h
       simp [CntResult.eng, YieldRule, fetch_unwind, fetch_go, start_eng])

theorem cnt_streambody_frame (env : Env) (e : Eng) (res : CntResult)
    (h : cnt_streambody env e = some res) : res.eng.xids = e.xids ∧ YieldRule res := by
  unfold cnt_streambody at h
  repeat' split at h
  all_goals first
    | (cases h; done)
    | (simp only [Option.some.injEq] at h
       subst h
       simp [CntResult.eng, YieldRule, fetch_unwind, fetch_go, start_eng])

theorem cnt_fetch_frame (env : Env) (e : Eng) (res : CntResult)
    (h : cnt_fetch env e = some res) : res.eng.xids = e.xids ∧ YieldRule res := by
  unfold cnt_fetch at h
  repeat' split at h
  all_goals first
    | (cases h; done)
    | (simp only [Option.some.injEq] at h
       subst h
       simp [CntResult.eng, YieldRule, fetch_unwind, fetch_go, start_eng])

theorem cnt_fetchbody_frame (P : Params) (env : Env) (e : Eng) (res : CntResult)
    (h : cnt_fetchbody P env e = some res) : res.eng.xids = e.xids ∧ YieldRule res := by
  unfold cnt_fetchbody at h
  repeat' split at h
  all_goals first
    | (cases h; done)
    | (simp only [Option.some.injEq] at h
       subst h
       simp [CntResult.eng, YieldRule, fetch_unwind, fetch_go, start_eng])

theorem cnt_error_frame (P : Params) (env : Env) (e : Eng) (res : CntResult)
    (h : cnt_error P env e = some res) : res.eng.xids = e.xids ∧ YieldRule res := by
  unfold cnt_error at h
  repeat' split at h
  all_goals first
    | (cases h; done)
    | (simp only [Option.some.injEq] at h
       subst h
       simp [CntResult.eng, YieldRule, fetch_unwind, fetch_go, start_eng])

theorem prepresp_deliver_frame (P : Params) (env : Env) (e : Eng) (r : Req) (o : Obj)
    (res : CntResult)
    (h : prepresp_deliver P env e r o = some res) : res.eng.xids = e.xids ∧ YieldRule res := by
  unfold prepresp_deliver at h
  repeat' split at h
  all_goals first
    | (cases h; done)
    | (simp only [Option.some.injEq] at h
       subst h
       simp [CntResult.eng, YieldRule, fetch_unwind, fetch_go, start_eng])

theorem cnt_first_frame (e : Eng) (res : CntResult)
    (h : cnt_first e = some res) : res.eng.xids = e.xids ∧ YieldRule res := by
  unfold cnt_first at h
  repeat' split at h
  all_goals first
    | (cases h; done)
    | (simp only [Option.some.injEq] at h
       subst h
       simp [CntResult.eng, YieldRule, fetch_unwind, fetch_go, start_eng])

theorem cnt_lookup_frame (env : Env) (e : Eng) (res : CntResult)
    (h : cnt_lookup env e = some res) (hs : e.sp.step = Step.LOOKUP) :
    res.eng.xids = e.xids ∧ YieldRule res := by
  unfold cnt_lookup at h
  repeat' split at h
  all_goals first
    | (cases h; done)
    | (simp only [Option.some.injEq] at h
       subst h
       simp [CntResult.eng, YieldRule, hs])

theorem cnt_prepresp_frame (P : Params) (env : Env) (e : Eng) (res : CntResult)
    (h : cnt_prepresp P env e = some res) : res.eng.xids = e.xids ∧ YieldRule res := by
  unfold cnt_prepresp at h
  repeat' split at h
  all_goals first
    | (cases h; done)
    | exact prepresp_deliver_frame P env e _ _ res h
    | (simp only [Option.some.injEq] at h
       subst h
       simp [CntResult.eng, YieldRule])

theorem cnt_start_frame (env : Env) (e : Eng) (res : CntResult)
    (h : cnt_start env e = some res) :
    res.eng.xids = uinc e.xids ∧ res.eng.sp.req.map Req.xid = some (uinc e.xids) ∧
      YieldRule res := by
  unfold cnt_start at h
  split at h
  · cases h
  · rename_i r hr
    by_cases c1 : r.restarts ≠ 0
    · rw [if_pos c1] at h; cases h
    rw [if_neg c1] at h
    by_cases c2 : e.wrk.obj.isSome = true
    · rw [if_pos c2] at h; cases h
    rw [if_neg c2] at h
    repeat' split at h
    all_goals first
      | (cases h; done)
      | (simp only [Option.some.injEq] at h
         subst h
         simp [CntResult.eng, YieldRule, start_eng, start_req])

theorem Eng_delete_frame (P : Params) (e : Eng) (reason : Option String) (res : CntResult)
    (h : e.delete P reason = some res) : res.eng.xids = e.xids ∧ YieldRule res := by
  unfold Eng.delete at h
  split at h
  · cases h
  · simp only [Option.some.injEq] at h
    subst h
    simp [CntResult.eng, YieldRule]

theorem cnt_wait_park_frame (e : Eng) (res : CntResult) (h : cnt_wait_park e = some res) :
    res.eng.xids = e.xids ∧ res.eng.sp.step = e.sp.step := by
  have k := cnt_wait_park_req e res h
  refine ⟨?_, k.2.1⟩
  unfold cnt_wait_park at h
  repeat' split at h
  all_goals first
    | (cases h; done)
    | (simp only [Option.some.injEq] at h
       subst h
       simp [CntResult.eng])

theorem cnt_wait_loop_frame (P : Params) (ws : List Wakeup) (e : Eng) (res : CntResult)
    (h : cnt_wait_loop P ws e = some res) (hs : e.sp.step = Step.WAIT) :
    res.eng.xids = e.xids ∧ YieldRule res := by
  induction ws with
  | nil => cases h
  | cons w ws ih =>
    unfold cnt_wait_loop at h
    repeat' split at h
    all_goals first
      | (cases h; done)
      | exact ih h
      | (have k := Eng_delete_frame P e _ res h
         exact k)
      | (have k := cnt_wait_park_frame e res h
         refine ⟨k.1, ?_⟩
         intro e1 he1
         subst he1
         left
         rw [← hs]
         exact k.2)
      | (simp only [Option.some.injEq] at h
         subst h
         simp [CntResult.eng, YieldRule])

theorem cnt_wait_frame (P : Params) (env : Env) (e : Eng) (res : CntResult)
    (h : cnt_wait P env e = some res) (hs : e.sp.step = Step.WAIT) :
    res.eng.xids = e.xids ∧ YieldRule res := by
  unfold cnt_wait at h
  split at h
  · cases h
  · rename_i sp1 hg
    have hsp : sp1.step = Step.WAIT := by
      split at hg
      · unfold SES_GetReq at hg
        split at hg
        · cases hg
        · simp only [Option.some.injEq] at hg
          subst hg
          exact hs
      · simp only [Option.some.injEq] at hg
        subst hg
        exact hs
    repeat' split at h
    all_goals first
      | cases h
      | (have k := cnt_wait_loop_frame P _ _ res h hsp
         exact k)

theorem cnt_done_frame (P : Params) (env : Env) (e : Eng) (res : CntResult)
    (h : cnt_done P env e = some res) (hs : e.sp.step = Step.DONE) :
    res.eng.xids = e.xids ∧ YieldRule res := by
  unfold cnt_done at h
  split at h
  · cases h
  · rename_i r hr
    split at h
    · cases h
    split at h
    · cases h
    split at h
    · cases h
    · rename_i sp1 st1 a1 hc
      obtain ⟨k1, k2, k3, r1, k4, k5⟩ := SES_Charge_keeps _ _ _ _ _ _ hc
      simp only [Option.some.injEq] at k4
      subst k4
      simp only [] at k1 k5
      split at h
      · rename_i hesi
        simp only [Option.some.injEq] at h
        subst h
        refine ⟨rfl, ?_⟩
        intro e1 he1
        simp only [CntResult.yield.injEq] at he1
        subst he1
        right; right
        exact ⟨by rw [k1, hs], _, k5, hesi⟩
      split at h
      · split at h
        all_goals
          simp only [Option.some.injEq] at h
          subst h
          simp [CntResult.eng, YieldRule]
      · have k := Eng_delete_frame P _ _ res h
        exact k

/-! ### The error path without storage -/

/-- C4: when neither `STV_NewObject` call in `cnt_error` yields an object, the handler
goes to DONE with the busy object it has just acquired still attached to the worker, and
`cnt_done` then fails its assertion `AZ(wrk->busyobj)`, whatever the outside code hands
back. -/
theorem cnt_error_out_of_objects_fails_done (P : Params) (env : Env) (e : Eng) (r : Req)
    (hr : e.sp.req = some r) (ho : e.wrk.obj = none) (hb : e.wrk.busyobj = none)
    (h1 : env.stv1 = false) (h2 : env.stv2 = false) :
    ∃ e1, cnt_error P env e = some (CntResult.step e1) ∧ e1.sp.step = Step.DONE ∧
      e1.wrk.obj = none ∧ e1.wrk.busyobj = some BusyObj.zero ∧
      ∀ env2, cnt_done P env2 e1 = none := by
  refine ⟨{ e with
      vbo_gets := e.vbo_gets + 1
      wrk := { e.wrk with busyobj := some BusyObj.zero }
      sp := { e.sp with
        req := some { r with doclose := some "Out of objects", director := false }
        step := Step.DONE } }, ?_, rfl, ho, rfl, ?_⟩
  · unfold cnt_error
    simp [hr, ho, hb, h1, h2]
  · intro env2
    simp [cnt_done, ho]

/-- C4 at a concrete run: a request that cannot be parsed goes from START to ERROR, no
object can be allocated, and the run ends in the failed assertion of `cnt_done`. -/
theorem cnt_error_out_of_objects_fails_done_witness :
    (eng_after params_ex [{ dissect := 413 }] eng_ex_start).sp.step = Step.ERROR ∧
    cnt_loop params_ex (envs_error_no_storage ++ [env_default]) eng_ex_start = none ∧
    ∃ e1, cnt_error params_ex { stv1 := false, stv2 := false }
        (eng_after params_ex [{ dissect := 413 }] eng_ex_start) = some (CntResult.step e1) ∧
      e1.sp.step = Step.DONE ∧ e1.wrk.obj = none ∧ e1.wrk.busyobj = some BusyObj.zero ∧
      ∀ env2, cnt_done params_ex env2 e1 = none :=
  ⟨by decide, by decide,
    cnt_error_out_of_objects_fails_done params_ex { stv1 := false, stv2 := false }
      (eng_after params_ex [{ dissect := 413 }] eng_ex_start)
      { Req.zero with xid := 1001, vcl := true, err_code := 413 }
      (by decide) (by decide) (by decide) rfl rfl⟩

/-! ### The restart limit in RECV -/

/-- C6 as stated fails: a request that starts at START, misses the cache and is
restarted by the policy in FETCH after the backend answered 200 comes back to RECV with
`restarts >= max_restarts` and `err_code = 200`; `cnt_recv` sends it to ERROR with the
error code still 200, not 503. -/
theorem recv_restart_limit_keeps_pending_code :
    (eng_after params_ex envs_fetch_restart eng_ex_start).sp.step = Step.RECV ∧
    params_ex.max_restarts ≤ (eng_after params_ex envs_fetch_restart eng_ex_start).restarts ∧
    (cnt_recv params_ex env_default
        (eng_after params_ex envs_fetch_restart eng_ex_start)).map
      (fun res => (res.eng.sp.step, res.eng.sp.req.map Req.err_code)) =
      some (Step.ERROR, some 200) := by
  decide

/-- C6 (amended): when `cnt_recv` runs with its assertions satisfied and
`restarts >= max_restarts`, it returns with the next state ERROR; the error code is 503
if no error code is pending after `VCL_recv_method` (`err_code == 0`), and the pending
code is left as it is otherwise. -/
theorem cnt_recv_restart_limit (P : Params) (env : Env) (e : Eng) (r : Req)
    (hr : e.sp.req = some r) (hv : r.vcl = true) (ho : e.wrk.obj = none)
    (hb : e.wrk.busyobj = none) (hd : r.director = false)
    (hm : P.max_restarts ≤ r.restarts) :
    ∃ e1, cnt_recv P env e = some (CntResult.step e1) ∧ e1.sp.step = Step.ERROR ∧
      ((recv_req env r).err_code = 0 → e1.sp.req.map Req.err_code = some 503) ∧
      ((recv_req env r).err_code ≠ 0 →
        e1.sp.req.map Req.err_code = some (recv_req env r).err_code) := by
  refine ⟨{ e with sp := { e.sp with
      req := some { recv_req env r with
        err_code := if (recv_req env r).err_code = 0 then 503 else (recv_req env r).err_code }
      step := Step.ERROR } }, ?_, rfl, ?_, ?_⟩
  · unfold cnt_recv
    simp [hr, hv, ho, hb, hd, hm]
  · intro h0
    simp [h0]
  · intro h0
    simp [h0]

/-- C6 (amended) at a concrete state: back in RECV after a restart from HIT, with one
restart allowed and no error code pending. -/
theorem cnt_recv_restart_limit_witness :
    ∃ e1, cnt_recv params_ex env_default
        (eng_after params_ex envs_hit_restart eng_ex_start) = some (CntResult.step e1) ∧
      e1.sp.step = Step.ERROR ∧
      ((recv_req env_default
          req_ex_restarted).err_code = 0 →
        e1.sp.req.map Req.err_code = some 503) ∧
      ((recv_req env_default
          req_ex_restarted).err_code ≠ 0 →
        e1.sp.req.map Req.err_code =
          some (recv_req env_default
            req_ex_restarted).err_code) :=
  cnt_recv_restart_limit params_ex env_default
    (eng_after params_ex envs_hit_restart eng_ex_start)
    req_ex_restarted
    (by decide) rfl (by decide) (by decide) rfl (by decide)

/-! ### The XID counter and the yield rule -/

theorem cnt_dispatch_frame (P : Params) (env : Env) (e : Eng) (res : CntResult)
    (h : cnt_dispatch P env e = some res) :
    YieldRule res ∧
      (e.sp.step ≠ Step.START → res.eng.xids = e.xids) ∧
      (e.sp.step = Step.START →
        res.eng.xids = uinc e.xids ∧ res.eng.sp.req.map Req.xid = some (uinc e.xids)) := by
  unfold cnt_dispatch at h
  split at h
  · rename_i hs
    have k := cnt_first_frame e res h
    exact ⟨k.2, fun _ => k.1, fun hn => by simp [hs] at hn⟩
  · rename_i hs
    have k := cnt_wait_frame P env e res h hs
    exact ⟨k.2, fun _ => k.1, fun hn => by simp [hs] at hn⟩
  · rename_i hs
    have k := cnt_start_frame env e res h
    exact ⟨k.2.2, fun hn => absurd hs hn, fun _ => ⟨k.1, k.2.1⟩⟩
  · rename_i hs
    have k := cnt_recv_frame P env e res h
    exact ⟨k.2, fun _ => k.1, fun hn => by simp [hs] at hn⟩
  · rename_i hs
    have k := cnt_lookup_frame env e res h hs
    exact ⟨k.2, fun _ => k.1, fun hn => by simp [hs] at hn⟩
  · rename_i hs
    have k := cnt_hit_frame env e res h
    exact ⟨k.2, fun _ => k.1, fun hn => by simp [hs] at hn⟩
  · rename_i hs
    have k := cnt_miss_frame env e res h
    exact ⟨k.2, fun _ => k.1, fun hn => by simp [hs] at hn⟩
  · rename_i hs
    have k := cnt_pass_frame env e res h
    exact ⟨k.2, fun _ => k.1, fun hn => by simp [hs] at hn⟩
  · rename_i hs
    have k := cnt_pipe_frame env e res h
    exact ⟨k.2, fun _ => k.1, fun hn => by simp [hs] at hn⟩
  · rename_i hs
    have k := cnt_fetch_frame env e res h
    exact ⟨k.2, fun _ => k.1, fun hn => by simp [hs] at hn⟩
  · rename_i hs
    have k := cnt_fetchbody_frame P env e res h
    exact ⟨k.2, fun _ => k.1, fun hn => by simp [hs] at hn⟩
  · rename_i hs
    have k := cnt_streambody_frame env e res h
    exact ⟨k.2, fun _ => k.1, fun hn => by simp [hs] at hn⟩
  · rename_i hs
    have k := cnt_prepresp_frame P env e res h
    exact ⟨k.2, fun _ => k.1, fun hn => by simp [hs] at hn⟩
  · rename_i hs
    have k := cnt_deliver_frame env e res h
    exact ⟨k.2, fun _ => k.1, fun hn => by simp [hs] at hn⟩
  · rename_i hs
    have k := cnt_error_frame P env e res h
    exact ⟨k.2, fun _ => k.1, fun hn => by simp [hs] at hn⟩
  · rename_i hs
    have k := cnt_done_frame P env e res h hs
    exact ⟨k.2, fun _ => k.1, fun hn => by simp [hs] at hn⟩

theorem xid_seq_succ (x n : Nat) :
    (List.range (n + 1)).map (fun k => (x + k + 1) % 4294967296) =
      uinc x :: (List.range n).map (fun k => (uinc x + k + 1) % 4294967296) := by
  rw [List.range_succ_eq_map, List.map_cons, List.map_map]
  congr 1
  apply List.map_congr_left
  intro k _
  simp only [Function.comp, uinc]
  omega

/-- C7 (amended): in a process run without `debug.xid`, the START handlers assign the
successors of the counter modulo 2^32, one after the other: the `k`-th request to pass
through START gets `(x + k) mod 2^32` when the counter stood at `x`.  As long as the
counter does not wrap (`x` plus the number of requests stays below 2^32), a later
request gets a strictly greater XID than an earlier one. -/
theorem xid_run_assigns_successors (P : Params) (l : List (Env × Eng)) (x x1 : Nat)
    (xs : List Nat) (h : xid_run P l x = some (x1, xs)) :
    xs = (List.range xs.length).map (fun k => (x + k + 1) % 4294967296) ∧
      (x + xs.length < 4294967296 → xs.Pairwise (fun a b => a < b)) := by
  have hseq : xs = (List.range xs.length).map (fun k => (x + k + 1) % 4294967296) := by
    induction l generalizing x x1 xs with
    | nil =>
      simp only [xid_run, Option.some.injEq, Prod.mk.injEq] at h
      rw [← h.2]
      rfl
    | cons p rest ih =>
      obtain ⟨env, e⟩ := p
      unfold xid_run at h
      split at h
      · cases h
      · rename_i res hd
        have kf := cnt_dispatch_frame P env _ res hd
        split at h
        · cases h
        · rename_i x2 l2 hrest
          have kr := ih _ _ _ hrest
          simp only [Option.some.injEq, Prod.mk.injEq] at h
          obtain ⟨-, h2⟩ := h
          by_cases hs : e.sp.step = Step.START
          · rw [if_pos hs] at h2
            obtain ⟨k1, k2⟩ := kf.2.2 hs
            simp only [] at k1 k2
            cases hq : res.eng.sp.req with
            | none => rw [hq] at k2; simp at k2
            | some r =>
              rw [hq] at k2 h2
              simp only [Option.map_some', Option.some.injEq] at k2
              simp only [k2] at h2
              rw [← h2, List.length_cons, xid_seq_succ]
              rw [k1] at kr
              rw [← kr]
          · rw [if_neg hs] at h2
            have k1 := kf.2.1 hs
            simp only [] at k1
            rw [k1] at kr
            rw [← h2]
            exact kr
  refine ⟨hseq, ?_⟩
  intro hlt
  rw [hseq]
  apply List.Pairwise.map (fun k => (x + k + 1) % 4294967296) ?_
    ((List.pairwise_lt_range xs.length).imp_of_mem ?_ :
      (List.range xs.length).Pairwise (fun a b => a < b ∧ b < xs.length))
  · intro a b hab
    simp only []
    omega
  · intro a b _ hb hab
    exact ⟨hab, List.mem_range.mp hb⟩

/-- C7 (amended) at a concrete run: two requests pass through START with the counter
at 1000. -/
theorem xid_run_assigns_successors_witness :
    xid_run params_ex [(env_default, eng_ex_start), (env_default, eng_ex_start)] 1000 =
      some (1002, [1001, 1002]) ∧
    ([1001, 1002] =
        (List.range [1001, 1002].length).map (fun k => (1000 + k + 1) % 4294967296) ∧
      (1000 + [1001, 1002].length < 4294967296 →
        [1001, 1002].Pairwise (fun a b => a < b))) :=
  ⟨by decide,
    xid_run_assigns_successors params_ex
      [(env_default, eng_ex_start), (env_default, eng_ex_start)] 1000 1002 [1001, 1002]
      (by decide)⟩

/-- C7 as stated fails: with the counter at 2^32 - 2, the first of two requests to pass
through START gets XID 4294967295 and the second gets 0, which is not greater. -/
theorem xid_wraps_to_zero :
    xid_run params_ex [(env_default, eng_ex_start), (env_default, eng_ex_start)]
      4294967294 = some (0, [4294967295, 0]) := by
  decide

/-- C8 (amended): when a state handler returns 1 with the session alive, the session
is parked in WAIT or in LOOKUP, both accepted on re-entry, or it is an ESI child request
(`esi_level > 0`) that hands back to its parent with the step left at DONE. -/
theorem yield_in_wait_lookup_or_esi_done (P : Params) (env : Env) (e e1 : Eng)
    (h : cnt_dispatch P env e = some (CntResult.yield e1)) :
    e1.sp.step = Step.WAIT ∨ e1.sp.step = Step.LOOKUP ∨
      (e1.sp.step = Step.DONE ∧ ∃ r, e1.sp.req = some r ∧ 0 < r.esi_level) :=
  (cnt_dispatch_frame P env e _ h).1 e1 rfl

/-- C8 (amended) at a concrete run: a request is parked in LOOKUP on a busy object. -/
theorem yield_in_wait_lookup_or_esi_done_witness :
    cnt_dispatch params_ex { lookup := LookupRes.park }
        (eng_after params_ex [env_default, { handling := Handling.LOOKUP }] eng_ex_start) =
      some (CntResult.yield
        (eng_after params_ex
          [env_default, { handling := Handling.LOOKUP }, { lookup := LookupRes.park }]
          eng_ex_start)) ∧
    ((eng_after params_ex
          [env_default, { handling := Handling.LOOKUP }, { lookup := LookupRes.park }]
          eng_ex_start).sp.step = Step.WAIT ∨
      (eng_after params_ex
          [env_default, { handling := Handling.LOOKUP }, { lookup := LookupRes.park }]
          eng_ex_start).sp.step = Step.LOOKUP ∨
      ((eng_after params_ex
          [env_default, { handling := Handling.LOOKUP }, { lookup := LookupRes.park }]
          eng_ex_start).sp.step = Step.DONE ∧
        ∃ r, (eng_after params_ex
          [env_default, { handling := Handling.LOOKUP }, { lookup := LookupRes.park }]
          eng_ex_start).sp.req = some r ∧ 0 < r.esi_level)) :=
  ⟨by decide,
    yield_in_wait_lookup_or_esi_done params_ex { lookup := LookupRes.park }
      (eng_after params_ex [env_default, { handling := Handling.LOOKUP }] eng_ex_start) _
      (by decide)⟩

/-- C8 as stated fails: an ESI child request that enters at RECV and is served from the
cache comes to DONE, where `cnt_done` returns 1 with the session alive and the step
still DONE, which is none of FIRST, WAIT, LOOKUP, RECV. -/
theorem esi_child_yields_in_done :
    CNT_Session params_ex none envs_hit_deliver eng_ex_esi_child =
      some (CntResult.yield (eng_after params_ex envs_hit_deliver eng_ex_esi_child)) ∧
    (eng_after params_ex envs_hit_deliver eng_ex_esi_child).sp.step = Step.DONE ∧
    (eng_after params_ex envs_hit_deliver eng_ex_esi_child).sp.fd = 7 := by
  decide

/-! ### Session scheduling and the session pool -/

theorem cnt_wait_loop_parks (P : Params) (w : Wakeup) (ws : List Wakeup) (e : Eng) (t : ℚ)
    (hp : 0 ≤ w.poll) (h3 : w.htc = -3) (ht : e.sp.t_idle = some t)
    (h1 : ¬ dadd t P.timeout_idle < w.now) (h2 : dadd t P.timeout_linger < w.now) :
    cnt_wait_loop P (w :: ws) e = cnt_wait_park e := by
  have hp2 : ¬ w.poll < 0 := by omega
  unfold cnt_wait_loop
  simp [hp2, h3, ht, h1, h2]

theorem SES_Schedule_rejected_with_req (P : Params) (pp : Sesspool) (vsc : Vsc) (sp : Sess)
    (now : ℚ) (r : Req) (hw : sp.wrk = false) (hp : pp.pool = true) (hfd : 0 ≤ sp.fd)
    (ht : sp.t_open ≠ none) (hr : sp.req = some r) :
    ∃ del, SES_Schedule P pp vsc sp true now =
      some (1, { vsc with client_drop_late := vsc.client_drop_late + 1 }, del.sp, some del) := by
  have hfd2 : ¬ sp.fd < 0 := by omega
  have hc : ∀ s : Sess, s.fd = sp.fd → s.t_open = sp.t_open →
      ses_delete_close s (some "dropped") =
        some { s with fd := -1, close_reason := some "dropped" } := by
    intro s h1 h2
    simp [ses_delete_close, SES_Close, h1, h2, hfd2, ht]
  unfold SES_Schedule
  simp only [hw, hp, hr]
  by_cases hv : r.vcl = true
  · simp [hv, SES_Delete, hc, ses_delete_release]
  · simp [hv, SES_Delete, hc, ses_delete_release, hr]

/-- C9: a session parked by `cnt_wait` holds no request record; when it is resumed
through `SES_Handle` and `Pool_Schedule` turns it down, `SES_Schedule` reads
`sp->req->vcl` through the null pointer and does not return.  The same session with a
request record attached is closed and deleted, `client_drop_late` is counted and 1 is
returned. -/
theorem SES_Handle_rejected_after_park (P : Params) (pp : Sesspool) (vsc : Vsc) (e : Eng)
    (res : CntResult) (now clock : ℚ) (hpk : cnt_wait_park e = some res)
    (hp : pp.pool = true) (hfd : 0 ≤ e.sp.fd) (ht : e.sp.t_open ≠ none) :
    SES_Handle P pp vsc { res.eng.sp with wrk := false } true now clock = none ∧
      ∀ r, ∃ del,
        SES_Handle P pp vsc { res.eng.sp with wrk := false, req := some r } true now clock =
          some (1, { vsc with client_drop_late := vsc.client_drop_late + 1 }, del.sp,
            some del) := by
  have k := cnt_wait_park_req e res hpk
  constructor
  · unfold SES_Handle SES_Schedule
    simp [hp, k.1]
  · intro r
    unfold cnt_wait_park at hpk
    split at hpk
    · cases hpk
    · rename_i sp2 st2 a2 hc
      have k1 := SES_Charge_keeps _ _ _ _ _ _ hc
      split at hpk
      · cases hpk
      · rename_i sp3 hrel
        have k2 : sp3.fd = sp2.fd ∧ sp3.t_open = sp2.t_open := by
          unfold SES_ReleaseReq at hrel
          split at hrel
          · cases hrel
          · simp only [Option.some.injEq] at hrel
            subst hrel
            exact ⟨rfl, rfl⟩
        have k3 : sp2.t_open = e.sp.t_open := by
          unfold SES_Charge at hc
          split at hc
          · cases hc
          · simp only [Option.some.injEq, Prod.mk.injEq] at hc
            rw [← hc.1]
        simp only [Option.some.injEq] at hpk
        subst hpk
        unfold SES_Handle
        apply SES_Schedule_rejected_with_req P pp vsc _ clock r rfl hp
        · simp only [CntResult.eng]
          rw [k2.1, k1.2.1]
          exact hfd
        · simp only [CntResult.eng]
          rw [k2.2, k3]
          exact ht
        · rfl

/-- C9 at a concrete session: parked from WAIT, then turned down by the worker pool. -/
theorem SES_Handle_rejected_after_park_witness :
    cnt_wait_park eng_ex_wait = some ((cnt_wait_park eng_ex_wait).get (by decide)) ∧
    (SES_Handle params_ex eng_ex_wait.pp eng_ex_wait.vsc
        { ((cnt_wait_park eng_ex_wait).get (by decide)).eng.sp with wrk := false }
        true 3 4 = none ∧
      ∀ r, ∃ del,
        SES_Handle params_ex eng_ex_wait.pp eng_ex_wait.vsc
            { ((cnt_wait_park eng_ex_wait).get (by decide)).eng.sp with
              wrk := false, req := some r } true 3 4 =
          some (1, { eng_ex_wait.vsc with
                client_drop_late := eng_ex_wait.vsc.client_drop_late + 1 }, del.sp,
            some del)) :=
  ⟨(Option.some_get _).symm,
    SES_Handle_rejected_after_park params_ex eng_ex_wait.pp eng_ex_wait.vsc eng_ex_wait
      ((cnt_wait_park eng_ex_wait).get (by decide)) 3 4 (Option.some_get _).symm
      (by decide) (by decide) (by decide)⟩

/-- C10: a `SES_New` call on a fresh pool whose `malloc` fails returns no session but
leaves `nsess` at 1 with the free list empty, so the pool counts a block it does not
own, and `SES_DeletePool` then fails its assertion `AZ(pp->nsess)`. -/
theorem SES_New_failed_alloc_counts_block (P : Params) (szsm : Nat) (hest : Nat → Nat)
    (wp : Bool) (st : WrkStats) (vsc : Vsc) (h : 0 < P.max_sess) :
    ∃ ret, SES_New P szsm hest none (SES_NewPool wp) st vsc = some ret ∧
      ret.1 = none ∧ ret.2.1.nsess = 1 ∧ ret.2.1.freelist = [] ∧
      ∀ st2, SES_DeletePool ret.2.1 st2 = none := by
  have hn : (SES_New P szsm hest none (SES_NewPool wp) st vsc) =
      some (none, { SES_NewPool wp with nsess := 1, dly_free_cnt := 0 },
        { st with
          sessmem_free := st.sessmem_free + 0
          sessmem_fail := st.sessmem_fail + 1 },
        { vsc with
          sessmem_size := (szsm + P.sess_workspace + 2 * hest (P.http_max_hdr % 65536)) %
            4294967296 }) := by
    simp [SES_New, SES_NewPool, h, ses_sm_alloc, uinc]
  refine ⟨_, hn, rfl, rfl, rfl, ?_⟩
  intro st2
  simp [SES_DeletePool, SES_NewPool, ses_drain]

/-- C10 at concrete parameters. -/
theorem SES_New_failed_alloc_counts_block_witness :
    0 < params_ex.max_sess ∧
    ∃ ret, SES_New params_ex 512 (fun n => 16 * n) none (SES_NewPool true) WrkStats.zero
        eng_ex_start.vsc = some ret ∧
      ret.1 = none ∧ ret.2.1.nsess = 1 ∧ ret.2.1.freelist = [] ∧
      ∀ st2, SES_DeletePool ret.2.1 st2 = none :=
  ⟨by decide,
    SES_New_failed_alloc_counts_block params_ex 512 (fun n => 16 * n) true WrkStats.zero
      eng_ex_start.vsc (by decide)⟩

/-! ### Getting and giving back sessions -/

theorem SES_Delete_some (P : Params) (pp : Sesspool) (st : WrkStats) (sp : Sess)
    (reason : Option String) (ht : sp.t_open ≠ none)
    (hfd : reason.isSome = true ↔ 0 ≤ sp.fd) (hv : sp.req.map Req.vcl ≠ some true) :
    ∃ sp2, SES_Delete P pp st sp reason = some (ses_delete_block P pp st sp2) ∧
      sp2.mem = sp.mem ∧ sp2.wrk = sp.wrk ∧ sp2.req = none ∧ sp2.fd < 0 ∧
      (0 ≤ sp.fd → sp2.fd = -1) ∧ (sp.fd < 0 → sp2.fd = sp.fd) := by
  have hrel : ∀ s : Sess, s.req = sp.req →
      ∃ s2, ses_delete_release s = some s2 ∧ s2.mem = s.mem ∧ s2.wrk = s.wrk ∧
        s2.req = none ∧ s2.fd = s.fd := by
    intro s hs
    unfold ses_delete_release
    cases hr : s.req with
    | none =>
      simp only []
      split
      · exact ⟨_, rfl, rfl, rfl, rfl, rfl⟩
      · exact ⟨_, rfl, rfl, rfl, hr, rfl⟩
    | some r =>
      have hvr : r.vcl = false := by
        rw [← hs, hr] at hv
        simpa using hv
      simp only [hvr, Bool.false_eq_true, if_false]
      split
      · exact ⟨_, rfl, rfl, rfl, rfl, rfl⟩
      · exact ⟨_, rfl, rfl, rfl, rfl, rfl⟩
  cases hre : reason with
  | none =>
    have hneg : sp.fd < 0 := by
      by_contra hc
      have := hfd.mpr (by omega)
      simp [hre] at this
    obtain ⟨s2, k1, k2, k3, k4, k5⟩ := hrel sp rfl
    refine ⟨s2, ?_, k2, k3, k4, by omega, by omega, fun _ => k5⟩
    simp [SES_Delete, ses_delete_close, ht, hneg, k1]
  | some why =>
    have hpos : 0 ≤ sp.fd := hfd.mp (by simp [hre])
    have hnl : ¬ sp.fd < 0 := by omega
    obtain ⟨s2, k1, k2, k3, k4, k5⟩ :=
      hrel { sp with fd := -1, close_reason := some why } rfl
    refine ⟨s2, ?_, k2, k3, k4, by rw [k5]; simp, fun _ => k5, by omega⟩
    simp [SES_Delete, ses_delete_close, SES_Close, ht, hnl, k1]

theorem ses_delete_release_reason (s s2 : Sess) (h : ses_delete_release s = some s2) :
    s2.close_reason = s.close_reason ∧ s2.fd = s.fd ∧ s2.t_open = s.t_open := by
  unfold ses_delete_release at h
  repeat' split at h
  all_goals first
    | (cases h; done)
    | (simp only [Option.some.injEq] at h
       subst h
       exact ⟨rfl, rfl, rfl⟩)

theorem SES_Delete_close_reason (P : Params) (pp : Sesspool) (st : WrkStats) (sp : Sess)
    (reason : Option String) (del : Deleted) (h : SES_Delete P pp st sp reason = some del) :
    (∀ why, reason = some why → del.sp.close_reason = some why) ∧
      (reason = none → del.sp.close_reason = sp.close_reason) := by
  have hb : ∀ s : Sess, (ses_delete_block P pp st s).sp = s := by
    intro s
    unfold ses_delete_block
    split <;> rfl
  unfold SES_Delete at h
  split at h
  · cases h
  · rename_i sp1 hc
    split at h
    · cases h
    · rename_i sp2 hrel
      simp only [Option.some.injEq] at h
      subst h
      rw [hb, (ses_delete_release_reason sp1 sp2 hrel).1]
      unfold ses_delete_close at hc
      cases reason with
      | none =>
        simp only at hc
        repeat' split at hc
        all_goals first
          | (cases hc; done)
          | (simp only [Option.some.injEq] at hc
             subst hc
             exact ⟨fun why hw => (by cases hw), fun _ => rfl⟩)
      | some why0 =>
        simp only [SES_Close] at hc
        by_cases hfd : sp.fd < 0
        · simp [hfd] at hc
        · simp only [hfd, if_false] at hc
          repeat' split at hc
          all_goals first
            | (cases hc; done)
            | (simp only [Option.some.injEq] at hc
               subst hc
               exact ⟨fun why hw => (by cases hw; rfl), fun hn => (by cases hn)⟩)

/-- C11 as stated fails: on a fresh pool with room for sessions, a `SES_New` call whose
`malloc` fails returns no session, and counts neither an allocation nor the limit. -/
theorem SES_New_alloc_can_fail :
    (SES_New params_ex 512 (fun n => 16 * n) none (SES_NewPool true) WrkStats.zero
        eng_ex_start.vsc).map
      (fun ret => (ret.1, ret.2.2.1.sessmem_alloc, ret.2.2.1.sessmem_limit)) =
      some (none, 0, 0) ∧
    (SES_NewPool true).nsess < params_ex.max_sess := by
  decide

/-- C11 (amended): `SES_New` returns the head of the free list whenever the list is not
empty, leaving `nsess` and the allocation counters as they are.  With an empty list and
`nsess < max_sess` it asks for a block.  When `malloc` delivers and the size of the
block, `sizeof(struct sessmem) + sess_workspace + 2 * HTTP_estimate(nhttp)`, is below
`2 ^ 32`, `nsess` and `sessmem_alloc` go up by one and the session returned is freshly
set up in that block, sized by the current parameters; when `malloc` delivers and the
size is not below `2 ^ 32`, the size computed in an `unsigned` has wrapped and the call
does not return (`memset` beyond the block, or `assert(p == q)`); when `malloc` fails,
no session is returned and `sessmem_fail` goes up by one.  With an empty list and
`nsess >= max_sess` no session is returned, `sessmem_limit` goes up by one and `nsess`
stays. -/
theorem SES_New_cases (P : Params) (szsm : Nat) (hest : Nat → Nat) (malloc : Option Nat)
    (pp : Sesspool) (st : WrkStats) (vsc : Vsc) (hmax : P.max_sess < 4294967296) :
    (∀ sm rest, pp.freelist = sm :: rest →
      ∃ ret, SES_New P szsm hest malloc pp st vsc = some ret ∧
        ret.1 = some sm ∧ ret.2.1.freelist = rest ∧ ret.2.1.nsess = pp.nsess ∧
        ret.2.2.1.sessmem_alloc = st.sessmem_alloc ∧
        ret.2.2.1.sessmem_limit = st.sessmem_limit) ∧
    (pp.freelist = [] → pp.nsess < P.max_sess → ∀ p, malloc = some p →
      szsm + P.sess_workspace + 2 * hest (P.http_max_hdr % 65536) < 4294967296 →
      ∃ ret hdr, SES_New P szsm hest malloc pp st vsc = some ret ∧
        ret.1 = some (ses_setup hdr) ∧
        hdr.addr = p ∧ hdr.workspace = P.sess_workspace ∧
        hdr.nhttp = P.http_max_hdr % 65536 ∧
        ret.2.1.nsess = pp.nsess + 1 ∧
        ret.2.2.1.sessmem_alloc = st.sessmem_alloc + 1) ∧
    (pp.freelist = [] → pp.nsess < P.max_sess → ∀ p, malloc = some p →
      4294967296 ≤ szsm + P.sess_workspace + 2 * hest (P.http_max_hdr % 65536) →
      SES_New P szsm hest malloc pp st vsc = none) ∧
    (pp.freelist = [] → pp.nsess < P.max_sess → malloc = none →
      ∃ ret, SES_New P szsm hest malloc pp st vsc = some ret ∧
        ret.1 = none ∧ ret.2.2.1.sessmem_fail = st.sessmem_fail + 1 ∧
        ret.2.2.1.sessmem_alloc = st.sessmem_alloc) ∧
    (pp.freelist = [] → ¬ pp.nsess < P.max_sess →
      ∃ ret, SES_New P szsm hest malloc pp st vsc = some ret ∧
        ret.1 = none ∧ ret.2.1.nsess = pp.nsess ∧
        ret.2.2.1.sessmem_limit = st.sessmem_limit + 1) := by
  refine ⟨?_, ?_, ?_, ?_, ?_⟩
  · intro sm rest hf
    unfold SES_New
    simp only [hf]
    exact ⟨_, rfl, rfl, rfl, rfl, rfl, rfl⟩
  · intro hf hlt p hp hsz
    have hu : uinc pp.nsess = pp.nsess + 1 := by
      unfold uinc
      omega
    have h1 : ¬ (szsm + P.sess_workspace + 2 * hest (P.http_max_hdr % 65536)) % 4294967296 <
        ((szsm + P.sess_workspace + 2 * hest (P.http_max_hdr % 65536)) % 4294967296 +
          4294967296 - P.sess_workspace) % 4294967296 := by
      omega
    have h2 : ¬ p + szsm + hest (P.http_max_hdr % 65536) + hest (P.http_max_hdr % 65536) +
        P.sess_workspace ≠
        p + (szsm + P.sess_workspace + 2 * hest (P.http_max_hdr % 65536)) % 4294967296 := by
      omega
    subst hp
    unfold SES_New ses_sm_alloc
    simp only [hf, hlt, if_true, h1, h2, if_false]
    exact ⟨_, _, rfl, rfl, rfl, rfl, rfl, hu, rfl⟩
  · intro hf hlt p hp hsz
    have h2 : p + szsm + hest (P.http_max_hdr % 65536) + hest (P.http_max_hdr % 65536) +
        P.sess_workspace ≠
        p + (szsm + P.sess_workspace + 2 * hest (P.http_max_hdr % 65536)) % 4294967296 := by
      omega
    subst hp
    unfold SES_New ses_sm_alloc
    simp only [hf, hlt, if_true]
    by_cases hm : (szsm + P.sess_workspace + 2 * hest (P.http_max_hdr % 65536)) % 4294967296 <
        ((szsm + P.sess_workspace + 2 * hest (P.http_max_hdr % 65536)) % 4294967296 +
          4294967296 - P.sess_workspace) % 4294967296
    · simp only [hm, if_true]
    · simp only [hm, if_false, h2, ne_eq, not_false_eq_true, if_true]
  · intro hf hlt hp
    subst hp
    unfold SES_New ses_sm_alloc
    simp only [hf, hlt, if_true]
    exact ⟨_, rfl, rfl, rfl, rfl⟩
  · intro hf hlt
    unfold SES_New
    simp only [hf, hlt, if_false]
    exact ⟨_, rfl, rfl, rfl, rfl⟩

/-- C11 (amended) at concrete values: an allocation on a fresh pool. -/
theorem SES_New_cases_witness :
    params_ex.max_sess < 4294967296 ∧
    ∃ ret hdr, SES_New params_ex 512 (fun n => 16 * n) (some 4096) (SES_NewPool true)
          WrkStats.zero eng_ex_start.vsc = some ret ∧
      ret.1 = some (ses_setup hdr) ∧
      hdr.addr = 4096 ∧ hdr.workspace = params_ex.sess_workspace ∧
      hdr.nhttp = params_ex.http_max_hdr % 65536 ∧
      ret.2.1.nsess = (SES_NewPool true).nsess + 1 ∧
      ret.2.2.1.sessmem_alloc = WrkStats.zero.sessmem_alloc + 1 :=
  ⟨by decide,
    (SES_New_cases params_ex 512 (fun n => 16 * n) (some 4096) (SES_NewPool true)
      WrkStats.zero eng_ex_start.vsc (by decide)).2.1 rfl (by decide) 4096 rfl (by decide)⟩

theorem ses_delete_block_facts (P : Params) (pp : Sesspool) (st : WrkStats) (sp : Sess) :
    ((ses_delete_block P pp st sp).freed = true ↔ ses_must_free P pp sp.mem) ∧
    (ses_must_free P pp sp.mem →
      (ses_delete_block P pp st sp).pp.nsess = udec pp.nsess ∧
      (ses_delete_block P pp st sp).pp.freelist = pp.freelist) ∧
    (¬ ses_must_free P pp sp.mem →
      (ses_delete_block P pp st sp).pp.nsess = pp.nsess ∧
      (ses_delete_block P pp st sp).pp.freelist = ses_setup sp.mem :: pp.freelist) := by
  unfold ses_delete_block ses_must_free
  by_cases c : sp.mem.workspace ≠ P.sess_workspace ∨ sp.mem.nhttp ≠ P.http_max_hdr % 65536 ∨
      pp.nsess > P.max_sess
  · rw [if_pos c]
    exact ⟨⟨fun _ => c, fun _ => rfl⟩, fun _ => ⟨rfl, rfl⟩, fun hn => absurd c hn⟩
  · rw [if_neg c]
    exact ⟨⟨fun h => (by cases h), fun h => absurd h c⟩, fun h => absurd h c,
      fun _ => ⟨rfl, rfl⟩⟩

/-- C12: `SES_Delete`, when its assertions hold, frees the block and decrements `nsess`
if and only if the workspace size or the header count recorded in the block differs
from the current parameters (the header count as the `uint16_t` the code compares with)
or `nsess > max_sess`; otherwise the session is set up afresh and its block is put at
the head of the free list, with `nsess` unchanged. -/
theorem SES_Delete_frees_or_recycles (P : Params) (pp : Sesspool) (st : WrkStats)
    (sp : Sess) (reason : Option String) (ht : sp.t_open ≠ none)
    (hfd : reason.isSome = true ↔ 0 ≤ sp.fd) (hv : sp.req.map Req.vcl ≠ some true)
    (hn : 0 < pp.nsess) (hn2 : pp.nsess < 4294967296) :
    ∃ del, SES_Delete P pp st sp reason = some del ∧
      (del.freed = true ↔ ses_must_free P pp sp.mem) ∧
      (ses_must_free P pp sp.mem →
        del.pp.nsess + 1 = pp.nsess ∧ del.pp.freelist = pp.freelist) ∧
      (¬ ses_must_free P pp sp.mem →
        del.pp.nsess = pp.nsess ∧ del.pp.freelist = ses_setup sp.mem :: pp.freelist) := by
  obtain ⟨sp2, h, hm, -⟩ := SES_Delete_some P pp st sp reason ht hfd hv
  have k := ses_delete_block_facts P pp st sp2
  rw [hm] at k
  refine ⟨_, h, k.1, ?_, k.2.2⟩
  intro hc
  have k2 := k.2.1 hc
  refine ⟨?_, k2.2⟩
  rw [k2.1]
  unfold udec
  rw [if_neg (by omega)]
  omega

/-- C12 at a concrete session: an open session with unchanged parameters is recycled. -/
theorem SES_Delete_frees_or_recycles_witness :
    ∃ del, SES_Delete params_ex eng_ex_start.pp WrkStats.zero sess_ex (some "timeout") =
        some del ∧
      (del.freed = true ↔ ses_must_free params_ex eng_ex_start.pp sess_ex.mem) ∧
      (ses_must_free params_ex eng_ex_start.pp sess_ex.mem →
        del.pp.nsess + 1 = eng_ex_start.pp.nsess ∧
          del.pp.freelist = eng_ex_start.pp.freelist) ∧
      (¬ ses_must_free params_ex eng_ex_start.pp sess_ex.mem →
        del.pp.nsess = eng_ex_start.pp.nsess ∧
          del.pp.freelist = ses_setup sess_ex.mem :: eng_ex_start.pp.freelist) :=
  SES_Delete_frees_or_recycles params_ex eng_ex_start.pp WrkStats.zero sess_ex
    (some "timeout") (by decide) (by decide) (by decide) (by decide) (by decide)

/-- C13: recycling round trip.  When the block of a session was allocated with the
current workspace size and header count and `nsess <= max_sess`, `SES_Delete` followed
by `SES_New` on the same pool hands out the session in the same block, with the
workspace base and size and the two header pointers it had before, and performs no
allocation: the result does not depend on `malloc`, and `nsess`, the free list,
`sessmem_alloc` and `sessmem_size` are as before. -/
theorem SES_Delete_SES_New_round_trip (P : Params) (pp : Sesspool) (st : WrkStats)
    (sp : Sess) (reason : Option String) (szsm : Nat) (hest : Nat → Nat)
    (malloc : Option Nat) (st2 : WrkStats) (vsc : Vsc) (ht : sp.t_open ≠ none)
    (hfd : reason.isSome = true ↔ 0 ≤ sp.fd) (hv : sp.req.map Req.vcl ≠ some true)
    (hw : sp.mem.workspace = P.sess_workspace) (hh : sp.mem.nhttp = P.http_max_hdr % 65536)
    (hn : pp.nsess ≤ P.max_sess) (hb : SessOfBlock sp) :
    ∃ del s ret, SES_Delete P pp st sp reason = some del ∧
      SES_New P szsm hest malloc del.pp st2 vsc = some ret ∧ ret.1 = some s ∧
      s.mem = sp.mem ∧ s.ws_base = sp.ws_base ∧ s.ws_size = sp.ws_size ∧
      s.http = sp.http ∧ s.http0 = sp.http0 ∧
      ret.2.1.nsess = pp.nsess ∧ ret.2.1.freelist = pp.freelist ∧
      ret.2.2.1.sessmem_alloc = st2.sessmem_alloc ∧ ret.2.2.2 = vsc := by
  obtain ⟨sp2, h, hm, -⟩ := SES_Delete_some P pp st sp reason ht hfd hv
  have k := ses_delete_block_facts P pp st sp2
  rw [hm] at k
  have hnf : ¬ ses_must_free P pp sp.mem := by
    unfold ses_must_free
    simp only [hw, hh, ne_eq, not_true_eq_false, false_or]
    omega
  obtain ⟨k1, k2⟩ := k.2.2 hnf
  obtain ⟨b1, b2, b3, b4⟩ := hb
  have hnew : ∃ ret, SES_New P szsm hest malloc (ses_delete_block P pp st sp2).pp st2 vsc =
      some ret ∧ ret.1 = some (ses_setup sp.mem) ∧ ret.2.1.nsess = pp.nsess ∧
      ret.2.1.freelist = pp.freelist ∧ ret.2.2.1.sessmem_alloc = st2.sessmem_alloc ∧
      ret.2.2.2 = vsc := by
    unfold SES_New
    simp only [k2]
    exact ⟨_, rfl, rfl, k1, rfl, rfl, rfl⟩
  obtain ⟨ret, n1, n2, n3, n4, n5, n6⟩ := hnew
  refine ⟨_, ses_setup sp.mem, ret, h, n1, n2, rfl, ?_, ?_, ?_, ?_, n3, n4, n5, n6⟩
  · rw [b1]; rfl
  · rw [b2]; rfl
  · rw [b3]; rfl
  · rw [b4]; rfl

/-- C13 at a concrete session and pool. -/
theorem SES_Delete_SES_New_round_trip_witness :
    SessOfBlock sess_ex ∧
    ∃ del s ret, SES_Delete params_ex eng_ex_start.pp WrkStats.zero sess_ex
        (some "timeout") = some del ∧
      SES_New params_ex 512 (fun n => 16 * n) none del.pp WrkStats.zero
        eng_ex_start.vsc = some ret ∧ ret.1 = some s ∧
      s.mem = sess_ex.mem ∧ s.ws_base = sess_ex.ws_base ∧ s.ws_size = sess_ex.ws_size ∧
      s.http = sess_ex.http ∧ s.http0 = sess_ex.http0 ∧
      ret.2.1.nsess = eng_ex_start.pp.nsess ∧
      ret.2.1.freelist = eng_ex_start.pp.freelist ∧
      ret.2.2.1.sessmem_alloc = WrkStats.zero.sessmem_alloc ∧
      ret.2.2.2 = eng_ex_start.vsc :=
  ⟨⟨rfl, rfl, rfl, rfl⟩,
    SES_Delete_SES_New_round_trip params_ex eng_ex_start.pp WrkStats.zero sess_ex
      (some "timeout") 512 (fun n => 16 * n) none WrkStats.zero eng_ex_start.vsc
      (by decide) (by decide) (by decide) (by decide) (by decide) (by decide)
      ⟨rfl, rfl, rfl, rfl⟩⟩

/-- C14 as stated fails: for a session with its open time stamp defined, `SES_Delete`
fails an assertion when no reason is passed while the descriptor is still open
(`assert(sp->fd < 0)`), when a reason is passed for a descriptor already closed
(`assert(sp->fd >= 0)` in `SES_Close`), and when the request record attached still holds
a policy reference (`AZ(sp->req->vcl)`). -/
theorem SES_Delete_asserts :
    sess_ex.t_open ≠ none ∧
    SES_Delete params_ex eng_ex_start.pp WrkStats.zero sess_ex none = none ∧
    SES_Delete params_ex eng_ex_start.pp WrkStats.zero { sess_ex with fd := -1 }
      (some "timeout") = none ∧
    SES_Delete params_ex eng_ex_start.pp WrkStats.zero
      { sess_ex with req := some { Req.zero with vcl := true } } (some "timeout") = none := by
  decide

/-- C14 (amended): `SES_Delete` completes without assertion failure for every session
whose open time stamp is defined, for which a reason is passed exactly when the
descriptor is still open, and whose request record, if one is attached, holds no policy
reference.  It closes the descriptor when a reason is passed and releases the request
record when one is attached; afterwards the descriptor is closed and no request record
is attached. -/
theorem SES_Delete_completes (P : Params) (pp : Sesspool) (st : WrkStats) (sp : Sess)
    (reason : Option String) (ht : sp.t_open ≠ none)
    (hfd : reason.isSome = true ↔ 0 ≤ sp.fd) (hv : sp.req.map Req.vcl ≠ some true) :
    ∃ del, SES_Delete P pp st sp reason = some del ∧ del.sp.fd < 0 ∧ del.sp.req = none ∧
      (0 ≤ sp.fd → del.sp.fd = -1) ∧ (sp.fd < 0 → del.sp.fd = sp.fd) := by
  obtain ⟨sp2, h, -, -, h3, h4, h5, h6⟩ := SES_Delete_some P pp st sp reason ht hfd hv
  have hb : (ses_delete_block P pp st sp2).sp = sp2 := by
    unfold ses_delete_block; split <;> rfl
  exact ⟨_, h, by rw [hb]; exact h4, by rw [hb]; exact h3, by rw [hb]; exact h5,
    by rw [hb]; exact h6⟩

/-- C14 (amended) at a concrete session: open, with a request record attached. -/
theorem SES_Delete_completes_witness :
    ∃ del, SES_Delete params_ex eng_ex_start.pp WrkStats.zero sess_ex (some "timeout") =
        some del ∧
      del.sp.fd < 0 ∧ del.sp.req = none ∧
      (0 ≤ sess_ex.fd → del.sp.fd = -1) ∧ (sess_ex.fd < 0 → del.sp.fd = sess_ex.fd) :=
  SES_Delete_completes params_ex eng_ex_start.pp WrkStats.zero sess_ex (some "timeout")
    (by decide) (by decide) (by decide)



/-! ### What the handlers keep of the session block and of `wantbody` -/

theorem cnt_hit_keeps (env : Env) (e : Eng) (res : CntResult)
    (h : cnt_hit env e = some res) (hs : e.sp.step = Step.HIT) :
    res.eng.sp.block_ptrs = e.sp.block_ptrs ∧ (WantBodyInv e → WantBodyInv res.eng) := by
  unfold cnt_hit at h
  repeat' split at h
  all_goals first
    | (cases h; done)
    | (simp only [Option.some.injEq] at h
       subst h
       simp_all [CntResult.eng, Sess.block_ptrs, WantBodyInv, Step.recv_to_prepresp, recv_req,
         prepresp_req, start_eng, fetch_unwind, fetch_go])

theorem cnt_lookup_keeps (env : Env) (e : Eng) (res : CntResult)
    (h : cnt_lookup env e = some res) (hs : e.sp.step = Step.LOOKUP) :
    res.eng.sp.block_ptrs = e.sp.block_ptrs ∧ (WantBodyInv e → WantBodyInv res.eng) := by
  unfold cnt_lookup at h
  repeat' split at h
  all_goals first
    | (cases h; done)
    | (simp only [Option.some.injEq] at h
       subst h
       simp_all [CntResult.eng, Sess.block_ptrs, WantBodyInv, Step.recv_to_prepresp, recv_req,
         prepresp_req, start_eng, fetch_unwind, fetch_go])

theorem cnt_miss_keeps (env : Env) (e : Eng) (res : CntResult)
    (h : cnt_miss env e = some res) (hs : e.sp.step = Step.MISS) :
    res.eng.sp.block_ptrs = e.sp.block_ptrs ∧ (WantBodyInv e → WantBodyInv res.eng) := by
  unfold cnt_miss at h
  repeat' split at h
  all_goals first
    | (cases h; done)
    | (simp only [Option.some.injEq] at h
       subst h
       simp_all [CntResult.eng, Sess.block_ptrs, WantBodyInv, Step.recv_to_prepresp, recv_req,
         prepresp_req, start_eng, fetch_unwind, fetch_go])

theorem cnt_pass_keeps (env : Env) (e : Eng) (res : CntResult)
    (h : cnt_pass env e = some res) (hs : e.sp.step = Step.PASS) :
    res.eng.sp.block_ptrs = e.sp.block_ptrs ∧ (WantBodyInv e → WantBodyInv res.eng) := by
  unfold cnt_pass at h
  repeat' split at h
  all_goals first
    | (cases h; done)
    | (simp only [Option.some.injEq] at h
       subst h
       simp_all [CntResult.eng, Sess.block_ptrs, WantBodyInv, Step.recv_to_prepresp, recv_req,
         prepresp_req, start_eng, fetch_unwind, fetch_go])

theorem cnt_pipe_keeps (env : Env) (e : Eng) (res : CntResult)
    (h : cnt_pipe env e = some res) (hs : e.sp.step = Step.PIPE) :
    res.eng.sp.block_ptrs = e.sp.block_ptrs ∧ (WantBodyInv e → WantBodyInv res.eng) := by
  unfold cnt_pipe at h
  repeat' split at h
  all_goals first
    | (cases h; done)
    | (simp only [Option.some.injEq] at h
       subst h
       simp_all [CntResult.eng, Sess.block_ptrs, WantBodyInv, Step.recv_to_prepresp, recv_req,
         prepresp_req, start_eng, fetch_unwind, fetch_go])

theorem cnt_recv_keeps (P : Params) (env : Env) (e : Eng) (res : CntResult)
    (h : cnt_recv P env e = some res) (hs : e.sp.step = Step.RECV) :
    res.eng.sp.block_ptrs = e.sp.block_ptrs ∧ (WantBodyInv e → WantBodyInv res.eng) := by
  unfold cnt_recv at h
  repeat' split at h
  all_goals first
    | (cases h; done)
    | (simp only [Option.some.injEq] at h
       subst h
       simp_all [CntResult.eng, Sess.block_ptrs, WantBodyInv, Step.recv_to_prepresp, recv_req,
         prepresp_req, start_eng, fetch_unwind, fetch_go])

theorem cnt_deliver_keeps (env : Env) (e : Eng) (res : CntResult)
    (h : cnt_deliver env e = some res) (hs : e.sp.step = Step.DELIVER) :
    res.eng.sp.block_ptrs = e.sp.block_ptrs ∧ (WantBodyInv e → WantBodyInv res.eng) := by
  unfold cnt_deliver at h
  repeat' split at h
  all_goals first
    | (cases h; done)
    | (simp only [Option.some.injEq] at h
       subst h
       simp_all [CntResult.eng, Sess.block_ptrs, WantBodyInv, Step.recv_to_prepresp, recv_req,
         prepresp_req, start_eng, fetch_unwind, fetch_go])

theorem cnt_streambody_keeps (env : Env) (e : Eng) (res : CntResult)
    (h : cnt_streambody env e = some res) (hs : e.sp.step = Step.STREAMBODY) :
    res.eng.sp.block_ptrs = e.sp.block_ptrs ∧ (WantBodyInv e → WantBodyInv res.eng) := by
  unfold cnt_streambody at h
  repeat' split at h
  all_goals first
    | (cases h; done)
    | (simp only [Option.some.injEq] at h
       subst h
       simp_all [CntResult.eng, Sess.block_ptrs, WantBodyInv, Step.recv_to_prepresp, recv_req,
         prepresp_req, start_eng, fetch_unwind, fetch_go])

theorem cnt_fetch_keeps (env : Env) (e : Eng) (res : CntResult)
    (h : cnt_fetch env e = some res) (hs : e.sp.step = Step.FETCH) :
    res.eng.sp.block_ptrs = e.sp.block_ptrs ∧ (WantBodyInv e → WantBodyInv res.eng) := by
  unfold cnt_fetch at h
  repeat' split at h
  all_goals first
    | (cases h; done)
    | (simp only [Option.some.injEq] at h
       subst h
       simp_all [CntResult.eng, Sess.block_ptrs, WantBodyInv, Step.recv_to_prepresp, recv_req,
         prepresp_req, start_eng, fetch_unwind, fetch_go])

theorem cnt_fetchbody_keeps (P : Params) (env : Env) (e : Eng) (res : CntResult)
    (h : cnt_fetchbody P env e = some res) (hs : e.sp.step = Step.FETCHBODY) :
    res.eng.sp.block_ptrs = e.sp.block_ptrs ∧ (WantBodyInv e → WantBodyInv res.eng) := by
  unfold cnt_fetchbody at h
  repeat' split at h
  all_goals first
    | (cases h; done)
    | (simp only [Option.some.injEq] at h
       subst h
       simp_all [CntResult.eng, Sess.block_ptrs, WantBodyInv, Step.recv_to_prepresp, recv_req,
         prepresp_req, start_eng, fetch_unwind, fetch_go])

theorem cnt_error_keeps (P : Params) (env : Env) (e : Eng) (res : CntResult)
    (h : cnt_error P env e = some res) :
    res.eng.sp.block_ptrs = e.sp.block_ptrs := by
  unfold cnt_error at h
  repeat' split at h
  all_goals first
    | (cases h; done)
    | (simp only [Option.some.injEq] at h
       subst h
       simp_all [CntResult.eng, Sess.block_ptrs, WantBodyInv, Step.recv_to_prepresp, recv_req,
         prepresp_req, start_eng, fetch_unwind, fetch_go])

theorem cnt_first_keeps (e : Eng) (res : CntResult)
    (h : cnt_first e = some res) (hs : e.sp.step = Step.FIRST) :
    res.eng.sp.block_ptrs = e.sp.block_ptrs ∧ (WantBodyInv e → WantBodyInv res.eng) := by
  unfold cnt_first at h
  repeat' split at h
  all_goals first
    | (cases h; done)
    | (simp only [Option.some.injEq] at h
       subst h
       simp_all [CntResult.eng, Sess.block_ptrs, WantBodyInv, Step.recv_to_prepresp, recv_req,
         prepresp_req, start_eng, fetch_unwind, fetch_go])

theorem prepresp_deliver_keeps (P : Params) (env : Env) (e : Eng) (r : Req) (o : Obj)
    (res : CntResult) (h : prepresp_deliver P env e r o = some res) :
    res.eng.sp.block_ptrs = e.sp.block_ptrs ∧
      res.eng.sp.step.recv_to_prepresp = false := by
  unfold prepresp_deliver at h
  repeat' split at h
  all_goals first
    | (cases h; done)
    | (simp only [Option.some.injEq] at h
       subst h
       simp [CntResult.eng, Sess.block_ptrs, Step.recv_to_prepresp])

theorem cnt_prepresp_keeps (P : Params) (env : Env) (e : Eng) (res : CntResult)
    (h : cnt_prepresp P env e = some res) :
    res.eng.sp.block_ptrs = e.sp.block_ptrs ∧ (WantBodyInv e → WantBodyInv res.eng) := by
  unfold cnt_prepresp at h
  repeat' split at h
  all_goals first
    | (cases h; done)
    | (have k := prepresp_deliver_keeps P env e _ _ res h
       exact ⟨k.1, fun _ hn => by rw [k.2] at hn; cases hn⟩)
    | (simp only [Option.some.injEq] at h
       subst h
       simp [CntResult.eng, Sess.block_ptrs, WantBodyInv, Step.recv_to_prepresp])

theorem cnt_start_keeps (env : Env) (e : Eng) (res : CntResult)
    (h : cnt_start env e = some res) :
    res.eng.sp.block_ptrs = e.sp.block_ptrs ∧ (WantBodyInv e → WantBodyInv res.eng) := by
  unfold cnt_start at h
  split at h
  · cases h
  · rename_i r hr
    by_cases c1 : r.restarts ≠ 0
    · rw [if_pos c1] at h; cases h
    rw [if_neg c1] at h
    by_cases c2 : e.wrk.obj.isSome = true
    · rw [if_pos c2] at h; cases h
    rw [if_neg c2] at h
    repeat' split at h
    all_goals first
      | (cases h; done)
      | (simp only [Option.some.injEq] at h
         subst h
         simp [CntResult.eng, Sess.block_ptrs, WantBodyInv, Step.recv_to_prepresp, start_eng])

theorem SES_Delete_block_ptrs (P : Params) (pp : Sesspool) (st : WrkStats) (sp : Sess)
    (reason : Option String) (del : Deleted) (h : SES_Delete P pp st sp reason = some del) :
    del.sp.block_ptrs = sp.block_ptrs := by
  unfold SES_Delete at h
  split at h
  · cases h
  · rename_i sp1 h1
    split at h
    · cases h
    · rename_i sp2 h2
      have hb : (ses_delete_block P pp st sp2).sp = sp2 := by
        unfold ses_delete_block; split <;> rfl
      simp only [Option.some.injEq] at h
      subst h
      rw [hb]
      have k1 : sp1.block_ptrs = sp.block_ptrs := by
        unfold ses_delete_close at h1
        split at h1
        · cases h1
        · rename_i spc hc
          have kc : spc.block_ptrs = sp.block_ptrs := by
            split at hc
            · unfold SES_Close at hc
              split at hc
              · cases hc
              · cases hc; rfl
            · cases hc; rfl
          split at h1
          · cases h1
          · split at h1
            · cases h1
            · cases h1
              exact kc
      have k2 : sp2.block_ptrs = sp1.block_ptrs := by
        unfold ses_delete_release at h2
        repeat' split at h2
        all_goals first
          | (cases h2; done)
          | (simp only [Option.some.injEq] at h2
             subst h2
             rfl)
      rw [k2, k1]

theorem WantBodyInv_outside (e : Eng) (h : e.sp.step.recv_to_prepresp = false) :
    WantBodyInv e := by
  intro hn
  rw [h] at hn
  cases hn

theorem Eng_delete_keeps (P : Params) (e : Eng) (reason : Option String) (res : CntResult)
    (h : e.delete P reason = some res) :
    res.eng.sp.block_ptrs = e.sp.block_ptrs ∧ res.eng.sp.step = e.sp.step := by
  have k0 := Eng_delete_req P e reason res h
  refine ⟨?_, k0.2.1⟩
  unfold Eng.delete at h
  split at h
  · cases h
  · rename_i del hd
    have k := SES_Delete_block_ptrs P _ _ _ _ del hd
    simp only [Option.some.injEq] at h
    subst h
    exact k

theorem SES_Charge_block_ptrs (sp : Sess) (st : WrkStats) (a : Acct) (sp2 : Sess)
    (st2 : WrkStats) (a2 : Acct) (h : SES_Charge sp st a = some (sp2, st2, a2)) :
    sp2.block_ptrs = sp.block_ptrs ∧ sp2.step = sp.step := by
  unfold SES_Charge at h
  split at h
  · cases h
  · simp only [Option.some.injEq, Prod.mk.injEq] at h
    obtain ⟨h1, -⟩ := h
    subst h1
    exact ⟨rfl, rfl⟩

theorem cnt_wait_park_keeps (e : Eng) (res : CntResult) (h : cnt_wait_park e = some res) :
    res.eng.sp.block_ptrs = e.sp.block_ptrs ∧ res.eng.sp.step = e.sp.step := by
  have k0 := cnt_wait_park_req e res h
  refine ⟨?_, k0.2.1⟩
  unfold cnt_wait_park at h
  split at h
  · cases h
  · rename_i sp2 st2 a2 hc
    have k1 := SES_Charge_block_ptrs _ _ _ _ _ _ hc
    split at h
    · cases h
    · rename_i sp3 hr
      have k2 : sp3.block_ptrs = sp2.block_ptrs := by
        unfold SES_ReleaseReq at hr
        split at hr
        · cases hr
        · simp only [Option.some.injEq] at hr
          subst hr
          rfl
      simp only [Option.some.injEq] at h
      subst h
      simp only [CntResult.eng]
      rw [k2, k1.1]
      rfl

theorem cnt_wait_loop_keeps (P : Params) (ws : List Wakeup) (e : Eng) (res : CntResult)
    (h : cnt_wait_loop P ws e = some res) (hs : e.sp.step = Step.WAIT) :
    res.eng.sp.block_ptrs = e.sp.block_ptrs ∧
      res.eng.sp.step.recv_to_prepresp = false := by
  induction ws with
  | nil => cases h
  | cons w ws ih =>
    unfold cnt_wait_loop at h
    repeat' split at h
    all_goals first
      | (cases h; done)
      | exact ih h
      | (have k := Eng_delete_keeps P e _ res h
         exact ⟨k.1, by rw [k.2, hs]; rfl⟩)
      | (have k := cnt_wait_park_keeps e res h
         exact ⟨k.1, by rw [k.2, hs]; rfl⟩)
      | (simp only [Option.some.injEq] at h
         subst h
         simp [CntResult.eng, Sess.block_ptrs, Step.recv_to_prepresp])

theorem cnt_wait_keeps (P : Params) (env : Env) (e : Eng) (res : CntResult)
    (h : cnt_wait P env e = some res) (hs : e.sp.step = Step.WAIT) :
    res.eng.sp.block_ptrs = e.sp.block_ptrs ∧ (WantBodyInv e → WantBodyInv res.eng) := by
  unfold cnt_wait at h
  split at h
  · cases h
  · rename_i sp1 hg
    have hsp : sp1.step = Step.WAIT ∧ sp1.block_ptrs = e.sp.block_ptrs := by
      split at hg
      · unfold SES_GetReq at hg
        split at hg
        · cases hg
        · simp only [Option.some.injEq] at hg
          subst hg
          exact ⟨hs, rfl⟩
      · simp only [Option.some.injEq] at hg
        subst hg
        exact ⟨hs, rfl⟩
    repeat' split at h
    all_goals first
      | cases h
      | (have k := cnt_wait_loop_keeps P _ _ res h hsp.1
         refine ⟨?_, fun _ => WantBodyInv_outside _ k.2⟩
         rw [k.1, ← hsp.2]
         rfl)

theorem cnt_done_keeps (P : Params) (env : Env) (e : Eng) (res : CntResult)
    (h : cnt_done P env e = some res) (hs : e.sp.step = Step.DONE) :
    res.eng.sp.block_ptrs = e.sp.block_ptrs ∧ (WantBodyInv e → WantBodyInv res.eng) := by
  unfold cnt_done at h
  split at h
  · cases h
  · rename_i r hr
    split at h
    · cases h
    split at h
    · cases h
    split at h
    · cases h
    · rename_i sp1 st1 a1 hc
      have kb : sp1.block_ptrs = e.sp.block_ptrs ∧ sp1.step = e.sp.step := by
        have k := SES_Charge_block_ptrs _ _ _ _ _ _ hc
        exact k
      split at h
      · simp only [Option.some.injEq] at h
        subst h
        exact ⟨kb.1, fun _ => WantBodyInv_outside _ (by
          simp only [CntResult.eng]; rw [kb.2, hs]; rfl)⟩
      split at h
      · split at h
        all_goals
          simp only [Option.some.injEq] at h
          subst h
          exact ⟨kb.1, fun _ => WantBodyInv_outside _ rfl⟩
      · have k := Eng_delete_keeps P _ _ res h
        simp only [] at k
        refine ⟨?_, fun _ => WantBodyInv_outside _ (by rw [k.2, kb.2, hs]; rfl)⟩
        rw [k.1, ← kb.1]
        rfl

theorem cnt_dispatch_keeps (P : Params) (env : Env) (e : Eng) (res : CntResult)
    (h : cnt_dispatch P env e = some res) :
    res.eng.sp.block_ptrs = e.sp.block_ptrs ∧
      (e.sp.step ≠ Step.ERROR → WantBodyInv e → WantBodyInv res.eng) := by
  unfold cnt_dispatch at h
  split at h
  · rename_i hs
    have k := cnt_first_keeps e res h hs
    exact ⟨k.1, fun _ => k.2⟩
  · rename_i hs
    have k := cnt_wait_keeps P env e res h hs
    exact ⟨k.1, fun _ => k.2⟩
  · rename_i hs
    have k := cnt_start_keeps env e res h
    exact ⟨k.1, fun _ => k.2⟩
  · rename_i hs
    have k := cnt_recv_keeps P env e res h hs
    exact ⟨k.1, fun _ => k.2⟩
  · rename_i hs
    have k := cnt_lookup_keeps env e res h hs
    exact ⟨k.1, fun _ => k.2⟩
  · rename_i hs
    have k := cnt_hit_keeps env e res h hs
    exact ⟨k.1, fun _ => k.2⟩
  · rename_i hs
    have k := cnt_miss_keeps env e res h hs
    exact ⟨k.1, fun _ => k.2⟩
  · rename_i hs
    have k := cnt_pass_keeps env e res h hs
    exact ⟨k.1, fun _ => k.2⟩
  · rename_i hs
    have k := cnt_pipe_keeps env e res h hs
    exact ⟨k.1, fun _ => k.2⟩
  · rename_i hs
    have k := cnt_fetch_keeps env e res h hs
    exact ⟨k.1, fun _ => k.2⟩
  · rename_i hs
    have k := cnt_fetchbody_keeps P env e res h hs
    exact ⟨k.1, fun _ => k.2⟩
  · rename_i hs
    have k := cnt_streambody_keeps env e res h hs
    exact ⟨k.1, fun _ => k.2⟩
  · rename_i hs
    have k := cnt_prepresp_keeps P env e res h
    exact ⟨k.1, fun _ => k.2⟩
  · rename_i hs
    have k := cnt_deliver_keeps env e res h hs
    exact ⟨k.1, fun _ => k.2⟩
  · rename_i hs
    exact ⟨cnt_error_keeps P env e res h, fun hn => absurd hs hn⟩
  · rename_i hs
    have k := cnt_done_keeps P env e res h hs
    exact ⟨k.1, fun _ => k.2⟩

theorem SessOfBlock_of_block_ptrs (a b : Sess) (h : a.block_ptrs = b.block_ptrs)
    (hb : SessOfBlock b) : SessOfBlock a := by
  unfold Sess.block_ptrs at h
  simp only [Prod.mk.injEq] at h
  obtain ⟨h1, h2, h3, h4, h5⟩ := h
  unfold SessOfBlock at *
  rw [h1, h2, h3, h4, h5]
  exact hb

theorem EngReach_SessOfBlock (P : Params) (e0 e : Eng) (hr : EngReach P e0 e)
    (hb : SessOfBlock e0.sp) : SessOfBlock e.sp := by
  induction hr with
  | start => exact hb
  | handler e1 env res _ hd ih =>
    exact SessOfBlock_of_block_ptrs _ _ (cnt_dispatch_keeps P env e1 res hd).1 ih

/-! ### Preparing the response: body, length and framing -/

theorem prepresp_mode_nobody (P : Params) (g : Bool) (r : Req) (h : HttpReq) (o : Obj)
    (bo : Option BusyObj) (hw : r.wantbody = false) :
    (prepresp_mode P g r h o bo).1.chunked = false ∧
      (prepresp_mode P g r h o bo).1.eof = false ∧ (prepresp_mode P g r h o bo).2 = false := by
  unfold prepresp_mode
  simp only [prepresp_mode_base, hw]
  repeat' split
  all_goals simp_all

theorem prepresp_mode_empty (P : Params) (g : Bool) (r : Req) (h : HttpReq) (o : Obj)
    (hl : o.len = 0) :
    (prepresp_mode P g r h o none).1.len = true ∧
      (prepresp_mode P g r h o none).1.chunked = false ∧
      (prepresp_mode P g r h o none).1.eof = false ∧
      (prepresp_mode P g r h o none).1.esi = (!r.disable_esi && o.esidata) ∧
      (prepresp_mode P g r h o none).1.esi_child = decide (r.esi_level > 0) ∧
      (prepresp_mode P g r h o none).1.gunzip = (P.http_gzip_support && o.gziped && !g) ∧
      (prepresp_mode P g r h o none).2 = false := by
  cases hg1 : P.http_gzip_support <;> cases hg2 : o.gziped <;> cases g <;>
    cases hd : r.disable_esi <;> cases he : o.esidata <;>
    by_cases hlv : r.esi_level > 0 <;>
    simp [prepresp_mode, prepresp_mode_base, hl, bo_not_streaming, hg1, hg2, hd, he, hlv]

theorem prepresp_mode_unknown (P : Params) (g : Bool) (r : Req) (h : HttpReq) (o : Obj)
    (bo : Option BusyObj) :
    ((prepresp_mode_base P g r o bo).len = false →
      ¬ (o.len = 0 ∧ bo_not_streaming bo = true) → r.wantbody = true →
        (11 ≤ h.protover →
          (prepresp_mode P g r h o bo).1.chunked = true ∧
          (prepresp_mode P g r h o bo).1.eof = false ∧
          (prepresp_mode P g r h o bo).2 = false) ∧
        (h.protover < 11 →
          (prepresp_mode P g r h o bo).1.eof = true ∧
          (prepresp_mode P g r h o bo).1.chunked = false ∧
          (prepresp_mode P g r h o bo).2 = true)) ∧
    (¬ ((prepresp_mode_base P g r o bo).len = false ∧
        ¬ (o.len = 0 ∧ bo_not_streaming bo = true) ∧ r.wantbody = true ∧ h.protover < 11) →
      (prepresp_mode P g r h o bo).2 = false) := by
  have hc : (prepresp_mode_base P g r o bo).chunked = false := rfl
  have he : (prepresp_mode_base P g r o bo).eof = false := rfl
  have hlt : ∀ a : Nat, a < 11 ↔ ¬ 11 ≤ a := fun a => by omega
  by_cases h1 : (prepresp_mode_base P g r o bo).len = true <;>
    by_cases h2 : (o.len = 0 ∧ bo_not_streaming bo = true) <;>
    by_cases h3 : r.wantbody = true <;>
    by_cases h4 : 11 ≤ h.protover <;>
    simp [prepresp_mode, h1, h2, h3, h4, hc, he, hlt]

theorem prepresp_deliver_mode (P : Params) (env : Env) (e : Eng) (r : Req) (o : Obj)
    (res : CntResult) (h : prepresp_deliver P env e r o = some res) :
    (∃ e1, res = CntResult.step e1) ∧
      res.eng.wrk.res_mode =
        (prepresp_mode P env.req_gzip r e.sp.http_req o e.wrk.busyobj).1 ∧
      res.eng.sp.req = some (prepresp_req P env e r o) := by
  unfold prepresp_deliver at h
  repeat' split at h
  all_goals first
    | (cases h; done)
    | (simp only [Option.some.injEq] at h
       subst h
       exact ⟨⟨_, rfl⟩, rfl, rfl⟩)

theorem cnt_prepresp_mode (P : Params) (env : Env) (e : Eng) (o : Obj) (r : Req)
    (res : CntResult) (ho : e.wrk.obj = some o) (hr : e.sp.req = some r)
    (h : cnt_prepresp P env e = some res) :
    (∃ e1, res = CntResult.step e1) ∧
      res.eng.wrk.res_mode =
        (prepresp_mode P env.req_gzip r e.sp.http_req o e.wrk.busyobj).1 ∧
      ∃ r1, res.eng.sp.req = some r1 ∧
        r1.doclose = (prepresp_req P env e r o).doclose ∧ r1.wantbody = r.wantbody := by
  unfold cnt_prepresp at h
  split at h
  · rename_i o1 r1 ho1 hr1
    rw [ho] at ho1
    rw [hr] at hr1
    simp only [Option.some.injEq] at ho1 hr1
    subst ho1
    subst hr1
    repeat' split at h
    all_goals first
      | (cases h; done)
      | (have k := prepresp_deliver_mode P env e _ _ res h
         exact ⟨k.1, k.2.1, _, k.2.2, rfl, rfl⟩)
      | (simp only [Option.some.injEq] at h
         subst h
         exact ⟨⟨_, rfl⟩, rfl, _, rfl, rfl, rfl⟩)
  · cases h

theorem cnt_prepresp_returns (P : Params) (env : Env) (e : Eng) (o : Obj) (r : Req)
    (ho : e.wrk.obj = some o) (hr : e.sp.req = some r) (hv : r.vcl = true)
    (hbo : e.wrk.busyobj.isSome = true →
      bo_not_streaming e.wrk.busyobj = false ∧ AssertObjCorePassOrBusy o.objcore = true)
    (hh : env.handling = Handling.DELIVER ∨ env.handling = Handling.RESTART) :
    ∃ res, cnt_prepresp P env e = some res := by
  have hd : ∃ res, prepresp_deliver P env e r o = some res := by
    unfold prepresp_deliver
    cases hb : e.wrk.busyobj with
    | none => simp [bo_not_streaming]
    | some b =>
      have k := hbo (by simp [hb])
      rw [hb] at k
      simp [k.1, k.2]
  cases hb : e.wrk.busyobj with
  | none =>
    rcases hh with hh | hh
    · simpa [cnt_prepresp, ho, hr, hv, hb, hh] using hd
    · by_cases hm : r.restarts ≥ P.max_restarts
      · simpa [cnt_prepresp, ho, hr, hv, hb, hh, hm] using hd
      · simp [cnt_prepresp, ho, hr, hv, hb, hh, hm]
  | some b =>
    have k := hbo (by simp [hb])
    rw [hb] at k
    have kd : b.do_stream = true := by
      simpa [bo_not_streaming] using k.1
    rcases hh with hh | hh
    · simpa [cnt_prepresp, ho, hr, hv, hb, hh, kd, k.2] using hd
    · by_cases hm : r.restarts ≥ P.max_restarts
      · simpa [cnt_prepresp, ho, hr, hv, hb, hh, hm, kd, k.2] using hd
      · simp [cnt_prepresp, ho, hr, hv, hb, hh, hm, kd, k.2]

/-- C15 as stated fails: for a HEAD request that the policy answers with `error` in
RECV, `cnt_error` sets `wantbody = 1`, so PREPRESP runs with `wantbody` true. -/
theorem head_wantbody_true_after_error :
    (eng_after params_ex envs_head_error eng_ex_start).sp.step = Step.PREPRESP ∧
    (eng_after params_ex envs_head_error eng_ex_start).sp.http_req.is_head = true ∧
    (eng_after params_ex envs_head_error eng_ex_start).sp.req.map Req.wantbody =
      some true := by
  decide

/-- C15 (amended): for every request whose method is HEAD, `wantbody` is false whenever
PREPRESP runs on a path that has not gone through ERROR since RECV (the run starts in
any state outside the states between RECV and PREPRESP, or in one of them with
`wantbody` as RECV set it), and PREPRESP then selects neither chunked nor EOF framing.
(Through ERROR, `wantbody` is set to 1 whatever the method.) -/
theorem head_wantbody_false_at_prepresp (P : Params) (e0 e : Eng) (h0 : WantBodyInv e0)
    (hr : EngReachAvoiding P Step.ERROR e0 e) (hs : e.sp.step = Step.PREPRESP)
    (hh : e.sp.http_req.is_head = true) :
    e.sp.req.map Req.wantbody = some false ∧
      ∀ env res, cnt_prepresp P env e = some res →
        res.eng.wrk.res_mode.chunked = false ∧ res.eng.wrk.res_mode.eof = false := by
  have hI : WantBodyInv e := by
    clear hs hh
    induction hr with
    | start => exact h0
    | handler e1 env res _ hne hd ih => exact (cnt_dispatch_keeps P env e1 res hd).2 hne ih
  have hw : e.sp.req.map Req.wantbody = some false := by
    have k := hI (by rw [hs]; rfl)
    rw [hh] at k
    exact k
  refine ⟨hw, ?_⟩
  intro env res hres
  cases hreq : e.sp.req with
  | none => rw [hreq] at hw; cases hw
  | some r =>
    rw [hreq] at hw
    simp only [Option.map_some', Option.some.injEq] at hw
    cases hobj : e.wrk.obj with
    | none => simp [cnt_prepresp, hobj] at hres
    | some o =>
      have k := cnt_prepresp_mode P env e o r res hobj hreq hres
      have m := prepresp_mode_nobody P env.req_gzip r e.sp.http_req o e.wrk.busyobj hw
      rw [k.2.1]
      exact ⟨m.1, m.2.1⟩

/-- C15 (amended) at a concrete run: a HEAD request is parsed, looked up and found in
the cache; PREPRESP then returns, with length framing. -/
theorem head_wantbody_false_at_prepresp_witness :
    (cnt_prepresp params_ex env_default
        (eng_after params_ex envs_head_hit eng_ex_start)).map
      (fun res => res.eng.wrk.res_mode.len) = some true ∧
    ((eng_after params_ex envs_head_hit eng_ex_start).sp.req.map Req.wantbody =
        some false ∧
      ∀ env res,
        cnt_prepresp params_ex env (eng_after params_ex envs_head_hit eng_ex_start) =
          some res →
        res.eng.wrk.res_mode.chunked = false ∧ res.eng.wrk.res_mode.eof = false) :=
  ⟨by decide,
    head_wantbody_false_at_prepresp params_ex eng_ex_start
      (eng_after params_ex envs_head_hit eng_ex_start)
      (fun hn => by cases hn)
      (EngReachAvoiding.handler
        (eng_after params_ex (envs_head_hit.take 3) eng_ex_start)
        { } (CntResult.step (eng_after params_ex envs_head_hit eng_ex_start))
        (EngReachAvoiding.handler
          (eng_after params_ex (envs_head_hit.take 2) eng_ex_start)
          { lookup := LookupRes.hit obj_ex }
          (CntResult.step (eng_after params_ex (envs_head_hit.take 3) eng_ex_start))
          (EngReachAvoiding.handler
            (eng_after params_ex (envs_head_hit.take 1) eng_ex_start)
            { handling := Handling.LOOKUP }
            (CntResult.step (eng_after params_ex (envs_head_hit.take 2) eng_ex_start))
            (EngReachAvoiding.handler eng_ex_start env_head
              (CntResult.step (eng_after params_ex (envs_head_hit.take 1) eng_ex_start))
              EngReachAvoiding.start (by decide) (by decide))
            (by decide) (by decide))
          (by decide) (by decide))
        (by decide) (by decide))
      (by decide) (by decide)⟩

/-- C16 as stated fails: when a fetch is streamed, PREPRESP runs before the body is
fetched, with an object of length 0 and the busy object attached; the response mode is
then chunked, without RES_LEN. -/
theorem streamed_object_of_length_zero_is_chunked :
    (eng_after params_ex envs_miss_stream eng_ex_start).sp.step = Step.PREPRESP ∧
    (eng_after params_ex envs_miss_stream eng_ex_start).wrk.obj.map Obj.len = some 0 ∧
    (cnt_prepresp params_ex env_default
        (eng_after params_ex envs_miss_stream eng_ex_start)).map
      (fun res => (res.eng.wrk.res_mode.len, res.eng.wrk.res_mode.chunked)) =
      some (false, true) := by
  decide

/-- C16 (amended): whenever PREPRESP runs with an object of length 0 and no streaming
fetch in progress (`wrk->busyobj == NULL`), it returns with RES_LEN in the response
mode and neither chunked nor EOF framing, also when the ESI, ESI-child or gunzip modes
are selected; `doclose` is left as it was. -/
theorem prepresp_empty_object_len (P : Params) (env : Env) (e : Eng) (o : Obj) (r : Req)
    (ho : e.wrk.obj = some o) (hr : e.sp.req = some r) (hv : r.vcl = true)
    (hb : e.wrk.busyobj = none) (hl : o.len = 0)
    (hh : env.handling = Handling.DELIVER ∨ env.handling = Handling.RESTART) :
    ∃ e1 r1, cnt_prepresp P env e = some (CntResult.step e1) ∧
      e1.wrk.res_mode.len = true ∧ e1.wrk.res_mode.chunked = false ∧
      e1.wrk.res_mode.eof = false ∧
      e1.wrk.res_mode.esi = (!r.disable_esi && o.esidata) ∧
      e1.wrk.res_mode.esi_child = decide (r.esi_level > 0) ∧
      e1.wrk.res_mode.gunzip = (P.http_gzip_support && o.gziped && !env.req_gzip) ∧
      e1.sp.req = some r1 ∧ r1.doclose = r.doclose := by
  obtain ⟨res, hres⟩ := cnt_prepresp_returns P env e o r ho hr hv
    (fun hn => by rw [hb] at hn; cases hn) hh
  obtain ⟨⟨e1, he1⟩, k2, r1, k3, k4, -⟩ := cnt_prepresp_mode P env e o r res ho hr hres
  subst he1
  have m := prepresp_mode_empty P env.req_gzip r e.sp.http_req o hl
  rw [hb] at k2
  simp only [CntResult.eng] at k2 k3
  refine ⟨e1, r1, hres, ?_, ?_, ?_, ?_, ?_, ?_, k3, ?_⟩
  · rw [k2]; exact m.1
  · rw [k2]; exact m.2.1
  · rw [k2]; exact m.2.2.1
  · rw [k2]; exact m.2.2.2.1
  · rw [k2]; exact m.2.2.2.2.1
  · rw [k2]; exact m.2.2.2.2.2.1
  · rw [k4]
    simp only [prepresp_req, hb, m.2.2.2.2.2.2]
    rfl

/-- C16 (amended) at a concrete run: an empty object with ESI instructions, stored
gzip'ed, is found in the cache for a client that does not accept gzip. -/
theorem prepresp_empty_object_len_witness :
    ∃ e1 r1, cnt_prepresp params_ex env_default
        (eng_after params_ex envs_hit_empty eng_ex_start) = some (CntResult.step e1) ∧
      e1.wrk.res_mode.len = true ∧ e1.wrk.res_mode.chunked = false ∧
      e1.wrk.res_mode.eof = false ∧
      e1.wrk.res_mode.esi =
        (!((eng_after params_ex envs_hit_empty eng_ex_start).sp.req.get
            (by decide)).disable_esi && obj_ex_empty.esidata) ∧
      e1.wrk.res_mode.esi_child =
        decide (((eng_after params_ex envs_hit_empty eng_ex_start).sp.req.get
            (by decide)).esi_level > 0) ∧
      e1.wrk.res_mode.gunzip =
        (params_ex.http_gzip_support && obj_ex_empty.gziped && !env_default.req_gzip) ∧
      e1.sp.req = some r1 ∧
      r1.doclose =
        ((eng_after params_ex envs_hit_empty eng_ex_start).sp.req.get (by decide)).doclose :=
  prepresp_empty_object_len params_ex env_default
    (eng_after params_ex envs_hit_empty eng_ex_start) obj_ex_empty
    ((eng_after params_ex envs_hit_empty eng_ex_start).sp.req.get (by decide))
    (by decide) (Option.some_get _).symm (by decide) (by decide) (by decide)
    (Or.inl (by decide))

/-- C17: in PREPRESP, when the body length is unknown (RES_LEN not selected, the object
not an empty non-streamed one) and the request wants a body, a client with protocol
version at least 1.1 gets chunked framing and a client with a lower version gets EOF
framing with `doclose` set to "EOF mode"; in every other case PREPRESP leaves `doclose`
as it was. -/
theorem prepresp_unknown_length_framing (P : Params) (env : Env) (e : Eng) (o : Obj)
    (r : Req) (ho : e.wrk.obj = some o) (hr : e.sp.req = some r) (hv : r.vcl = true)
    (hbo : e.wrk.busyobj.isSome = true →
      bo_not_streaming e.wrk.busyobj = false ∧ AssertObjCorePassOrBusy o.objcore = true)
    (hh : env.handling = Handling.DELIVER ∨ env.handling = Handling.RESTART) :
    ∃ e1 r1, cnt_prepresp P env e = some (CntResult.step e1) ∧ e1.sp.req = some r1 ∧
      ((prepresp_mode_base P env.req_gzip r o e.wrk.busyobj).len = false →
        ¬ (o.len = 0 ∧ bo_not_streaming e.wrk.busyobj = true) → r.wantbody = true →
          (11 ≤ e.sp.http_req.protover →
            e1.wrk.res_mode.chunked = true ∧ e1.wrk.res_mode.eof = false ∧
              r1.doclose = r.doclose) ∧
          (e.sp.http_req.protover < 11 →
            e1.wrk.res_mode.eof = true ∧ e1.wrk.res_mode.chunked = false ∧
              r1.doclose = some "EOF mode")) ∧
      (¬ ((prepresp_mode_base P env.req_gzip r o e.wrk.busyobj).len = false ∧
          ¬ (o.len = 0 ∧ bo_not_streaming e.wrk.busyobj = true) ∧ r.wantbody = true ∧
          e.sp.http_req.protover < 11) →
        r1.doclose = r.doclose) := by
  obtain ⟨res, hres⟩ := cnt_prepresp_returns P env e o r ho hr hv hbo hh
  obtain ⟨⟨e1, he1⟩, k2, r1, k3, k4, -⟩ := cnt_prepresp_mode P env e o r res ho hr hres
  subst he1
  have m := prepresp_mode_unknown P env.req_gzip r e.sp.http_req o e.wrk.busyobj
  simp only [CntResult.eng] at k2 k3
  have hd : ∀ b : Bool,
      (prepresp_mode P env.req_gzip r e.sp.http_req o e.wrk.busyobj).2 = b →
      r1.doclose = if b = true then some "EOF mode" else r.doclose := by
    intro b hb
    rw [k4, ← hb]
    rfl
  refine ⟨e1, r1, hres, k3, ?_, ?_⟩
  · intro a1 a2 a3
    obtain ⟨m1, m2⟩ := m.1 a1 a2 a3
    constructor
    · intro a4
      obtain ⟨n1, n2, n3⟩ := m1 a4
      refine ⟨by rw [k2]; exact n1, by rw [k2]; exact n2, ?_⟩
      rw [hd false n3]
      rfl
    · intro a4
      obtain ⟨n1, n2, n3⟩ := m2 a4
      refine ⟨by rw [k2]; exact n1, by rw [k2]; exact n2, ?_⟩
      rw [hd true n3]
      rfl
  · intro a
    rw [hd false (m.2 a)]
    rfl

/-- C17 at a concrete run: an HTTP/1.0 client that does not accept gzip asks for a
gzip'ed object; the length of the unzipped body is not known, so the response is
delimited by closing the connection. -/
theorem prepresp_unknown_length_framing_witness :
    (cnt_prepresp params_ex env_default
        (eng_after params_ex envs_http10_gunzip eng_ex_start)).map
      (fun res => (res.eng.wrk.res_mode.eof, res.eng.sp.req.map Req.doclose)) =
      some (true, some (some "EOF mode")) ∧
    ∃ e1 r1, cnt_prepresp params_ex env_default
        (eng_after params_ex envs_http10_gunzip eng_ex_start) = some (CntResult.step e1) ∧
      e1.sp.req = some r1 ∧
      ((prepresp_mode_base params_ex env_default.req_gzip
          ((eng_after params_ex envs_http10_gunzip eng_ex_start).sp.req.get (by decide))
          obj_ex_gzip (eng_after params_ex envs_http10_gunzip eng_ex_start).wrk.busyobj).len =
          false →
        ¬ (obj_ex_gzip.len = 0 ∧
          bo_not_streaming (eng_after params_ex envs_http10_gunzip eng_ex_start).wrk.busyobj =
            true) →
        ((eng_after params_ex envs_http10_gunzip eng_ex_start).sp.req.get
          (by decide)).wantbody = true →
          (11 ≤ (eng_after params_ex envs_http10_gunzip eng_ex_start).sp.http_req.protover →
            e1.wrk.res_mode.chunked = true ∧ e1.wrk.res_mode.eof = false ∧
              r1.doclose =
                ((eng_after params_ex envs_http10_gunzip eng_ex_start).sp.req.get
                  (by decide)).doclose) ∧
          ((eng_after params_ex envs_http10_gunzip eng_ex_start).sp.http_req.protover < 11 →
            e1.wrk.res_mode.eof = true ∧ e1.wrk.res_mode.chunked = false ∧
              r1.doclose = some "EOF mode")) ∧
      (¬ ((prepresp_mode_base params_ex env_default.req_gzip
            ((eng_after params_ex envs_http10_gunzip eng_ex_start).sp.req.get (by decide))
            obj_ex_gzip
            (eng_after params_ex envs_http10_gunzip eng_ex_start).wrk.busyobj).len = false ∧
          ¬ (obj_ex_gzip.len = 0 ∧
            bo_not_streaming
              (eng_after params_ex envs_http10_gunzip eng_ex_start).wrk.busyobj = true) ∧
          ((eng_after params_ex envs_http10_gunzip eng_ex_start).sp.req.get
            (by decide)).wantbody = true ∧
          (eng_after params_ex envs_http10_gunzip eng_ex_start).sp.http_req.protover < 11) →
        r1.doclose =
          ((eng_after params_ex envs_http10_gunzip eng_ex_start).sp.req.get
            (by decide)).doclose) :=
  ⟨by decide,
    prepresp_unknown_length_framing params_ex env_default
      (eng_after params_ex envs_http10_gunzip eng_ex_start) obj_ex_gzip
      ((eng_after params_ex envs_http10_gunzip eng_ex_start).sp.req.get (by decide))
      (by decide) (Option.some_get _).symm (by decide) (by decide) (Or.inl (by decide))⟩

/-! ### Client protocol errors, storage exhaustion and pipelining -/

theorem cnt_error_no_storage (P : Params) (env : Env) (e : Eng) (r : Req)
    (hr : e.sp.req = some r) (ho : e.wrk.obj = none) (hb : e.wrk.busyobj = none)
    (h1 : env.stv1 = false) (h2 : env.stv2 = false) :
    ∃ e1 r1, cnt_error P env e = some (CntResult.step e1) ∧ e1.sp.step = Step.DONE ∧
      e1.wrk.obj = none ∧ e1.sp.req = some r1 ∧ r1.doclose = some "Out of objects" ∧
      r1.restarts = r.restarts := by
  unfold cnt_error
  simp only [hr, ho, hb, h1, h2]
  simp only [Option.isNone_none, Option.isSome_none, Bool.false_eq_true, and_false,
    if_false, not_false_eq_true, and_self, if_true, true_and]
  exact ⟨_, _, rfl, rfl, rfl, rfl, rfl, rfl⟩

theorem cnt_error_restart (P : Params) (env : Env) (e : Eng) (r : Req)
    (hr : e.sp.req = some r) (ho : e.wrk.obj = none) (hb : e.wrk.busyobj = none)
    (hs : env.stv1 = true ∨ env.stv2 = true) (hh : env.handling = Handling.RESTART)
    (hlt : r.restarts < P.max_restarts) :
    ∃ e1 r1, cnt_error P env e = some (CntResult.step e1) ∧ e1.sp.step = Step.RECV ∧
      e1.wrk.obj = none ∧ e1.wrk.busyobj = none ∧ e1.sp.req = some r1 ∧
      r1.restarts = r.restarts + 1 := by
  have hs2 : ¬ (¬ env.stv1 = true ∧ ¬ env.stv2 = true) := by
    rcases hs with h | h <;> simp [h]
  unfold cnt_error
  simp only [hr, ho, hb, hh]
  simp only [Option.isNone_none, Option.isSome_none, Bool.false_eq_true, and_false,
    if_false, true_and, hs2, hlt, and_self, if_true]
  exact ⟨_, _, rfl, rfl, rfl, rfl, rfl, rfl⟩

theorem cnt_error_deliver (P : Params) (env : Env) (e : Eng) (r : Req)
    (hr : e.sp.req = some r) (ho : e.wrk.obj = none) (hb : e.wrk.busyobj = none)
    (hs : env.stv1 = true ∨ env.stv2 = true)
    (hh : env.handling = Handling.DELIVER ∨
      (env.handling = Handling.RESTART ∧ P.max_restarts ≤ r.restarts)) :
    ∃ e1 r1 o1, cnt_error P env e = some (CntResult.step e1) ∧
      e1.sp.step = Step.PREPRESP ∧ e1.wrk.obj = some o1 ∧
      o1.http_status = some (error_status r) ∧ o1.len = 0 ∧ e1.wrk.busyobj = none ∧
      e1.sp.req = some r1 ∧ r1.doclose = some "error" ∧ r1.wantbody = true ∧
      r1.restarts = r.restarts ∧ r1.vcl = r.vcl := by
  have hs2 : ¬ (¬ env.stv1 = true ∧ ¬ env.stv2 = true) := by
    rcases hs with h | h <;> simp [h]
  have h3 : ¬ (env.handling = Handling.RESTART ∧ r.restarts < P.max_restarts) := by
    rcases hh with h | h
    · simp [h]
    · intro hc
      omega
  have h4 : ¬ (env.handling ≠ Handling.RESTART ∧ env.handling ≠ Handling.DELIVER) := by
    rcases hh with h | h
    · simp [h]
    · simp [h.1]
  unfold cnt_error
  simp only [hr, ho, hb]
  simp only [Option.isNone_none, Option.isSome_none, Bool.false_eq_true, and_false,
    if_false, true_and, hs2, h3, h4, and_self, if_true]
  exact ⟨_, _, _, rfl, rfl, rfl, rfl, rfl, rfl, rfl, rfl, rfl, rfl, rfl⟩

theorem cnt_fetchbody_no_storage (P : Params) (env : Env) (e : Eng) (r : Req)
    (bo : BusyObj) (hr : e.sp.req = some r) (hb : e.wrk.busyobj = some bo)
    (hh : r.handling = Handling.HIT_FOR_PASS ∨ r.handling = Handling.DELIVER)
    (hg : (fetchbody_gzip P env.content_encoding
      (if e.wrk.objcore.isNone then { bo with ttl := -1 } else bo)).isSome = true)
    (h1 : env.stv1 = false) (h2 : env.stv2 = false) :
    ∃ e1 r1, cnt_fetchbody P env e = some (CntResult.step e1) ∧
      e1.sp.step = Step.ERROR ∧ e1.wrk.obj = none ∧ e1.wrk.busyobj = none ∧
      e1.sp.req = some r1 ∧ r1.err_code = 503 ∧ r1.doclose = r.doclose ∧
      r1.restarts = r.restarts := by
  have hh2 : ¬ (r.handling ≠ Handling.HIT_FOR_PASS ∧ r.handling ≠ Handling.DELIVER) := by
    rcases hh with h | h <;> simp [h]
  cases hgz : fetchbody_gzip P env.content_encoding
      (if e.wrk.objcore.isNone then { bo with ttl := -1 } else bo) with
  | none => rw [hgz] at hg; cases hg
  | some b1 =>
    unfold cnt_fetchbody
    simp only [hr, hb, hh2, if_false, hgz, h1, h2]
    simp only [Bool.false_eq_true, not_false_eq_true, and_self, if_true]
    exact ⟨_, _, rfl, rfl, rfl, rfl, rfl, rfl, rfl, rfl⟩

theorem cnt_start_junk (env : Env) (e : Eng) (r : Req) (hr : e.sp.req = some r)
    (h0 : r.restarts = 0) (ho : e.wrk.obj = none) (hv : r.vcl = false)
    (he : r.esi_level = 0) (ht : e.sp.t_req ≠ none) (hd : env.dissect = 400)
    (hfd : 0 ≤ e.sp.fd) :
    ∃ e1 r1, cnt_start env e = some (CntResult.step e1) ∧ e1.sp.step = Step.DONE ∧
      e1.sp.fd = -1 ∧ e1.sp.t_open = e.sp.t_open ∧ e1.wrk.obj = none ∧
      e1.wrk.busyobj = e.wrk.busyobj ∧ e1.sp.req = some r1 ∧ r1.restarts = 0 ∧
      r1.esi_level = 0 ∧ e1.sp.close_reason = some "junk" ∧
      e1.sp.http0_req = e.sp.http0_req := by
  have hfd2 : ¬ e.sp.fd < 0 := by omega
  have ht2 : e.sp.t_req.isNone = false := by
    cases h : e.sp.t_req with
    | none => exact absurd h ht
    | some _ => rfl
  unfold cnt_start
  simp only [hr, h0, ho, hv, he, ht2, hd, hfd2]
  simp only [ne_eq, not_true_eq_false, if_false, Option.isSome_none, Bool.false_eq_true,
    if_true]
  exact ⟨_, _, rfl, rfl, rfl, rfl, ho, rfl, rfl, h0, he, rfl, rfl⟩

theorem cnt_start_expect (env : Env) (e : Eng) (r : Req) (p : String)
    (hr : e.sp.req = some r) (h0 : r.restarts = 0) (ho : e.wrk.obj = none)
    (hv : r.vcl = false) (he : r.esi_level = 0) (ht : e.sp.t_req ≠ none)
    (hd : env.dissect = 0) (hp : env.http.expect = some p)
    (hne : p.toLower ≠ "100-continue") :
    ∃ e1 r1, cnt_start env e = some (CntResult.step e1) ∧ e1.sp.step = Step.ERROR ∧
      e1.wrk.obj = none ∧ e1.wrk.busyobj = e.wrk.busyobj ∧ e1.sp.req = some r1 ∧
      r1.err_code = 417 ∧ r1.restarts = 0 := by
  have ht2 : e.sp.t_req.isNone = false := by
    cases h : e.sp.t_req with
    | none => exact absurd h ht
    | some _ => rfl
  unfold cnt_start
  simp only [hr, h0, ho, hv, he, ht2, hd, hp, hne]
  simp only [ne_eq, not_true_eq_false, if_false, Option.isSome_none, Bool.false_eq_true,
    OfNat.zero_ne_ofNat, not_false_eq_true, if_true]
  rw [if_pos hne]
  exact ⟨_, _, rfl, rfl, ho, rfl, rfl, rfl, h0⟩

theorem Eng_delete_some (P : Params) (e : Eng) (ht : e.sp.t_open ≠ none)
    (hfd : e.sp.fd < 0) (hv : e.sp.req.map Req.vcl ≠ some true) :
    ∃ e1 f, e.delete P none = some (CntResult.deleted e1 f) ∧ e1.sp.fd < 0 ∧
      e1.sp.req = none ∧ e1.sp.close_reason = e.sp.close_reason := by
  obtain ⟨sp2, h, -, -, h3, h4, -, -⟩ :=
    SES_Delete_some P e.pp e.wrk.stats e.sp none ht (by simp; omega) hv
  have hb : (ses_delete_block P e.pp e.wrk.stats sp2).sp = sp2 := by
    unfold ses_delete_block; split <;> rfl
  have hcr := (SES_Delete_close_reason P e.pp e.wrk.stats e.sp none _ h).2 rfl
  unfold Eng.delete
  rw [h]
  exact ⟨_, _, rfl, by rw [hb]; exact h4, by rw [hb]; exact h3, hcr⟩

theorem cnt_done_closes (P : Params) (env : Env) (e : Eng) (r : Req)
    (hr : e.sp.req = some r) (ho : e.wrk.obj = none) (hb : e.wrk.busyobj = none)
    (he : r.esi_level = 0) (hc : e.sp.fd < 0 ∨ r.doclose ≠ none)
    (ht : e.sp.t_open ≠ none) :
    ∃ e1 f, cnt_done P env e = some (CntResult.deleted e1 f) ∧ e1.sp.fd < 0 ∧
      e1.sp.req = none ∧
      e1.sp.close_reason = (if e.sp.fd ≥ 0 then r.doclose else e.sp.close_reason) := by
  have hc2 : ¬ (e.sp.fd ≥ 0 ∧ r.doclose.isNone = true) := by
    rcases hc with h | h
    · omega
    · cases hd : r.doclose with
      | none => exact absurd hd h
      | some _ => simp
  unfold cnt_done
  simp only [hr, ho, hb, SES_Charge, he]
  simp only [Option.isSome_none, Bool.false_eq_true, if_false, gt_iff_lt, lt_self_iff_false,
    hc2]
  apply Eng_delete_some
  · exact ht
  · show (if e.sp.fd ≥ 0 then (-1 : Int) else e.sp.fd) < 0
    split <;> omega
  · simp [done_req]

theorem cnt_done_reinit (P : Params) (env : Env) (e : Eng) (r : Req)
    (hr : e.sp.req = some r) (ho : e.wrk.obj = none) (hb : e.wrk.busyobj = none)
    (he : r.esi_level = 0) (hfd : 0 ≤ e.sp.fd) (hd : r.doclose = none) :
    (env.htc_reinit = 1 →
      ∃ e1, cnt_done P env e = some (CntResult.step e1) ∧ e1.sp.step = Step.START ∧
        e1.wrk.stats.sess_pipeline = (WRK_SumStat P e.wrk.stats).sess_pipeline + 1 ∧
        e1.sp.t_req = e1.sp.t_idle ∧ e1.sp.t_idle = some env.now) ∧
    (env.htc_reinit ≠ 1 →
      ∃ e1, cnt_done P env e = some (CntResult.step e1) ∧ e1.sp.step = Step.WAIT ∧
        e1.wrk.stats.sess_pipeline = (WRK_SumStat P e.wrk.stats).sess_pipeline ∧
        e1.sp.t_req = e1.sp.t_idle ∧ e1.sp.t_idle = some env.now) := by
  have hc2 : (e.sp.fd ≥ 0 ∧ r.doclose.isNone = true) := ⟨hfd, by rw [hd]; rfl⟩
  have hsum : ∀ s : Acct, (WRK_SumStat P { e.wrk.stats with s := s }).sess_pipeline =
      (WRK_SumStat P e.wrk.stats).sess_pipeline := by
    intro s
    unfold WRK_SumStat
    split <;> rfl
  constructor
  · intro hi
    unfold cnt_done
    simp only [hr, ho, hb, SES_Charge, he]
    simp only [Option.isSome_none, Bool.false_eq_true, if_false, gt_iff_lt,
      lt_self_iff_false, hc2, and_self, if_true, hi]
    exact ⟨_, rfl, rfl, by simp only []; rw [hsum], rfl, rfl⟩
  · intro hi
    unfold cnt_done
    simp only [hr, ho, hb, SES_Charge, he]
    simp only [Option.isSome_none, Bool.false_eq_true, if_false, gt_iff_lt,
      lt_self_iff_false, hc2, and_self, if_true, hi]
    refine ⟨_, rfl, rfl, ?_, rfl, rfl⟩
    exact hsum _

/-- C18 as stated fails: a request rejected in START with 417 goes to ERROR, and when
the policy answers `restart` there with restarts left, it re-enters RECV with
`restarts = 1`. -/
theorem expect_error_can_restart :
    ∃ e1 e2, cnt_start env_expect_other eng_ex_start = some (CntResult.step e1) ∧
      e1.sp.step = Step.ERROR ∧ e1.sp.req.map Req.err_code = some 417 ∧
      cnt_error params_ex { handling := Handling.RESTART } e1 = some (CntResult.step e2) ∧
      e2.sp.step = Step.RECV ∧ e2.restarts = 1 := by
  have hne : "200-ok".toLower ≠ "100-continue" := by
    rw [String.toLower, String.map_eq]
    decide
  obtain ⟨e1, r1, h1, h2, h3, h4, h5, h6, h7⟩ :=
    cnt_start_expect env_expect_other eng_ex_start Req.zero "200-ok" rfl rfl rfl rfl rfl
      (by decide) rfl rfl hne
  obtain ⟨e2, r2, k1, k2, -, -, k5, k6⟩ :=
    cnt_error_restart params_ex { handling := Handling.RESTART } e1 r1 h5 h3
      (by rw [h4]; rfl) (Or.inl rfl) rfl (by rw [h7]; decide)
  refine ⟨e1, e2, h1, h2, by rw [h5, Option.map_some', h6], k1, k2, ?_⟩
  unfold Eng.restarts
  rw [k5]
  simp only [k6, h7]

/-- C18 (amended): a request that cannot be parsed (400) is closed in START with reason
"junk" and goes to DONE, which deletes the session, the reason logged being "junk";
RECV is not entered and `restarts` stays 0.  A
request with an `Expect` header other than `100-continue` goes to ERROR with error code
417 and `restarts = 0`; there, with an object for the response at hand, the policy
decides: on `deliver`, or on `restart` when `max_restarts` is 0, `doclose` is set to
"error" and the response is prepared with `restarts` still 0; on `restart` with
`max_restarts > 0` the request re-enters RECV with `restarts = 1`. -/
theorem client_protocol_error (P : Params) (env : Env) (e : Eng) (r : Req)
    (hr : e.sp.req = some r) (h0 : r.restarts = 0) (ho : e.wrk.obj = none)
    (hb : e.wrk.busyobj = none) (hv : r.vcl = false) (he : r.esi_level = 0)
    (ht : e.sp.t_req ≠ none) (hto : e.sp.t_open ≠ none) :
    (env.dissect = 400 → 0 ≤ e.sp.fd →
      ∃ e1, cnt_start env e = some (CntResult.step e1) ∧ e1.sp.step = Step.DONE ∧
        e1.sp.fd = -1 ∧ e1.sp.close_reason = some "junk" ∧ e1.restarts = 0 ∧
        ∀ env2, ∃ e2 f, cnt_done P env2 e1 = some (CntResult.deleted e2 f) ∧
          e2.sp.fd < 0 ∧ e2.sp.req = none ∧ e2.sp.close_reason = some "junk") ∧
    (env.dissect = 0 → ∀ p, env.http.expect = some p → p.toLower ≠ "100-continue" →
      ∃ e1, cnt_start env e = some (CntResult.step e1) ∧ e1.sp.step = Step.ERROR ∧
        e1.sp.req.map Req.err_code = some 417 ∧ e1.restarts = 0 ∧
        ∀ env2, (env2.stv1 = true ∨ env2.stv2 = true) →
          ((env2.handling = Handling.DELIVER ∨
              (env2.handling = Handling.RESTART ∧ P.max_restarts = 0)) →
            ∃ e2, cnt_error P env2 e1 = some (CntResult.step e2) ∧
              e2.sp.step = Step.PREPRESP ∧
              e2.sp.req.map Req.doclose = some (some "error") ∧ e2.restarts = 0) ∧
          (env2.handling = Handling.RESTART → 0 < P.max_restarts →
            ∃ e2, cnt_error P env2 e1 = some (CntResult.step e2) ∧
              e2.sp.step = Step.RECV ∧ e2.restarts = 1)) := by
  constructor
  · intro hd hfd
    obtain ⟨e1, r1, h1, h2, h3, h4, h5, h6, h7, h8, h9, h10, -⟩ :=
      cnt_start_junk env e r hr h0 ho hv he ht hd hfd
    refine ⟨e1, h1, h2, h3, h10, ?_, ?_⟩
    · unfold Eng.restarts
      rw [h7]
      exact h8
    · intro env2
      obtain ⟨e2, f, k1, k2, k3, k4⟩ := cnt_done_closes P env2 e1 r1 h7 h5
        (by rw [h6]; exact hb) h9 (Or.inl (by rw [h3]; decide)) (by rw [h4]; exact hto)
      refine ⟨e2, f, k1, k2, k3, ?_⟩
      rw [k4, h3, h10]
      rfl
  · intro hd p hp hne
    obtain ⟨e1, r1, h1, h2, h3, h4, h5, h6, h7⟩ :=
      cnt_start_expect env e r p hr h0 ho hv he ht hd hp hne
    refine ⟨e1, h1, h2, by rw [h5, Option.map_some', h6], ?_, ?_⟩
    · unfold Eng.restarts
      rw [h5]
      exact h7
    · intro env2 hs
      have hb1 : e1.wrk.busyobj = none := by rw [h4]; exact hb
      constructor
      · intro hh
        obtain ⟨e2, r2, o2, k1, k2, -, -, -, -, k7, k8, -, k10, -⟩ :=
          cnt_error_deliver P env2 e1 r1 h5 h3 hb1 hs
            (by
              rcases hh with hh | hh
              · exact Or.inl hh
              · exact Or.inr ⟨hh.1, by omega⟩)
        refine ⟨e2, k1, k2, by rw [k7, Option.map_some', k8], ?_⟩
        unfold Eng.restarts
        rw [k7]
        simp only [k10, h7]
      · intro hh hlt
        obtain ⟨e2, r2, k1, k2, -, -, k5, k6⟩ :=
          cnt_error_restart P env2 e1 r1 h5 h3 hb1 hs hh (by omega)
        refine ⟨e2, k1, k2, ?_⟩
        unfold Eng.restarts
        rw [k5]
        simp only [k6, h7]

/-- C18 (amended) at a concrete request that cannot be parsed. -/
theorem client_protocol_error_witness :
    ∃ e1, cnt_start { dissect := 400 } eng_ex_start = some (CntResult.step e1) ∧
      e1.sp.step = Step.DONE ∧ e1.sp.fd = -1 ∧ e1.sp.close_reason = some "junk" ∧
      e1.restarts = 0 ∧
      ∀ env2, ∃ e2 f, cnt_done params_ex env2 e1 = some (CntResult.deleted e2 f) ∧
        e2.sp.fd < 0 ∧ e2.sp.req = none ∧ e2.sp.close_reason = some "junk" :=
  (client_protocol_error params_ex { dissect := 400 } eng_ex_start Req.zero
    (by decide) (by decide) (by decide) (by decide) (by decide) (by decide) (by decide)
    (by decide)).1 rfl (by decide)

/-- C19 as stated fails: when FETCHBODY finds no storage and ERROR finds none either,
no response is synthesized: the engine comes to DONE without an object, with `doclose`
set to "Out of objects". -/
theorem no_storage_in_error_no_response :
    (eng_after params_ex envs_miss_fetch eng_ex_start).sp.step = Step.FETCHBODY ∧
    (eng_after params_ex envs_miss_no_storage eng_ex_start).sp.step = Step.DONE ∧
    (eng_after params_ex envs_miss_no_storage eng_ex_start).wrk.obj = none ∧
    (eng_after params_ex envs_miss_no_storage eng_ex_start).sp.req.map Req.doclose =
      some (some "Out of objects") := by
  decide

/-- C19 (amended): when object allocation fails on both the preferred storage and the
transient fallback in FETCHBODY, the error code is set to 503 and the next state is
ERROR, `doclose` untouched.  If ERROR then gets an object and the policy answers
`deliver`, the synthetic response carries status 503 and `doclose` is set to "error"
on the way to PREPRESP.  If the allocation fails in ERROR as well, no response is
synthesized: `doclose` is set to "Out of objects" and the next state is DONE. -/
theorem storage_exhaustion (P : Params) (env : Env) (e : Eng) (r : Req) (bo : BusyObj)
    (hr : e.sp.req = some r) (hb : e.wrk.busyobj = some bo)
    (hh : r.handling = Handling.HIT_FOR_PASS ∨ r.handling = Handling.DELIVER)
    (hg : (fetchbody_gzip P env.content_encoding
      (if e.wrk.objcore.isNone then { bo with ttl := -1 } else bo)).isSome = true)
    (h1 : env.stv1 = false) (h2 : env.stv2 = false) :
    ∃ e1, cnt_fetchbody P env e = some (CntResult.step e1) ∧ e1.sp.step = Step.ERROR ∧
      e1.sp.req.map Req.err_code = some 503 ∧
      e1.sp.req.map Req.doclose = some r.doclose ∧
      (∀ env2, (env2.stv1 = true ∨ env2.stv2 = true) →
        env2.handling = Handling.DELIVER →
        ∃ e2, cnt_error P env2 e1 = some (CntResult.step e2) ∧
          e2.sp.step = Step.PREPRESP ∧
          e2.wrk.obj.map Obj.http_status = some (some 503) ∧
          e2.sp.req.map Req.doclose = some (some "error")) ∧
      (∀ env2, env2.stv1 = false → env2.stv2 = false →
        ∃ e2, cnt_error P env2 e1 = some (CntResult.step e2) ∧ e2.sp.step = Step.DONE ∧
          e2.wrk.obj = none ∧
          e2.sp.req.map Req.doclose = some (some "Out of objects")) := by
  obtain ⟨e1, r1, k1, k2, k3, k4, k5, k6, k7, -⟩ :=
    cnt_fetchbody_no_storage P env e r bo hr hb hh hg h1 h2
  refine ⟨e1, k1, k2, by rw [k5, Option.map_some', k6], by rw [k5, Option.map_some', k7],
    ?_, ?_⟩
  · intro env2 hs hd
    obtain ⟨e2, r2, o2, m1, m2, m3, m4, -, -, m7, m8, -⟩ :=
      cnt_error_deliver P env2 e1 r1 k5 k3 k4 hs (Or.inl hd)
    refine ⟨e2, m1, m2, ?_, by rw [m7, Option.map_some', m8]⟩
    rw [m3, Option.map_some', m4]
    simp [error_status, k6]
  · intro env2 s1 s2
    obtain ⟨e2, r2, m1, m2, m3, m4, m5, -⟩ :=
      cnt_error_no_storage P env2 e1 r1 k5 k3 k4 s1 s2
    exact ⟨e2, m1, m2, m3, by rw [m4, Option.map_some', m5]⟩

/-- C19 (amended) at a concrete run: a miss whose FETCHBODY finds no storage. -/
theorem storage_exhaustion_witness :
    ∃ e1, cnt_fetchbody params_ex { stv1 := false, stv2 := false }
        (eng_after params_ex envs_miss_fetch eng_ex_start) = some (CntResult.step e1) ∧
      e1.sp.step = Step.ERROR ∧ e1.sp.req.map Req.err_code = some 503 :=
  match storage_exhaustion params_ex { stv1 := false, stv2 := false }
      (eng_after params_ex envs_miss_fetch eng_ex_start)
      ((eng_after params_ex envs_miss_fetch eng_ex_start).sp.req.get (by decide))
      ((eng_after params_ex envs_miss_fetch eng_ex_start).wrk.busyobj.get (by decide))
      (Option.some_get _).symm (Option.some_get _).symm (Or.inr (by decide)) (by decide)
      rfl rfl with
  | ⟨e1, k1, k2, k3, _⟩ => ⟨e1, k1, k2, k3⟩

/-- C20: in DONE for a top-level request, with the descriptor open and `doclose`
unset: when `HTC_Reinit` finds a complete request in the buffer the handler returns 0
with the next state START, `sess_pipeline` one more than after the periodic roll-up of
the worker's counters (one more than before when no roll-up is due), and `t_req` equal
to `t_idle`, the time just read; otherwise the next state is WAIT and `sess_pipeline`
is not incremented. -/
theorem done_pipelined_request (P : Params) (env : Env) (e : Eng) (r : Req)
    (hr : e.sp.req = some r) (ho : e.wrk.obj = none) (hb : e.wrk.busyobj = none)
    (he : r.esi_level = 0) (hfd : 0 ≤ e.sp.fd) (hd : r.doclose = none) :
    (env.htc_reinit = 1 →
      ∃ e1, cnt_done P env e = some (CntResult.step e1) ∧ e1.sp.step = Step.START ∧
        e1.wrk.stats.sess_pipeline = (WRK_SumStat P e.wrk.stats).sess_pipeline + 1 ∧
        (e.wrk.stats.client_req < P.wthread_stats_rate →
          e1.wrk.stats.sess_pipeline = e.wrk.stats.sess_pipeline + 1) ∧
        e1.sp.t_req = e1.sp.t_idle ∧ e1.sp.t_idle = some env.now) ∧
    (env.htc_reinit ≠ 1 →
      ∃ e1, cnt_done P env e = some (CntResult.step e1) ∧ e1.sp.step = Step.WAIT ∧
        e1.wrk.stats.sess_pipeline = (WRK_SumStat P e.wrk.stats).sess_pipeline ∧
        (e.wrk.stats.client_req < P.wthread_stats_rate →
          e1.wrk.stats.sess_pipeline = e.wrk.stats.sess_pipeline) ∧
        e1.sp.t_req = e1.sp.t_idle ∧ e1.sp.t_idle = some env.now) := by
  have hno : e.wrk.stats.client_req < P.wthread_stats_rate →
      (WRK_SumStat P e.wrk.stats).sess_pipeline = e.wrk.stats.sess_pipeline := by
    intro hlt
    unfold WRK_SumStat
    rw [if_neg (by omega)]
  obtain ⟨a, b⟩ := cnt_done_reinit P env e r hr ho hb he hfd hd
  constructor
  · intro hi
    obtain ⟨e1, k1, k2, k3, k4, k5⟩ := a hi
    exact ⟨e1, k1, k2, k3, fun hlt => by rw [k3, hno hlt], k4, k5⟩
  · intro hi
    obtain ⟨e1, k1, k2, k3, k4, k5⟩ := b hi
    exact ⟨e1, k1, k2, k3, fun hlt => by rw [k3, hno hlt], k4, k5⟩

/-- C20 at a concrete run: a request served from the cache, with the next request
already complete in the buffer. -/
theorem done_pipelined_request_witness :
    (eng_after params_ex envs_hit_done eng_ex_start).sp.step = Step.DONE ∧
    ∃ e1, cnt_done params_ex { htc_reinit := 1 }
        (eng_after params_ex envs_hit_done eng_ex_start) = some (CntResult.step e1) ∧
      e1.sp.step = Step.START ∧
      e1.wrk.stats.sess_pipeline =
        (WRK_SumStat params_ex
          (eng_after params_ex envs_hit_done eng_ex_start).wrk.stats).sess_pipeline + 1 ∧
      ((eng_after params_ex envs_hit_done eng_ex_start).wrk.stats.client_req <
          params_ex.wthread_stats_rate →
        e1.wrk.stats.sess_pipeline =
          (eng_after params_ex envs_hit_done eng_ex_start).wrk.stats.sess_pipeline + 1) ∧
      e1.sp.t_req = e1.sp.t_idle ∧
      e1.sp.t_idle = some ({ htc_reinit := 1 } : Env).now :=
  ⟨by decide,
    (done_pipelined_request params_ex { htc_reinit := 1 }
      (eng_after params_ex envs_hit_done eng_ex_start)
      ((eng_after params_ex envs_hit_done eng_ex_start).sp.req.get (by decide))
      (Option.some_get _).symm (by decide) (by decide) (by decide) (by decide)
      (by decide)).1 rfl⟩

/-! ### Flushing in general: framing, retries and the slot discipline -/

theorem iov_total_set : ∀ (l : List Iovec) (c : Nat) (h : Iovec), c < l.length →
    iov_total (l.set c h) = iov_total (l.take c) + h.length + iov_total (l.drop (c + 1)) := by
  intro l
  induction l with
  | nil => intro c h hc; simp at hc
  | cons e es ih =>
    intro c h hc
    cases c with
    | zero => simp [iov_total]
    | succ c =>
      simp only [List.set_cons_succ, List.take_succ_cons, List.drop_succ_cons, iov_total]
      rw [ih c h (by simpa using hc)]
      omega

theorem wrw_frame_total (w : Wrw) (hI : WrwInv w) (hs : ChunkSlotInv w) :
    ∃ w1, wrw_frame w = some w1 ∧ w1.niov ≤ w1.siov ∧
      w1.liov = (iov_total w1.used : Int) ∧ w.liov ≤ w1.liov ∧
      w1.siov = w.siov ∧ w1.ciov = w.ciov ∧ w1.wfd = w.wfd ∧ w1.werr = w.werr := by
  obtain ⟨hn, hc, hl⟩ := hI
  unfold wrw_frame
  by_cases h1 : w.ciov < w.siov ∧ w.cliov > 0
  · obtain ⟨a1, a2⟩ := hs h1.1
    rw [if_pos h1]
    simp only []
    rw [if_neg (by omega)]
    refine ⟨_, rfl, ?_, ?_, ?_, ?_, rfl, rfl, rfl⟩
    · simp only [Wrw.siov, List.length_set]
      unfold Wrw.siov at a2
      omega
    · have hlen : w.niov < (w.iov.set w.ciov (chunk_head w.cliov)).length := by
        simpa [Wrw.siov] using a2
      have hc2 : w.ciov < (w.iov.take w.niov).length := by
        rw [List.length_take]
        unfold Wrw.siov at a2
        omega
      simp only [Wrw.used]
      rw [take_set_succ _ _ _ hlen, List.set_take, iov_total_append, iov_total_set _ _ _ hc2]
      unfold Wrw.pending_len Wrw.used at hl
      rw [hl]
      simp only [iov_total, List.length_cons, List.length_nil]
      push_cast
      omega
    · simp only []
      omega
    · simp [Wrw.siov]
  · rw [if_neg h1]
    by_cases h2 : w.ciov < w.siov
    · rw [if_pos h2]
      obtain ⟨a1, a2⟩ := hs h2
      refine ⟨_, rfl, ?_, ?_, ?_, ?_, rfl, rfl, rfl⟩
      · simp only [Wrw.siov, List.length_set]
        exact hn
      · have hc2 : w.ciov < (w.iov.take w.niov).length := by
          rw [List.length_take]
          unfold Wrw.siov at a2
          omega
        simp only [Wrw.used]
        rw [List.set_take, iov_total_set _ _ _ hc2]
        unfold Wrw.pending_len Wrw.used at hl
        rw [hl]
        simp
      · simp
      · simp [Wrw.siov]
    · rw [if_neg h2]
      refine ⟨_, rfl, hn, ?_, le_refl _, rfl, rfl, rfl, rfl⟩
      rw [hl, pending_len_plain w hn (by omega)]

theorem wrw_retry_spec : ∀ (script : List WStep) (w : Wrw) (d : Dev) (fuel : Nat)
    (i0 : Int) (e0 : Bool) (d1 : Dev),
    d.script = script → w.niov ≤ w.siov →
    w.liov = (iov_total w.used : Int) → 0 < w.liov → script.length < fuel →
    writev d w.used = (i0, e0, d1) →
    ∃ w2 d2 i, wrw_retry fuel w d1 i0 e0 = some (w2, d2, i) ∧
      (i ≤ 0 ↔ flush_fails script w.liov.toNat = true) ∧
      d.calls < d2.calls ∧ d2.calls ≤ d.calls + w.liov.toNat ∧
      (flush_fails script w.liov.toNat = false → d2.out = d.out ++ iov_bytes w.used) := by
  intro script
  induction script with
  | nil =>
    intro w d fuel i0 e0 d1 hs _ hl hpos hf hw
    obtain ⟨f, rfl⟩ : ∃ f, fuel = f + 1 := ⟨fuel - 1, by simp at hf; omega⟩
    simp only [writev, hs] at hw
    cases hw
    refine ⟨w, { script := [], out := d.out ++ iov_bytes w.used, calls := d.calls + 1 },
      (iov_total w.used : Int), ?_, ?_, ?_, ?_, ?_⟩
    · unfold wrw_retry
      simp [hl]
    · simp only [flush_fails, Bool.false_eq_true, iff_false]
      omega
    · simp
    · simp only []
      omega
    · intro _
      rfl
  | cons s rest ih =>
    intro w d fuel i0 e0 d1 hs hn hl hpos hf hw
    obtain ⟨f, rfl⟩ : ∃ f, fuel = f + 1 := ⟨fuel - 1, by simp at hf; omega⟩
    by_cases hret : s.ret ≤ 0
    · simp only [writev, hs, hret, if_true] at hw
      cases hw
      refine ⟨w, { script := rest, out := d.out, calls := d.calls + 1 }, s.ret,
        ?_, ?_, ?_, ?_, ?_⟩
      · unfold wrw_retry
        have hc : ¬ (s.ret ≠ w.liov ∧ s.ret > 0) := by omega
        rw [if_neg hc]
      · simp [flush_fails, hret]
      · simp
      · simp only []
        omega
      · intro hff
        simp [flush_fails, hret] at hff
    · simp only [writev, hs, hret, if_false] at hw
      cases hw
      by_cases hall : iov_total w.used ≤ s.ret.toNat
      · have hmin : min s.ret.toNat (iov_total w.used) = iov_total w.used := by omega
        have hp : w.liov.toNat ≤ s.ret.toNat := by omega
        refine ⟨w,
          { script := rest
            out := d.out ++ (iov_bytes w.used).take (min s.ret.toNat (iov_total w.used))
            calls := d.calls + 1 }, (iov_total w.used : Int), ?_, ?_, ?_, ?_, ?_⟩
        · unfold wrw_retry
          simp [hl, hmin]
        · simp only [flush_fails, hret, if_false, hp, if_true, Bool.false_eq_true, iff_false]
          omega
        · simp
        · simp only []
          omega
        · intro _
          simp only [hmin]
          rw [List.take_of_length_le (by rw [iov_bytes_length])]
      · have hmin : min s.ret.toNat (iov_total w.used) = s.ret.toNat := by omega
        have hp : ¬ w.liov.toNat ≤ s.ret.toNat := by omega
        have hc : ((s.ret.toNat : Nat) : Int) ≠ w.liov ∧ ((s.ret.toNat : Nat) : Int) > 0 := by
          constructor <;> omega
        by_cases hexp : s.expired = true
        · refine ⟨w,
            { script := rest
              out := d.out ++ (iov_bytes w.used).take (min s.ret.toNat (iov_total w.used))
              calls := d.calls + 1 }, -1, ?_, ?_, ?_, ?_, ?_⟩
          · unfold wrw_retry
            simp only [hmin]
            rw [if_pos hc, if_pos hexp]
          · simp [flush_fails, hret, hp, hexp]
          · simp
          · simp only []
            omega
          · intro hff
            simp [flush_fails, hret, hp, hexp] at hff
        · have hk : ((s.ret.toNat : Nat) : Int) < w.liov := by omega
          obtain ⟨w1, p1, p2, p3, p4, p5⟩ := wrw_prune_bytes w s.ret.toNat hn hl hk
          have hd : ∃ dd : Dev, dd =
              { script := rest
                out := d.out ++ (iov_bytes w.used).take s.ret.toNat
                calls := d.calls + 1 } :=
            ⟨_, rfl⟩
          obtain ⟨dd, hdd⟩ := hd
          rcases hw2 : writev dd w1.used with ⟨i1, e1, d1x⟩
          obtain ⟨w2, d2, i, q1, q2, q3, q4, q5⟩ :=
            ih w1 dd f i1 e1 d1x (by rw [hdd]) p4 p5 (by omega) (by simp at hf; omega) hw2
          have hto : w1.liov.toNat = w.liov.toNat - s.ret.toNat := by omega
          have hff : flush_fails (s :: rest) w.liov.toNat =
              flush_fails rest (w.liov.toNat - s.ret.toNat) := by
            simp [flush_fails, hret, hp, hexp]
          have hdc : dd.calls = d.calls + 1 := by rw [hdd]
          refine ⟨w2, d2, i, ?_, ?_, ?_, ?_, ?_⟩
          · unfold wrw_retry
            simp only [hmin]
            rw [if_pos hc, if_neg hexp]
            simp only [p1, ← hdd, hw2]
            exact q1
          · rw [hff, ← hto]
            exact q2
          · omega
          · omega
          · intro h
            rw [hff, ← hto] at h
            rw [q5 h, p2, hdd]
            simp only [List.append_assoc, List.take_append_drop]

theorem WRW_Flush_spec (w : Wrw) (d : Dev) (fd : Int) (hfd : w.wfd = some fd)
    (hI : WrwInv w) (hs : ChunkSlotInv w) :
    ∃ x d1, WRW_Flush w d = some (wrw_reset x, d1, x.werr) ∧ x.siov = w.siov ∧
      x.ciov = w.ciov ∧ x.wfd = w.wfd ∧
      (¬ (0 ≤ fd ∧ 0 < w.liov ∧ w.werr = 0) → x.werr = w.werr ∧ d1 = d) ∧
      (0 ≤ fd → 0 < w.liov → w.werr = 0 →
        ∃ wf, wrw_frame w = some wf ∧ w.liov ≤ wf.liov ∧
          wf.liov = (iov_total wf.used : Int) ∧
          x.werr = (if flush_fails d.script wf.liov.toNat = true then 1 else 0) ∧
          d.calls < d1.calls ∧ d1.calls ≤ d.calls + wf.liov.toNat ∧
          (flush_fails d.script wf.liov.toNat = false →
            d1.out = d.out ++ iov_bytes wf.used)) := by
  have hassert : ¬ (w.ciov < w.siov ∧ ¬ w.niov < w.siov) := by
    intro hc
    exact hc.2 (hs hc.1).2
  have hrw : ∀ x : Wrw, (wrw_reset x).werr = x.werr := fun x => (wrw_reset_facts x).2.1
  unfold WRW_Flush
  simp only [hfd]
  rw [if_neg hassert]
  by_cases hgo : fd ≥ 0 ∧ w.liov > 0 ∧ w.werr = 0
  · rw [if_pos hgo]
    obtain ⟨wf, f1, f2, f3, f4, f5, f6, f7, f8⟩ := wrw_frame_total w hI hs
    rcases hw : writev d wf.used with ⟨i0, e0, d1⟩
    obtain ⟨w2, d2, i, q1, q2, q3, q4, q5⟩ :=
      wrw_retry_spec d.script wf d (d.script.length + 2) i0 e0 d1 rfl f2 f3 (by omega)
        (by omega) hw
    obtain ⟨r1, r2, r3, r4⟩ := wrw_retry_pres _ _ _ _ _ _ _ _ q1
    simp only [f1, hw, q1]
    by_cases hi : i ≤ 0
    · have hff := q2.mp hi
      refine ⟨{ w2 with werr := w2.werr + 1 }, d2, ?_, ?_, ?_, ?_, ?_, ?_⟩
      · simp only [hi, if_true, hrw]
      · show w2.siov = w.siov
        rw [r1, f5]
      · show w2.ciov = w.ciov
        rw [r2, f6]
      · show w2.wfd = some fd
        rw [r3, f7, hfd]
      · intro hc
        exact absurd ⟨hgo.1, hgo.2.1, hgo.2.2⟩ hc
      · intro _ _ _
        refine ⟨wf, rfl, f4, f3, ?_, q3, q4, q5⟩
        show w2.werr + 1 = _
        rw [if_pos hff, r4, f8, hgo.2.2]
    · have hff : flush_fails d.script wf.liov.toNat = false := by
        cases h : flush_fails d.script wf.liov.toNat with
        | false => rfl
        | true => exact absurd (q2.mpr h) hi
      refine ⟨w2, d2, ?_, by rw [r1, f5], by rw [r2, f6], by rw [r3, f7, hfd], ?_, ?_⟩
      · simp only [hi, if_false, hrw]
      · intro hc
        exact absurd ⟨hgo.1, hgo.2.1, hgo.2.2⟩ hc
      · intro _ _ _
        refine ⟨wf, rfl, f4, f3, ?_, q3, q4, q5⟩
        rw [hff, r4, f8, hgo.2.2]
        simp
  · rw [if_neg hgo]
    refine ⟨w, d, ?_, rfl, rfl, hfd, fun _ => ⟨rfl, rfl⟩, ?_⟩
    · rw [hrw]
    · intro a b c
      exact absurd ⟨a, b, c⟩ hgo

theorem wrw_reset_slots (x : Wrw) (h : x.ciov < x.siov → 2 ≤ x.siov) :
    ChunkSlotInv (wrw_reset x) ∧ (wrw_reset x).wfd = x.wfd ∧ (wrw_reset x).siov = x.siov ∧
      ((wrw_reset x).ciov < (wrw_reset x).siov ↔ x.ciov < x.siov) ∧
      (x.ciov = x.siov → (wrw_reset x).ciov = (wrw_reset x).siov) ∧
      (wrw_reset x).niov ≤ 1 ∧ (¬ x.ciov < x.siov → (wrw_reset x).niov = 0) := by
  obtain ⟨f1, -, -, -, -, f6, f7⟩ := wrw_reset_facts x
  have hsi := wrw_reset_siov x
  by_cases hc : x.ciov < x.siov
  · obtain ⟨a, b⟩ := f6 hc
    have := h hc
    refine ⟨?_, f1, hsi, ?_, ?_, by omega, fun hn => absurd hc hn⟩
    · intro _
      rw [a, b, hsi]
      omega
    · rw [b, hsi]
      constructor
      · intro _; exact hc
      · intro _; omega
    · intro he
      omega
  · obtain ⟨a, b⟩ := f7 hc
    refine ⟨?_, f1, hsi, ?_, ?_, by omega, fun _ => a⟩
    · intro h2
      rw [b, hsi] at h2
      exact absurd h2 hc
    · rw [b, hsi]
    · intro he
      rw [b, hsi]
      exact he

theorem WRW_Flush_returned (w w1 : Wrw) (d d1 : Dev) (u : Nat)
    (h : WRW_Flush w d = some (w1, d1, u)) :
    w.wfd.isSome = true ∧ (w.ciov < w.siov → w.niov < w.siov) := by
  unfold WRW_Flush at h
  split at h
  · cases h
  · rename_i fd hfd
    split at h
    · cases h
    · rename_i ha
      refine ⟨by rw [hfd]; rfl, fun hc => ?_⟩
      by_contra hn
      exact ha ⟨hc, hn⟩

theorem WRW_Flush_slots (w w1 : Wrw) (d d1 : Dev) (u : Nat) (hI : WrwInv w)
    (h : WRW_Flush w d = some (w1, d1, u)) :
    ChunkSlotInv w1 ∧ w1.wfd = w.wfd ∧ w1.siov = w.siov ∧
      (w1.ciov < w1.siov ↔ w.ciov < w.siov) ∧ (w.ciov = w.siov → w1.ciov = w1.siov) ∧
      w1.niov ≤ 1 ∧ (¬ w.ciov < w.siov → w1.niov = 0) := by
  obtain ⟨x, rfl, x1, x2, x3⟩ := WRW_Flush_shape w w1 d d1 u h
  obtain ⟨-, ha⟩ := WRW_Flush_returned w _ d d1 u h
  have h2 : x.ciov < x.siov → 2 ≤ x.siov := by
    intro hc
    rw [x1, x2] at hc
    have := ha hc
    have := hI.2.1 hc
    omega
  obtain ⟨s1, s2, s3, s4, s5, s6, s7⟩ := wrw_reset_slots x h2
  rw [x1, x2] at s4 s5 s7
  exact ⟨s1, by rw [s2, x3], by rw [s3, x1], s4, s5, s6, s7⟩

theorem wrw_flush_if_slots (c : Bool) (w w1 : Wrw) (d d1 : Dev) (hI : WrwInv w)
    (hS : ChunkSlotInv w) (h : wrw_flush_if c w d = some (w1, d1)) :
    ChunkSlotInv w1 ∧ w1.wfd = w.wfd ∧ w1.siov = w.siov ∧
      (w1.ciov < w1.siov ↔ w.ciov < w.siov) ∧ (w.ciov = w.siov → w1.ciov = w1.siov) := by
  unfold wrw_flush_if at h
  split at h
  · split at h
    · cases h
    · rename_i wf df uf hf
      cases h
      obtain ⟨s1, s2, s3, s4, s5, -, -⟩ := WRW_Flush_slots _ _ _ _ _ hI hf
      exact ⟨s1, s2, s3, s4, s5⟩
  · cases h
    exact ⟨hS, rfl, rfl, Iff.rfl, fun h => h⟩

theorem wrw_append_slots (w w1 : Wrw) (d d1 : Dev) (data : List Char) (u : Nat)
    (hI : WrwInv w) (h : wrw_append w d data = some (w1, d1, u)) :
    ChunkSlotInv w1 ∧ w1.wfd = w.wfd ∧ w1.siov = w.siov ∧ w1.ciov = w.ciov ∧ d1 = d := by
  unfold wrw_append at h
  split at h
  · cases h
  · split at h
    · rename_i hc
      split at h
      · cases h
      · rename_i hr
        cases h
        refine ⟨?_, rfl, by simp [Wrw.siov], rfl, rfl⟩
        intro _
        have := hI.2.1 hc
        constructor
        · show w.ciov < w.niov + 1
          omega
        · show w.niov + 1 < (w.iov.set w.niov data).length
          simp only [List.length_set]
          unfold Wrw.siov at hr
          omega
    · rename_i hc
      cases h
      refine ⟨?_, rfl, by simp [Wrw.siov], rfl, rfl⟩
      intro h2
      have h3 : w.ciov < (w.iov.set w.niov data).length := h2
      simp only [List.length_set] at h3
      exact absurd h3 hc

theorem WRW_Write_slots (w w1 : Wrw) (d d1 : Dev) (ptr : List Char) (len : Int) (u : Nat)
    (hI : WrwInv w) (hS : ChunkSlotInv w) (h : WRW_Write w d ptr len = some (w1, d1, u)) :
    ChunkSlotInv w1 ∧ w1.wfd = w.wfd ∧ w1.siov = w.siov ∧
      (w1.ciov < w1.siov ↔ w.ciov < w.siov) ∧ (w.ciov = w.siov → w1.ciov = w1.siov) := by
  unfold WRW_Write at h
  split at h
  · cases h
  · split at h
    · cases h
      exact ⟨hS, rfl, rfl, Iff.rfl, fun h => h⟩
    · split at h
      · cases h
      · split at h
        · cases h
        · rename_i wf df hfl
          obtain ⟨s1, s2, s3, s4, s5⟩ := wrw_flush_if_slots _ _ _ _ _ hI hS hfl
          have hI2 := wrw_flush_if_inv _ _ _ _ _ hI hfl
          obtain ⟨a1, a2, a3, a4, -⟩ := wrw_append_slots _ _ _ _ _ _ hI2 h
          refine ⟨a1, by rw [a2, s2], by rw [a3, s3], ?_, ?_⟩
          · rw [a4, a3]
            exact s4
          · intro he
            rw [a4, a3]
            exact s5 he

theorem WRW_WriteH_slots (w w1 : Wrw) (d d1 : Dev) (hh : List Char)
    (suf : Option (List Char)) (u : Nat) (hI : WrwInv w) (hS : ChunkSlotInv w)
    (h : WRW_WriteH w d hh suf = some (w1, d1, u)) :
    ChunkSlotInv w1 ∧ w1.wfd = w.wfd ∧ w1.siov = w.siov ∧
      (w1.ciov < w1.siov ↔ w.ciov < w.siov) ∧ (w.ciov = w.siov → w1.ciov = w1.siov) := by
  unfold WRW_WriteH at h
  split at h
  · cases h
  · rename_i wa da ua ha
    have k := WRW_Write_slots _ _ _ _ _ _ _ hI hS ha
    split at h
    · cases h
      exact k
    · split at h
      · cases h
      · rename_i wb db ub hb
        cases h
        obtain ⟨s1, s2, s3, s4, s5⟩ := k
        have hI2 := WRW_Write_inv _ _ _ _ _ _ _ hI ha
        obtain ⟨t1, t2, t3, t4, t5⟩ := WRW_Write_slots _ _ _ _ _ _ _ hI2 s1 hb
        refine ⟨t1, by rw [t2, s2], by rw [t3, s3], t4.trans s4, ?_⟩
        intro he
        have h1 := s5 he
        rw [← s3] at he
        exact t5 (by rw [h1])

theorem WRW_Chunked_slots (w w1 : Wrw) (d d1 : Dev) (hI : WrwInv w)
    (hS : ChunkSlotInv w) (h : WRW_Chunked w d = some (w1, d1)) :
    ChunkSlotInv w1 ∧ w1.wfd = w.wfd ∧ w1.siov = w.siov ∧ w.ciov = w.siov ∧
      w1.ciov < w1.siov ∧ w1.niov = w1.ciov + 1 ∧ w1.cliov = 0 := by
  unfold WRW_Chunked at h
  split at h
  · cases h
  · rename_i hc
    have hc2 : w.ciov = w.siov := by simpa using hc
    split at h
    · cases h
    · rename_i wf df hfl
      obtain ⟨s1, s2, s3, s4, s5⟩ := wrw_flush_if_slots _ _ _ _ _ hI hS hfl
      split at h
      · cases h
      · split at h
        · cases h
        · rename_i h1 h2
          cases h
          have h1b : wf.niov < wf.siov := by omega
          have h2b : wf.niov + 1 < wf.siov := by omega
          refine ⟨fun _ => ⟨?_, h2b⟩, s2, s3, hc2, h1b, rfl, rfl⟩
          show wf.niov < wf.niov + 1
          omega

theorem WRW_EndChunk_slots (w w1 : Wrw) (d d1 : Dev) (hI : WrwInv w)
    (h : WRW_EndChunk w d = some (w1, d1)) :
    ChunkSlotInv w1 ∧ w1.wfd = w.wfd ∧ w1.siov = w.siov ∧ w.ciov < w.siov ∧
      w1.ciov = w1.siov := by
  unfold WRW_EndChunk at h
  split at h
  · cases h
  · rename_i hc
    have hc2 : w.ciov < w.siov := by omega
    split at h
    · cases h
    · rename_i wf df uf hf
      obtain ⟨s1, s2, s3, -, -, -, -⟩ := WRW_Flush_slots _ _ _ _ _ hI hf
      have hIf := WRW_Flush_inv _ _ _ _ _ hf
      split at h
      · cases h
      · rename_i wb db ub hb
        cases h
        have hI2 : WrwInv { wf with ciov := wf.siov, niov := 0, cliov := 0 } := by
          obtain ⟨x, rfl, -, -, -⟩ := WRW_Flush_shape _ _ _ _ _ hf
          refine ⟨Nat.zero_le _, fun hh => absurd hh (Nat.lt_irrefl _), ?_⟩
          show (wrw_reset x).liov = _
          rw [wrw_reset_liov]
          simp [Wrw.pending_len, Wrw.used, iov_total]
        have hS2 : ChunkSlotInv { wf with ciov := wf.siov, niov := 0, cliov := 0 } :=
          fun hh => absurd hh (Nat.lt_irrefl _)
        obtain ⟨t1, t2, t3, -, t5⟩ := WRW_Write_slots _ _ _ _ _ _ _ hI2 hS2 hb
        exact ⟨t1, by rw [t2]; exact s2, by rw [t3]; exact s3, hc2, t5 rfl⟩

theorem WrwReach_slots (w : Wrw) (h : WrwReach w) : ChunkSlotInv w ∧ w.wfd.isSome = true := by
  induction h with
  | reserve w0 w fd h =>
    unfold WRW_Reserve at h
    split at h
    · cases h
    · cases h
      exact ⟨fun hc => absurd hc (Nat.lt_irrefl _), rfl⟩
  | write w w1 d d1 ptr len u hr h ih =>
    obtain ⟨s1, s2, -⟩ := WRW_Write_slots _ _ _ _ _ _ _ (WrwReach_inv w hr) ih.1 h
    exact ⟨s1, by rw [s2]; exact ih.2⟩
  | write_header w w1 d d1 hh suf u hr h ih =>
    obtain ⟨s1, s2, -⟩ := WRW_WriteH_slots _ _ _ _ _ _ _ (WrwReach_inv w hr) ih.1 h
    exact ⟨s1, by rw [s2]; exact ih.2⟩
  | chunked w w1 d d1 hr h ih =>
    obtain ⟨s1, s2, -⟩ := WRW_Chunked_slots _ _ _ _ (WrwReach_inv w hr) ih.1 h
    exact ⟨s1, by rw [s2]; exact ih.2⟩
  | flush w w1 d d1 u hr h ih =>
    obtain ⟨s1, s2, -⟩ := WRW_Flush_slots _ _ _ _ _ (WrwReach_inv w hr) h
    exact ⟨s1, by rw [s2]; exact ih.2⟩
  | end_chunk w w1 d d1 hr h ih =>
    obtain ⟨s1, s2, -⟩ := WRW_EndChunk_slots _ _ _ _ (WrwReach_inv w hr) h
    exact ⟨s1, by rw [s2]; exact ih.2⟩

theorem WRW_Flush_total (w : Wrw) (d : Dev) (hfd : w.wfd.isSome = true) (hI : WrwInv w)
    (hS : ChunkSlotInv w) :
    ∃ w1 d1, WRW_Flush w d = some (w1, d1, w1.werr) ∧ WrwInv w1 ∧ ChunkSlotInv w1 ∧
      w1.wfd = w.wfd ∧ w1.siov = w.siov ∧ (w1.ciov < w1.siov ↔ w.ciov < w.siov) ∧
      (w.ciov = w.siov → w1.ciov = w1.siov) ∧ w1.niov ≤ 1 ∧
      (¬ w.ciov < w.siov → w1.niov = 0) := by
  obtain ⟨fd, hfd2⟩ := Option.isSome_iff_exists.mp hfd
  obtain ⟨x, d1, h, -⟩ := WRW_Flush_spec w d fd hfd2 hI hS
  have hw : (wrw_reset x).werr = x.werr := (wrw_reset_facts x).2.1
  obtain ⟨s1, s2, s3, s4, s5, s6, s7⟩ := WRW_Flush_slots _ _ _ _ _ hI h
  refine ⟨wrw_reset x, d1, by rw [hw]; exact h, WRW_Flush_inv _ _ _ _ _ h, s1, s2, s3, s4,
    s5, s6, s7⟩

theorem wrw_append_total (w : Wrw) (d : Dev) (data : List Char) (h : w.niov < w.siov)
    (hc : w.ciov < w.siov → w.niov + 1 < w.siov) :
    ∃ w1 u, wrw_append w d data = some (w1, d, u) := by
  unfold wrw_append
  rw [if_neg (by omega)]
  by_cases hm : w.ciov < w.siov
  · have := hc hm
    rw [if_pos hm, if_neg (by omega)]
    exact ⟨_, _, rfl⟩
  · rw [if_neg hm]
    exact ⟨_, _, rfl⟩

theorem WRW_Write_total (w : Wrw) (d : Dev) (ptr : List Char) (len : Int)
    (hfd : w.wfd.isSome = true) (hI : WrwInv w) (hS : ChunkSlotInv w) (h3 : 3 ≤ w.siov)
    (h1 : -1 ≤ len) (h2 : len ≤ (ptr.length : Int)) :
    ∃ w1 d1 u, WRW_Write w d ptr len = some (w1, d1, u) := by
  obtain ⟨fd, hfd2⟩ := Option.isSome_iff_exists.mp hfd
  unfold WRW_Write
  simp only [hfd2]
  by_cases h0 : len = 0 ∨ fd < 0
  · rw [if_pos h0]
    exact ⟨_, _, _, rfl⟩
  · rw [if_neg h0, if_neg (by omega)]
    by_cases hc : w.niov ≥ w.siov - (if w.ciov < w.siov then 1 else 0)
    · obtain ⟨w1, d1, f1, -, -, -, f5, f6, -, f8, f9⟩ := WRW_Flush_total w d hfd hI hS
      have hfl : wrw_flush_if (decide (w.niov ≥ w.siov - (if w.ciov < w.siov then 1 else 0)))
          w d = some (w1, d1) := by
        unfold wrw_flush_if
        simp only [hc, decide_True, if_true, f1]
      rw [hfl]
      obtain ⟨w2, u, k⟩ := wrw_append_total w1 d1 (wrw_data ptr len) (by omega) (by omega)
      exact ⟨w2, d1, u, k⟩
    · have hfl : wrw_flush_if (decide (w.niov ≥ w.siov - (if w.ciov < w.siov then 1 else 0)))
          w d = some (w, d) := by
        unfold wrw_flush_if
        simp only [hc, decide_False, Bool.false_eq_true, if_false]
      rw [hfl]
      have hlt : w.niov < w.siov := by
        split at hc <;> omega
      have hlt2 : w.ciov < w.siov → w.niov + 1 < w.siov := by
        intro hm
        rw [if_pos hm] at hc
        omega
      obtain ⟨w2, u, k⟩ := wrw_append_total w d (wrw_data ptr len) hlt hlt2
      exact ⟨w2, d, u, k⟩

theorem WrwOk_write (w w1 : Wrw) (d d1 : Dev) (ptr : List Char) (len : Int) (u : Nat)
    (a : Bool) (hw : WrwOk w a) (h : WRW_Write w d ptr len = some (w1, d1, u)) :
    WrwOk w1 a ∧ w1.siov = w.siov := by
  obtain ⟨o1, o2, o3, o4, o5, o6⟩ := hw
  obtain ⟨s1, s2, s3, s4, s5⟩ := WRW_Write_slots _ _ _ _ _ _ _ o3 o4 h
  refine ⟨⟨by rw [s2]; exact o1, by rw [s3]; exact o2, WRW_Write_inv _ _ _ _ _ _ _ o3 h, s1,
    fun ha => s4.mpr (o5 ha), fun ha => s5 (o6 ha)⟩, s3⟩

theorem WrwOp_run_ok (op : WrwOp) (ops : List WrwOp) (w : Wrw) (d : Dev) (a : Bool)
    (hw : WrwOk w a) (hok : ops_ok a (op :: ops) = true) :
    ∃ w1 d1 a1, op.run w d = some (w1, d1) ∧ WrwOk w1 a1 ∧ w1.siov = w.siov ∧
      ops_ok a1 ops = true := by
  obtain ⟨o1, o2, o3, o4, o5, o6⟩ := hw
  cases op with
  | write ptr len =>
    simp only [ops_ok, Bool.and_eq_true, decide_eq_true_eq] at hok
    obtain ⟨w1, d1, u, k⟩ := WRW_Write_total w d ptr len o1 o3 o4 o2 hok.1.1 hok.1.2
    obtain ⟨q1, q2⟩ := WrwOk_write w w1 d d1 ptr len u a ⟨o1, o2, o3, o4, o5, o6⟩ k
    exact ⟨w1, d1, a, by simp [WrwOp.run, k], q1, q2, hok.2⟩
  | write_header hh suf =>
    simp only [ops_ok] at hok
    obtain ⟨w1, d1, u, k⟩ := WRW_Write_total w d hh hh.length o1 o3 o4 o2 (by omega)
      (le_refl _)
    obtain ⟨q1, q2⟩ := WrwOk_write w w1 d d1 hh hh.length u a ⟨o1, o2, o3, o4, o5, o6⟩ k
    cases suf with
    | none =>
      exact ⟨w1, d1, a, by simp [WrwOp.run, WRW_WriteH, k], q1, q2, hok⟩
    | some s =>
      have q1b := q1
      obtain ⟨p1, p2, p3, p4, -, -⟩ := q1b
      obtain ⟨w2, d2, u2, k2⟩ := WRW_Write_total w1 d1 s (-1) p1 p3 p4 p2 (le_refl _)
        (by omega)
      obtain ⟨r1, r2⟩ := WrwOk_write w1 w2 d1 d2 s (-1) u2 a q1 k2
      exact ⟨w2, d2, a, by simp [WrwOp.run, WRW_WriteH, k, k2], r1, by rw [r2, q2], hok⟩
  | chunked =>
    simp only [ops_ok, Bool.and_eq_true, Bool.not_eq_true'] at hok
    have hc := o6 hok.1
    have hnc : ¬ w.ciov < w.siov := by omega
    have hfl : ∃ wf df, wrw_flush_if (decide (w.niov + 3 ≥ w.siov)) w d = some (wf, df) ∧
        wf.niov + 1 < wf.siov := by
      by_cases hcc : w.niov + 3 ≥ w.siov
      · obtain ⟨wf, df, f1, -, -, -, f5, -, -, -, f9⟩ := WRW_Flush_total w d o1 o3 o4
        refine ⟨wf, df, ?_, ?_⟩
        · unfold wrw_flush_if
          simp only [hcc, decide_True, if_true, f1]
        · rw [f9 hnc, f5]
          omega
      · refine ⟨w, d, ?_, by omega⟩
        unfold wrw_flush_if
        simp only [hcc, decide_False, Bool.false_eq_true, if_false]
    obtain ⟨wf, df, f1, f2⟩ := hfl
    have hrun : WRW_Chunked w d =
        some ({ wf with ciov := wf.niov, niov := wf.niov + 1, cliov := 0 }, df) := by
      unfold WRW_Chunked
      rw [if_neg (by simpa using hc)]
      simp only [f1]
      rw [if_neg (by omega), if_neg (by omega)]
    obtain ⟨s1, s2, s3, -, s5, -, -⟩ := WRW_Chunked_slots _ _ _ _ o3 o4 hrun
    refine ⟨_, df, true, by simp only [WrwOp.run]; exact hrun,
      ⟨by rw [s2]; exact o1, by rw [s3]; exact o2, WRW_Chunked_inv _ _ _ _ o3 hrun, s1,
        fun _ => s5, fun h => by cases h⟩, s3, hok.2⟩
  | flush =>
    simp only [ops_ok] at hok
    obtain ⟨w1, d1, f1, f2, f3, f4, f5, f6, f7, -, -⟩ := WRW_Flush_total w d o1 o3 o4
    exact ⟨w1, d1, a, by simp [WrwOp.run, f1],
      ⟨by rw [f4]; exact o1, by rw [f5]; exact o2, f2, f3, fun ha => f6.mpr (o5 ha),
        fun ha => f7 (o6 ha)⟩, f5, hok⟩
  | end_chunk =>
    simp only [ops_ok, Bool.and_eq_true] at hok
    have hc := o5 hok.1
    obtain ⟨wf, df, f1, f2, f3, f4, f5, -, -, -, -⟩ := WRW_Flush_total w d o1 o3 o4
    have hI2 : WrwInv { wf with ciov := wf.siov, niov := 0, cliov := 0 } := by
      obtain ⟨x, hx, -, -, -⟩ := WRW_Flush_shape _ _ _ _ _ f1
      refine ⟨Nat.zero_le _, fun hh => absurd hh (Nat.lt_irrefl _), ?_⟩
      show wf.liov = _
      rw [hx, wrw_reset_liov]
      simp [Wrw.pending_len, Wrw.used, iov_total]
    have hS2 : ChunkSlotInv { wf with ciov := wf.siov, niov := 0, cliov := 0 } :=
      fun hh => absurd hh (Nat.lt_irrefl _)
    obtain ⟨w2, d2, u2, k2⟩ := WRW_Write_total
      { wf with ciov := wf.siov, niov := 0, cliov := 0 } df "0\r\n\r\n".toList (-1)
      (by show wf.wfd.isSome = true; rw [f4]; exact o1) hI2 hS2
      (by show 3 ≤ wf.siov; rw [f5]; exact o2) (le_refl _) (by simp)
    have hrun : WRW_EndChunk w d = some (w2, d2) := by
      unfold WRW_EndChunk
      rw [if_neg (by omega)]
      simp only [f1, k2]
    obtain ⟨s1, s2, s3, -, s5⟩ := WRW_EndChunk_slots _ _ _ _ o3 hrun
    exact ⟨w2, d2, false, by simp only [WrwOp.run]; exact hrun,
      ⟨by rw [s2]; exact o1, by rw [s3]; exact o2, WRW_EndChunk_inv _ _ _ _ hrun, s1,
        (fun h => by cases h), fun _ => s5⟩, s3, hok.2⟩

theorem wrw_run_ok : ∀ (ops : List WrwOp) (w : Wrw) (d : Dev) (a : Bool),
    WrwOk w a → ops_ok a ops = true →
    ∃ w1 d1 a1, wrw_run ops w d = some (w1, d1) ∧ WrwOk w1 a1 ∧ w1.siov = w.siov := by
  intro ops
  induction ops with
  | nil =>
    intro w d a hw _
    exact ⟨w, d, a, rfl, hw, rfl⟩
  | cons op ops ih =>
    intro w d a hw hok
    obtain ⟨w1, d1, a1, k1, k2, k3, k4⟩ := WrwOp_run_ok op ops w d a hw hok
    obtain ⟨w2, d2, a2, j1, j2, j3⟩ := ih w1 d1 a1 k2 k4
    refine ⟨w2, d2, a2, ?_, j2, by rw [j3, k3]⟩
    simp only [wrw_run, k1]
    exact j1

theorem ops_ok_take : ∀ (ops : List WrwOp) (a : Bool) (n : Nat),
    ops_ok a ops = true → ops_ok a (ops.take n) = true := by
  intro ops
  induction ops with
  | nil => intro a n h; simp [ops_ok]
  | cons op ops ih =>
    intro a n h
    cases n with
    | zero => simp [ops_ok]
    | succ n =>
      cases op <;>
        simp only [List.take_succ_cons, ops_ok, Bool.and_eq_true] at h ⊢
      · exact ⟨h.1, ih _ _ h.2⟩
      · exact ih _ _ h
      · exact ⟨h.1, ih _ _ h.2⟩
      · exact ih _ _ h
      · exact ⟨h.1, ih _ _ h.2⟩

theorem WRW_Flush_latched (w w1 : Wrw) (d d1 : Dev) (u : Nat) (he : w.werr ≠ 0)
    (h : WRW_Flush w d = some (w1, d1, u)) :
    d1 = d ∧ w1.werr = w.werr ∧ u = w.werr := by
  have hw : (wrw_reset w).werr = w.werr := (wrw_reset_facts w).2.1
  unfold WRW_Flush at h
  split at h
  · cases h
  · split at h
    · cases h
    · rw [if_neg (fun hc => he hc.2.2)] at h
      cases h
      exact ⟨rfl, hw, hw⟩

theorem wrw_flush_if_latched (c : Bool) (w w1 : Wrw) (d d1 : Dev) (he : w.werr ≠ 0)
    (h : wrw_flush_if c w d = some (w1, d1)) : d1 = d ∧ w1.werr = w.werr := by
  unfold wrw_flush_if at h
  split at h
  · split at h
    · cases h
    · rename_i wf df uf hf
      cases h
      obtain ⟨a, b, -⟩ := WRW_Flush_latched _ _ _ _ _ he hf
      exact ⟨a, b⟩
  · cases h
    exact ⟨rfl, rfl⟩

theorem wrw_append_werr (w w1 : Wrw) (d d1 : Dev) (data : List Char) (u : Nat)
    (h : wrw_append w d data = some (w1, d1, u)) : d1 = d ∧ w1.werr = w.werr := by
  unfold wrw_append at h
  repeat' split at h
  all_goals first
    | (cases h; done)
    | (cases h; exact ⟨rfl, rfl⟩)

theorem WRW_Write_latched (w w1 : Wrw) (d d1 : Dev) (ptr : List Char) (len : Int) (u : Nat)
    (he : w.werr ≠ 0) (h : WRW_Write w d ptr len = some (w1, d1, u)) :
    d1 = d ∧ w1.werr = w.werr := by
  unfold WRW_Write at h
  split at h
  · cases h
  · split at h
    · cases h
      exact ⟨rfl, rfl⟩
    · split at h
      · cases h
      · split at h
        · cases h
        · rename_i wf df hfl
          obtain ⟨a, b⟩ := wrw_flush_if_latched _ _ _ _ _ he hfl
          obtain ⟨c1, c2⟩ := wrw_append_werr _ _ _ _ _ _ h
          exact ⟨by rw [c1, a], by rw [c2, b]⟩

theorem WrwOp_run_latched (op : WrwOp) (w w1 : Wrw) (d d1 : Dev) (hr : WrwReach w)
    (he : w.werr ≠ 0) (h : op.run w d = some (w1, d1)) :
    d1 = d ∧ w1.werr = w.werr ∧ WrwReach w1 := by
  cases op with
  | write ptr len =>
    simp only [WrwOp.run, Option.map_eq_some'] at h
    obtain ⟨⟨wa, da, ua⟩, k, hk⟩ := h
    cases hk
    obtain ⟨a, b⟩ := WRW_Write_latched _ _ _ _ _ _ _ he k
    exact ⟨a, b, WrwReach.write _ _ _ _ _ _ _ hr k⟩
  | write_header hh suf =>
    simp only [WrwOp.run, Option.map_eq_some'] at h
    obtain ⟨⟨wa, da, ua⟩, k, hk⟩ := h
    cases hk
    refine ⟨?_, ?_, WrwReach.write_header _ _ _ _ _ _ _ hr k⟩
    all_goals
      unfold WRW_WriteH at k
      split at k
      · cases k
      · rename_i wb db ub hb
        obtain ⟨a, b⟩ := WRW_Write_latched _ _ _ _ _ _ _ he hb
        split at k
        · cases k
          first | exact a | exact b
        · split at k
          · cases k
          · rename_i wc dc uc hc
            cases k
            obtain ⟨a2, b2⟩ := WRW_Write_latched _ _ _ _ _ _ _ (by rw [b]; exact he) hc
            first | exact a2.trans a | exact b2.trans b
  | chunked =>
    simp only [WrwOp.run] at h
    refine ⟨?_, ?_, WrwReach.chunked _ _ _ _ hr h⟩
    all_goals
      unfold WRW_Chunked at h
      split at h
      · cases h
      · split at h
        · cases h
        · rename_i wf df hfl
          obtain ⟨a, b⟩ := wrw_flush_if_latched _ _ _ _ _ he hfl
          split at h
          · cases h
          · split at h
            · cases h
            · cases h
              first | exact a | exact b
  | flush =>
    simp only [WrwOp.run, Option.map_eq_some'] at h
    obtain ⟨⟨wa, da, ua⟩, k, hk⟩ := h
    cases hk
    obtain ⟨a, b, -⟩ := WRW_Flush_latched _ _ _ _ _ he k
    exact ⟨a, b, WrwReach.flush _ _ _ _ _ hr k⟩
  | end_chunk =>
    simp only [WrwOp.run] at h
    refine ⟨?_, ?_, WrwReach.end_chunk _ _ _ _ hr h⟩
    all_goals
      unfold WRW_EndChunk at h
      split at h
      · cases h
      · split at h
        · cases h
        · rename_i wf df uf hf
          obtain ⟨a, b, -⟩ := WRW_Flush_latched _ _ _ _ _ he hf
          split at h
          · cases h
          · rename_i wc dc uc hc
            cases h
            obtain ⟨a2, b2⟩ := WRW_Write_latched
              { wf with ciov := wf.siov, niov := 0, cliov := 0 } _ _ _ _ _ _
              (by show wf.werr ≠ 0; rw [b]; exact he) hc
            first | exact a2.trans a | exact b2.trans b

theorem wrw_run_latched : ∀ (ops : List WrwOp) (w w1 : Wrw) (d d1 : Dev),
    WrwReach w → w.werr ≠ 0 → wrw_run ops w d = some (w1, d1) →
    d1 = d ∧ w1.werr = w.werr ∧ WrwReach w1 := by
  intro ops
  induction ops with
  | nil =>
    intro w w1 d d1 hr _ h
    simp only [wrw_run, Option.some.injEq, Prod.mk.injEq] at h
    obtain ⟨rfl, rfl⟩ := h
    exact ⟨rfl, rfl, hr⟩
  | cons op ops ih =>
    intro w w1 d d1 hr he h
    simp only [wrw_run] at h
    split at h
    · cases h
    · rename_i wa da hop
      obtain ⟨a, b, c⟩ := WrwOp_run_latched op w wa d da hr he hop
      obtain ⟨a2, b2, c2⟩ := ih wa w1 da d1 c (by rw [b]; exact he) h
      exact ⟨by rw [a2, a], by rw [b2, b], c2⟩

/-! ### Claims about flushing, the error latch and chunked mode -/

/-- C27: `WRW_Flush` on a bound buffer returns, after finitely many `writev` calls,
and reports the error latch.  When it writes (descriptor open, bytes pending, no error
latched) the latch goes up by one exactly when a write returns `<= 0` or a short write
is followed by the expiry of the send timeout; when the writes take all the pending
bytes, in one go or over several retries, the latch is unchanged and the descriptor has
received exactly those bytes.  The number of `writev` calls is at least one and at most
the number of bytes pending, each retry following a write that took at least one byte.
When it does not write, latch and descriptor are untouched. -/
theorem WRW_Flush_error_latch (w : Wrw) (d : Dev) (fd : Int) (hr : WrwReach w)
    (hfd : w.wfd = some fd) :
    ∃ w1 d1, WRW_Flush w d = some (w1, d1, w1.werr) ∧
      (¬ (0 ≤ fd ∧ 0 < w.liov ∧ w.werr = 0) → w1.werr = w.werr ∧ d1 = d) ∧
      (0 ≤ fd → 0 < w.liov → w.werr = 0 →
        ∃ wf, wrw_frame w = some wf ∧ 0 < wf.liov ∧
          wf.liov = (iov_total wf.used : Int) ∧
          (w1.werr = w.werr + 1 ↔ flush_fails d.script wf.liov.toNat = true) ∧
          (w1.werr = w.werr ↔ flush_fails d.script wf.liov.toNat = false) ∧
          (flush_fails d.script wf.liov.toNat = false →
            d1.out = d.out ++ iov_bytes wf.used) ∧
          d.calls < d1.calls ∧ d1.calls ≤ d.calls + wf.liov.toNat) := by
  obtain ⟨x, d1, h, -, -, -, h5, h6⟩ :=
    WRW_Flush_spec w d fd hfd (WrwReach_inv w hr) (WrwReach_slots w hr).1
  have hw : (wrw_reset x).werr = x.werr := (wrw_reset_facts x).2.1
  refine ⟨wrw_reset x, d1, by rw [hw]; exact h, ?_, ?_⟩
  · intro hn
    rw [hw]
    exact h5 hn
  · intro a b c
    obtain ⟨wf, k1, k2, k3, k4, k5, k6, k7⟩ := h6 a b c
    refine ⟨wf, k1, by omega, k3, ?_, ?_, k7, k5, k6⟩
    · rw [hw, k4, c]
      cases flush_fails d.script wf.liov.toNat <;> simp
    · rw [hw, k4, c]
      cases flush_fails d.script wf.liov.toNat <;> simp

/-- C27 at a concrete flush: nine bytes pending, the first write takes two bytes, the
second fails. -/
theorem WRW_Flush_error_latch_witness :
    (WRW_Flush wrw_ex_header dev_failing).map (fun r => (r.2.2, r.2.1.calls, r.2.1.out)) =
      some (1, 2, "Ho".toList) ∧
    ∃ w1 d1, WRW_Flush wrw_ex_header dev_failing = some (w1, d1, w1.werr) :=
  ⟨by decide,
    match WRW_Flush_error_latch wrw_ex_header dev_failing 3 wrw_ex_header_reach rfl with
    | ⟨w1, d1, h, _⟩ => ⟨w1, d1, h⟩⟩

/-- C28: once the error latch of a bound buffer is not zero, no call on the buffer
reaches the descriptor: after any sequence of `WRW_Write`, `WRW_WriteH`, `WRW_Chunked`,
`WRW_Flush` and `WRW_EndChunk` calls the descriptor is as it was (no `writev` call, no
byte taken) and the latch has the value it had; `WRW_Error` reports it, and so does a
further `WRW_Flush`, which returns without touching the descriptor. -/
theorem werr_latched_no_write (ops : List WrwOp) (w w1 : Wrw) (d d1 : Dev)
    (hr : WrwReach w) (he : w.werr ≠ 0) (h : wrw_run ops w d = some (w1, d1)) :
    d1 = d ∧ w1.werr = w.werr ∧ WRW_Error w1 ≠ 0 ∧
      ∃ w2, WRW_Flush w1 d1 = some (w2, d1, w1.werr) ∧ w2.werr = w1.werr := by
  obtain ⟨a, b, c⟩ := wrw_run_latched ops w w1 d d1 hr he h
  have he1 : w1.werr ≠ 0 := by rw [b]; exact he
  obtain ⟨w2, d2, k, -⟩ :=
    WRW_Flush_total w1 d1 (WrwReach_slots w1 c).2 (WrwReach_inv w1 c) (WrwReach_slots w1 c).1
  obtain ⟨q1, q2, -⟩ := WRW_Flush_latched _ _ _ _ _ he1 k
  refine ⟨a, b, he1, w2, ?_, q2⟩
  rw [k, q1, q2]

/-- C28 at a concrete buffer: the error latched by a failed flush, then a write, a
chunk with a write and a flush, and the end of the chunk, on a descriptor that would
take everything. -/
theorem werr_latched_no_write_witness :
    dev_ready = dev_ready ∧ wrw_ex_latched_end.werr = wrw_ex_latched.werr ∧
      WRW_Error wrw_ex_latched_end ≠ 0 :=
  match werr_latched_no_write
      [WrwOp.write "abc".toList 3, WrwOp.chunked, WrwOp.write "de".toList 2, WrwOp.flush,
        WrwOp.end_chunk]
      wrw_ex_latched wrw_ex_latched_end dev_ready dev_ready
      (WrwReach.flush wrw_ex_header wrw_ex_latched
        { script := [{ ret := -1, expired := false }], out := [], calls := 0 }
        { script := [], out := [], calls := 1 } 1 wrw_ex_header_reach (by decide))
      (by decide) (by decide) with
  | ⟨a, b, c, _⟩ => ⟨a, b, c⟩

/-- C29 as stated fails: on a five-slot buffer with two slots in use, three slots are
free, and `WRW_Chunked` flushes first all the same: the descriptor gets one `writev`
call with the three pending bytes, and the reserved slot is slot 0. -/
theorem chunked_flushes_with_three_free_slots :
    (wrw_run [WrwOp.write "ab".toList 2, WrwOp.write "c".toList 1] wrw_ex_five_slots
        dev_ready).map (fun r => (r.1.siov - r.1.niov, r.2.calls)) = some (3, 0) ∧
    (wrw_run [WrwOp.write "ab".toList 2, WrwOp.write "c".toList 1, WrwOp.chunked]
        wrw_ex_five_slots dev_ready).map
      (fun r => (r.2.calls, r.2.out, r.1.ciov, r.1.niov)) =
      some (1, "abc".toList, 0, 1) := by
  decide

/-- C29 (amended): `WRW_Chunked`, called with no chunk open on a bound buffer of at
least two slots, flushes first if and only if at most three slots are free
(`niov + 3 >= siov`): with more free slots it only reserves slot `niov`, leaving vector
and descriptor alone; otherwise its result is that of `WRW_Flush` followed by the
reservation of slot 0.  Afterwards `ciov` is the index of the reserved slot,
`niov = ciov + 1` and `cliov = 0`. -/
theorem WRW_Chunked_flush_rule (w : Wrw) (d : Dev) (hr : WrwReach w)
    (hc : w.ciov = w.siov) (h2 : 2 ≤ w.siov) :
    (w.niov + 3 < w.siov →
      WRW_Chunked w d =
        some ({ w with ciov := w.niov, niov := w.niov + 1, cliov := 0 }, d)) ∧
    (w.siov ≤ w.niov + 3 →
      ∃ wf d1 u, WRW_Flush w d = some (wf, d1, u) ∧ wf.niov = 0 ∧
        WRW_Chunked w d = some ({ wf with ciov := 0, niov := 1, cliov := 0 }, d1)) ∧
    ∃ w1 d1, WRW_Chunked w d = some (w1, d1) ∧ w1.ciov < w1.siov ∧
      w1.niov = w1.ciov + 1 ∧ w1.cliov = 0 ∧ w1.siov = w.siov := by
  have hI := WrwReach_inv w hr
  obtain ⟨hS, hfd⟩ := WrwReach_slots w hr
  have hnc : ¬ w.ciov < w.siov := by omega
  have hA : w.niov + 3 < w.siov →
      WRW_Chunked w d =
        some ({ w with ciov := w.niov, niov := w.niov + 1, cliov := 0 }, d) := by
    intro hlt
    unfold WRW_Chunked wrw_flush_if
    rw [if_neg (by simpa using hc)]
    have hd : decide (w.niov + 3 ≥ w.siov) = false := by
      simp only [decide_eq_false_iff_not]
      omega
    simp only [hd, Bool.false_eq_true, if_false]
    rw [if_neg (by omega), if_neg (by omega)]
  have hB : w.siov ≤ w.niov + 3 →
      ∃ wf d1 u, WRW_Flush w d = some (wf, d1, u) ∧ wf.niov = 0 ∧
        WRW_Chunked w d = some ({ wf with ciov := 0, niov := 1, cliov := 0 }, d1) := by
    intro hge
    obtain ⟨wf, df, f1, -, -, -, f5, -, -, -, f9⟩ := WRW_Flush_total w d hfd hI hS
    have hn0 := f9 hnc
    refine ⟨wf, df, wf.werr, f1, hn0, ?_⟩
    unfold WRW_Chunked wrw_flush_if
    rw [if_neg (by simpa using hc)]
    have hd : decide (w.niov + 3 ≥ w.siov) = true := by
      simp only [decide_eq_true_eq]
      omega
    simp only [hd, if_true, f1]
    rw [if_neg (by omega), if_neg (by omega), hn0]
  refine ⟨hA, hB, ?_⟩
  by_cases hlt : w.niov + 3 < w.siov
  · refine ⟨_, _, hA hlt, ?_, rfl, rfl, rfl⟩
    show w.niov < w.siov
    omega
  · obtain ⟨wf, d1, u, f1, f2, f3⟩ := hB (by omega)
    obtain ⟨-, -, s3, -⟩ := WRW_Flush_slots _ _ _ _ _ hI f1
    refine ⟨_, _, f3, ?_, rfl, rfl, s3⟩
    show 0 < wf.siov
    omega

/-- C29 (amended) at a concrete buffer: four slots, two in use. -/
theorem WRW_Chunked_flush_rule_witness :
    ∃ wf d1 u, WRW_Flush wrw_ex_header dev_ready = some (wf, d1, u) ∧ wf.niov = 0 ∧
      WRW_Chunked wrw_ex_header dev_ready =
        some ({ wf with ciov := 0, niov := 1, cliov := 0 }, d1) :=
  (WRW_Chunked_flush_rule wrw_ex_header dev_ready wrw_ex_header_reach (by decide)
    (by decide)).2.1 (by decide)

/-- C30 as stated fails: on a one-slot buffer `WRW_Chunked` fails its assertion
`niov < siov` right after `WRW_Reserve`; on a two-slot buffer `WRW_Chunked` returns with
`ciov < niov < siov`, and the first `WRW_Write` of the chunk fails that assertion. -/
theorem small_vector_fails_assertions :
    (WRW_Reserve (wrw_idle 1) 3 = some wrw_ex_one_slot ∧
      wrw_run [WrwOp.chunked] wrw_ex_one_slot dev_ready = none) ∧
    (WRW_Reserve (wrw_idle 2) 3 = some wrw_ex_two_slots ∧
      (wrw_run [WrwOp.chunked] wrw_ex_two_slots dev_ready).map
        (fun r => (r.1.ciov, r.1.niov, r.1.siov)) = some (0, 1, 2) ∧
      wrw_run [WrwOp.chunked, WrwOp.write "a".toList 1] wrw_ex_two_slots dev_ready = none) := by
  decide

/-- C30 (amended): for every vector of at least three slots, every descriptor and every
sequence of calls after `WRW_Reserve` that keeps to the calling protocol (`WRW_Chunked`
with no chunk open, `WRW_EndChunk` with one open, writes of `len = -1` or a length
within the bytes at `ptr`), every call returns, so no assertion fails and no vector
index reaches `siov`, and whenever chunked framing is active after a call
(`ciov < siov`) the state satisfies `ciov < niov < siov`. -/
theorem wrw_run_keeps_slots (w0 : Wrw) (fd : Int) (d : Dev) (ops : List WrwOp)
    (h3 : 3 ≤ w0.siov) (hu : w0.wfd = none) (hok : ops_ok false ops = true) :
    ∃ w, WRW_Reserve w0 fd = some w ∧
      ∀ n, ∃ w1 d1, wrw_run (ops.take n) w d = some (w1, d1) ∧ w1.siov = w0.siov ∧
        (w1.ciov < w1.siov → w1.ciov < w1.niov ∧ w1.niov < w1.siov) := by
  have hres : WRW_Reserve w0 fd =
      some { w0 with werr := 0, liov := 0, niov := 0, ciov := w0.siov, wfd := some fd } := by
    unfold WRW_Reserve
    simp [hu]
  refine ⟨_, hres, ?_⟩
  intro n
  have hw : WrwOk { w0 with werr := 0, liov := 0, niov := 0, ciov := w0.siov, wfd := some fd }
      false :=
    ⟨rfl, h3, WRW_Reserve_inv _ _ _ hres, (fun hh => absurd hh (Nat.lt_irrefl _)),
      (fun h => by cases h), fun _ => rfl⟩
  obtain ⟨w1, d1, a1, k1, k2, k3⟩ := wrw_run_ok (ops.take n) _ d false hw (ops_ok_take _ _ _ hok)
  exact ⟨w1, d1, k1, k3, k2.2.2.2.1⟩

/-- C30 (amended) at a concrete run on four slots: a header, a chunked body of two
writes with a flush between them, the end of the chunk. -/
theorem wrw_run_keeps_slots_witness :
    ∃ w, WRW_Reserve (wrw_idle 4) 3 = some w ∧
      ∀ n, ∃ w1 d1, wrw_run
          ([WrwOp.write_header "Host: x".toList (some "\r\n".toList), WrwOp.chunked,
            WrwOp.write "hello".toList 5, WrwOp.flush, WrwOp.write " world".toList (-1),
            WrwOp.end_chunk].take n) w dev_short = some (w1, d1) ∧
        w1.siov = (wrw_idle 4).siov ∧
        (w1.ciov < w1.siov → w1.ciov < w1.niov ∧ w1.niov < w1.siov) :=
  wrw_run_keeps_slots (wrw_idle 4) 3 dev_short
    [WrwOp.write_header "Host: x".toList (some "\r\n".toList), WrwOp.chunked,
      WrwOp.write "hello".toList 5, WrwOp.flush, WrwOp.write " world".toList (-1),
      WrwOp.end_chunk] (by decide) rfl (by decide)

/-! ### Backend errors, the error handler, MISS and WAIT -/

theorem fetch_hdr_calls (env : Env) :
    1 ≤ (fetch_hdr env).2 ∧ (fetch_hdr env).2 ≤ 2 ∧
      ((fetch_hdr env).2 = 2 ↔ env.fetchhdr1 = 1) ∧
      (env.fetchhdr1 = 1 → (fetch_hdr env).1 = env.fetchhdr2) ∧
      (env.fetchhdr1 ≠ 1 → (fetch_hdr env).1 = env.fetchhdr1) := by
  unfold fetch_hdr
  by_cases h : env.fetchhdr1 = 1
  · simp [h]
  · simp [h]

theorem cnt_fetch_failed (env : Env) (e : Eng) (r : Req) (bo : BusyObj)
    (hr : e.sp.req = some r) (hb : e.wrk.busyobj = some bo) (hv : r.vcl = true)
    (hd : r.director = true) (hvbc : bo.vbc = false) (hsc : bo.should_close = false)
    (hsh : e.wrk.storage_hint = false) (hi : (fetch_hdr env).1 ≠ 0) :
    cnt_fetch env e = some (CntResult.step
      (fetch_unwind env e { r with handling := Handling.ERROR, err_code := 503 }
        Step.ERROR)) := by
  unfold cnt_fetch
  simp only [hr, hb, hv, hd, hvbc, hsc, hsh]
  simp only [not_true_eq_false, Bool.false_eq_true, if_false]
  rw [if_pos hi]

theorem fetch_hdr_snd (env : Env) :
    (fetch_hdr env).2 = if env.fetchhdr1 = 1 then 2 else 1 := by
  unfold fetch_hdr
  split <;> rfl

theorem fetch_unwind_env (env env2 : Env) (e : Eng) (r : Req) (s : Step)
    (h1 : env2.fetchhdr1 = env.fetchhdr1) :
    fetch_unwind env2 e r s = fetch_unwind env e r s := by
  unfold fetch_unwind fetch_vsc
  rw [fetch_hdr_snd, fetch_hdr_snd, h1]

theorem cnt_fetch_counts (env : Env) (e : Eng) (res : CntResult)
    (h : cnt_fetch env e = some res) :
    res.eng.fetchhdr_calls = e.fetchhdr_calls + (fetch_hdr env).2 ∧
      res.eng.vsc.backend_retry =
        (if env.fetchhdr1 = 1 then e.vsc.backend_retry + 1 else e.vsc.backend_retry) := by
  unfold cnt_fetch at h
  repeat' split at h
  all_goals first
    | (cases h; done)
    | (simp only [Option.some.injEq] at h
       subst h
       exact ⟨rfl, rfl⟩)

/-- C21: `cnt_fetch` calls `FetchHdr` once or twice: whenever it returns it has made two
calls if the first call returned 1 (the retry that `backend_retry` counts) and one call
otherwise.  When the result of the last call is not zero, the second result after a
retry and the first result otherwise, the handler sets error code 503 and the handling
ERROR itself, gives up the objcore reference and the busy object and steps to ERROR; the
outcome depends on nothing but the two results, in particular not on what the policy
would answer (`VCL_fetch_method` is not called). -/
theorem cnt_fetch_backend_error (env : Env) (e : Eng) (r : Req) (bo : BusyObj)
    (hr : e.sp.req = some r) (hb : e.wrk.busyobj = some bo) (hv : r.vcl = true)
    (hd : r.director = true) (hvbc : bo.vbc = false) (hsc : bo.should_close = false)
    (hsh : e.wrk.storage_hint = false) :
    (∀ res, cnt_fetch env e = some res →
      (env.fetchhdr1 = 1 →
        res.eng.fetchhdr_calls = e.fetchhdr_calls + 2 ∧
          res.eng.vsc.backend_retry = e.vsc.backend_retry + 1) ∧
      (env.fetchhdr1 ≠ 1 →
        res.eng.fetchhdr_calls = e.fetchhdr_calls + 1 ∧
          res.eng.vsc.backend_retry = e.vsc.backend_retry)) ∧
    ((env.fetchhdr1 = 1 ∧ env.fetchhdr2 ≠ 0) ∨ (env.fetchhdr1 ≠ 1 ∧ env.fetchhdr1 ≠ 0) →
      (∃ e1 r1, cnt_fetch env e = some (CntResult.step e1) ∧ e1.sp.step = Step.ERROR ∧
        e1.sp.req = some r1 ∧ r1.err_code = 503 ∧ r1.handling = Handling.ERROR ∧
        r1.restarts = r.restarts ∧ e1.wrk.objcore = none ∧ e1.wrk.busyobj = none ∧
        e1.vbo_derefs = e.vbo_derefs + 1 ∧ e1.vbo_gets = e.vbo_gets) ∧
      ∀ env2 : Env, env2.fetchhdr1 = env.fetchhdr1 → env2.fetchhdr2 = env.fetchhdr2 →
        cnt_fetch env2 e = cnt_fetch env e) := by
  obtain ⟨-, -, -, c4, c5⟩ := fetch_hdr_calls env
  constructor
  · intro res h
    obtain ⟨k1, k2⟩ := cnt_fetch_counts env e res h
    rw [fetch_hdr_snd] at k1
    constructor
    · intro h1
      rw [if_pos h1] at k1 k2
      exact ⟨k1, k2⟩
    · intro h1
      rw [if_neg h1] at k1 k2
      exact ⟨k1, k2⟩
  · intro hc
    have hi : (fetch_hdr env).1 ≠ 0 := by
      rcases hc with ⟨a, b⟩ | ⟨a, b⟩
      · rw [c4 a]
        exact b
      · rw [c5 a]
        exact b
    have k := cnt_fetch_failed env e r bo hr hb hv hd hvbc hsc hsh hi
    constructor
    · exact ⟨_, _, k, rfl, rfl, rfl, rfl, rfl, rfl, rfl, rfl, rfl⟩
    · intro env2 h1 h2
      have hi2 : (fetch_hdr env2).1 ≠ 0 := by
        have e2 : fetch_hdr env2 = fetch_hdr env := by
          unfold fetch_hdr
          rw [h1, h2]
        rw [e2]
        exact hi
      rw [k, cnt_fetch_failed env2 e r bo hr hb hv hd hvbc hsc hsh hi2,
        fetch_unwind_env env env2 e _ _ h1]

/-- C21 at a concrete run: a miss whose first `FetchHdr` asks for the retry and whose
second fails. -/
theorem cnt_fetch_backend_error_witness :
    (eng_after params_ex envs_to_fetch eng_ex_start).sp.step = Step.FETCH ∧
    ∃ e1 r1, cnt_fetch { fetchhdr1 := 1, fetchhdr2 := -1 }
        (eng_after params_ex envs_to_fetch eng_ex_start) = some (CntResult.step e1) ∧
      e1.sp.step = Step.ERROR ∧ e1.sp.req = some r1 ∧ r1.err_code = 503 ∧
      r1.handling = Handling.ERROR ∧
      r1.restarts =
        ((eng_after params_ex envs_to_fetch eng_ex_start).sp.req.get (by decide)).restarts ∧
      e1.wrk.objcore = none ∧ e1.wrk.busyobj = none ∧
      e1.vbo_derefs = (eng_after params_ex envs_to_fetch eng_ex_start).vbo_derefs + 1 ∧
      e1.vbo_gets = (eng_after params_ex envs_to_fetch eng_ex_start).vbo_gets :=
  ⟨by decide,
    ((cnt_fetch_backend_error { fetchhdr1 := 1, fetchhdr2 := -1 }
      (eng_after params_ex envs_to_fetch eng_ex_start)
      ((eng_after params_ex envs_to_fetch eng_ex_start).sp.req.get (by decide))
      ((eng_after params_ex envs_to_fetch eng_ex_start).wrk.busyobj.get (by decide))
      (Option.some_get _).symm (Option.some_get _).symm (by decide) (by decide)
      (by decide) (by decide) (by decide)).2 (Or.inl ⟨rfl, by decide⟩)).1⟩

theorem error_status_cases (r : Req) :
    (r.err_code < 100 ∨ 999 < r.err_code → error_status r = 501) ∧
      (100 ≤ r.err_code → r.err_code ≤ 999 → error_status r = r.err_code) := by
  unfold error_status
  constructor
  · intro h
    rw [if_pos h]
  · intro h1 h2
    rw [if_neg (by omega)]

theorem cnt_error_guards (env : Env) (e : Eng) (h : error_entry env e) :
    ¬ (e.wrk.obj.isNone = true ∧ e.wrk.busyobj.isSome = true) ∧
    ¬ (e.wrk.obj.isSome = true ∧ e.wrk.busyobj.isNone = true) ∧
    ¬ (e.wrk.obj.isNone = true ∧ ¬ env.stv1 = true ∧ ¬ env.stv2 = true) := by
  rcases h with ⟨h1, h2, h3⟩ | ⟨h1, h2⟩
  · rw [h1, h2]
    rcases h3 with h3 | h3 <;> simp [h3]
  · cases ho : e.wrk.obj with
    | none => rw [ho] at h1; cases h1
    | some o =>
      cases hb : e.wrk.busyobj with
      | none => rw [hb] at h2; cases h2
      | some b => simp

theorem cnt_error_delivers (P : Params) (env : Env) (e : Eng) (r : Req)
    (hr : e.sp.req = some r) (hob : error_entry env e)
    (hh : env.handling = Handling.DELIVER ∨ env.handling = Handling.RESTART)
    (hn : ¬ (env.handling = Handling.RESTART ∧ r.restarts < P.max_restarts)) :
    ∃ e1 r1 o1, cnt_error P env e = some (CntResult.step e1) ∧
      e1.sp.step = Step.PREPRESP ∧ e1.wrk.obj = some o1 ∧
      o1.http_status = some (error_status r) ∧ e1.sp.req = some r1 ∧
      r1.doclose = some "error" ∧ r1.wantbody = true ∧ r1.err_code = 0 ∧
      r1.err_reason = none ∧ r1.restarts = r.restarts ∧ e1.wrk.busyobj = none ∧
      e1.vbo_derefs = e.vbo_derefs + 1 := by
  obtain ⟨g1, g2, g3⟩ := cnt_error_guards env e hob
  have h4 : ¬ (env.handling ≠ Handling.RESTART ∧ env.handling ≠ Handling.DELIVER) := by
    rcases hh with h | h <;> simp [h]
  unfold cnt_error
  simp only [hr]
  rw [if_neg g1, if_neg g2, if_neg g3, if_neg hn, if_neg h4]
  cases ho : e.wrk.obj with
  | none => exact ⟨_, _, _, rfl, rfl, rfl, rfl, rfl, rfl, rfl, rfl, rfl, rfl, rfl, rfl⟩
  | some o => exact ⟨_, _, _, rfl, rfl, rfl, rfl, rfl, rfl, rfl, rfl, rfl, rfl, rfl, rfl⟩

theorem cnt_error_restarts_request (P : Params) (env : Env) (e : Eng) (r : Req)
    (hr : e.sp.req = some r) (hob : error_entry env e)
    (hh : env.handling = Handling.RESTART) (hlt : r.restarts < P.max_restarts) :
    ∃ e1 r1, cnt_error P env e = some (CntResult.step e1) ∧ e1.sp.step = Step.RECV ∧
      e1.wrk.obj = none ∧ e1.wrk.busyobj = none ∧ e1.vbo_derefs = e.vbo_derefs + 1 ∧
      e1.sp.req = some r1 ∧ r1.restarts = r.restarts + 1 ∧ r1.doclose = r.doclose ∧
      r1.wantbody = r.wantbody ∧ r1.err_code = error_status r ∧
      e1.wrk.acct_tmp = e.wrk.acct_tmp := by
  obtain ⟨g1, g2, g3⟩ := cnt_error_guards env e hob
  unfold cnt_error
  simp only [hr]
  rw [if_neg g1, if_neg g2, if_neg g3, if_pos ⟨hh, hlt⟩]
  exact ⟨_, _, rfl, rfl, rfl, rfl, rfl, rfl, rfl, rfl, rfl, rfl, rfl⟩

theorem cnt_error_restart_as_deliver (P : Params) (env : Env) (e : Eng) (r : Req)
    (hr : e.sp.req = some r) (hh : env.handling = Handling.RESTART)
    (hge : P.max_restarts ≤ r.restarts) :
    cnt_error P env e = cnt_error P { env with handling := Handling.DELIVER } e := by
  have hn : ¬ r.restarts < P.max_restarts := by omega
  unfold cnt_error
  simp only [hr, hh, hn, and_false, if_false, ne_eq, not_true_eq_false, false_and,
    reduceCtorEq, not_false_eq_true, and_true]

/-- C22: in ERROR with an object for the response (found on entry together with a busy
object, or allocated), an error code outside 100..999 is replaced by 501 before the
status is written into the object; and whenever the handler does not restart (the
policy answers `deliver`, or `restart` with no restart left) it sets `doclose` to
"error" and `wantbody` to 1, clears the error code and reason, releases the busy object
and steps to PREPRESP. -/
theorem cnt_error_synthesizes (P : Params) (env : Env) (e : Eng) (r : Req)
    (hr : e.sp.req = some r) (hob : error_entry env e)
    (hh : env.handling = Handling.DELIVER ∨ env.handling = Handling.RESTART) :
    (r.err_code < 100 ∨ 999 < r.err_code → error_status r = 501) ∧
    (100 ≤ r.err_code → r.err_code ≤ 999 → error_status r = r.err_code) ∧
    (¬ (env.handling = Handling.RESTART ∧ r.restarts < P.max_restarts) →
      ∃ e1 r1 o1, cnt_error P env e = some (CntResult.step e1) ∧
        e1.sp.step = Step.PREPRESP ∧ e1.wrk.obj = some o1 ∧
        o1.http_status = some (error_status r) ∧ e1.sp.req = some r1 ∧
        r1.doclose = some "error" ∧ r1.wantbody = true ∧ r1.err_code = 0 ∧
        r1.err_reason = none ∧ e1.wrk.busyobj = none ∧
        e1.vbo_derefs = e.vbo_derefs + 1) ∧
    (env.handling = Handling.RESTART → r.restarts < P.max_restarts →
      ∃ e1 r1, cnt_error P env e = some (CntResult.step e1) ∧ e1.sp.req = some r1 ∧
        r1.err_code = error_status r) := by
  refine ⟨(error_status_cases r).1, (error_status_cases r).2, ?_, ?_⟩
  · intro hn
    obtain ⟨e1, r1, o1, k1, k2, k3, k4, k5, k6, k7, k8, k9, -, k11, k12⟩ :=
      cnt_error_delivers P env e r hr hob hh hn
    exact ⟨e1, r1, o1, k1, k2, k3, k4, k5, k6, k7, k8, k9, k11, k12⟩
  · intro h1 h2
    obtain ⟨e1, r1, k1, -, -, -, -, k6, -, -, -, k10, -⟩ :=
      cnt_error_restarts_request P env e r hr hob h1 h2
    exact ⟨e1, r1, k1, k6, k10⟩

/-- C22 at a concrete run: a request answered with 413 by the parser, delivered by the
policy's error handler. -/
theorem cnt_error_synthesizes_witness :
    (eng_after params_ex envs_to_error eng_ex_start).sp.step = Step.ERROR ∧
    ∃ e1 r1 o1, cnt_error params_ex { }
        (eng_after params_ex envs_to_error eng_ex_start) = some (CntResult.step e1) ∧
      e1.sp.step = Step.PREPRESP ∧ e1.wrk.obj = some o1 ∧
      o1.http_status = some (error_status
        ((eng_after params_ex envs_to_error eng_ex_start).sp.req.get (by decide))) ∧
      e1.sp.req = some r1 ∧ r1.doclose = some "error" ∧ r1.wantbody = true ∧
      r1.err_code = 0 ∧ r1.err_reason = none ∧ e1.wrk.busyobj = none ∧
      e1.vbo_derefs = (eng_after params_ex envs_to_error eng_ex_start).vbo_derefs + 1 :=
  ⟨by decide,
    (cnt_error_synthesizes params_ex { }
      (eng_after params_ex envs_to_error eng_ex_start)
      ((eng_after params_ex envs_to_error eng_ex_start).sp.req.get (by decide))
      (Option.some_get _).symm (Or.inl ⟨by decide, by decide, Or.inl rfl⟩)
      (Or.inl rfl)).2.2.1 (by decide)⟩

/-- C23: in ERROR, when the policy answers `restart` and `restarts < max_restarts`, the
handler drops the synthesized object, releases the busy object, increments `restarts`
by exactly one, leaves `doclose` (and the accounting of bytes sent) untouched and steps
to RECV; when the policy answers `restart` and `restarts >= max_restarts`, the outcome
is the one for `deliver`. -/
theorem cnt_error_restart_or_deliver (P : Params) (env : Env) (e : Eng) (r : Req)
    (hr : e.sp.req = some r) (hob : error_entry env e)
    (hh : env.handling = Handling.RESTART) :
    (r.restarts < P.max_restarts →
      ∃ e1 r1, cnt_error P env e = some (CntResult.step e1) ∧ e1.sp.step = Step.RECV ∧
        e1.wrk.obj = none ∧ e1.wrk.busyobj = none ∧
        e1.vbo_derefs = e.vbo_derefs + 1 ∧ e1.sp.req = some r1 ∧
        r1.restarts = r.restarts + 1 ∧ r1.doclose = r.doclose ∧
        e1.wrk.acct_tmp = e.wrk.acct_tmp) ∧
    (P.max_restarts ≤ r.restarts →
      cnt_error P env e = cnt_error P { env with handling := Handling.DELIVER } e ∧
      ∃ e1, cnt_error P env e = some (CntResult.step e1) ∧
        e1.sp.step = Step.PREPRESP ∧ e1.restarts = r.restarts) := by
  constructor
  · intro hlt
    obtain ⟨e1, r1, k1, k2, k3, k4, k5, k6, k7, k8, -, -, k11⟩ :=
      cnt_error_restarts_request P env e r hr hob hh hlt
    exact ⟨e1, r1, k1, k2, k3, k4, k5, k6, k7, k8, k11⟩
  · intro hge
    refine ⟨cnt_error_restart_as_deliver P env e r hr hh hge, ?_⟩
    obtain ⟨e1, r1, o1, k1, k2, -, -, k5, -, -, -, -, k10, -, -⟩ :=
      cnt_error_delivers P env e r hr hob (Or.inr hh) (fun hc => by omega)
    refine ⟨e1, k1, k2, ?_⟩
    unfold Eng.restarts
    rw [k5]
    exact k10

/-- C23 at a concrete run: a request answered with 413 by the parser, restarted by the
policy's error handler with one restart allowed. -/
theorem cnt_error_restart_or_deliver_witness :
    ∃ e1 r1, cnt_error params_ex { handling := Handling.RESTART }
        (eng_after params_ex envs_to_error eng_ex_start) = some (CntResult.step e1) ∧
      e1.sp.step = Step.RECV ∧ e1.wrk.obj = none ∧ e1.wrk.busyobj = none ∧
      e1.vbo_derefs = (eng_after params_ex envs_to_error eng_ex_start).vbo_derefs + 1 ∧
      e1.sp.req = some r1 ∧
      r1.restarts =
        ((eng_after params_ex envs_to_error eng_ex_start).sp.req.get (by decide)).restarts
          + 1 ∧
      r1.doclose =
        ((eng_after params_ex envs_to_error eng_ex_start).sp.req.get (by decide)).doclose ∧
      e1.wrk.acct_tmp = (eng_after params_ex envs_to_error eng_ex_start).wrk.acct_tmp :=
  (cnt_error_restart_or_deliver params_ex { handling := Handling.RESTART }
    (eng_after params_ex envs_to_error eng_ex_start)
    ((eng_after params_ex envs_to_error eng_ex_start).sp.req.get (by decide))
    (Option.some_get _).symm (Or.inl ⟨by decide, by decide, Or.inl rfl⟩) rfl).1 (by decide)

/-- C24: what `cnt_miss` does with the four answers of the policy.  `fetch` steps to
FETCH, holding a busy object and keeping the objcore; `pass` drops the objcore, releases
the busy object and steps to PASS; `error` drops the objcore, releases the busy object
and steps to ERROR; `restarts` is left as it is by all three.  On `restart` the handler
drops the objcore, releases the busy object and then runs into `INCOMPL()`: it does not
return, `restarts` is not incremented and RECV is not entered. -/
theorem cnt_miss_outcomes (env : Env) (e : Eng) (r : Req) (hr : e.sp.req = some r)
    (hv : r.vcl = true) (ho : e.wrk.obj = none) (hoc : e.wrk.objcore.isSome = true)
    (hb : e.wrk.busyobj.isSome = true) :
    (env.handling = Handling.FETCH →
      ∃ e1, cnt_miss env e = some (CntResult.step e1) ∧ e1.sp.step = Step.FETCH ∧
        e1.wrk.busyobj.isSome = true ∧ e1.wrk.objcore = e.wrk.objcore ∧
        e1.vbo_derefs = e.vbo_derefs ∧ e1.restarts = r.restarts) ∧
    (env.handling = Handling.PASS →
      ∃ e1, cnt_miss env e = some (CntResult.step e1) ∧ e1.sp.step = Step.PASS ∧
        e1.wrk.busyobj = none ∧ e1.wrk.objcore = none ∧
        e1.vbo_derefs = e.vbo_derefs + 1 ∧ e1.restarts = r.restarts) ∧
    (env.handling = Handling.ERROR →
      ∃ e1, cnt_miss env e = some (CntResult.step e1) ∧ e1.sp.step = Step.ERROR ∧
        e1.wrk.busyobj = none ∧ e1.wrk.objcore = none ∧
        e1.vbo_derefs = e.vbo_derefs + 1 ∧ e1.restarts = r.restarts) ∧
    (env.handling = Handling.RESTART → cnt_miss env e = none) := by
  have g1 : e.wrk.objcore.isNone = false := by
    cases h : e.wrk.objcore with
    | none => rw [h] at hoc; cases hoc
    | some c => rfl
  have g2 : e.wrk.busyobj.isNone = false := by
    cases h : e.wrk.busyobj with
    | none => rw [h] at hb; cases hb
    | some c => rfl
  refine ⟨fun h => ?_, fun h => ?_, fun h => ?_, fun h => ?_⟩
  all_goals simp [cnt_miss, hr, hv, ho, g1, g2, h, Eng.restarts]

/-- C24 at a concrete run: a miss that the policy wants restarted. -/
theorem cnt_miss_outcomes_witness :
    (eng_after params_ex envs_to_miss eng_ex_start).sp.step = Step.MISS ∧
    cnt_miss { handling := Handling.RESTART }
      (eng_after params_ex envs_to_miss eng_ex_start) = none :=
  ⟨by decide,
    (cnt_miss_outcomes { handling := Handling.RESTART }
      (eng_after params_ex envs_to_miss eng_ex_start)
      ((eng_after params_ex envs_to_miss eng_ex_start).sp.req.get (by decide))
      (Option.some_get _).symm (by decide) (by decide) (by decide) (by decide)).2.2.2 rfl⟩

theorem Eng_delete_reason (P : Params) (e : Eng) (why : String) (ht : e.sp.t_open ≠ none)
    (hfd : 0 ≤ e.sp.fd) (hv : e.sp.req.map Req.vcl ≠ some true) :
    ∃ e1 f, e.delete P (some why) = some (CntResult.deleted e1 f) ∧ e1.sp.fd = -1 ∧
      e1.sp.req = none ∧ e1.sp.close_reason = some why := by
  obtain ⟨sp2, h, -, -, h3, -, h5, -⟩ :=
    SES_Delete_some P e.pp e.wrk.stats e.sp (some why) ht (by simp; omega) hv
  have hb : (ses_delete_block P e.pp e.wrk.stats sp2).sp = sp2 := by
    unfold ses_delete_block; split <;> rfl
  have hcr := (SES_Delete_close_reason P e.pp e.wrk.stats e.sp (some why) _ h).1 why rfl
  unfold Eng.delete
  rw [h]
  exact ⟨_, _, rfl, by rw [hb]; exact h5 hfd, by rw [hb]; exact h3, hcr⟩

theorem cnt_wait_park_some (e : Eng) (r : Req) (hr : e.sp.req = some r) :
    ∃ e1, cnt_wait_park e = some (CntResult.yield e1) ∧ e1.sp.req = none ∧
      e1.sp.t_req = none ∧ e1.sp.step = e.sp.step ∧ e1.sp.fd = e.sp.fd ∧
      e1.sp.close_reason = e.sp.close_reason := by
  unfold cnt_wait_park SES_Charge SES_ReleaseReq
  simp only [hr]
  exact ⟨_, rfl, rfl, rfl, rfl, rfl, rfl⟩

theorem fl_abs_late_idle : fl_abs 9007199254740999 1 = 9007199254741000 := by
  unfold fl_abs
  have h : fl_ulp 9007199254740999 1 = 1 := by decide
  rw [h]
  have h2 : fl_round 9007199254740999 (1 * 2 ^ (1 : Int).toNat) * 2 ^ (1 : Int).toNat =
      9007199254741000 := by decide
  rw [if_pos (by decide), h2]
  norm_num

theorem fl_abs_late_linger : fl_abs 9007199254740995 1 = 9007199254740996 := by
  unfold fl_abs
  have h : fl_ulp 9007199254740995 1 = 1 := by decide
  rw [h]
  have h2 : fl_round 9007199254740995 (1 * 2 ^ (1 : Int).toNat) * 2 ^ (1 : Int).toNat =
      9007199254740996 := by decide
  rw [if_pos (by decide), h2]
  norm_num

theorem dadd_late_idle : dadd 9007199254740994 5 = 9007199254741000 := by
  unfold dadd
  have h : (9007199254740994 : ℚ) + 5 = 9007199254740999 := by norm_num
  rw [h]
  unfold fl
  simp only [Rat.num_ofNat, Rat.den_ofNat]
  rw [if_neg (by decide), if_neg (by decide)]
  exact fl_abs_late_idle

theorem dadd_late_linger : dadd 9007199254740994 1 = 9007199254740996 := by
  unfold dadd
  have h : (9007199254740994 : ℚ) + 1 = 9007199254740995 := by norm_num
  rw [h]
  unfold fl
  simp only [Rat.num_ofNat, Rat.den_ofNat]
  rw [if_neg (by decide), if_neg (by decide)]
  exact fl_abs_late_linger

/-- C25 as stated fails: the deadlines are sums of `double` values.  With
`t_idle = 2 ^ 53 + 2`, `timeout_idle = 5` and the clock at `2 ^ 53 + 8`, the sum
`t_idle + timeout_idle` is `2 ^ 53 + 7`, before the clock, but as a `double` it is
`2 ^ 53 + 8`, which is not: on "no data" the session is not deleted with reason
"timeout" but parked, its descriptor open and no close reason logged. -/
theorem wait_idle_deadline_is_rounded :
    wakeup_late.htc = -3 ∧ 0 ≤ wakeup_late.poll ∧
    eng_ex_wait_late.sp.t_idle = some 9007199254740994 ∧
    (9007199254740994 : ℚ) + params_ex.timeout_idle < wakeup_late.now ∧
    cnt_wait_loop params_ex [wakeup_late] eng_ex_wait_late =
      cnt_wait_park eng_ex_wait_late ∧
    (cnt_wait_park eng_ex_wait_late).map
      (fun res => (res.eng.sp.fd, res.eng.sp.close_reason, res.eng.sp.req)) =
      some (7, none, none) := by
  have h1 : ¬ dadd 9007199254740994 params_ex.timeout_idle < wakeup_late.now := by
    show ¬ dadd 9007199254740994 5 < 9007199254741000
    rw [dadd_late_idle]
    norm_num
  have h2 : dadd 9007199254740994 params_ex.timeout_linger < wakeup_late.now := by
    show dadd 9007199254740994 1 < 9007199254741000
    rw [dadd_late_linger]
    norm_num
  have h3 : (9007199254740994 : ℚ) + params_ex.timeout_idle < wakeup_late.now := by
    show (9007199254740994 : ℚ) + 5 < 9007199254741000
    norm_num
  exact ⟨rfl, by decide, rfl, h3,
    cnt_wait_loop_parks params_ex wakeup_late [] eng_ex_wait_late 9007199254740994
      (by decide) rfl rfl h1 h2,
    by decide⟩

/-- C25 (amended): one wake-up of the `poll` loop of WAIT, for a session with its
descriptor open and a request record without policy reference.  If `poll` reports an
error the handler fails its assertion.  Otherwise, the deadlines being the sums computed
in `double` arithmetic: `HTC` result 1 steps to START with `t_req = now`; -1 deletes the
session with reason "EOF"; -2 with reason "overflow"; -3 with
`t_idle + timeout_idle < now` deletes it with reason "timeout", parking not being
considered; -3 with `t_idle + timeout_linger < now` (and no idle timeout) parks it after
releasing the request record; any other result with `t_req + timeout_req < now` deletes
it with reason "req timeout".  Every delete and the park return 1, the session closed
and deleted with the reason logged, or parked without request record. -/
theorem cnt_wait_wakeup (P : Params) (w : Wakeup) (ws : List Wakeup) (e : Eng) (r : Req)
    (hr : e.sp.req = some r) (hv : r.vcl = false) (hfd : 0 ≤ e.sp.fd)
    (ht : e.sp.t_open ≠ none) :
    (w.poll < 0 → cnt_wait_loop P (w :: ws) e = none) ∧
    (0 ≤ w.poll →
      (w.htc = 1 →
        cnt_wait_loop P (w :: ws) e = some (CntResult.step
          { e with sp := { e.sp with t_req := some w.now, step := Step.START } })) ∧
      (w.htc = -1 →
        ∃ e1 f, cnt_wait_loop P (w :: ws) e = some (CntResult.deleted e1 f) ∧
          e1.sp.fd = -1 ∧ e1.sp.req = none ∧ e1.sp.close_reason = some "EOF") ∧
      (w.htc = -2 →
        ∃ e1 f, cnt_wait_loop P (w :: ws) e = some (CntResult.deleted e1 f) ∧
          e1.sp.fd = -1 ∧ e1.sp.req = none ∧ e1.sp.close_reason = some "overflow") ∧
      (w.htc = -3 → ∀ t, e.sp.t_idle = some t → dadd t P.timeout_idle < w.now →
        ∃ e1 f, cnt_wait_loop P (w :: ws) e = some (CntResult.deleted e1 f) ∧
          e1.sp.fd = -1 ∧ e1.sp.req = none ∧ e1.sp.close_reason = some "timeout") ∧
      (w.htc = -3 → ∀ t, e.sp.t_idle = some t → ¬ dadd t P.timeout_idle < w.now →
        dadd t P.timeout_linger < w.now →
        cnt_wait_loop P (w :: ws) e = cnt_wait_park e ∧
        ∃ e1, cnt_wait_loop P (w :: ws) e = some (CntResult.yield e1) ∧
          e1.sp.req = none ∧ e1.sp.step = e.sp.step ∧ e1.sp.fd = e.sp.fd ∧
          e1.sp.close_reason = e.sp.close_reason) ∧
      (w.htc ≠ 1 → w.htc ≠ -1 → w.htc ≠ -2 → w.htc ≠ -3 →
        ∀ t, e.sp.t_req = some t → dadd t P.timeout_req < w.now →
        ∃ e1 f, cnt_wait_loop P (w :: ws) e = some (CntResult.deleted e1 f) ∧
          e1.sp.fd = -1 ∧ e1.sp.req = none ∧
          e1.sp.close_reason = some "req timeout")) := by
  have hv2 : e.sp.req.map Req.vcl ≠ some true := by
    rw [hr]
    simp [hv]
  have hdel : ∀ why : String, ∀ x : Option CntResult, x = e.delete P (some why) →
      ∃ e1 f, x = some (CntResult.deleted e1 f) ∧ e1.sp.fd = -1 ∧ e1.sp.req = none ∧
        e1.sp.close_reason = some why := by
    intro why x hx
    obtain ⟨e1, f, k1, k2, k3, k4⟩ := Eng_delete_reason P e why ht hfd hv2
    exact ⟨e1, f, by rw [hx, k1], k2, k3, k4⟩
  constructor
  · intro hp
    unfold cnt_wait_loop
    rw [if_pos hp]
  intro hp
  have hp2 : ¬ w.poll < 0 := by omega
  refine ⟨?_, ?_, ?_, ?_, ?_, ?_⟩
  · intro h
    unfold cnt_wait_loop
    simp [hp2, h]
  · intro h
    apply hdel
    unfold cnt_wait_loop
    simp [hp2, h]
  · intro h
    apply hdel
    unfold cnt_wait_loop
    simp [hp2, h]
  · intro h t hi hlt
    apply hdel
    unfold cnt_wait_loop
    simp [hp2, h, hi, hlt]
  · intro h t hi h1 h2
    have k := cnt_wait_loop_parks P w ws e t hp h hi h1 h2
    obtain ⟨e1, p1, p2, -, p4, p5, p6⟩ := cnt_wait_park_some e r hr
    exact ⟨k, e1, by rw [k, p1], p2, p4, p5, p6⟩
  · intro h1 h2 h3 h4 t hi hlt
    apply hdel
    unfold cnt_wait_loop
    simp [hp2, h1, h2, h3, h4, hi, hlt]

/-- C25 (amended) at a concrete wake-up: the receive buffer overflows. -/
theorem cnt_wait_wakeup_witness :
    ∃ e1 f, cnt_wait_loop params_ex [{ poll := 1, now := 1, htc := -2 }] eng_ex_wait =
        some (CntResult.deleted e1 f) ∧
      e1.sp.fd = -1 ∧ e1.sp.req = none ∧ e1.sp.close_reason = some "overflow" :=
  ((cnt_wait_wakeup params_ex { poll := 1, now := 1, htc := -2 } [] eng_ex_wait
    Req.zero (by decide) (by decide) (by decide) (by decide)).2 (by decide)).2.2.1 rfl

/-- C26: what the code does on the paths through PIPE and PASS.  `cnt_pipe` calls
`VBO_GetBusyObj` twice and `VBO_DerefBusyObj` once on its way to DONE; `cnt_pass` calls
`VBO_GetBusyObj` twice and hands one busy object on to FETCH, or releases one on its
way to ERROR.  One acquisition is never matched by a release. -/
theorem pass_and_pipe_acquire_twice (env : Env) (e : Eng) (res : CntResult) :
    (cnt_pipe env e = some res →
      res.eng.sp.step = Step.DONE ∧ res.eng.vbo_gets = e.vbo_gets + 2 ∧
        res.eng.vbo_derefs = e.vbo_derefs + 1 ∧ res.eng.wrk.busyobj = none) ∧
    (cnt_pass env e = some res →
      res.eng.vbo_gets = e.vbo_gets + 2 ∧
        ((res.eng.sp.step = Step.ERROR ∧ res.eng.vbo_derefs = e.vbo_derefs + 1 ∧
            res.eng.wrk.busyobj = none) ∨
          (res.eng.sp.step = Step.FETCH ∧ res.eng.vbo_derefs = e.vbo_derefs ∧
            res.eng.wrk.busyobj.isSome = true))) := by
  constructor
  · intro h
    unfold cnt_pipe at h
    repeat' split at h
    all_goals first
      | (cases h; done)
      | (simp only [Option.some.injEq] at h
         subst h
         simp [CntResult.eng])
  · intro h
    unfold cnt_pass at h
    repeat' split at h
    all_goals first
      | (cases h; done)
      | (simp only [Option.some.injEq] at h
         subst h
         simp [CntResult.eng])

/-- C26 at concrete runs: a piped request and a passed request at DONE. -/
theorem pass_and_pipe_acquire_twice_witness :
    ((eng_after params_ex envs_pipe eng_ex_start).sp.step = Step.DONE ∧
      (eng_after params_ex envs_pipe eng_ex_start).vbo_gets = 2 ∧
      (eng_after params_ex envs_pipe eng_ex_start).vbo_derefs = 1) ∧
    ((eng_after params_ex envs_pass eng_ex_start).sp.step = Step.DONE ∧
      (eng_after params_ex envs_pass eng_ex_start).vbo_gets = 2 ∧
      (eng_after params_ex envs_pass eng_ex_start).vbo_derefs = 1) ∧
    (((cnt_pipe { handling := Handling.PIPE }
          (eng_after params_ex (envs_pipe.take 2) eng_ex_start)).get (by decide)).eng.sp.step
        = Step.DONE ∧
      ((cnt_pipe { handling := Handling.PIPE }
          (eng_after params_ex (envs_pipe.take 2) eng_ex_start)).get (by decide)).eng.vbo_gets
        = (eng_after params_ex (envs_pipe.take 2) eng_ex_start).vbo_gets + 2 ∧
      ((cnt_pipe { handling := Handling.PIPE }
          (eng_after params_ex (envs_pipe.take 2) eng_ex_start)).get
            (by decide)).eng.vbo_derefs
        = (eng_after params_ex (envs_pipe.take 2) eng_ex_start).vbo_derefs + 1 ∧
      ((cnt_pipe { handling := Handling.PIPE }
          (eng_after params_ex (envs_pipe.take 2) eng_ex_start)).get
            (by decide)).eng.wrk.busyobj = none) :=
  ⟨by decide, by decide,
    (pass_and_pipe_acquire_twice { handling := Handling.PIPE }
      (eng_after params_ex (envs_pipe.take 2) eng_ex_start)
      ((cnt_pipe { handling := Handling.PIPE }
        (eng_after params_ex (envs_pipe.take 2) eng_ex_start)).get (by decide))).1
      (Option.some_get _).symm⟩

/-! ### The chunk head and the chunk length -/

theorem hexDigit_eq_digitChar (d : Nat) (h : d < 16) : hexDigit d = Nat.digitChar d := by
  interval_cases d <;> rfl

theorem hexAux_eq_toDigitsCore : ∀ (fuel n : Nat) (acc : List Char), n ≤ fuel →
    hexAux fuel n acc = Nat.toDigitsCore 16 (fuel + 1) n acc := by
  intro fuel
  induction fuel with
  | zero =>
    intro n acc h
    have h0 : n = 0 := by omega
    subst h0
    simp [hexAux, Nat.toDigitsCore, hexDigit_eq_digitChar]
  | succ f ih =>
    intro n acc h
    unfold hexAux
    rw [Nat.toDigitsCore]
    by_cases hn : n < 16
    · have hd : n / 16 = 0 := Nat.div_eq_of_lt hn
      have hm : n % 16 = n := Nat.mod_eq_of_lt hn
      simp only [hn, if_true, hd, hm]
      rw [hexDigit_eq_digitChar n hn]
    · have hd : ¬ n / 16 = 0 := by
        intro hc
        have := Nat.div_add_mod n 16
        have := Nat.mod_lt n (by decide : 16 > 0)
        omega
      simp only [hn, if_false, hd]
      rw [ih (n / 16) _ (by omega), hexDigit_eq_digitChar _ (Nat.mod_lt n (by decide))]

theorem hex_eq_toDigits (n : Nat) : hex n = Nat.toDigits 16 n := by
  unfold hex Nat.toDigits
  exact hexAux_eq_toDigitsCore n n [] (le_refl n)

theorem hexAux_bounds : ∀ (fuel n : Nat) (acc : List Char), n ≤ fuel →
    ∃ k, (hexAux fuel n acc).length = k + acc.length ∧ 1 ≤ k ∧ n < 16 ^ k ∧
      (0 < n → 16 ^ (k - 1) ≤ n ∧ (hexAux fuel n acc).head? ≠ some '0') := by
  intro fuel
  induction fuel with
  | zero =>
    intro n acc h
    have h0 : n = 0 := by omega
    subst h0
    exact ⟨1, by simp [hexAux]; omega, le_refl _, by decide, fun hc => absurd hc (by decide)⟩
  | succ f ih =>
    intro n acc h
    unfold hexAux
    by_cases hn : n < 16
    · simp only [hn, if_true]
      refine ⟨1, by simp; omega, le_refl _, by simpa using hn, fun hpos => ⟨by simpa using hpos, ?_⟩⟩
      simp only [List.head?_cons, ne_eq, Option.some.injEq]
      interval_cases n <;> decide
    · simp only [hn, if_false]
      have hpos : 0 < n / 16 := Nat.div_pos (by omega) (by decide)
      obtain ⟨k, k1, k2, k3, k4⟩ := ih (n / 16) (hexDigit (n % 16) :: acc) (by omega)
      obtain ⟨k5, k6⟩ := k4 hpos
      refine ⟨k + 1, by rw [k1]; simp; omega, by omega, ?_, fun _ => ⟨?_, k6⟩⟩
      · rw [pow_succ]
        have := Nat.div_add_mod n 16
        have := Nat.mod_lt n (by decide : 16 > 0)
        omega
      · have hk : 16 ^ (k + 1 - 1) = 16 ^ (k - 1) * 16 := by
          have : k + 1 - 1 = (k - 1) + 1 := by omega
          rw [this, pow_succ]
        rw [hk]
        have := Nat.div_add_mod n 16
        omega

theorem hex_length (n : Nat) : (hex n).length = Nat.log 16 n + 1 := by
  obtain ⟨k, k1, k2, k3, k4⟩ := hexAux_bounds n n [] (le_refl n)
  unfold hex
  rw [k1]
  simp only [List.length_nil, Nat.add_zero]
  by_cases hn : n = 0
  · subst hn
    have hk : k = 1 := by
      have : hexAux 0 0 [] = [hexDigit 0] := rfl
      rw [this] at k1
      simpa using k1.symm
    simp [hk]
  · obtain ⟨k5, -⟩ := k4 (by omega)
    have hl : Nat.log 16 n = k - 1 :=
      Nat.log_eq_of_pow_le_of_lt_pow k5 (by
        have : k - 1 + 1 = k := by omega
        rw [this]
        exact k3)
    omega

theorem hex_head (n : Nat) (h : 0 < n) : (hex n).head? ≠ some '0' := by
  obtain ⟨k, -, -, -, k4⟩ := hexAux_bounds n n [] (le_refl n)
  exact (k4 h).2

theorem set_eq_take_cons_drop {α : Type} : ∀ (l : List α) (c : Nat) (a : α), c < l.length →
    l.set c a = l.take c ++ a :: l.drop (c + 1) := by
  intro l
  induction l with
  | nil => intro c a h; simp at h
  | cons x xs ih =>
    intro c a h
    cases c with
    | zero => simp
    | succ c =>
      simp only [List.set_cons_succ, List.take_succ_cons, List.drop_succ_cons, List.cons_append]
      rw [ih c a (by simpa using h)]

theorem wrw_frame_chunk (w : Wrw) (hS : ChunkSlotInv w) (hc : w.ciov < w.siov)
    (hL : 0 < w.cliov) :
    ∃ wf, wrw_frame w = some wf ∧
      wf.used = w.used.take w.ciov ++
        chunk_head w.cliov :: (w.used.drop (w.ciov + 1) ++ [['\r', '\n']]) ∧
      wf.liov = w.liov + ((chunk_head w.cliov).length : Int) + 2 ∧
      wf.niov = w.niov + 1 := by
  obtain ⟨a1, a2⟩ := hS hc
  unfold wrw_frame
  rw [if_pos ⟨hc, hL⟩]
  simp only []
  rw [if_neg (by omega)]
  refine ⟨_, rfl, ?_, rfl, rfl⟩
  have hlen : w.niov < (w.iov.set w.ciov (chunk_head w.cliov)).length := by
    simpa [Wrw.siov] using a2
  have hc2 : w.ciov < (w.iov.take w.niov).length := by
    rw [List.length_take]
    unfold Wrw.siov at a2
    omega
  simp only [Wrw.used]
  rw [take_set_succ _ _ _ hlen, List.set_take, set_eq_take_cons_drop _ _ _ hc2]
  simp

theorem wrw_frame_no_chunk (w : Wrw) (hS : ChunkSlotInv w)
    (hc : w.ciov < w.siov) (hL : ¬ 0 < w.cliov) :
    ∃ wf, wrw_frame w = some wf ∧
      wf.used = w.used.take w.ciov ++ [] :: w.used.drop (w.ciov + 1) ∧
      wf.liov = w.liov ∧ wf.niov = w.niov := by
  obtain ⟨a1, a2⟩ := hS hc
  unfold wrw_frame
  rw [if_neg (fun h => hL h.2), if_pos hc]
  refine ⟨_, rfl, ?_, rfl, rfl⟩
  have hc2 : w.ciov < (w.iov.take w.niov).length := by
    rw [List.length_take]
    unfold Wrw.siov at a2
    omega
  simp only [Wrw.used]
  rw [List.set_take, set_eq_take_cons_drop _ _ _ hc2]

theorem wrw_reset_chunk_len (x : Wrw) : ChunkLenInv (wrw_reset x) := by
  unfold wrw_reset
  split
  · intro _
    show (0 : Int) = ((iov_total (List.drop (0 + 1) (List.take 1 x.iov)) : Nat) : Int)
    rw [List.drop_of_length_le (by rw [List.length_take]; omega)]
    rfl
  · rename_i hc
    intro h2
    exact absurd h2 hc

theorem WRW_Flush_chunk_len (w w1 : Wrw) (d d1 : Dev) (u : Nat)
    (h : WRW_Flush w d = some (w1, d1, u)) : ChunkLenInv w1 := by
  obtain ⟨x, rfl, -, -, -⟩ := WRW_Flush_shape w w1 d d1 u h
  exact wrw_reset_chunk_len x

theorem wrw_flush_if_chunk_len (c : Bool) (w w1 : Wrw) (d d1 : Dev) (hL : ChunkLenInv w)
    (h : wrw_flush_if c w d = some (w1, d1)) : ChunkLenInv w1 := by
  unfold wrw_flush_if at h
  split at h
  · split at h
    · cases h
    · rename_i wf df uf hf
      cases h
      exact WRW_Flush_chunk_len _ _ _ _ _ hf
  · cases h
    exact hL

theorem wrw_append_chunk_len (w w1 : Wrw) (d d1 : Dev) (data : List Char) (u : Nat)
    (hI : WrwInv w) (hL : ChunkLenInv w) (h : wrw_append w d data = some (w1, d1, u)) :
    ChunkLenInv w1 := by
  unfold wrw_append at h
  split at h
  · cases h
  · rename_i hn
    split at h
    · rename_i hc
      split at h
      · cases h
      · rename_i hr
        cases h
        intro _
        have hlt := hI.2.1 hc
        have hu : ({ w with
            iov := w.iov.set w.niov data, liov := w.liov + data.length
            niov := w.niov + 1, cliov := w.cliov + data.length } : Wrw).used =
            w.used ++ [data] := by
          simp only [Wrw.used]
          exact take_set_succ _ _ _ (by unfold Wrw.siov at hn; omega)
        have hlen : w.used.length = w.niov := used_length w hI.1
        show w.cliov + (data.length : Int) =
          ((iov_total (List.drop (w.ciov + 1) ({ w with
            iov := w.iov.set w.niov data, liov := w.liov + data.length
            niov := w.niov + 1, cliov := w.cliov + data.length } : Wrw).used) : Nat) : Int)
        rw [hu, List.drop_append_of_le_length (by omega), iov_total_append, hL hc]
        simp [iov_total]
    · rename_i hc
      cases h
      intro h2
      have h3 : w.ciov < (w.iov.set w.niov data).length := h2
      simp only [List.length_set] at h3
      exact absurd h3 hc

theorem WRW_Write_chunk_len (w w1 : Wrw) (d d1 : Dev) (ptr : List Char) (len : Int) (u : Nat)
    (hI : WrwInv w) (hL : ChunkLenInv w) (h : WRW_Write w d ptr len = some (w1, d1, u)) :
    ChunkLenInv w1 := by
  unfold WRW_Write at h
  split at h
  · cases h
  · split at h
    · cases h
      exact hL
    · split at h
      · cases h
      · split at h
        · cases h
        · rename_i wf df hfl
          exact wrw_append_chunk_len _ _ _ _ _ _ (wrw_flush_if_inv _ _ _ _ _ hI hfl)
            (wrw_flush_if_chunk_len _ _ _ _ _ hL hfl) h

theorem WrwReach_chunk_len (w : Wrw) (h : WrwReach w) : ChunkLenInv w := by
  induction h with
  | reserve w0 w fd h =>
    unfold WRW_Reserve at h
    split at h
    · cases h
    · cases h
      exact fun hc => absurd hc (Nat.lt_irrefl _)
  | write w w1 d d1 ptr len u hr h ih =>
    exact WRW_Write_chunk_len _ _ _ _ _ _ _ (WrwReach_inv w hr) ih h
  | write_header w w1 d d1 hh suf u hr h ih =>
    unfold WRW_WriteH at h
    split at h
    · cases h
    · rename_i wa da ua ha
      have k := WRW_Write_chunk_len _ _ _ _ _ _ _ (WrwReach_inv w hr) ih ha
      split at h
      · cases h
        exact k
      · split at h
        · cases h
        · rename_i wb db ub hb
          cases h
          exact WRW_Write_chunk_len _ _ _ _ _ _ _
            (WRW_Write_inv _ _ _ _ _ _ _ (WrwReach_inv w hr) ha) k hb
  | chunked w w1 d d1 hr h ih =>
    obtain ⟨-, -, -, -, s5, s6, s7⟩ :=
      WRW_Chunked_slots _ _ _ _ (WrwReach_inv w hr) (WrwReach_slots w hr).1 h
    have hI1 := WRW_Chunked_inv _ _ _ _ (WrwReach_inv w hr) h
    intro _
    rw [s7]
    have hlen : w1.used.length = w1.niov := used_length w1 hI1.1
    rw [List.drop_of_length_le (by omega)]
    rfl
  | flush w w1 d d1 u hr h ih =>
    exact WRW_Flush_chunk_len _ _ _ _ _ h
  | end_chunk w w1 d d1 hr h ih =>
    obtain ⟨-, -, -, -, s5⟩ := WRW_EndChunk_slots _ _ _ _ (WrwReach_inv w hr) h
    intro hc
    omega

theorem wrw_ex_chunk_hello_reach : WrwReach wrw_ex_chunk_hello :=
  WrwReach.write wrw_ex_chunked wrw_ex_chunk_hello dev_ready dev_ready "hello".toList 5 5
    (WrwReach.chunked
      { wfd := some 3, werr := 0, iov := ["abc".toList, [], [], []], niov := 0, liov := 0,
        cliov := 0, ciov := 4 }
      wrw_ex_chunked dev_ready dev_ready
      (WrwReach.flush
        { wfd := some 3, werr := 0, iov := ["abc".toList, [], [], []], niov := 1, liov := 3,
          cliov := 0, ciov := 4 }
        { wfd := some 3, werr := 0, iov := ["abc".toList, [], [], []], niov := 0, liov := 0,
          cliov := 0, ciov := 4 }
        dev_ready { script := [], out := "abc".toList, calls := 1 } 0
        (WrwReach.write wrw_ex_reserved
          { wfd := some 3, werr := 0, iov := ["abc".toList, [], [], []], niov := 1, liov := 3,
            cliov := 0, ciov := 4 }
          dev_ready dev_ready "abc".toList 3 3 wrw_ex_reserved_reach (by decide))
        (by decide))
      (by decide))
    (by decide)

theorem wrw_ex_plain_then_chunk_reach : WrwReach wrw_ex_plain_then_chunk :=
  WrwReach.chunked
    { wfd := some 3, werr := 0, iov := ["ab".toList, [], [], [], []], niov := 1, liov := 2,
      cliov := 0, ciov := 5 }
    wrw_ex_plain_then_chunk dev_ready dev_ready
    (WrwReach.write wrw_ex_five_slots
      { wfd := some 3, werr := 0, iov := ["ab".toList, [], [], [], []], niov := 1, liov := 2,
        cliov := 0, ciov := 5 }
      dev_ready dev_ready "ab".toList 2 2
      (WrwReach.reserve (wrw_idle 5) wrw_ex_five_slots 3 (by decide)) (by decide))
    (by decide)

theorem chunk_payload_pending (w : Wrw) (hr : WrwReach w) (hc : w.ciov < w.siov) :
    w.cliov = (iov_total (w.used.drop (w.ciov + 1)) : Int) ∧ w.cliov ≤ w.liov := by
  have h1 := WrwReach_chunk_len w hr hc
  refine ⟨h1, ?_⟩
  rw [(WrwReach_inv w hr).2.2, h1]
  unfold Wrw.pending_len
  push_cast
  omega

theorem chunk_head_digits (l : Int) :
    chunk_head l = '0' :: '0' :: (Nat.toDigits 16 l.toNat ++ ['\r', '\n']) ∧
      (chunk_head l).length = (Nat.toDigits 16 l.toNat).length + 4 := by
  unfold chunk_head
  rw [hex_eq_toDigits]
  simp

/-- C31: when `WRW_Flush` runs in chunked mode with the descriptor open, no error
latched and a chunk of `L = cliov > 0` bytes pending behind the reserved slot, the
reserved slot is given the text "00", `L` in lowercase hexadecimal, CR LF; an entry of
the two bytes CR LF is put behind the payload; and `liov` grows by the length of the
head plus 2, so that it is the sum of the lengths of the entries handed to `writev`.
When the writes take everything, the descriptor has received exactly these entries. -/
theorem WRW_Flush_chunk_frame (w : Wrw) (d : Dev) (fd : Int) (hr : WrwReach w)
    (hfd : w.wfd = some fd) (hopen : 0 ≤ fd) (herr : w.werr = 0) (hc : w.ciov < w.siov)
    (hL : 0 < w.cliov) :
    w.cliov = (iov_total (w.used.drop (w.ciov + 1)) : Int) ∧
    ∃ wf, wrw_frame w = some wf ∧
      wf.used = w.used.take w.ciov ++
        ('0' :: '0' :: (Nat.toDigits 16 w.cliov.toNat ++ ['\r', '\n'])) ::
          (w.used.drop (w.ciov + 1) ++ [['\r', '\n']]) ∧
      wf.liov = w.liov + (((Nat.toDigits 16 w.cliov.toNat).length + 4 : Nat) : Int) + 2 ∧
      wf.liov = (iov_total wf.used : Int) ∧
      ∃ w1 d1, WRW_Flush w d = some (w1, d1, w1.werr) ∧ d.calls < d1.calls ∧
        (flush_fails d.script wf.liov.toNat = false →
          d1.out = d.out ++ iov_bytes wf.used) := by
  have hI := WrwReach_inv w hr
  have hS := (WrwReach_slots w hr).1
  obtain ⟨p1, p2⟩ := chunk_payload_pending w hr hc
  obtain ⟨wf, f1, f2, f3, -⟩ := wrw_frame_chunk w hS hc hL
  obtain ⟨g1, g2⟩ := chunk_head_digits w.cliov
  obtain ⟨x, d1, h, -, -, -, -, h6⟩ := WRW_Flush_spec w d fd hfd hI hS
  obtain ⟨wf2, k1, -, k3, -, k5, -, k7⟩ := h6 hopen (by omega) herr
  have hw : (wrw_reset x).werr = x.werr := (wrw_reset_facts x).2.1
  rw [f1] at k1
  cases k1
  refine ⟨p1, wf, f1, by rw [f2, g1], by rw [f3, g2], k3, wrw_reset x, d1, by rw [hw]; exact h,
    k5, k7⟩

/-- C31 at a concrete flush: a chunk of five bytes on a descriptor that takes all. -/
theorem WRW_Flush_chunk_frame_witness :
    (WRW_Flush wrw_ex_chunk_hello dev_ready).map (fun r => r.2.1.out) =
      some "005\r\nhello\r\n".toList ∧
    ∃ wf, wrw_frame wrw_ex_chunk_hello = some wf ∧
      wf.used = wrw_ex_chunk_hello.used.take wrw_ex_chunk_hello.ciov ++
        ('0' :: '0' :: (Nat.toDigits 16 wrw_ex_chunk_hello.cliov.toNat ++ ['\r', '\n'])) ::
          (wrw_ex_chunk_hello.used.drop (wrw_ex_chunk_hello.ciov + 1) ++ [['\r', '\n']]) :=
  ⟨by decide,
    match (WRW_Flush_chunk_frame wrw_ex_chunk_hello dev_ready 3 wrw_ex_chunk_hello_reach rfl
      (by decide) rfl (by decide) (by decide)).2 with
    | ⟨wf, a, b, _⟩ => ⟨wf, a, b⟩⟩

/-- C32 as stated fails: for a chunk of five bytes `WRW_Flush` emits the size line
"005", three characters in front of CR LF, where five has one hexadecimal digit and the
claimed width is `max 2 1 = 2`. -/
theorem chunk_size_line_has_two_zeros_more :
    (wrw_run [WrwOp.chunked, WrwOp.write "hello".toList 5, WrwOp.flush] wrw_ex_reserved
        dev_ready).map (fun r => r.2.out) = some "005\r\nhello\r\n".toList ∧
    chunk_head 5 = "005\r\n".toList ∧ (hex 5).length = 1 ∧ max 2 (hex 5).length = 2 := by
  decide

/-- C32 (amended): every chunk-size line that `WRW_Flush` puts into the reserved slot for
a chunk of `L > 0` bytes is "00" followed by `L` in lowercase hexadecimal without
leading zero, that is by exactly `log16 L + 1` digits the first of which is not "0", so
it has two characters more than `L` has hexadecimal digits in front of the CR LF. -/
theorem chunk_size_line_width (w : Wrw) (hr : WrwReach w) (hc : w.ciov < w.siov)
    (hL : 0 < w.cliov) :
    ∃ wf digits rest, wrw_frame w = some wf ∧
      wf.used.drop w.ciov = ('0' :: '0' :: (digits ++ ['\r', '\n'])) :: rest ∧
      digits = Nat.toDigits 16 w.cliov.toNat ∧
      digits.length = Nat.log 16 w.cliov.toNat + 1 ∧ digits.head? ≠ some '0' := by
  have hI := WrwReach_inv w hr
  have hS := (WrwReach_slots w hr).1
  obtain ⟨wf, f1, f2, -, -⟩ := wrw_frame_chunk w hS hc hL
  obtain ⟨g1, -⟩ := chunk_head_digits w.cliov
  have hlen : (w.used.take w.ciov).length = w.ciov := by
    rw [List.length_take, used_length w hI.1]
    have := hI.2.1 hc
    omega
  refine ⟨wf, Nat.toDigits 16 w.cliov.toNat, w.used.drop (w.ciov + 1) ++ [['\r', '\n']], f1, ?_,
    rfl, ?_, ?_⟩
  · rw [f2, g1, List.drop_append_of_le_length (by omega), List.drop_of_length_le (by omega)]
    rfl
  · rw [← hex_eq_toDigits]
    exact hex_length _
  · rw [← hex_eq_toDigits]
    exact hex_head _ (by omega)

/-- C32 (amended) at a concrete chunk of five bytes. -/
theorem chunk_size_line_width_witness :
    ∃ wf digits rest, wrw_frame wrw_ex_chunk_hello = some wf ∧
      wf.used.drop wrw_ex_chunk_hello.ciov =
        ('0' :: '0' :: (digits ++ ['\r', '\n'])) :: rest ∧
      digits = Nat.toDigits 16 wrw_ex_chunk_hello.cliov.toNat ∧
      digits.length = Nat.log 16 wrw_ex_chunk_hello.cliov.toNat + 1 ∧
      digits.head? ≠ some '0' :=
  chunk_size_line_width wrw_ex_chunk_hello wrw_ex_chunk_hello_reach (by decide) (by decide)

/-- C40: `WRW_Flush` in chunked mode emits no chunk of length zero.  With `cliov = 0`
the reserved slot is sent with length 0 and no tail entry is added: the bytes handed to
`writev` are the bytes pending in front of the reserved slot, unframed (none at all
when `liov = 0`, in which case nothing is written).  With `cliov` not zero it is
positive and is the number of payload bytes behind the reserved slot. -/
theorem WRW_Flush_no_empty_chunk (w : Wrw) (d : Dev) (fd : Int) (hr : WrwReach w)
    (hfd : w.wfd = some fd) (hc : w.ciov < w.siov) :
    (w.cliov = 0 →
      ∃ wf, wrw_frame w = some wf ∧ wf.niov = w.niov ∧ wf.liov = w.liov ∧
        wf.used = w.used.take w.ciov ++ [] :: w.used.drop (w.ciov + 1) ∧
        iov_bytes wf.used = iov_bytes (w.used.take w.ciov) ∧
        ∃ w1 d1, WRW_Flush w d = some (w1, d1, w1.werr) ∧ (w.liov = 0 → d1 = d) ∧
          (0 ≤ fd → 0 < w.liov → w.werr = 0 →
            flush_fails d.script w.liov.toNat = false →
            d1.out = d.out ++ iov_bytes (w.used.take w.ciov))) ∧
    (w.cliov ≠ 0 →
      0 < w.cliov ∧ w.cliov = (iov_total (w.used.drop (w.ciov + 1)) : Int)) := by
  have hI := WrwReach_inv w hr
  have hS := (WrwReach_slots w hr).1
  obtain ⟨p1, p2⟩ := chunk_payload_pending w hr hc
  constructor
  · intro h0
    obtain ⟨wf, f1, f2, f3, f4⟩ := wrw_frame_no_chunk w hS hc (by omega)
    have hz : iov_bytes (w.used.drop (w.ciov + 1)) = [] :=
      iov_bytes_of_total_zero _ (by omega)
    have hb : iov_bytes wf.used = iov_bytes (w.used.take w.ciov) := by
      rw [f2, iov_bytes_append]
      simp [iov_bytes, hz]
    obtain ⟨x, d1, h, -, -, -, h5, h6⟩ := WRW_Flush_spec w d fd hfd hI hS
    have hw : (wrw_reset x).werr = x.werr := (wrw_reset_facts x).2.1
    refine ⟨wf, f1, f4, f3, f2, hb, wrw_reset x, d1, by rw [hw]; exact h, ?_, ?_⟩
    · intro hl
      exact (h5 (by omega)).2
    · intro a b c hff
      obtain ⟨wf2, k1, -, -, -, -, -, k7⟩ := h6 a b c
      rw [f1] at k1
      cases k1
      rw [f3] at k7
      rw [k7 hff, hb]
  · intro hne
    refine ⟨?_, p1⟩
    rw [p1] at hne ⊢
    omega

/-- C40 at a concrete flush: two bytes pending in front of an empty chunk. -/
theorem WRW_Flush_no_empty_chunk_witness :
    (WRW_Flush wrw_ex_plain_then_chunk dev_ready).map (fun r => r.2.1.out) =
      some "ab".toList ∧
    ∃ wf, wrw_frame wrw_ex_plain_then_chunk = some wf ∧
      wf.niov = wrw_ex_plain_then_chunk.niov ∧ wf.liov = wrw_ex_plain_then_chunk.liov :=
  ⟨by decide,
    match (WRW_Flush_no_empty_chunk wrw_ex_plain_then_chunk dev_ready 3
      wrw_ex_plain_then_chunk_reach rfl (by decide)).1 rfl with
    | ⟨wf, a, b, c, _⟩ => ⟨wf, a, b, c⟩⟩

/-! ### START: the Expect header and junk requests -/

theorem cnt_start_recv (env : Env) (e : Eng) (r : Req)
    (hr : e.sp.req = some r) (h0 : r.restarts = 0) (ho : e.wrk.obj = none)
    (hv : r.vcl = false) (he : r.esi_level = 0) (ht : e.sp.t_req ≠ none)
    (hd : env.dissect = 0) :
    (∀ p, env.http.expect = some p → p.toLower = "100-continue" →
      ∃ e1, cnt_start env e = some (CntResult.step e1) ∧ e1.sp.step = Step.RECV ∧
        e1.sp.http_req = { env.http with expect := none } ∧ e1.sp.http0_req = env.http) ∧
    (env.http.expect = none →
      ∃ e1, cnt_start env e = some (CntResult.step e1) ∧ e1.sp.step = Step.RECV ∧
        e1.sp.http_req = env.http ∧ e1.sp.http0_req = env.http) := by
  have ht2 : e.sp.t_req.isNone = false := by
    cases h : e.sp.t_req with
    | none => exact absurd h ht
    | some _ => rfl
  constructor
  · intro p hp hl
    unfold cnt_start
    simp only [hr, h0, ho, hv, he, ht2, hd, hp]
    simp only [ne_eq, not_true_eq_false, if_false, Option.isSome_none, Bool.false_eq_true,
      OfNat.zero_ne_ofNat, not_false_eq_true, if_true]
    rw [if_neg (by rw [hl]; simp)]
    exact ⟨_, rfl, rfl, rfl, rfl⟩
  · intro hp
    unfold cnt_start
    simp only [hr, h0, ho, hv, he, ht2, hd, hp]
    simp only [ne_eq, not_true_eq_false, if_false, Option.isSome_none, Bool.false_eq_true,
      OfNat.zero_ne_ofNat, not_false_eq_true, if_true]
    exact ⟨_, rfl, rfl, rfl, rfl⟩

/-- C33: `cnt_start` for a session at START with a fresh request record.  After a
successful parse (`http_DissectRequest` returns 0): an `Expect` header that equals
"100-continue" without regard to case is removed from the request and the step is RECV;
any other `Expect` value gives error code 417 and the step ERROR; without `Expect` the
step is RECV.  A parse result of 400 closes the connection with reason "junk" and steps
to DONE, the request not being copied to `http0`. -/
theorem cnt_start_expect_and_junk (env : Env) (e : Eng) (r : Req)
    (hr : e.sp.req = some r) (h0 : r.restarts = 0) (ho : e.wrk.obj = none)
    (hv : r.vcl = false) (he : r.esi_level = 0) (ht : e.sp.t_req ≠ none) :
    (env.dissect = 0 → ∀ p, env.http.expect = some p → p.toLower = "100-continue" →
      ∃ e1, cnt_start env e = some (CntResult.step e1) ∧ e1.sp.step = Step.RECV ∧
        e1.sp.http_req.expect = none ∧
        e1.sp.http_req = { env.http with expect := none }) ∧
    (env.dissect = 0 → ∀ p, env.http.expect = some p → p.toLower ≠ "100-continue" →
      ∃ e1 r1, cnt_start env e = some (CntResult.step e1) ∧ e1.sp.step = Step.ERROR ∧
        e1.sp.req = some r1 ∧ r1.err_code = 417) ∧
    (env.dissect = 0 → env.http.expect = none →
      ∃ e1, cnt_start env e = some (CntResult.step e1) ∧ e1.sp.step = Step.RECV ∧
        e1.sp.http_req = env.http) ∧
    (env.dissect = 400 → 0 ≤ e.sp.fd →
      ∃ e1, cnt_start env e = some (CntResult.step e1) ∧ e1.sp.step = Step.DONE ∧
        e1.sp.fd = -1 ∧ e1.sp.close_reason = some "junk" ∧
        e1.sp.http0_req = e.sp.http0_req) := by
  refine ⟨?_, ?_, ?_, ?_⟩
  · intro hd p hp hl
    obtain ⟨e1, k1, k2, k3, -⟩ := (cnt_start_recv env e r hr h0 ho hv he ht hd).1 p hp hl
    exact ⟨e1, k1, k2, by rw [k3], k3⟩
  · intro hd p hp hl
    obtain ⟨e1, r1, k1, k2, -, -, k5, k6, -⟩ :=
      cnt_start_expect env e r p hr h0 ho hv he ht hd hp hl
    exact ⟨e1, r1, k1, k2, k5, k6⟩
  · intro hd hp
    obtain ⟨e1, k1, k2, k3, -⟩ := (cnt_start_recv env e r hr h0 ho hv he ht hd).2 hp
    exact ⟨e1, k1, k2, k3⟩
  · intro hd hfd
    obtain ⟨e1, r1, k1, k2, k3, -, -, -, -, -, -, k10, k11⟩ :=
      cnt_start_junk env e r hr h0 ho hv he ht hd hfd
    exact ⟨e1, k1, k2, k3, k10, k11⟩

/-- C33 at a concrete request: `Expect: 100-Continue` is accepted and removed. -/
theorem cnt_start_expect_and_junk_witness :
    ∃ e1, cnt_start env_expect_continue eng_ex_start = some (CntResult.step e1) ∧
      e1.sp.step = Step.RECV ∧ e1.sp.http_req.expect = none ∧
      e1.sp.http_req = { env_expect_continue.http with expect := none } :=
  (cnt_start_expect_and_junk env_expect_continue eng_ex_start Req.zero rfl rfl rfl rfl rfl
    (by decide)).1 rfl "100-Continue" rfl (by rw [String.toLower, String.map_eq]; decide)

/-! ### FETCHBODY: gzip flags and streaming -/

theorem fetchbody_gzip_total (P : Params) (ce : Option String) (bo : BusyObj) :
    ∃ b, fetchbody_gzip P ce bo = some b ∧
      ¬ (b.is_gzip = true ∧ b.is_gunzip = true) ∧
      ¬ (b.do_gzip = true ∧ b.do_gunzip = true) ∧
      b.is_gzip = decide (ce = some "gzip") ∧ b.is_gunzip = ce.isNone ∧
      b.do_esi = bo.do_esi ∧ b.do_stream = bo.do_stream ∧
      b.do_gzip = (P.http_gzip_support && bo.do_gzip && ce.isNone) ∧
      b.do_gunzip = (P.http_gzip_support && bo.do_gunzip && decide (ce = some "gzip")) := by
  unfold fetchbody_gzip
  cases hs : P.http_gzip_support <;> cases hz : bo.do_gzip <;> cases hu : bo.do_gunzip <;>
    cases ce with
    | none => simp [hs, hz, hu]
    | some s =>
      by_cases hg : s = "gzip"
      · simp [hs, hz, hu, hg]
      · simp [hs, hz, hu, hg]

theorem fetchbody_streams_iff (P : Params) (env : Env) (e : Eng) (r : Req) (b : BusyObj) :
    fetchbody_streams P env e r b = true ↔
      ((fetchbody_stream P r env.stv1 b).do_stream = true ∧
        ¬ (r.err_code = 200 ∧ e.sp.http_req.conds = true ∧ env.do_cond = true)) := by
  by_cases a : r.err_code = 200 <;> cases hb : e.sp.http_req.conds <;>
    cases hc : env.do_cond <;> cases hd : (fetchbody_stream P r env.stv1 b).do_stream <;>
    simp [fetchbody_streams, a, hb, hc, hd]

theorem fetchbody_streams_off (P : Params) (env : Env) (e : Eng) (r : Req) (b : BusyObj)
    (h : b.do_esi = true ∨ 0 < r.esi_level ∨ r.wantbody = false ∨
      (r.err_code = 200 ∧ e.sp.http_req.conds = true ∧ env.do_cond = true)) :
    fetchbody_streams P env e r b = false := by
  unfold fetchbody_streams fetchbody_stream
  rcases h with h | h | h | ⟨h1, h2, h3⟩
  · simp [h]
  · simp [h]
  · simp [h]
  · simp [h1, h2, h3]

theorem cnt_fetchbody_branches (P : Params) (env : Env) (e : Eng) (r : Req) (bo b1 : BusyObj)
    (hr : e.sp.req = some r) (hb : e.wrk.busyobj = some bo)
    (hh : r.handling = Handling.HIT_FOR_PASS ∨ r.handling = Handling.DELIVER)
    (hg : fetchbody_gzip P env.content_encoding
      (if e.wrk.objcore.isNone then { bo with ttl := -1 } else bo) = some b1)
    (hs : env.stv1 = true ∨ env.stv2 = true)
    (hoc : AssertObjCorePassOrBusy e.wrk.objcore = true) (hd : r.director = true) :
    (fetchbody_streams P env e r b1 = true →
      ∃ e1 b2, cnt_fetchbody P env e = some (CntResult.step e1) ∧
        e1.sp.step = Step.PREPRESP ∧ e1.wrk.busyobj = some b2 ∧ b2.do_stream = true ∧
        e1.vbo_derefs = e.vbo_derefs ∧ e1.wrk.obj.isSome = true) ∧
    (fetchbody_streams P env e r b1 = false → env.fetchbody = 0 →
      ∃ e1 o, cnt_fetchbody P env e = some (CntResult.step e1) ∧
        e1.sp.step = Step.PREPRESP ∧ e1.wrk.busyobj = none ∧
        e1.vbo_derefs = e.vbo_derefs + 1 ∧ e1.wrk.obj = some o ∧ o.len = env.body_len ∧
        e1.wrk.acct_tmp.fetch = e.wrk.acct_tmp.fetch + 1) ∧
    (fetchbody_streams P env e r b1 = false → env.fetchbody ≠ 0 →
      ∃ e1 r1, cnt_fetchbody P env e = some (CntResult.step e1) ∧
        e1.sp.step = Step.ERROR ∧ e1.wrk.busyobj = none ∧
        e1.vbo_derefs = e.vbo_derefs + 1 ∧ e1.wrk.obj = none ∧ e1.sp.req = some r1 ∧
        r1.err_code = 503) := by
  have hh2 : ¬ (r.handling ≠ Handling.HIT_FOR_PASS ∧ r.handling ≠ Handling.DELIVER) := by
    rcases hh with h | h <;> simp [h]
  have hs2 : ¬ (¬ env.stv1 = true ∧ ¬ env.stv2 = true) := by
    rcases hs with h | h <;> simp [h]
  have hoc2 : ¬ ¬ AssertObjCorePassOrBusy e.wrk.objcore = true := by simp [hoc]
  have hd2 : ¬ ¬ r.director = true := by simp [hd]
  refine ⟨?_, ?_, ?_⟩
  · intro h
    have k := (fetchbody_streams_iff P env e r b1).1 h
    unfold cnt_fetchbody
    simp only [hr, hb, hg]
    rw [if_neg hh2, if_neg hs2, if_neg hoc2, if_pos k]
    exact ⟨_, _, rfl, rfl, rfl, k.1, rfl, rfl⟩
  · intro h hf
    have k : ¬ ((fetchbody_stream P r env.stv1 b1).do_stream = true ∧
        ¬ (r.err_code = 200 ∧ e.sp.http_req.conds = true ∧ env.do_cond = true)) := by
      intro hc
      rw [(fetchbody_streams_iff P env e r b1).2 hc] at h
      cases h
    unfold cnt_fetchbody
    simp only [hr, hb, hg]
    rw [if_neg hh2, if_neg hs2, if_neg hoc2, if_neg k, if_neg hd2, if_neg (by simp [hf])]
    exact ⟨_, _, rfl, rfl, rfl, rfl, rfl, rfl, rfl⟩
  · intro h hf
    have k : ¬ ((fetchbody_stream P r env.stv1 b1).do_stream = true ∧
        ¬ (r.err_code = 200 ∧ e.sp.http_req.conds = true ∧ env.do_cond = true)) := by
      intro hc
      rw [(fetchbody_streams_iff P env e r b1).2 hc] at h
      cases h
    unfold cnt_fetchbody
    simp only [hr, hb, hg]
    rw [if_neg hh2, if_neg hs2, if_neg hoc2, if_neg k, if_neg hd2, if_pos hf]
    exact ⟨_, _, rfl, rfl, rfl, rfl, rfl, rfl, rfl⟩

theorem cnt_fetchbody_gziped (P : Params) (env : Env) (e : Eng) (r : Req) (bo b1 : BusyObj)
    (res : CntResult) (o : Obj)
    (hr : e.sp.req = some r) (hb : e.wrk.busyobj = some bo)
    (hg : fetchbody_gzip P env.content_encoding
      (if e.wrk.objcore.isNone then { bo with ttl := -1 } else bo) = some b1)
    (h : cnt_fetchbody P env e = some res) (ho : res.eng.wrk.obj = some o) :
    o.gziped = (b1.do_gzip || (b1.is_gzip && !b1.do_gunzip)) := by
  unfold cnt_fetchbody at h
  simp only [hr, hb, hg] at h
  repeat' split at h
  all_goals first
    | (cases h; done)
    | (simp only [Option.some.injEq] at h
       subst h
       simp only [CntResult.eng] at ho
       first
         | (cases ho; done)
         | (simp only [Option.some.injEq] at ho
            subst ho
            rfl))

/-- C34 as stated fails: a miss whose fetch the policy wants streamed comes to
FETCHBODY with `do_stream` on, and it is still on after the decisions about ESI and the
body; when no storage can be had for the object, `cnt_fetchbody` releases the busy
object and steps to ERROR with code 503: it neither steps to PREPRESP with the busy
object held nor fetches the body. -/
theorem no_storage_drops_streaming_fetch :
    (eng_after params_ex (envs_miss_stream.take 5) eng_ex_start).sp.step = Step.FETCHBODY ∧
    ((eng_after params_ex (envs_miss_stream.take 5) eng_ex_start).sp.req.bind fun r =>
      (eng_after params_ex (envs_miss_stream.take 5) eng_ex_start).wrk.busyobj.bind fun bo =>
        (fetchbody_gzip params_ex none
          (if (eng_after params_ex (envs_miss_stream.take 5) eng_ex_start).wrk.objcore.isNone
            then { bo with ttl := -1 } else bo)).map fun b1 =>
          fetchbody_streams params_ex { stv1 := false, stv2 := false }
            (eng_after params_ex (envs_miss_stream.take 5) eng_ex_start) r b1) = some true ∧
    (cnt_fetchbody params_ex { stv1 := false, stv2 := false }
        (eng_after params_ex (envs_miss_stream.take 5) eng_ex_start)).map
      (fun res => (res.eng.sp.step, res.eng.wrk.busyobj.isSome, res.eng.wrk.obj.isSome,
        res.eng.sp.req.map Req.err_code)) = some (Step.ERROR, false, false, some 503) := by
  decide

/-- C34 (amended): `cnt_fetchbody` for a request with a busy object.  `do_stream` as
tested is off whenever ESI processing is requested, the request is an ESI child, the
request wants no body, or the status is 200 and the conditional request is satisfied.
When no storage can be had for the object, the busy object is released and the step is
ERROR with code 503, no body being fetched, whatever `do_stream` is.  Otherwise, with
the objcore absent or busy and a backend selected: if `do_stream` is on, the step is
PREPRESP with the busy object still held, streaming, and no release; if it is off,
`FetchBody` is run, the busy object is released once, and the step is PREPRESP with the
object (body fetched) or ERROR with code 503. -/
theorem cnt_fetchbody_streaming (P : Params) (env : Env) (e : Eng) (r : Req) (bo : BusyObj)
    (hr : e.sp.req = some r) (hb : e.wrk.busyobj = some bo)
    (hh : r.handling = Handling.HIT_FOR_PASS ∨ r.handling = Handling.DELIVER) :
    ∃ b1, fetchbody_gzip P env.content_encoding
        (if e.wrk.objcore.isNone then { bo with ttl := -1 } else bo) = some b1 ∧
      b1.do_esi = bo.do_esi ∧
      ((bo.do_esi = true ∨ 0 < r.esi_level ∨ r.wantbody = false ∨
          (r.err_code = 200 ∧ e.sp.http_req.conds = true ∧ env.do_cond = true)) →
        fetchbody_streams P env e r b1 = false) ∧
      (env.stv1 = false → env.stv2 = false →
        ∃ e1, cnt_fetchbody P env e = some (CntResult.step e1) ∧
          e1.sp.step = Step.ERROR ∧ e1.wrk.busyobj = none ∧ e1.wrk.obj = none ∧
          e1.vbo_derefs = e.vbo_derefs + 1 ∧ e1.sp.req.map Req.err_code = some 503) ∧
      ((env.stv1 = true ∨ env.stv2 = true) →
        AssertObjCorePassOrBusy e.wrk.objcore = true → r.director = true →
        (fetchbody_streams P env e r b1 = true →
          ∃ e1 b2, cnt_fetchbody P env e = some (CntResult.step e1) ∧
            e1.sp.step = Step.PREPRESP ∧ e1.wrk.busyobj = some b2 ∧ b2.do_stream = true ∧
            e1.vbo_derefs = e.vbo_derefs) ∧
        (fetchbody_streams P env e r b1 = false →
          ∃ e1, cnt_fetchbody P env e = some (CntResult.step e1) ∧
            e1.wrk.busyobj = none ∧ e1.vbo_derefs = e.vbo_derefs + 1 ∧
            (env.fetchbody = 0 → e1.sp.step = Step.PREPRESP ∧
              e1.wrk.obj.map Obj.len = some env.body_len) ∧
            (env.fetchbody ≠ 0 → e1.sp.step = Step.ERROR ∧ e1.wrk.obj = none ∧
              e1.sp.req.map Req.err_code = some 503))) := by
  obtain ⟨b1, g1, -, -, -, -, g6, -⟩ := fetchbody_gzip_total P env.content_encoding
    (if e.wrk.objcore.isNone then { bo with ttl := -1 } else bo)
  have g6b : b1.do_esi = bo.do_esi := by
    rw [g6]
    split <;> rfl
  refine ⟨b1, g1, g6b, ?_, ?_, ?_⟩
  · intro h
    exact fetchbody_streams_off P env e r b1 (by rw [g6b]; exact h)
  · intro h1 h2
    obtain ⟨e1, r1, k1, k2, k3, k4, k5, k6, -⟩ :=
      cnt_fetchbody_no_storage P env e r bo hr hb hh (by rw [g1]; rfl) h1 h2
    have hd : e1.vbo_derefs = e.vbo_derefs + 1 := by
      have hh2 : ¬ (r.handling ≠ Handling.HIT_FOR_PASS ∧ r.handling ≠ Handling.DELIVER) := by
        rcases hh with h | h <;> simp [h]
      unfold cnt_fetchbody at k1
      simp only [hr, hb, g1] at k1
      rw [if_neg hh2, if_pos (by simp [h1, h2])] at k1
      simp only [Option.some.injEq, CntResult.step.injEq] at k1
      rw [← k1]
    exact ⟨e1, k1, k2, k4, k3, hd, by rw [k5]; simp [k6]⟩
  · intro hs hoc hd
    obtain ⟨c1, c2, c3⟩ := cnt_fetchbody_branches P env e r bo b1 hr hb hh g1 hs hoc hd
    constructor
    · intro h
      obtain ⟨e1, b2, k1, k2, k3, k4, k5, -⟩ := c1 h
      exact ⟨e1, b2, k1, k2, k3, k4, k5⟩
    · intro h
      by_cases hf : env.fetchbody = 0
      · obtain ⟨e1, o, k1, k2, k3, k4, k5, k6, -⟩ := c2 h hf
        exact ⟨e1, k1, k3, k4, fun _ => ⟨k2, by rw [k5]; simp [k6]⟩, fun hn => absurd hf hn⟩
      · obtain ⟨e1, r1, k1, k2, k3, k4, k5, k6, k7⟩ := c3 h hf
        exact ⟨e1, k1, k3, k4, fun hn => absurd hn hf,
          fun _ => ⟨k2, k5, by rw [k6]; simp [k7]⟩⟩

/-- C34 (amended) at a concrete fetch: the body of a missed HEAD request is not
streamed; it is fetched in FETCHBODY and the busy object is released. -/
theorem cnt_fetchbody_streaming_witness :
    ∃ e1, cnt_fetchbody params_ex env_default
        (eng_after params_ex (env_head :: envs_miss_fetch.tail) eng_ex_start) =
        some (CntResult.step e1) ∧
      e1.wrk.busyobj = none ∧
      e1.vbo_derefs =
        (eng_after params_ex (env_head :: envs_miss_fetch.tail) eng_ex_start).vbo_derefs + 1 :=
  match cnt_fetchbody_streaming params_ex env_default
      (eng_after params_ex (env_head :: envs_miss_fetch.tail) eng_ex_start)
      ((eng_after params_ex (env_head :: envs_miss_fetch.tail) eng_ex_start).sp.req.get
        (by decide))
      ((eng_after params_ex (env_head :: envs_miss_fetch.tail) eng_ex_start).wrk.busyobj.get
        (by decide))
      (Option.some_get _).symm (Option.some_get _).symm (by decide) with
  | ⟨_, _, _, hoff, _, h⟩ =>
    match (h (by decide) (by decide) (by decide)).2
      (hoff (Or.inr (Or.inr (Or.inl (by decide))))) with
    | ⟨e1, a, b, c, _⟩ => ⟨e1, a, b, c⟩

/-- C37: the gzip decisions of `cnt_fetchbody`, for every busy object (so every value
of `do_gzip` and `do_gunzip`), every value of `http_gzip_support` and every
`Content-Encoding` of the backend response.  Both assertions hold: after the
normalisation `is_gzip` and `is_gunzip` are not both set, and `do_gzip` and `do_gunzip`
are not both set.  `is_gzip` tells that the header is "gzip", `is_gunzip` that there is
none.  The object that `cnt_fetchbody` leaves is marked `gziped` exactly when `do_gzip`
holds, or the response is gzip-encoded and not gunzipped. -/
theorem fetchbody_gzip_flags (P : Params) (env : Env) (e : Eng) (r : Req) (bo : BusyObj)
    (hr : e.sp.req = some r) (hb : e.wrk.busyobj = some bo) :
    ∃ b1, fetchbody_gzip P env.content_encoding
        (if e.wrk.objcore.isNone then { bo with ttl := -1 } else bo) = some b1 ∧
      ¬ (b1.is_gzip = true ∧ b1.is_gunzip = true) ∧
      ¬ (b1.do_gzip = true ∧ b1.do_gunzip = true) ∧
      (b1.is_gzip = true ↔ env.content_encoding = some "gzip") ∧
      (b1.is_gunzip = true ↔ env.content_encoding = none) ∧
      b1.do_gzip = (P.http_gzip_support && bo.do_gzip && env.content_encoding.isNone) ∧
      b1.do_gunzip = (P.http_gzip_support && bo.do_gunzip &&
        decide (env.content_encoding = some "gzip")) ∧
      ∀ res o, cnt_fetchbody P env e = some res → res.eng.wrk.obj = some o →
        (o.gziped = true ↔ (b1.do_gzip = true ∨ (b1.is_gzip = true ∧ b1.do_gunzip = false))) := by
  obtain ⟨b1, g1, g2, g3, g4, g5, -, -, g8, g9⟩ :=
    fetchbody_gzip_total P env.content_encoding
      (if e.wrk.objcore.isNone then { bo with ttl := -1 } else bo)
  have z1 : (if e.wrk.objcore.isNone then { bo with ttl := -1 } else bo).do_gzip =
      bo.do_gzip := by split <;> rfl
  have z2 : (if e.wrk.objcore.isNone then { bo with ttl := -1 } else bo).do_gunzip =
      bo.do_gunzip := by split <;> rfl
  refine ⟨b1, g1, g2, g3, ?_, ?_, ?_, ?_, ?_⟩
  · rw [g4]; simp
  · rw [g5]; simp
  · rw [g8, z1]
  · rw [g9, z2]
  · intro res o h ho
    rw [cnt_fetchbody_gziped P env e r bo b1 res o hr hb g1 h ho]
    simp

/-- C37 at a concrete fetch: a gzip-encoded backend response that the policy leaves as
it is gives an object marked `gziped`. -/
theorem fetchbody_gzip_flags_witness :
    ∃ b1, fetchbody_gzip params_ex (some "gzip")
        (if (eng_after params_ex envs_miss_fetch eng_ex_start).wrk.objcore.isNone then
          { (eng_after params_ex envs_miss_fetch eng_ex_start).wrk.busyobj.get (by decide)
            with ttl := -1 }
         else (eng_after params_ex envs_miss_fetch eng_ex_start).wrk.busyobj.get
           (by decide)) = some b1 ∧
      ¬ (b1.is_gzip = true ∧ b1.is_gunzip = true) ∧
      ¬ (b1.do_gzip = true ∧ b1.do_gunzip = true) :=
  match fetchbody_gzip_flags params_ex { content_encoding := some "gzip" }
      (eng_after params_ex envs_miss_fetch eng_ex_start)
      ((eng_after params_ex envs_miss_fetch eng_ex_start).sp.req.get (by decide))
      ((eng_after params_ex envs_miss_fetch eng_ex_start).wrk.busyobj.get (by decide))
      (Option.some_get _).symm (Option.some_get _).symm with
  | ⟨b1, a, b, c, _⟩ => ⟨b1, a, b, c⟩

/-! ### PREPRESP: one framing at most -/

/-- C38: the response mode computed by `cnt_prepresp`, for every request, object, busy
object, protocol version and gzip support.  At most one of RES_LEN, RES_CHUNKED and
RES_EOF is set; and if none of them is set, the request wants no body and the object is
not an empty object without streaming fetch.  The mode is the one `cnt_prepresp` stores
in `wrk->res_mode` whenever it returns. -/
theorem prepresp_mode_one_framing (P : Params) (env : Env) (e : Eng) (o : Obj) (r : Req)
    (ho : e.wrk.obj = some o) (hr : e.sp.req = some r) :
    ¬ ((prepresp_mode P env.req_gzip r e.sp.http_req o e.wrk.busyobj).1.len = true ∧
      (prepresp_mode P env.req_gzip r e.sp.http_req o e.wrk.busyobj).1.chunked = true) ∧
    ¬ ((prepresp_mode P env.req_gzip r e.sp.http_req o e.wrk.busyobj).1.len = true ∧
      (prepresp_mode P env.req_gzip r e.sp.http_req o e.wrk.busyobj).1.eof = true) ∧
    ¬ ((prepresp_mode P env.req_gzip r e.sp.http_req o e.wrk.busyobj).1.chunked = true ∧
      (prepresp_mode P env.req_gzip r e.sp.http_req o e.wrk.busyobj).1.eof = true) ∧
    ((prepresp_mode P env.req_gzip r e.sp.http_req o e.wrk.busyobj).1.len = false →
      (prepresp_mode P env.req_gzip r e.sp.http_req o e.wrk.busyobj).1.chunked = false →
      (prepresp_mode P env.req_gzip r e.sp.http_req o e.wrk.busyobj).1.eof = false →
      r.wantbody = false ∧ ¬ (o.len = 0 ∧ bo_not_streaming e.wrk.busyobj = true)) ∧
    ∀ res, cnt_prepresp P env e = some res →
      res.eng.wrk.res_mode =
        (prepresp_mode P env.req_gzip r e.sp.http_req o e.wrk.busyobj).1 := by
  have hc : (prepresp_mode_base P env.req_gzip r o e.wrk.busyobj).chunked = false := rfl
  have he : (prepresp_mode_base P env.req_gzip r o e.wrk.busyobj).eof = false := rfl
  refine ⟨?_, ?_, ?_, ?_, ?_⟩
  · by_cases h1 : (prepresp_mode_base P env.req_gzip r o e.wrk.busyobj).len = true <;>
      by_cases h2 : (o.len = 0 ∧ bo_not_streaming e.wrk.busyobj = true) <;>
      by_cases h3 : r.wantbody = true <;>
      by_cases h4 : 11 ≤ e.sp.http_req.protover <;>
      simp [prepresp_mode, h1, h2, h3, h4, hc, he]
  · by_cases h1 : (prepresp_mode_base P env.req_gzip r o e.wrk.busyobj).len = true <;>
      by_cases h2 : (o.len = 0 ∧ bo_not_streaming e.wrk.busyobj = true) <;>
      by_cases h3 : r.wantbody = true <;>
      by_cases h4 : 11 ≤ e.sp.http_req.protover <;>
      simp [prepresp_mode, h1, h2, h3, h4, hc, he]
  · by_cases h1 : (prepresp_mode_base P env.req_gzip r o e.wrk.busyobj).len = true <;>
      by_cases h2 : (o.len = 0 ∧ bo_not_streaming e.wrk.busyobj = true) <;>
      by_cases h3 : r.wantbody = true <;>
      by_cases h4 : 11 ≤ e.sp.http_req.protover <;>
      simp [prepresp_mode, h1, h2, h3, h4, hc, he]
  · by_cases h1 : (prepresp_mode_base P env.req_gzip r o e.wrk.busyobj).len = true <;>
      by_cases h2 : (o.len = 0 ∧ bo_not_streaming e.wrk.busyobj = true) <;>
      by_cases h3 : r.wantbody = true <;>
      by_cases h4 : 11 ≤ e.sp.http_req.protover <;>
      simp [prepresp_mode, h1, h2, h3, h4, hc, he]
  · intro res h
    exact (cnt_prepresp_mode P env e o r res ho hr h).2.1

/-- C38 at a concrete response: a request served from the cache gets RES_LEN and no
other framing. -/
theorem prepresp_mode_one_framing_witness :
    ¬ ((prepresp_mode params_ex env_default.req_gzip
          ((eng_after params_ex envs_hit_empty eng_ex_start).sp.req.get (by decide))
          (eng_after params_ex envs_hit_empty eng_ex_start).sp.http_req
          ((eng_after params_ex envs_hit_empty eng_ex_start).wrk.obj.get (by decide))
          (eng_after params_ex envs_hit_empty eng_ex_start).wrk.busyobj).1.len = true ∧
      (prepresp_mode params_ex env_default.req_gzip
          ((eng_after params_ex envs_hit_empty eng_ex_start).sp.req.get (by decide))
          (eng_after params_ex envs_hit_empty eng_ex_start).sp.http_req
          ((eng_after params_ex envs_hit_empty eng_ex_start).wrk.obj.get (by decide))
          (eng_after params_ex envs_hit_empty eng_ex_start).wrk.busyobj).1.chunked = true) :=
  (prepresp_mode_one_framing params_ex env_default
    (eng_after params_ex envs_hit_empty eng_ex_start)
    ((eng_after params_ex envs_hit_empty eng_ex_start).wrk.obj.get (by decide))
    ((eng_after params_ex envs_hit_empty eng_ex_start).sp.req.get (by decide))
    (Option.some_get _).symm (Option.some_get _).symm).1

/-! ### STREAMBODY: when the connection is closed -/

/-- C39: what `cnt_streambody` does with `doclose`.  Entered with a streaming busy
object, an object that is a pass object or still busy, and a backend selected, it steps
to DONE with the busy object released.  `doclose` is set to "Stream error" when
`FetchBody` reported an error, and also when the object has no objcore, that is after
every streamed pass fetch, successful or not; only after a successful streamed fetch of
an object with objcore is `doclose` left unchanged. -/
theorem cnt_streambody_doclose (env : Env) (e : Eng) (r : Req) (bo : BusyObj) (o : Obj)
    (hr : e.sp.req = some r) (hb : e.wrk.busyobj = some bo) (ho : e.wrk.obj = some o)
    (hs : e.wrk.sctx = false) (hoc : AssertObjCorePassOrBusy o.objcore = true)
    (hd : r.director = true) :
    ∃ e1 r1, cnt_streambody env e = some (CntResult.step e1) ∧ e1.sp.step = Step.DONE ∧
      e1.wrk.busyobj = none ∧ e1.vbo_derefs = e.vbo_derefs + 1 ∧ e1.sp.req = some r1 ∧
      ((env.fetchbody ≠ 0 ∨ o.objcore = none) → r1.doclose = some "Stream error") ∧
      (env.fetchbody = 0 → o.objcore ≠ none → r1.doclose = r.doclose) := by
  unfold cnt_streambody
  simp only [hr, hb, ho, hs, hoc, hd]
  simp only [Bool.false_eq_true, if_false, not_true_eq_false]
  refine ⟨_, _, rfl, rfl, rfl, rfl, rfl, ?_, ?_⟩
  · intro h
    show (if env.fetchbody = 0 ∧ o.objcore.isSome = true then r.doclose
      else some "Stream error") = some "Stream error"
    rw [if_neg]
    rintro ⟨a, b⟩
    rcases h with h | h
    · exact h a
    · rw [h] at b
      cases b
  · intro h1 h2
    show (if env.fetchbody = 0 ∧ o.objcore.isSome = true then r.doclose
      else some "Stream error") = r.doclose
    rw [if_pos]
    refine ⟨h1, ?_⟩
    cases hc : o.objcore with
    | none => exact absurd hc h2
    | some _ => rfl

/-- C39 at a concrete fetch: a pass request whose body is streamed without error
(`FetchBody` returns 0) leaves STREAMBODY with `doclose` set to "Stream error". -/
theorem cnt_streambody_doclose_witness :
    (eng_after params_ex envs_pass_streambody eng_ex_start).sp.step = Step.STREAMBODY ∧
    (eng_after params_ex envs_pass_streambody eng_ex_start).sp.req.map Req.doclose =
      some none ∧
    env_default.fetchbody = 0 ∧
    ∃ e1 r1, cnt_streambody env_default
        (eng_after params_ex envs_pass_streambody eng_ex_start) =
        some (CntResult.step e1) ∧
      e1.sp.step = Step.DONE ∧ e1.sp.req = some r1 ∧ r1.doclose = some "Stream error" :=
  ⟨by decide, by decide, rfl,
    match cnt_streambody_doclose env_default
        (eng_after params_ex envs_pass_streambody eng_ex_start)
        ((eng_after params_ex envs_pass_streambody eng_ex_start).sp.req.get (by decide))
        ((eng_after params_ex envs_pass_streambody eng_ex_start).wrk.busyobj.get (by decide))
        ((eng_after params_ex envs_pass_streambody eng_ex_start).wrk.obj.get (by decide))
        (Option.some_get _).symm (Option.some_get _).symm (Option.some_get _).symm
        (by decide) (by decide) (by decide) with
    | ⟨e1, r1, a, b, _, _, d, f, _⟩ => ⟨e1, r1, a, b, d, f (Or.inr (by decide))⟩⟩

/-! ### Leaving the engine: the temporary accounting and the early close -/

theorem Eng_delete_acct (P : Params) (e : Eng) (reason : Option String) (res : CntResult)
    (h : e.delete P reason = some res) :
    res.eng.wrk.acct_tmp = e.wrk.acct_tmp ∧ res.eng.wrk.obj = e.wrk.obj ∧
      res.eng.wrk.objcore = e.wrk.objcore := by
  unfold Eng.delete at h
  split at h
  · cases h
  · simp only [Option.some.injEq] at h
    subst h
    exact ⟨rfl, rfl, rfl⟩

theorem cnt_wait_loop_deletes (P : Params) (w : Wakeup) (ws : List Wakeup) (e : Eng)
    (hd : wait_deletes P w e) :
    ∃ why, cnt_wait_loop P (w :: ws) e = e.delete P (some why) := by
  obtain ⟨hp, hd⟩ := hd
  have hp2 : ¬ w.poll < 0 := by omega
  rcases hd with h | h | ⟨h, t, hi, hlt⟩ | ⟨h1, h2, h3, h4, t, hi, hlt⟩
  · exact ⟨"EOF", by unfold cnt_wait_loop; simp [hp2, h]⟩
  · exact ⟨"overflow", by unfold cnt_wait_loop; simp [hp2, h]⟩
  · exact ⟨"timeout", by unfold cnt_wait_loop; simp [hp2, h, hi, hlt]⟩
  · exact ⟨"req timeout", by unfold cnt_wait_loop; simp [hp2, h1, h2, h3, h4, hi, hlt]⟩

theorem first_then_wait_deleted (P : Params) (env1 env2 : Env) (envs : List Env) (e : Eng)
    (w : Wakeup) (ws : List Wakeup)
    (hs : e.sp.step = Step.FIRST) (hr : e.sp.req = none) (ho : e.wrk.obj = none)
    (hfd : 0 ≤ e.sp.fd) (ht : e.sp.t_open ≠ none) (htr : e.sp.t_req ≠ none)
    (hw : env2.wakeups = w :: ws) (hdel : wait_deletes P w e) :
    ∃ e1 f, cnt_loop P (env1 :: env2 :: envs) e = some (CntResult.deleted e1 f) ∧
      e1.wrk.acct_tmp = { e.wrk.acct_tmp with sess := e.wrk.acct_tmp.sess + 1 } ∧
      e1.sp.fd = -1 ∧ e1.sp.req = none := by
  have ht2 : e.sp.t_req.isNone = false := by
    cases h : e.sp.t_req with
    | none => exact absurd h htr
    | some _ => rfl
  have h1 : cnt_dispatch P env1 e = some (CntResult.step
      { e with
        wrk := { e.wrk with
          acct_tmp := { e.wrk.acct_tmp with sess := e.wrk.acct_tmp.sess + 1 } }
        sp := { e.sp with step := Step.WAIT } }) := by
    unfold cnt_dispatch
    rw [hs]
    simp [cnt_first, hr]
  have h2 : cnt_dispatch P env2
      { e with
        wrk := { e.wrk with
          acct_tmp := { e.wrk.acct_tmp with sess := e.wrk.acct_tmp.sess + 1 } }
        sp := { e.sp with step := Step.WAIT } } =
      cnt_wait_loop P (w :: ws)
        { e with
          wrk := { e.wrk with
            acct_tmp := { e.wrk.acct_tmp with sess := e.wrk.acct_tmp.sess + 1 } }
          sp := { e.sp with
            step := Step.WAIT, req := some { Req.zero with t_resp := none } } } := by
    unfold cnt_dispatch
    simp only [cnt_wait, SES_GetReq, hr, ho, hw, ht2]
    simp [Req.zero, htr]
  obtain ⟨why, h3⟩ := cnt_wait_loop_deletes P w ws
    { e with
      wrk := { e.wrk with
        acct_tmp := { e.wrk.acct_tmp with sess := e.wrk.acct_tmp.sess + 1 } }
      sp := { e.sp with
        step := Step.WAIT, req := some { Req.zero with t_resp := none } } } hdel
  obtain ⟨e1, f, h4, h5, h6, -⟩ := Eng_delete_reason P
    { e with
      wrk := { e.wrk with
        acct_tmp := { e.wrk.acct_tmp with sess := e.wrk.acct_tmp.sess + 1 } }
      sp := { e.sp with
        step := Step.WAIT, req := some { Req.zero with t_resp := none } } } why ht hfd
    (by simp [Req.zero])
  have h7 := (Eng_delete_acct P _ _ _ h4).1
  refine ⟨e1, f, ?_, h7, h5, h6⟩
  rw [cnt_loop, h1]
  simp only []
  rw [cnt_loop, h2, h3, h4]

/-- C35: what the code does for a freshly accepted session.  `cnt_first` counts the
session in `acct_tmp.sess`; when the `poll` loop of WAIT then deletes the session (EOF,
overflow, idle timeout or request timeout) it calls `SES_Delete` without `SES_Charge`,
so the loop is left with `acct_tmp.sess` one more than at entry, and `CNT_Session`
fails its exit assertion `AZ(wrk->acct_tmp.sess)` instead of returning. -/
theorem fresh_session_deleted_uncharged (P : Params) (env1 env2 : Env) (envs : List Env)
    (e : Eng) (w : Wakeup) (ws : List Wakeup)
    (hs : e.sp.step = Step.FIRST) (hr : e.sp.req = none) (ho : e.wrk.obj = none)
    (hoc : e.wrk.objcore = none) (hfd : 0 ≤ e.sp.fd) (ht : e.sp.t_open ≠ none)
    (htr : e.sp.t_req ≠ none) (hw : env2.wakeups = w :: ws) (hdel : wait_deletes P w e) :
    (∃ e1 f, cnt_loop P (env1 :: env2 :: envs) e = some (CntResult.deleted e1 f) ∧
      e1.wrk.acct_tmp.sess = e.wrk.acct_tmp.sess + 1 ∧ e1.wrk.acct_tmp ≠ Acct.zero ∧
      e1.sp.fd = -1) ∧
    CNT_Session P none (env1 :: env2 :: envs) e = none := by
  obtain ⟨e1, f, k1, k2, k3, -⟩ :=
    first_then_wait_deleted P env1 env2 envs e w ws hs hr ho hfd ht htr hw hdel
  have hz : e1.wrk.acct_tmp ≠ Acct.zero := by
    intro hc
    have : e1.wrk.acct_tmp.sess = 0 := by rw [hc]; rfl
    rw [k2] at this
    simp at this
  refine ⟨⟨e1, f, k1, by rw [k2], hz, k3⟩, ?_⟩
  unfold CNT_Session
  simp only [hs, ho, hoc]
  simp only [true_or, not_true_eq_false, if_false, Option.isSome_none, Bool.false_eq_true,
    and_false]
  rw [k1]
  simp [hz]

/-- C35 at a concrete session: the client closes the connection before sending a
request. -/
theorem fresh_session_deleted_uncharged_witness :
    CNT_Session params_ex none envs_first_eof eng_ex_first = none :=
  (fresh_session_deleted_uncharged params_ex { }
    { wakeups := [{ poll := 1, now := 1, htc := -1 }] } [] eng_ex_first
    { poll := 1, now := 1, htc := -1 } [] rfl rfl rfl rfl (by decide) (by decide)
    (by decide) rfl ⟨by decide, Or.inl rfl⟩).2

/-- C36: what the code does when `VTCP_blocking` fails for a session entering at FIRST,
which holds no request record.  `CNT_Session` closes the descriptor, with reason
"remote closed" or "error", and sets the step to DONE; `cnt_done` then reads
`sp->req->vcl` through the null pointer, so it does not run to completion, and
`CNT_Session` does not return. -/
theorem blocking_failure_at_first_fails (P : Params) (reset : Bool) (env : Env)
    (envs : List Env) (e : Eng)
    (hs : e.sp.step = Step.FIRST) (hr : e.sp.req = none) (ho : e.wrk.obj = none)
    (hoc : e.wrk.objcore = none) (hfd : 0 ≤ e.sp.fd) :
    SES_Close e.sp (if reset then "remote closed" else "error") =
      some { e.sp with
        fd := -1, close_reason := some (if reset then "remote closed" else "error") } ∧
    cnt_dispatch P env
        { e with sp := { e.sp with
          fd := -1, close_reason := some (if reset then "remote closed" else "error")
          step := Step.DONE } } =
      cnt_done P env
        { e with sp := { e.sp with
          fd := -1, close_reason := some (if reset then "remote closed" else "error")
          step := Step.DONE } } ∧
    cnt_done P env
        { e with sp := { e.sp with
          fd := -1, close_reason := some (if reset then "remote closed" else "error")
          step := Step.DONE } } = none ∧
    CNT_Session P (some reset) (env :: envs) e = none := by
  have hc : SES_Close e.sp (if reset then "remote closed" else "error") =
      some { e.sp with
        fd := -1, close_reason := some (if reset then "remote closed" else "error") } := by
    unfold SES_Close
    rw [if_neg (by omega)]
  have hd : cnt_done P env
      { e with sp := { e.sp with
        fd := -1, close_reason := some (if reset then "remote closed" else "error")
        step := Step.DONE } } = none := by
    unfold cnt_done
    simp only [hr]
  refine ⟨hc, rfl, hd, ?_⟩
  have hdi : cnt_dispatch P env
      { e with sp := { e.sp with
        fd := -1, close_reason := some (if reset then "remote closed" else "error")
        step := Step.DONE } } = none := hd
  unfold CNT_Session
  simp only [hs, ho, hoc, hc]
  simp [cnt_loop, hdi]

/-- C36 at a concrete session fresh from the acceptor. -/
theorem blocking_failure_at_first_fails_witness :
    CNT_Session params_ex (some false) [env_default] eng_ex_first = none :=
  (blocking_failure_at_first_fails params_ex false env_default [] eng_ex_first rfl rfl rfl
    rfl (by decide)).2.2.2

end Varnish
